import Mathlib

/-!
# k8s-audit: the policy evaluation engine

A shallow embedding of the rule evaluators of `internal/audit` over the resource model of
`internal/k8s` and the finding model of `internal/model`, with the properties of the
specification proved about them.

Conventions of the embedding.

* A Go `string` is a Lean `String`, a sequence of Unicode code points (the strings of the
  resource model come from JSON decoding and are valid UTF-8); a Go `*T` is an `Option T`;
  a Go slice is a `List`;
  a Go `map[string]T` is an association list read with `List.lookup`, wrapped in an
  `Option` where the source distinguishes the nil map.
* `out = append(out, f)` inside a loop is explicit state passing: every loop body is a
  function from the findings collected so far to the findings collected after it.
* `strings.EqualFold` is standard-library code; it is modelled rune by rune below, and so
  are `strings.TrimSpace` and `sort.Strings`.
  The verb `%q` of `fmt.Sprintf` (that is `strconv.Quote`, which depends on the Unicode
  printability tables of the library) is taken as a parameter `q` of the evaluators; the
  functions `strings.ToUpper` and `strings.ToLower`, which depend on the Unicode case
  tables, are the parameters `up` and `lo`.
* A run-time failure of the Go code (an index out of range) is the result `none` of a
  function into `Option`.
-/

namespace K8sAudit

/-! ## internal/model -/

/-- The Go type `Severity` is a string type. -/
abbrev Severity := String

def SeverityLow : Severity := "LOW"
def SeverityMedium : Severity := "MEDIUM"
def SeverityHigh : Severity := "HIGH"
def SeverityCritical : Severity := "CRITICAL"

/-- The function `SeverityRank`: the rank of a severity, `0` for an unknown one. -/
def SeverityRank (s : Severity) : Int :=
  if s = SeverityLow then 1
  else if s = SeverityMedium then 2
  else if s = SeverityHigh then 3
  else if s = SeverityCritical then 4
  else 0

/-- ResourceRef describes the k8s object related to a finding. -/
structure ResourceRef where
  Kind : String
  Namespace : String := ""
  Name : String
  deriving DecidableEq, Repr

/-- Finding is a single check result. -/
structure Finding where
  CheckID : String
  Severity : Severity
  Resource : ResourceRef
  Title : String
  Evidence : String
  Risk : String
  Recommendation : String
  deriving DecidableEq, Repr

/-! ## internal/k8s -/

structure ObjectMeta where
  Name : String
  Namespace : String := ""
  Labels : Option (List (String × String)) := none
  deriving DecidableEq, Repr

structure Namespace where
  Metadata : ObjectMeta
  deriving DecidableEq, Repr

structure ServiceAccount where
  Metadata : ObjectMeta
  AutomountServiceAccountToken : Option Bool := none
  deriving DecidableEq, Repr

/-- The field `Type` of the source is `Type_` here (`Type` is reserved in Lean). -/
structure SeccompProfile where
  Type_ : String
  deriving DecidableEq, Repr

structure PodSecurityContext where
  RunAsUser : Option Int := none
  RunAsNonRoot : Option Bool := none
  SeccompProfile : Option SeccompProfile := none
  deriving DecidableEq, Repr

structure SecretKeySelector where
  Name : String
  Key : String
  deriving DecidableEq, Repr

structure EnvVarSource where
  SecretKeyRef : Option SecretKeySelector := none
  deriving DecidableEq, Repr

structure EnvVar where
  Name : String
  Value : String := ""
  ValueFrom : Option EnvVarSource := none
  deriving DecidableEq, Repr

structure SecretEnvSource where
  Name : String
  deriving DecidableEq, Repr

structure EnvFromSource where
  SecretRef : Option SecretEnvSource := none
  deriving DecidableEq, Repr

structure VolumeMount where
  Name : String
  MountPath : String
  ReadOnly : Bool := false
  deriving DecidableEq, Repr

structure Capabilities where
  Add : List String := []
  Drop : List String := []
  deriving DecidableEq, Repr

structure SecurityContext where
  Privileged : Option Bool := none
  AllowPrivilegeEscalation : Option Bool := none
  RunAsUser : Option Int := none
  RunAsNonRoot : Option Bool := none
  ReadOnlyRootFilesystem : Option Bool := none
  Capabilities : Option Capabilities := none
  SeccompProfile : Option SeccompProfile := none
  deriving DecidableEq, Repr

structure Container where
  Name : String
  SecurityContext : Option SecurityContext := none
  Env : List EnvVar := []
  EnvFrom : List EnvFromSource := []
  VolumeMounts : List VolumeMount := []
  deriving DecidableEq, Repr

structure HostPathVolumeSource where
  Path : String
  Type_ : String := ""
  deriving DecidableEq, Repr

structure SecretVolumeSource where
  SecretName : String
  deriving DecidableEq, Repr

structure Volume where
  Name : String
  HostPath : Option HostPathVolumeSource := none
  Secret : Option SecretVolumeSource := none
  deriving DecidableEq, Repr

structure PodSpec where
  ServiceAccountName : String := ""
  AutomountServiceAccountToken : Option Bool := none
  HostNetwork : Bool := false
  HostPID : Bool := false
  HostIPC : Bool := false
  SecurityContext : Option PodSecurityContext := none
  Containers : List Container := []
  InitContainers : List Container := []
  Volumes : List Volume := []
  deriving DecidableEq, Repr

structure Pod where
  Metadata : ObjectMeta
  Spec : PodSpec
  deriving DecidableEq, Repr

/-! ### RBAC -/

structure PolicyRule where
  APIGroups : List String := []
  Resources : List String := []
  Verbs : List String := []
  deriving DecidableEq, Repr

structure Role where
  Metadata : ObjectMeta
  Rules : List PolicyRule := []
  deriving DecidableEq, Repr

structure ClusterRole where
  Metadata : ObjectMeta
  Rules : List PolicyRule := []
  deriving DecidableEq, Repr

structure Subject where
  Kind : String
  Name : String
  Namespace : String := ""
  deriving DecidableEq, Repr

structure RoleRef where
  Kind : String
  Name : String
  deriving DecidableEq, Repr

structure RoleBinding where
  Metadata : ObjectMeta
  Subjects : List Subject := []
  RoleRef : RoleRef
  deriving DecidableEq, Repr

structure ClusterRoleBinding where
  Metadata : ObjectMeta
  Subjects : List Subject := []
  RoleRef : RoleRef
  deriving DecidableEq, Repr

/-! ### NetworkPolicy, Service, Ingress -/

structure LabelSelector where
  MatchLabels : Option (List (String × String)) := none
  deriving DecidableEq, Repr

/-- An element of the `[]any` slices `ingress` and `egress`: the engine never looks inside a
rule, only at the presence and the length of the slice. -/
abbrev AnyRule := Unit

/-- The slices `Ingress` and `Egress` are `none` when the Go slice is nil (field absent or
`null`) and `some []` when it is present and empty. -/
structure NetworkPolicySpec where
  PodSelector : LabelSelector := {}
  PolicyTypes : List String := []
  Ingress : Option (List AnyRule) := none
  Egress : Option (List AnyRule) := none
  deriving DecidableEq, Repr

structure NetworkPolicy where
  Metadata : ObjectMeta
  Spec : NetworkPolicySpec
  deriving DecidableEq, Repr

structure ServicePort where
  Port : Int
  NodePort : Int := 0
  Protocol : String
  deriving DecidableEq, Repr

structure ServiceSpec where
  Type_ : String := ""
  Ports : List ServicePort := []
  deriving DecidableEq, Repr

structure Service where
  Metadata : ObjectMeta
  Spec : ServiceSpec
  deriving DecidableEq, Repr

structure Ingress where
  Metadata : ObjectMeta
  deriving DecidableEq, Repr

/-! ## strings.EqualFold -/

/-- The function `unicode.SimpleFold` on the orbits that contain an ASCII rune: the
letters `A`-`Z` and `a`-`z`, with the Kelvin sign U+212A in the orbit of `k` and the long s
U+017F in the orbit of `s`. Every other rune is left where it is; `EqualFold` below only
walks the orbit of the smaller of the two runes it compares, so these are the only orbits
reached when one operand is an ASCII literal, as in every call of the audit package. -/
def SimpleFold (r : Nat) : Nat :=
  if r = 0x4B then 0x6B
  else if r = 0x6B then 0x212A
  else if r = 0x212A then 0x4B
  else if r = 0x53 then 0x73
  else if r = 0x73 then 0x17F
  else if r = 0x17F then 0x53
  else if 0x41 ≤ r ∧ r ≤ 0x5A then r + 32
  else if 0x61 ≤ r ∧ r ≤ 0x7A then r - 32
  else r

/-- The loop `for r != sr && r < tr { r = unicode.SimpleFold(r) }` of `EqualFold`; an orbit
has at most four runes, which bounds the number of iterations. -/
def foldSearch (sr tr : Nat) : Nat → Nat → Nat
  | 0, r => r
  | fuel + 1, r => if r ≠ sr ∧ r < tr then foldSearch sr tr fuel (SimpleFold r) else r

/-- One iteration of the rune loop of `strings.EqualFold`: do the runes `sr` and `tr`
match under simple case folding? -/
def runeEqualFold (sr tr : Nat) : Bool :=
  if tr = sr then true
  else
    let lo := if tr < sr then tr else sr
    let hi := if tr < sr then sr else tr
    if hi < 0x80 then
      decide (0x41 ≤ lo ∧ lo ≤ 0x5A ∧ hi = lo + 0x20)
    else
      decide (foldSearch lo hi 4 (SimpleFold lo) = hi)

/-- The rune loop of `strings.EqualFold`, over the code points of both strings. -/
def equalFoldRunes : List Nat → List Nat → Bool
  | [], [] => true
  | [], _ :: _ => false
  | _ :: _, [] => false
  | sr :: s, tr :: t => runeEqualFold sr tr && equalFoldRunes s t

/-- The library function `strings.EqualFold`. -/
def EqualFold (s t : String) : Bool :=
  equalFoldRunes (s.toList.map Char.toNat) (t.toList.map Char.toNat)

/-- Lower-casing of one ASCII letter. -/
def lowerRune (r : Nat) : Nat :=
  if 0x41 ≤ r ∧ r ≤ 0x5A then r + 0x20 else r

/-- Equality of two strings up to the case of their letters `A`-`Z`, `a`-`z`: what the
specification calls equal "case-insensitively" or "in any letter case". -/
def eqIgnoreCase (s t : String) : Prop :=
  (s.toList.map Char.toNat).map lowerRune = (t.toList.map Char.toNat).map lowerRune

instance (s t : String) : Decidable (eqIgnoreCase s t) := by
  unfold eqIgnoreCase; infer_instance

/-- An ASCII rune other than `k`, `K`, `s`, `S`: a rune whose orbit under simple folding
is ASCII. -/
def plainASCII (b : Nat) : Prop :=
  b < 0x80 ∧ b ≠ 0x4B ∧ b ≠ 0x6B ∧ b ≠ 0x53 ∧ b ≠ 0x73

instance (b : Nat) : Decidable (plainASCII b) := by
  unfold plainASCII; infer_instance

/-! ## Maps

A Go `map[string]T` is an association list with at most one pair per key. -/

/-- The assignment `m[k] = v`: replaces the value of `k`, or adds the pair. -/
def mapSet {α : Type} (m : List (String × α)) (k : String) (v : α) : List (String × α) :=
  match m with
  | [] => [(k, v)]
  | (k', v') :: rest => if k' = k then (k, v) :: rest else (k', v') :: mapSet rest k v

/-! ## internal/audit/helpers.go -/

/-- The function `unicode.IsSpace`: the code points with the Unicode property White_Space. -/
def isSpace (c : Char) : Bool :=
  let r := c.toNat
  (0x09 ≤ r && r ≤ 0x0D) || r == 0x20 || r == 0x85 || r == 0xA0 || r == 0x1680
    || (0x2000 ≤ r && r ≤ 0x200A) || r == 0x2028 || r == 0x2029 || r == 0x202F
    || r == 0x205F || r == 0x3000

/-- The library function `strings.TrimSpace`: the string without its leading and trailing
white space. -/
def TrimSpace (s : String) : String :=
  String.mk ((s.toList.dropWhile isSpace).reverse.dropWhile isSpace).reverse

/-- The order `<` of Go on strings, byte by byte; on valid UTF-8 it is the lexicographic
order of the code points. -/
def runesLess : List Nat → List Nat → Bool
  | [], [] => false
  | [], _ :: _ => true
  | _ :: _, [] => false
  | a :: s, b :: t => if a < b then true else if b < a then false else runesLess s t

def stringLess (s t : String) : Bool :=
  runesLess (s.toList.map Char.toNat) (t.toList.map Char.toNat)

/-- Insertion of a string into an ascending list. -/
def insertSorted (s : String) : List String → List String
  | [] => [s]
  | t :: ts => if stringLess t s then t :: insertSorted s ts else s :: t :: ts

/-- The library function `sort.Strings`: the strings in ascending order. -/
def sortStrings : List String → List String
  | [] => []
  | s :: ss => insertSorted s (sortStrings ss)

/-- The assignment `set[s] = struct{}{}` on a `map[string]struct{}`, kept as the list of its
keys. -/
def setAdd (set : List String) (s : String) : List String :=
  if s ∈ set then set else set ++ [s]

def uniqStrings (input : List String) : List String :=
  let m := input.foldl (fun m s =>
    let s := TrimSpace s
    if s = "" then m else setAdd m s) []
  sortStrings m

def containsAny (hay : List String) (needles : List String) : Bool :=
  let set := hay.foldl setAdd []
  needles.any fun n => decide (n ∈ set)

def hasStar (list : List String) : Bool :=
  list.any fun s => decide (s = "*")

/-! ## internal/audit/namespace.go -/

/-- The value of a label of an object, if the object carries that label. -/
def lookupLabel (m : ObjectMeta) (key : String) : Option String :=
  match m.Labels with
  | none => none
  | some labels => labels.lookup key

/-- The read `labels["pod-security.kubernetes.io/enforce"]` guarded by `labels != nil`:
the zero value `""` when the map is nil or has no such key. -/
def enforceLabel (ns : Namespace) : String :=
  match ns.Metadata.Labels with
  | none => ""
  | some labels => (labels.lookup "pod-security.kubernetes.io/enforce").getD ""

/-- The body of the loop of `DetectNamespacePSS`. -/
def namespacePSSStep (out : List Finding) (ns : Namespace) : List Finding :=
  let enforce := enforceLabel ns
  if enforce = "" then
    out ++ [{
      CheckID := "K8S-PSA-001",
      Severity := SeverityMedium,
      Resource := { Kind := "Namespace", Name := ns.Metadata.Name },
      Title := "Pod Security Admission (enforce) не настроен",
      Evidence := "label pod-security.kubernetes.io/enforce отсутствует",
      Risk := "Кластер может принимать небезопасные Pod'ы без базовых ограничений",
      Recommendation := "Задать pod-security.kubernetes.io/enforce=baseline/restricted" }]
  else if EqualFold enforce "privileged" then
    out ++ [{
      CheckID := "K8S-PSA-002",
      Severity := SeverityHigh,
      Resource := { Kind := "Namespace", Name := ns.Metadata.Name },
      Title := "Pod Security Admission установлен в privileged",
      Evidence := "pod-security.kubernetes.io/enforce=privileged",
      Risk := "Позволяет запускать опасные Pod'ы",
      Recommendation := "Понизить до baseline/restricted и оформлять исключения точечно" }]
  else out

def DetectNamespacePSS (namespaces : List Namespace) : List Finding :=
  namespaces.foldl namespacePSSStep []

/-! ## internal/audit/pods.go

Every evaluator below takes `q`, the rendering of a string by the verb `%q`. -/

/-- The verb `%v` of `fmt.Sprintf` on a `[]string`: the elements separated by one space,
in square brackets. -/
def fmtStrings (xs : List String) : String :=
  "[" ++ " ".intercalate xs ++ "]"

/-- The host-namespace block of the pod loop. -/
def hostNamespaceStep (out : List Finding) (p : Pod) : List Finding :=
  let ns := p.Metadata.Namespace
  let name := p.Metadata.Name
  if p.Spec.HostNetwork || p.Spec.HostPID || p.Spec.HostIPC then
    let modes : List String := []
    let modes := if p.Spec.HostNetwork then modes ++ ["hostNetwork"] else modes
    let modes := if p.Spec.HostPID then modes ++ ["hostPID"] else modes
    let modes := if p.Spec.HostIPC then modes ++ ["hostIPC"] else modes
    out ++ [{
      CheckID := "K8S-POD-003",
      Severity := SeverityHigh,
      Resource := { Kind := "Pod", Namespace := ns, Name := name },
      Title := "Использование host namespace (hostNetwork/hostPID/hostIPC)",
      Evidence := "spec." ++ ", ".intercalate modes ++ "=true",
      Risk := "Под повышает риск компрометации узла и обхода изоляции контейнеров",
      Recommendation := "Отключить hostNetwork/hostPID/hostIPC, если это не строго необходимо" }]
  else out

/-- The body of the loop over `p.Spec.Volumes`. -/
def volumeStep (q : String → String) (ns name : String) (out : List Finding) (v : Volume) :
    List Finding :=
  match v.HostPath with
  | some hostPath =>
    out ++ [{
      CheckID := "K8S-POD-002",
      Severity := SeverityCritical,
      Resource := { Kind := "Pod", Namespace := ns, Name := name },
      Title := "Монтирование hostPath",
      Evidence := "volume " ++ q v.Name ++ ": hostPath=" ++ q hostPath.Path,
      Risk := "Доступ к ФС узла может привести к эскалации привилегий и утечке данных",
      Recommendation :=
        "Избегать hostPath. Использовать PVC/CSI или минимально необходимый путь + readOnly" }]
  | none => out

/-- The value of the variable `automount` after its resolution in the pod loop. -/
def resolveAutomount (p : Pod) (saIndex : List (String × ServiceAccount)) : Bool :=
  let ns := p.Metadata.Namespace
  let automount := true
  match p.Spec.AutomountServiceAccountToken with
  | some b => b
  | none =>
    let saName := p.Spec.ServiceAccountName
    let saName := if saName = "" then "default" else saName
    match saIndex.lookup (ns ++ "/" ++ saName) with
    | some sa =>
      match sa.AutomountServiceAccountToken with
      | some b => b
      | none => automount
    | none => automount

/-- The automount block of the pod loop. -/
def automountStep (out : List Finding) (p : Pod) (saIndex : List (String × ServiceAccount)) :
    List Finding :=
  let ns := p.Metadata.Namespace
  let name := p.Metadata.Name
  if resolveAutomount p saIndex then
    out ++ [{
      CheckID := "K8S-POD-008",
      Severity := SeverityMedium,
      Resource := { Kind := "Pod", Namespace := ns, Name := name },
      Title := "Automount ServiceAccount токена включен",
      Evidence := "automountServiceAccountToken=true (явно или по умолчанию)",
      Risk := "При компрометации пода токен может быть украден и использован для kube-API",
      Recommendation :=
        "Если доступ к kube-API не нужен — установить automountServiceAccountToken: false" }]
  else out

/-- The pod-level defaults read from `p.Spec.SecurityContext` before the container loop. -/
structure PodDefaults where
  podRunAsUser : Option Int
  podRunAsNonRoot : Option Bool
  podSeccomp : Option SeccompProfile
  deriving DecidableEq, Repr

def podDefaults (p : Pod) : PodDefaults :=
  match p.Spec.SecurityContext with
  | some sc =>
    { podRunAsUser := sc.RunAsUser, podRunAsNonRoot := sc.RunAsNonRoot,
      podSeccomp := sc.SeccompProfile }
  | none => { podRunAsUser := none, podRunAsNonRoot := none, podSeccomp := none }

/-- The check `ctx != nil && ctx.Privileged != nil && *ctx.Privileged`. -/
def privilegedStep (q : String → String) (ns name : String) (out : List Finding)
    (ctn : Container) : List Finding :=
  if (ctn.SecurityContext.bind fun ctx => ctx.Privileged) = some true then
    out ++ [{
      CheckID := "K8S-POD-001",
      Severity := SeverityCritical,
      Resource := { Kind := "Pod", Namespace := ns, Name := name },
      Title := "Privileged контейнер",
      Evidence := "container " ++ q ctn.Name ++ ": securityContext.privileged=true",
      Risk := "Privileged контейнер имеет расширенный доступ к ядру и устройствам узла",
      Recommendation := "Убрать privileged. Использовать минимальные capabilities и PSA/Policy" }]
  else out

/-- The value of `effRunAsUser` for a container. -/
def effRunAsUser (d : PodDefaults) (ctn : Container) : Option Int :=
  let eff := d.podRunAsUser
  match ctn.SecurityContext with
  | some ctx =>
    match ctx.RunAsUser with
    | some u => some u
    | none => eff
  | none => eff

/-- The value of `effRunAsNonRoot` for a container. -/
def effRunAsNonRoot (d : PodDefaults) (ctn : Container) : Option Bool :=
  let eff := d.podRunAsNonRoot
  match ctn.SecurityContext with
  | some ctx =>
    match ctx.RunAsNonRoot with
    | some b => some b
    | none => eff
  | none => eff

/-- The root check: `runAsUser == 0`, else `runAsNonRoot == false`. -/
def runAsStep (q : String → String) (ns name : String) (d : PodDefaults) (out : List Finding)
    (ctn : Container) : List Finding :=
  if effRunAsUser d ctn = some 0 then
    out ++ [{
      CheckID := "K8S-POD-004",
      Severity := SeverityHigh,
      Resource := { Kind := "Pod", Namespace := ns, Name := name },
      Title := "Контейнер запускается от root",
      Evidence := "container " ++ q ctn.Name ++ ": runAsUser=0",
      Risk := "Root в контейнере увеличивает последствия RCE",
      Recommendation := "Установить runAsNonRoot: true и runAsUser на непривилегированный UID" }]
  else if effRunAsNonRoot d ctn = some false then
    out ++ [{
      CheckID := "K8S-POD-004",
      Severity := SeverityHigh,
      Resource := { Kind := "Pod", Namespace := ns, Name := name },
      Title := "runAsNonRoot отключен",
      Evidence := "container " ++ q ctn.Name ++ ": runAsNonRoot=false",
      Risk := "Контейнер может стартовать от root",
      Recommendation := "Установить runAsNonRoot: true и runAsUser на непривилегированный UID" }]
  else out

/-- The value of `effSeccomp` for a container. -/
def effSeccomp (d : PodDefaults) (ctn : Container) : Option SeccompProfile :=
  let eff := d.podSeccomp
  match ctn.SecurityContext with
  | some ctx =>
    match ctx.SeccompProfile with
    | some sp => some sp
    | none => eff
  | none => eff

/-- The seccomp check. -/
def seccompStep (q : String → String) (ns name : String) (d : PodDefaults) (out : List Finding)
    (ctn : Container) : List Finding :=
  let eff := effSeccomp d ctn
  if (match eff with
      | none => true
      | some sp => EqualFold sp.Type_ "Unconfined") then
    let ev := "seccompProfile not set"
    let ev := if eff ≠ none then "seccompProfile.type=Unconfined" else ev
    out ++ [{
      CheckID := "K8S-POD-005",
      Severity := SeverityMedium,
      Resource := { Kind := "Pod", Namespace := ns, Name := name },
      Title := "Seccomp профиль не установлен",
      Evidence := "container " ++ q ctn.Name ++ ": " ++ ev,
      Risk := "Отсутствие seccomp расширяет набор доступных syscalls",
      Recommendation := "Использовать RuntimeDefault или Localhost профиль" }]
  else out

/-- The check `ctx != nil && ctx.AllowPrivilegeEscalation != nil &&
*ctx.AllowPrivilegeEscalation`. -/
def allowPrivilegeEscalationStep (q : String → String) (ns name : String) (out : List Finding)
    (ctn : Container) : List Finding :=
  if (ctn.SecurityContext.bind fun ctx => ctx.AllowPrivilegeEscalation) = some true then
    out ++ [{
      CheckID := "K8S-POD-006",
      Severity := SeverityHigh,
      Resource := { Kind := "Pod", Namespace := ns, Name := name },
      Title := "AllowPrivilegeEscalation=true",
      Evidence := "container " ++ q ctn.Name ++ ": allowPrivilegeEscalation=true",
      Risk := "Позволяет использовать setuid/setgid и повышать привилегии",
      Recommendation := "Установить allowPrivilegeEscalation: false" }]
  else out

/-- The check `ctx != nil && ctx.ReadOnlyRootFilesystem != nil &&
!*ctx.ReadOnlyRootFilesystem`. -/
def readOnlyRootFilesystemStep (q : String → String) (ns name : String) (out : List Finding)
    (ctn : Container) : List Finding :=
  if (ctn.SecurityContext.bind fun ctx => ctx.ReadOnlyRootFilesystem) = some false then
    out ++ [{
      CheckID := "K8S-POD-007",
      Severity := SeverityMedium,
      Resource := { Kind := "Pod", Namespace := ns, Name := name },
      Title := "readOnlyRootFilesystem отключен",
      Evidence := "container " ++ q ctn.Name ++ ": readOnlyRootFilesystem=false",
      Risk := "Запись в rootfs упрощает закрепление вредоносного кода",
      Recommendation :=
        "Включить readOnlyRootFilesystem: true и монтировать writable тома отдельно" }]
  else out

/-- The block guarded by `ctx != nil && ctx.Capabilities != nil`. -/
def capabilitiesStep (q : String → String) (ns name : String) (out : List Finding)
    (ctn : Container) : List Finding :=
  match ctn.SecurityContext.bind fun ctx => ctx.Capabilities with
  | some caps =>
    let out :=
      if caps.Add.length > 0 then
        out ++ [{
          CheckID := "K8S-POD-010",
          Severity := SeverityMedium,
          Resource := { Kind := "Pod", Namespace := ns, Name := name },
          Title := "Добавлены Linux capabilities",
          Evidence := "container " ++ q ctn.Name ++ ": capabilities.add=" ++ fmtStrings caps.Add,
          Risk := "Доп. capabilities увеличивают привилегии контейнера",
          Recommendation := "Избегать capabilities.add, использовать allowlist по необходимости" }]
      else out
    if caps.Drop.length = 0 then
      out ++ [{
        CheckID := "K8S-POD-011",
        Severity := SeverityLow,
        Resource := { Kind := "Pod", Namespace := ns, Name := name },
        Title := "Не указан capabilities.drop",
        Evidence := "container " ++ q ctn.Name ++ ": capabilities.drop not set",
        Risk := "По умолчанию контейнер сохраняет набор стандартных capabilities",
        Recommendation := "Явно сбросить все capabilities (drop: [\"ALL\"]) и добавить нужные" }]
    else out
  | none => out

/-- The body of the loop over `ctn.Env`. -/
def envStep (q : String → String) (ns name : String) (ctn : Container) (out : List Finding)
    (ev : EnvVar) : List Finding :=
  match ev.ValueFrom.bind fun vf => vf.SecretKeyRef with
  | some ref =>
    out ++ [{
      CheckID := "K8S-POD-012",
      Severity := SeverityLow,
      Resource := { Kind := "Pod", Namespace := ns, Name := name },
      Title := "Секреты проброшены в env",
      Evidence := "container " ++ q ctn.Name ++ ": env " ++ q ev.Name ++ " from secret "
        ++ q ref.Name,
      Risk := "Секреты в env могут попасть в логи/дампы",
      Recommendation := "Минимизировать секреты в env; избегать вывода env в логи" }]
  | none => out

/-- The body of the loop over `ctn.EnvFrom`. -/
def envFromStep (q : String → String) (ns name : String) (ctn : Container) (out : List Finding)
    (ef : EnvFromSource) : List Finding :=
  match ef.SecretRef with
  | some ref =>
    out ++ [{
      CheckID := "K8S-POD-009",
      Severity := SeverityMedium,
      Resource := { Kind := "Pod", Namespace := ns, Name := name },
      Title := "Секрет импортируется целиком в envFrom",
      Evidence := "container " ++ q ctn.Name ++ ": envFrom secretRef=" ++ q ref.Name,
      Risk := "Увеличивает поверхность утечки секретов через окружение",
      Recommendation := "Импортировать только нужные ключи или использовать volume secret" }]
  | none => out

/-- The body of the loop over the containers of a pod. -/
def containerStep (q : String → String) (ns name : String) (d : PodDefaults)
    (out : List Finding) (ctn : Container) : List Finding :=
  let out := privilegedStep q ns name out ctn
  let out := runAsStep q ns name d out ctn
  let out := seccompStep q ns name d out ctn
  let out := allowPrivilegeEscalationStep q ns name out ctn
  let out := readOnlyRootFilesystemStep q ns name out ctn
  let out := capabilitiesStep q ns name out ctn
  let out := ctn.Env.foldl (envStep q ns name ctn) out
  ctn.EnvFrom.foldl (envFromStep q ns name ctn) out

/-- The body of the loop over the pods. -/
def podStep (q : String → String) (saIndex : List (String × ServiceAccount))
    (out : List Finding) (p : Pod) : List Finding :=
  let ns := p.Metadata.Namespace
  let name := p.Metadata.Name
  let out := hostNamespaceStep out p
  let out := p.Spec.Volumes.foldl (volumeStep q ns name) out
  let out := automountStep out p saIndex
  let containers := ([] : List Container) ++ p.Spec.InitContainers
  let containers := containers ++ p.Spec.Containers
  containers.foldl (containerStep q ns name (podDefaults p)) out

def DetectPodMisconfigs (q : String → String) (pods : List Pod)
    (saIndex : List (String × ServiceAccount)) : List Finding :=
  pods.foldl (podStep q saIndex) []

/-- The findings that the container loop adds for one container of a pod. -/
def containerFindings (q : String → String) (p : Pod) (ctn : Container) : List Finding :=
  containerStep q p.Metadata.Namespace p.Metadata.Name (podDefaults p) [] ctn

/-- The findings of a list with a given check ID. -/
def withCheckID (id : String) (fs : List Finding) : List Finding :=
  fs.filter fun f => f.CheckID = id

/-! ## internal/audit/network.go

`DetectNetwork` takes `up`, the library function `strings.ToUpper` (it depends on the
Unicode case tables of the library). The verb `%d` on an integer is `toString`. -/

/-- The loop that fills `byNS`: the policies grouped by `metadata.namespace`. -/
def groupByNamespace (nps : List NetworkPolicy) : List (String × List NetworkPolicy) :=
  nps.foldl (fun byNS np =>
    mapSet byNS np.Metadata.Namespace
      ((byNS.lookup np.Metadata.Namespace).getD [] ++ [np])) []

/-- The test `len(np.Spec.PodSelector.MatchLabels) == 0`. -/
def selectsAll (np : NetworkPolicy) : Bool :=
  match np.Spec.PodSelector.MatchLabels with
  | none => true
  | some labels => labels.length = 0

/-- The value of `pt` once the policy types of a policy are determined. -/
def effectivePolicyTypes (np : NetworkPolicy) : List String :=
  let pt := uniqStrings np.Spec.PolicyTypes
  if pt.length = 0 then
    let pt := if np.Spec.Ingress ≠ none then pt ++ ["Ingress"] else pt
    let pt := if np.Spec.Egress ≠ none then pt ++ ["Egress"] else pt
    uniqStrings pt
  else pt

/-- The test `x != nil && len(x) == 0` on a slice of rules. -/
def presentAndEmpty (rules : Option (List AnyRule)) : Bool :=
  match rules with
  | none => false
  | some l => l.length = 0

/-- The body of the loop over the policies of a namespace, on the pair
`(denyIngress, denyEgress)`. -/
def policyStep (deny : Bool × Bool) (np : NetworkPolicy) : Bool × Bool :=
  if !selectsAll np then deny
  else
    let pt := effectivePolicyTypes np
    let denyIngress :=
      if containsAny pt ["Ingress"] then
        if presentAndEmpty np.Spec.Ingress then true else deny.1
      else deny.1
    let denyEgress :=
      if containsAny pt ["Egress"] then
        if presentAndEmpty np.Spec.Egress then true else deny.2
      else deny.2
    (denyIngress, denyEgress)

/-- The body of the loop over the namespaces. -/
def namespaceNetworkStep (byNS : List (String × List NetworkPolicy)) (out : List Finding)
    (ns : Namespace) : List Finding :=
  let n := ns.Metadata.Name
  let pols := (byNS.lookup n).getD []
  if pols.length = 0 then
    out ++ [{
      CheckID := "K8S-NET-001",
      Severity := SeverityHigh,
      Resource := { Kind := "Namespace", Name := n },
      Title := "В namespace нет NetworkPolicy (по умолчанию allow-all)",
      Evidence := "networkpolicies=0",
      Risk := "Отсутствие сегментации упрощает боковое перемещение",
      Recommendation :=
        "Добавить default-deny ingress/egress и разрешать только нужный трафик" }]
  else
    let deny := pols.foldl policyStep (false, false)
    let out :=
      if !deny.1 then
        out ++ [{
          CheckID := "K8S-NET-002",
          Severity := SeverityMedium,
          Resource := { Kind := "Namespace", Name := n },
          Title := "Нет default-deny Ingress для всех Pod'ов",
          Evidence := "не найден NetworkPolicy с podSelector:\x7b\x7d и ingress:[]",
          Risk := "Входящий трафик к Pod'ам может быть открыт шире, чем требуется",
          Recommendation := "Добавить default-deny ingress policy (podSelector: \x7b\x7d)" }]
      else out
    if !deny.2 then
      out ++ [{
        CheckID := "K8S-NET-003",
        Severity := SeverityMedium,
        Resource := { Kind := "Namespace", Name := n },
        Title := "Нет default-deny Egress для всех Pod'ов",
        Evidence := "не найден NetworkPolicy с podSelector:\x7b\x7d и egress:[]",
        Risk := "Исходящий трафик может позволить утечки и доступ к внешним сервисам",
        Recommendation :=
          "Добавить default-deny egress и разрешить только нужные направления" }]
    else out

/-- The slice `ports` built for a NodePort service. -/
def servicePorts (up : String → String) (s : Service) : List String :=
  s.Spec.Ports.foldl (fun ports p =>
    ports ++ [toString p.Port ++ "->" ++ toString p.NodePort ++ "/" ++ up p.Protocol]) []

/-- The body of the loop over the services. -/
def serviceStep (up : String → String) (out : List Finding) (s : Service) : List Finding :=
  let out :=
    if EqualFold s.Spec.Type_ "NodePort" then
      let ports := servicePorts up s
      out ++ [{
        CheckID := "K8S-NET-004",
        Severity := SeverityHigh,
        Resource := { Kind := "Service", Namespace := s.Metadata.Namespace,
                      Name := s.Metadata.Name },
        Title := "Service типа NodePort",
        Evidence := "type=NodePort ports=" ++ fmtStrings ports,
        Risk := "NodePort расширяет поверхность атаки (порт на узлах)",
        Recommendation :=
          "Избегать NodePort, использовать Ingress/LoadBalancer с явным контролем доступа" }]
    else out
  if EqualFold s.Spec.Type_ "LoadBalancer" then
    out ++ [{
      CheckID := "K8S-NET-006",
      Severity := SeverityMedium,
      Resource := { Kind := "Service", Namespace := s.Metadata.Namespace,
                    Name := s.Metadata.Name },
      Title := "Service типа LoadBalancer",
      Evidence := "type=LoadBalancer",
      Risk := "Возможна внешняя экспозиция сервиса",
      Recommendation :=
        "Проверить необходимость внешнего доступа и ограничить источники, настроить TLS" }]
  else out

/-- The body of the loop over the ingresses. -/
def ingressStep (out : List Finding) (ig : Ingress) : List Finding :=
  out ++ [{
    CheckID := "K8S-NET-005",
    Severity := SeverityMedium,
    Resource := { Kind := "Ingress", Namespace := ig.Metadata.Namespace,
                  Name := ig.Metadata.Name },
    Title := "Ingress объект присутствует",
    Evidence := "networking.k8s.io/v1 Ingress",
    Risk := "Ingress открывает входящий трафик",
    Recommendation := "Проверить TLS, auth, whitelist и корректность правил" }]

def DetectNetwork (up : String → String) (namespaces : List Namespace)
    (nps : List NetworkPolicy) (svcs : List Service) (ing : List Ingress) : List Finding :=
  let byNS := groupByNamespace nps
  let out := namespaces.foldl (namespaceNetworkStep byNS) []
  let out := svcs.foldl (serviceStep up) out
  ing.foldl ingressStep out

/-! ## internal/audit/rbac.go

`DetectRBAC` takes `q` (the verb `%q`) and `lo`, the library function `strings.ToLower`. -/

structure BoundRole where
  RoleKind : String := ""
  RoleNS : String := ""
  RoleName : String := ""
  Binding : String := ""
  BindingNS : String := ""
  Rules : List PolicyRule := []
  deriving DecidableEq, Repr

/-- The map `BySA` is an association list with one pair per key; Go iterates over it in an
unspecified order. -/
structure EffectiveRBAC where
  BySA : List (String × List BoundRole)
  deriving DecidableEq, Repr

/-- The loop that fills `roleIndex`. -/
def buildRoleIndex (roles : List Role) : List (String × Role) :=
  roles.foldl (fun roleIndex r =>
    mapSet roleIndex (r.Metadata.Namespace ++ "/" ++ r.Metadata.Name) r) []

/-- The loop that fills `cRoleIndex`. -/
def buildClusterRoleIndex (cRoles : List ClusterRole) : List (String × ClusterRole) :=
  cRoles.foldl (fun cRoleIndex r => mapSet cRoleIndex r.Metadata.Name r) []

/-- The closure `add`, on the map `bySA`. -/
def add (bySA : List (String × List BoundRole)) (saNS saName : String) (br : BoundRole) :
    List (String × List BoundRole) :=
  let key := saNS ++ "/" ++ saName
  mapSet bySA key ((bySA.lookup key).getD [] ++ [br])

/-- The value of `br` built for a subject of a RoleBinding. -/
def roleBindingBoundRole (roleIndex : List (String × Role))
    (cRoleIndex : List (String × ClusterRole)) (rb : RoleBinding) : BoundRole :=
  let bNS := rb.Metadata.Namespace
  let br : BoundRole :=
    { RoleKind := rb.RoleRef.Kind, RoleName := rb.RoleRef.Name, Binding := rb.Metadata.Name,
      BindingNS := bNS }
  if rb.RoleRef.Kind = "Role" then
    let br := { br with RoleNS := bNS }
    match roleIndex.lookup (bNS ++ "/" ++ rb.RoleRef.Name) with
    | some r => { br with Rules := r.Rules }
    | none => br
  else if rb.RoleRef.Kind = "ClusterRole" then
    match cRoleIndex.lookup rb.RoleRef.Name with
    | some cr => { br with Rules := cr.Rules }
    | none => br
  else br

/-- The body of the loop over the subjects of a RoleBinding. -/
def roleBindingSubjectStep (roleIndex : List (String × Role))
    (cRoleIndex : List (String × ClusterRole)) (rb : RoleBinding)
    (bySA : List (String × List BoundRole)) (sub : Subject) : List (String × List BoundRole) :=
  let bNS := rb.Metadata.Namespace
  if sub.Kind ≠ "ServiceAccount" then bySA
  else
    let saNS := sub.Namespace
    let saNS := if saNS = "" then bNS else saNS
    add bySA saNS sub.Name (roleBindingBoundRole roleIndex cRoleIndex rb)

/-- The value of `br` built for a subject of a ClusterRoleBinding. -/
def clusterRoleBindingBoundRole (cRoleIndex : List (String × ClusterRole))
    (crb : ClusterRoleBinding) : BoundRole :=
  let br : BoundRole :=
    { RoleKind := crb.RoleRef.Kind, RoleName := crb.RoleRef.Name, Binding := crb.Metadata.Name,
      BindingNS := "(cluster)" }
  if crb.RoleRef.Kind = "ClusterRole" then
    match cRoleIndex.lookup crb.RoleRef.Name with
    | some cr => { br with Rules := cr.Rules }
    | none => br
  else br

/-- The body of the loop over the subjects of a ClusterRoleBinding. -/
def clusterRoleBindingSubjectStep (cRoleIndex : List (String × ClusterRole))
    (crb : ClusterRoleBinding) (bySA : List (String × List BoundRole)) (sub : Subject) :
    List (String × List BoundRole) :=
  if sub.Kind ≠ "ServiceAccount" then bySA
  else if sub.Namespace = "" then bySA
  else add bySA sub.Namespace sub.Name (clusterRoleBindingBoundRole cRoleIndex crb)

/-- The body of the loop over the service accounts. -/
def ensureServiceAccount (bySA : List (String × List BoundRole)) (sa : ServiceAccount) :
    List (String × List BoundRole) :=
  let key := sa.Metadata.Namespace ++ "/" ++ sa.Metadata.Name
  if (bySA.lookup key).isSome then bySA else mapSet bySA key []

def BuildEffectiveRBAC (sas : List ServiceAccount) (roles : List Role)
    (cRoles : List ClusterRole) (rbs : List RoleBinding) (crbs : List ClusterRoleBinding) :
    EffectiveRBAC :=
  let roleIndex := buildRoleIndex roles
  let cRoleIndex := buildClusterRoleIndex cRoles
  let bySA : List (String × List BoundRole) := []
  let bySA := rbs.foldl (fun bySA rb =>
    rb.Subjects.foldl (roleBindingSubjectStep roleIndex cRoleIndex rb) bySA) bySA
  let bySA := crbs.foldl (fun bySA crb =>
    crb.Subjects.foldl (clusterRoleBindingSubjectStep cRoleIndex crb) bySA) bySA
  let bySA := sas.foldl ensureServiceAccount bySA
  { BySA := bySA }

/-- The split of a list of runes at its first `/`, if it has one. -/
def splitFirstSlash : List Char → Option (List Char × List Char)
  | [] => none
  | c :: cs =>
    if c = '/' then some ([], cs)
    else
      match splitFirstSlash cs with
      | some (a, b) => some (c :: a, b)
      | none => none

/-- The statements `parts := strings.SplitN(saKey, "/", 2)` and
`saNS, saName := parts[0], parts[1]`: the key is cut at its first `/`; `none` is the
index-out-of-range failure of `parts[1]` on a key without `/`. -/
def splitKey (saKey : String) : Option (String × String) :=
  match splitFirstSlash saKey.toList with
  | some (a, b) => some (String.mk a, String.mk b)
  | none => none

/-- The body of the loop over the rules of a bound role. -/
def ruleStep (q lo : String → String) (saNS saName : String) (br : BoundRole)
    (out : List Finding) (rule : PolicyRule) : List Finding :=
  let out :=
    if hasStar rule.Verbs || hasStar rule.Resources || hasStar rule.APIGroups then
      out ++ [{
        CheckID := "K8S-RBAC-001",
        Severity := SeverityHigh,
        Resource := { Kind := "ServiceAccount", Namespace := saNS, Name := saName },
        Title := "Избыточные RBAC-права (wildcard)",
        Evidence := "binding " ++ q br.Binding ++ " -> " ++ lo br.RoleKind ++ " "
          ++ q br.RoleName ++ ": apiGroups=" ++ fmtStrings rule.APIGroups ++ " resources="
          ++ fmtStrings rule.Resources ++ " verbs=" ++ fmtStrings rule.Verbs,
        Risk := "Wildcard правила часто позволяют выполнять опасные операции в kube-API",
        Recommendation :=
          "Заменить '*' на конкретные ресурсы/verbs и ограничить по namespace" }]
    else out
  let res := uniqStrings rule.Resources
  let verbs := uniqStrings rule.Verbs
  let out :=
    if containsAny res ["secrets"] && containsAny verbs ["get", "list", "watch"] then
      out ++ [{
        CheckID := "K8S-RBAC-002",
        Severity := SeverityHigh,
        Resource := { Kind := "ServiceAccount", Namespace := saNS, Name := saName },
        Title := "RBAC: доступ к secrets",
        Evidence := "binding " ++ q br.Binding ++ " -> " ++ lo br.RoleKind ++ " "
          ++ q br.RoleName ++ ": resources include secrets, verbs=" ++ fmtStrings verbs,
        Risk := "Позволяет читать секреты и расширять компрометацию",
        Recommendation := "Убрать доступ к secrets для прикладных SA" }]
    else out
  let out :=
    if containsAny res ["pods/exec"] && containsAny verbs ["create", "get"] then
      out ++ [{
        CheckID := "K8S-RBAC-003",
        Severity := SeverityHigh,
        Resource := { Kind := "ServiceAccount", Namespace := saNS, Name := saName },
        Title := "RBAC: доступ к pods/exec",
        Evidence := "binding " ++ q br.Binding ++ " -> " ++ lo br.RoleKind ++ " "
          ++ q br.RoleName ++ ": resources include pods/exec, verbs=" ++ fmtStrings verbs,
        Risk := "Позволяет выполнять команды в контейнерах",
        Recommendation := "Ограничить pods/exec только операторам/SRE при необходимости" }]
    else out
  let out :=
    if containsAny res ["nodes"] then
      out ++ [{
        CheckID := "K8S-RBAC-004",
        Severity := SeverityHigh,
        Resource := { Kind := "ServiceAccount", Namespace := saNS, Name := saName },
        Title := "RBAC: доступ к nodes",
        Evidence := "binding " ++ q br.Binding ++ " -> " ++ lo br.RoleKind ++ " "
          ++ q br.RoleName ++ ": resources include nodes, verbs=" ++ fmtStrings verbs,
        Risk := "Доступ к узлам помогает собирать чувствительную информацию",
        Recommendation := "Убрать доступ к nodes для прикладных сервисов" }]
    else out
  if containsAny res ["rolebindings", "clusterrolebindings"]
      && containsAny verbs ["create", "patch", "update"] then
    out ++ [{
      CheckID := "K8S-RBAC-005",
      Severity := SeverityCritical,
      Resource := { Kind := "ServiceAccount", Namespace := saNS, Name := saName },
      Title := "RBAC: возможность изменять привязки ролей",
      Evidence := "binding " ++ q br.Binding ++ " -> " ++ lo br.RoleKind ++ " "
        ++ q br.RoleName ++ ": resources include rolebindings/clusterrolebindings, verbs="
        ++ fmtStrings verbs,
      Risk := "Позволяет расширить собственные права (эскалация в kube-API)",
      Recommendation := "Запретить сервисам изменять rolebindings/clusterrolebindings" }]
  else out

/-- The body of the loop over the bound roles of a service account. -/
def boundRoleStep (q lo : String → String) (saNS saName : String) (out : List Finding)
    (br : BoundRole) : List Finding :=
  if br.Rules.length = 0 then out
  else
    let out :=
      if br.RoleKind = "ClusterRole" ∧ br.RoleName = "cluster-admin" then
        out ++ [{
          CheckID := "K8S-RBAC-000",
          Severity := SeverityCritical,
          Resource := { Kind := "ServiceAccount", Namespace := saNS, Name := saName },
          Title := "ServiceAccount привязан к cluster-admin",
          Evidence := "binding " ++ q br.Binding ++ " (" ++ br.BindingNS
            ++ ") -> clusterrole " ++ q br.RoleName,
          Risk := "Компрометация токена SA даёт полный контроль над кластером",
          Recommendation := "Убрать cluster-admin, выдать минимально необходимые права" }]
      else out
    br.Rules.foldl (ruleStep q lo saNS saName br) out

/-- The loop over the entries of `e.BySA`, in the order of the list `entries`; `none` when
the split of a key fails. -/
def detectEntries (q lo : String → String) :
    List (String × List BoundRole) → List Finding → Option (List Finding)
  | [], out => some out
  | (saKey, bound) :: rest, out =>
    match splitKey saKey with
    | none => none
    | some (saNS, saName) =>
      detectEntries q lo rest (bound.foldl (boundRoleStep q lo saNS saName) out)

/-- The function `DetectRBAC`, iterating over the map in the order of the list `e.BySA`. -/
def DetectRBAC (q lo : String → String) (e : EffectiveRBAC) : Option (List Finding) :=
  detectEntries q lo e.BySA []

/-- The body of the loop of `DetectClusterRolesDirect` over the rules of a cluster role. -/
def clusterRoleRuleStep (cr : ClusterRole) (out : List Finding) (rule : PolicyRule) :
    List Finding :=
  if hasStar rule.Verbs || hasStar rule.Resources || hasStar rule.APIGroups then
    out ++ [{
      CheckID := "K8S-RBAC-101",
      Severity := SeverityMedium,
      Resource := { Kind := "ClusterRole", Name := cr.Metadata.Name },
      Title := "ClusterRole содержит wildcard правила",
      Evidence := "apiGroups=" ++ fmtStrings rule.APIGroups ++ " resources="
        ++ fmtStrings rule.Resources ++ " verbs=" ++ fmtStrings rule.Verbs,
      Risk := "Wildcard roles приводят к избыточным правам при привязке",
      Recommendation := "Ограничить rules до нужных ресурсов и verbs" }]
  else out

def DetectClusterRolesDirect (clusterRoles : List ClusterRole) : List Finding :=
  clusterRoles.foldl (fun out cr => cr.Rules.foldl (clusterRoleRuleStep cr) out) []

/-! ## internal/model: ParseSeverity

`ParseSeverity` takes `up`, the library function `strings.ToUpper`, and `q`, the rendering of
a string by the verb `%q`. -/

/-- The function `ParseSeverity`: the pair of the severity and the error, `none` for a `nil`
error, else the text of the error. -/
def ParseSeverity (q up : String → String) (s : String) : Severity × Option String :=
  let s := TrimSpace (up s)
  if s = "LOW" then (SeverityLow, none)
  else if s = "MEDIUM" then (SeverityMedium, none)
  else if s = "HIGH" then (SeverityHigh, none)
  else if s = "CRITICAL" then (SeverityCritical, none)
  else ("", some ("unknown severity " ++ q s))

/-! ## cmd/k8s-audit/main.go

The statements of `main` that filter the collections read from the cluster and assemble the
list `findings`. -/

/-- The two filters of `main` on the namespaces: the flag `-namespace`, when it is not empty,
keeps the namespaces of that name; unless `-include-kube-system` is set, `kube-system` is
taken out. -/
def filterNamespaces (nsFilter : String) (includeKube : Bool) (namespaces : List Namespace) :
    List Namespace :=
  let namespaces :=
    if nsFilter ≠ "" then
      namespaces.foldl (fun filtered ns =>
        if ns.Metadata.Name = nsFilter then filtered ++ [ns] else filtered) []
    else namespaces
  if !includeKube then
    namespaces.foldl (fun filtered ns =>
      if ns.Metadata.Name = "kube-system" then filtered else filtered ++ [ns]) []
  else namespaces

/-- The loop of `main` that fills `saIndex`. -/
def buildSAIndex (sas : List ServiceAccount) : List (String × ServiceAccount) :=
  sas.foldl (fun saIndex sa =>
    mapSet saIndex (sa.Metadata.Namespace ++ "/" ++ sa.Metadata.Name) sa) []

/-- The filter of `main` on the pods, given the namespaces that are left: the set `allowed`
is kept as the list of its keys. -/
def filterPods (namespaces : List Namespace) (pods : List Pod) : List Pod :=
  if namespaces.length > 0 then
    let allowed := namespaces.foldl (fun allowed ns => setAdd allowed ns.Metadata.Name) []
    pods.foldl (fun filtered p =>
      if p.Metadata.Namespace ∈ allowed then filtered ++ [p] else filtered) []
  else pods

/-- The list `findings` of `main` after the calls of the evaluators. The arguments are the
values of the variables of `main` at that point; `visit` is the order in which the loop of
`DetectRBAC` meets the entries of the map; `imds` is the result of `DetectIMDSProbe`, which
talks to the network. The result is `none` when `DetectRBAC` fails. -/
def mainFindings (q up lo : String → String)
    (visit : List (String × List BoundRole) → List (String × List BoundRole))
    (namespaces : List Namespace) (pods : List Pod) (saIndex : List (String × ServiceAccount))
    (sas : List ServiceAccount) (roles : List Role) (clusterRoles : List ClusterRole)
    (rbs : List RoleBinding) (crbs : List ClusterRoleBinding) (nps : List NetworkPolicy)
    (svcs : List Service) (ing : List Ingress) (imds : List Finding) : Option (List Finding) :=
  let findings : List Finding := []
  let findings := findings ++ DetectNamespacePSS namespaces
  let findings := findings ++ DetectPodMisconfigs q pods saIndex
  let rbac : Option (List Finding) :=
    if sas.length > 0 ∨ rbs.length > 0 ∨ crbs.length > 0 then
      let e := BuildEffectiveRBAC sas roles clusterRoles rbs crbs
      match DetectRBAC q lo { BySA := visit e.BySA } with
      | none => none
      | some fs => some (findings ++ fs ++ DetectClusterRolesDirect clusterRoles)
    else some findings
  match rbac with
  | none => none
  | some findings => some (findings ++ DetectNetwork up namespaces nps svcs ing ++ imds)

/-- The run of `main` from the collections that the client lists to the list `findings`:
the namespaces and the pods are filtered, the index of the service accounts is built, and
the evaluators are called. -/
def mainAudit (q up lo : String → String)
    (visit : List (String × List BoundRole) → List (String × List BoundRole))
    (nsFilter : String) (includeKube : Bool)
    (namespaces : List Namespace) (sas : List ServiceAccount) (pods : List Pod)
    (roles : List Role) (rbs : List RoleBinding) (clusterRoles : List ClusterRole)
    (crbs : List ClusterRoleBinding) (nps : List NetworkPolicy) (svcs : List Service)
    (ing : List Ingress) (imds : List Finding) : Option (List Finding) :=
  let namespaces := filterNamespaces nsFilter includeKube namespaces
  let saIndex := buildSAIndex sas
  let pods := filterPods namespaces pods
  mainFindings q up lo visit namespaces pods saIndex sas roles clusterRoles rbs crbs nps svcs
    ing imds

/-! ## Effective settings, as the specification words them -/

/-- Effective `runAsUser` of a container: the container's value if set, else the pod-level
value. -/
def specEffRunAsUser (p : Pod) (ctn : Container) : Option Int :=
  (ctn.SecurityContext.bind fun c => c.RunAsUser).or
    (p.Spec.SecurityContext.bind fun c => c.RunAsUser)

/-- Effective `runAsNonRoot` of a container: the container's value if set, else the
pod-level value. -/
def specEffRunAsNonRoot (p : Pod) (ctn : Container) : Option Bool :=
  (ctn.SecurityContext.bind fun c => c.RunAsNonRoot).or
    (p.Spec.SecurityContext.bind fun c => c.RunAsNonRoot)

/-- Effective seccomp profile of a container: the container's profile if set, else the
pod-level profile. -/
def specEffSeccomp (p : Pod) (ctn : Container) : Option SeccompProfile :=
  (ctn.SecurityContext.bind fun c => c.SeccompProfile).or
    (p.Spec.SecurityContext.bind fun c => c.SeccompProfile)

/-- Resolved automount value of a pod: the `automountServiceAccountToken` of the pod spec if
set; else that of the service account indexed under `<pod namespace>/<serviceAccountName>`,
an empty name read as `default`, if that account exists and sets it; else true. -/
def specAutomount (p : Pod) (saIndex : List (String × ServiceAccount)) : Bool :=
  (p.Spec.AutomountServiceAccountToken.or
    ((saIndex.lookup (p.Metadata.Namespace ++ "/"
        ++ (if p.Spec.ServiceAccountName = "" then "default"
            else p.Spec.ServiceAccountName))).bind
      fun sa => sa.AutomountServiceAccountToken)).getD true

/-! ## Network policies, as the specification words them -/

/-- A policy that establishes default-deny ingress: its pod selector is empty, its effective
policy types include `Ingress`, and its `ingress` field is present but empty. -/
def specDefaultDenyIngress (np : NetworkPolicy) : Prop :=
  (np.Spec.PodSelector.MatchLabels = none ∨ np.Spec.PodSelector.MatchLabels = some [])
    ∧ "Ingress" ∈ effectivePolicyTypes np ∧ np.Spec.Ingress = some []

/-- A policy that establishes default-deny egress: its pod selector is empty, its effective
policy types include `Egress`, and its `egress` field is present but empty. -/
def specDefaultDenyEgress (np : NetworkPolicy) : Prop :=
  (np.Spec.PodSelector.MatchLabels = none ∨ np.Spec.PodSelector.MatchLabels = some [])
    ∧ "Egress" ∈ effectivePolicyTypes np ∧ np.Spec.Egress = some []

instance (np : NetworkPolicy) : Decidable (specDefaultDenyIngress np) := by
  unfold specDefaultDenyIngress; infer_instance

instance (np : NetworkPolicy) : Decidable (specDefaultDenyEgress np) := by
  unfold specDefaultDenyEgress; infer_instance

/-! ## The facts recorded by `BuildEffectiveRBAC`

The calls of `add` of a run, as a list of pairs of a key and a bound role; the properties of
the map are stated and proved through them. -/

/-- The facts that the loop over the subjects of a RoleBinding records: for every subject
of kind `ServiceAccount`, the key `<namespace>/<name>` of the subject, its namespace
defaulting to that of the binding, with the bound role of the binding. -/
def roleBindingFacts (roleIndex : List (String × Role))
    (cRoleIndex : List (String × ClusterRole)) (rb : RoleBinding) :
    List (String × BoundRole) :=
  (rb.Subjects.filter fun sub => decide (sub.Kind = "ServiceAccount")).map fun sub =>
    ((if sub.Namespace = "" then rb.Metadata.Namespace else sub.Namespace) ++ "/" ++ sub.Name,
      roleBindingBoundRole roleIndex cRoleIndex rb)

/-- The facts that the loop over the subjects of a ClusterRoleBinding records: for every
subject of kind `ServiceAccount` with a non-empty namespace, the key of the subject with the
bound role of the binding. -/
def clusterRoleBindingFacts (cRoleIndex : List (String × ClusterRole))
    (crb : ClusterRoleBinding) : List (String × BoundRole) :=
  (crb.Subjects.filter fun sub =>
      decide (sub.Kind = "ServiceAccount") && decide (sub.Namespace ≠ "")).map fun sub =>
    (sub.Namespace ++ "/" ++ sub.Name, clusterRoleBindingBoundRole cRoleIndex crb)

/-- All the facts of a run, in the order in which they are recorded. -/
def boundFacts (roles : List Role) (cRoles : List ClusterRole) (rbs : List RoleBinding)
    (crbs : List ClusterRoleBinding) : List (String × BoundRole) :=
  rbs.flatMap (roleBindingFacts (buildRoleIndex roles) (buildClusterRoleIndex cRoles))
    ++ crbs.flatMap (clusterRoleBindingFacts (buildClusterRoleIndex cRoles))

/-- The bound roles recorded under a key. -/
def factsFor (key : String) (facts : List (String × BoundRole)) : List BoundRole :=
  (facts.filter fun f => decide (f.1 = key)).map fun f => f.2

/-- The map after a sequence of facts is recorded with `add`. -/
def recordAll (bySA : List (String × List BoundRole)) (facts : List (String × BoundRole)) :
    List (String × List BoundRole) :=
  facts.foldl (fun m f => mapSet m f.1 ((m.lookup f.1).getD [] ++ [f.2])) bySA

/-! ## Role references, as the specification words them -/

/-- The Role indexed under a key `<namespace>/<name>`: the last role of the collection with
that key. -/
def specRoleAt (roles : List Role) (key : String) : Option Role :=
  (roles.filter fun r =>
    decide (r.Metadata.Namespace ++ "/" ++ r.Metadata.Name = key)).getLast?

/-- The ClusterRole indexed under a name: the last cluster role of the collection with that
name. -/
def specClusterRoleAt (cRoles : List ClusterRole) (name : String) : Option ClusterRole :=
  (cRoles.filter fun r => decide (r.Metadata.Name = name)).getLast?

/-- The rules of the role that a RoleBinding references, when the reference resolves: a
`Role` is looked up in the namespace of the binding, a `ClusterRole` by name; a reference
of any other kind does not resolve. -/
def specResolveRoleBinding (roles : List Role) (cRoles : List ClusterRole) (rb : RoleBinding) :
    Option (List PolicyRule) :=
  if rb.RoleRef.Kind = "Role" then
    (specRoleAt roles (rb.Metadata.Namespace ++ "/" ++ rb.RoleRef.Name)).map fun r => r.Rules
  else if rb.RoleRef.Kind = "ClusterRole" then
    (specClusterRoleAt cRoles rb.RoleRef.Name).map fun r => r.Rules
  else none

/-- The rules of the role that a ClusterRoleBinding references, when the reference
resolves: only a `ClusterRole` reference does. -/
def specResolveClusterRoleBinding (cRoles : List ClusterRole) (crb : ClusterRoleBinding) :
    Option (List PolicyRule) :=
  if crb.RoleRef.Kind = "ClusterRole" then
    (specClusterRoleAt cRoles crb.RoleRef.Name).map fun r => r.Rules
  else none

/-! ## The findings of a rule, of a bound role and of an entry of the map

The loops of `DetectRBAC` only append to `out`; these are the findings that one round of
each loop appends. -/

/-- The findings that the loop over the rules appends for one rule. -/
def ruleFindings (q lo : String → String) (saNS saName : String) (br : BoundRole)
    (rule : PolicyRule) : List Finding :=
  ruleStep q lo saNS saName br [] rule

/-- The findings that the loop over the bound roles appends for one bound role. -/
def boundRoleFindings (q lo : String → String) (saNS saName : String) (br : BoundRole) :
    List Finding :=
  boundRoleStep q lo saNS saName [] br

/-- The findings that the loop over the map appends for one entry whose key has a `/`. -/
def entryFindings (q lo : String → String) (entry : String × List BoundRole) : List Finding :=
  match splitKey entry.1 with
  | some (saNS, saName) => entry.2.flatMap (boundRoleFindings q lo saNS saName)
  | none => []

/-! ## The conditions on a rule, as the specification words them -/

/-- A rule is a wildcard rule when its verbs, resources or API groups contain `*`. -/
def specWildcard (rule : PolicyRule) : Prop :=
  "*" ∈ rule.Verbs ∨ "*" ∈ rule.Resources ∨ "*" ∈ rule.APIGroups

/-- A list of resources or verbs includes a name, surrounding white space of the entries
left aside. -/
def specIncludes (xs : List String) (x : String) : Prop :=
  ∃ t ∈ xs, TrimSpace t = x

/-- Resources include `secrets` and verbs include any of `get`, `list`, `watch`. -/
def specSecretsAccess (rule : PolicyRule) : Prop :=
  specIncludes rule.Resources "secrets"
    ∧ (specIncludes rule.Verbs "get" ∨ specIncludes rule.Verbs "list"
        ∨ specIncludes rule.Verbs "watch")

/-- Resources include `pods/exec` and verbs include `create` or `get`. -/
def specPodsExec (rule : PolicyRule) : Prop :=
  specIncludes rule.Resources "pods/exec"
    ∧ (specIncludes rule.Verbs "create" ∨ specIncludes rule.Verbs "get")

/-- Resources include `nodes`. -/
def specNodes (rule : PolicyRule) : Prop :=
  specIncludes rule.Resources "nodes"

/-- Resources include `rolebindings` or `clusterrolebindings` and verbs include `create`,
`patch` or `update`. -/
def specBindingsWrite (rule : PolicyRule) : Prop :=
  (specIncludes rule.Resources "rolebindings"
      ∨ specIncludes rule.Resources "clusterrolebindings")
    ∧ (specIncludes rule.Verbs "create" ∨ specIncludes rule.Verbs "patch"
        ∨ specIncludes rule.Verbs "update")

instance (rule : PolicyRule) : Decidable (specWildcard rule) := by
  unfold specWildcard; infer_instance

instance (xs : List String) (x : String) : Decidable (specIncludes xs x) := by
  unfold specIncludes; infer_instance

instance (rule : PolicyRule) : Decidable (specSecretsAccess rule) := by
  unfold specSecretsAccess; infer_instance

instance (rule : PolicyRule) : Decidable (specPodsExec rule) := by
  unfold specPodsExec; infer_instance

instance (rule : PolicyRule) : Decidable (specNodes rule) := by
  unfold specNodes; infer_instance

instance (rule : PolicyRule) : Decidable (specBindingsWrite rule) := by
  unfold specBindingsWrite; infer_instance

/-- A check emits exactly one finding for a condition: when the condition holds, the list
has one finding with the check ID, of the given severity and resource; when it does not
hold, the list has no finding with the check ID. -/
def specOneFindingIff (fs : List Finding) (id : String) (sev : Severity) (res : ResourceRef)
    (c : Prop) : Prop :=
  (c → ∃ f, withCheckID id fs = [f] ∧ f.Severity = sev ∧ f.Resource = res)
    ∧ (¬ c → withCheckID id fs = [])

/-- The pairs of a cluster role of the collection and a wildcard rule of it, in the order of
the collection and of the rules. -/
def specWildcardPairs (clusterRoles : List ClusterRole) : List (ClusterRole × PolicyRule) :=
  clusterRoles.flatMap fun cr =>
    (cr.Rules.filter fun rule => decide (specWildcard rule)).map fun rule => (cr, rule)

/-- The severity of each check ID of the five evaluators. -/
def specSeverities : List (String × Severity) :=
  [("K8S-PSA-001", SeverityMedium), ("K8S-PSA-002", SeverityHigh),
   ("K8S-POD-001", SeverityCritical), ("K8S-POD-002", SeverityCritical),
   ("K8S-POD-003", SeverityHigh), ("K8S-POD-004", SeverityHigh),
   ("K8S-POD-005", SeverityMedium), ("K8S-POD-006", SeverityHigh),
   ("K8S-POD-007", SeverityMedium), ("K8S-POD-008", SeverityMedium),
   ("K8S-POD-009", SeverityMedium), ("K8S-POD-010", SeverityMedium),
   ("K8S-POD-011", SeverityLow), ("K8S-POD-012", SeverityLow),
   ("K8S-NET-001", SeverityHigh), ("K8S-NET-002", SeverityMedium),
   ("K8S-NET-003", SeverityMedium), ("K8S-NET-004", SeverityHigh),
   ("K8S-NET-005", SeverityMedium), ("K8S-NET-006", SeverityMedium),
   ("K8S-RBAC-000", SeverityCritical), ("K8S-RBAC-001", SeverityHigh),
   ("K8S-RBAC-002", SeverityHigh), ("K8S-RBAC-003", SeverityHigh),
   ("K8S-RBAC-004", SeverityHigh), ("K8S-RBAC-005", SeverityCritical),
   ("K8S-RBAC-101", SeverityMedium)]

/-- A finding that one of the five evaluators emits on some input. -/
def specEmitted (f : Finding) : Prop :=
  (∃ namespaces, f ∈ DetectNamespacePSS namespaces)
    ∨ (∃ q pods saIndex, f ∈ DetectPodMisconfigs q pods saIndex)
    ∨ (∃ up namespaces nps svcs ing, f ∈ DetectNetwork up namespaces nps svcs ing)
    ∨ (∃ q lo e out, DetectRBAC q lo e = some out ∧ f ∈ out)
    ∨ (∃ clusterRoles, f ∈ DetectClusterRolesDirect clusterRoles)

/-! ## Counting binding facts, as the specification words it -/

/-- The total number of bound roles over all keys of the map. -/
def boundRoleCount (bySA : List (String × List BoundRole)) : Nat :=
  (bySA.map fun entry => entry.2.length).sum

/-- The number of subjects of kind `ServiceAccount` across all RoleBindings plus the number
of subjects of kind `ServiceAccount` with a non-empty namespace across all
ClusterRoleBindings. -/
def specSubjectCount (rbs : List RoleBinding) (crbs : List ClusterRoleBinding) : Nat :=
  (rbs.map fun rb =>
      (rb.Subjects.filter fun sub => decide (sub.Kind = "ServiceAccount")).length).sum
    + (crbs.map fun crb =>
        (crb.Subjects.filter fun sub =>
          decide (sub.Kind = "ServiceAccount") && decide (sub.Namespace ≠ "")).length).sum

/-! ## White space and letter case, as the specification words them -/

/-- The white space characters: tab, line feed, vertical tab, form feed, carriage return,
space, next line (U+0085), no-break space (U+00A0), and the other code points with the
Unicode property White_Space. -/
def specWhiteSpace (c : Char) : Prop :=
  c.toNat ∈ [0x09, 0x0A, 0x0B, 0x0C, 0x0D, 0x20, 0x85, 0xA0, 0x1680, 0x2000, 0x2001, 0x2002,
    0x2003, 0x2004, 0x2005, 0x2006, 0x2007, 0x2008, 0x2009, 0x200A, 0x2028, 0x2029, 0x202F,
    0x205F, 0x3000]

instance (c : Char) : Decidable (specWhiteSpace c) := by
  unfold specWhiteSpace; infer_instance

/-- The string `t` is the string `x` with white space before and after it: stripped of its
surrounding white space, `t` is `x` (for an `x` that neither starts nor ends with white
space). -/
def specPadded (t x : String) : Prop :=
  ∃ pre post : List Char, t.toList = pre ++ x.toList ++ post
    ∧ (∀ c ∈ pre, specWhiteSpace c) ∧ (∀ c ∈ post, specWhiteSpace c)

/-- The string `t` is blank: it is made of white space only. -/
def specBlank (t : String) : Prop :=
  ∀ c ∈ t.toList, specWhiteSpace c

/-- The string `s` names the level `L`: it is, between white space, a word equal to `L` up to
the case of its letters. -/
def specNamesLevel (s : String) (L : Severity) : Prop :=
  ∃ pre w post : List Char, s.toList = pre ++ w ++ post
    ∧ (∀ c ∈ pre, specWhiteSpace c) ∧ (∀ c ∈ post, specWhiteSpace c)
    ∧ eqIgnoreCase (String.mk w) L

/-! ## Default-deny policies, as the specification words them -/

/-- The effective type set of a policy in the words of the specification: the explicit
`policyTypes` list if present, else inferred from the presence of an `ingress` or `egress`
section. -/
def specTypeSet (np : NetworkPolicy) : List String :=
  if np.Spec.PolicyTypes ≠ [] then np.Spec.PolicyTypes
  else (if np.Spec.Ingress ≠ none then ["Ingress"] else [])
    ++ (if np.Spec.Egress ≠ none then ["Egress"] else [])

/-- A policy qualifies as default-deny ingress in the words of the specification: empty pod
selector, a type set that includes `Ingress`, an `ingress` field present but empty. -/
def specQualifiesIngress (np : NetworkPolicy) : Prop :=
  (np.Spec.PodSelector.MatchLabels = none ∨ np.Spec.PodSelector.MatchLabels = some [])
    ∧ "Ingress" ∈ specTypeSet np ∧ np.Spec.Ingress = some []

/-- A policy qualifies as default-deny egress in the words of the specification. -/
def specQualifiesEgress (np : NetworkPolicy) : Prop :=
  (np.Spec.PodSelector.MatchLabels = none ∨ np.Spec.PodSelector.MatchLabels = some [])
    ∧ "Egress" ∈ specTypeSet np ∧ np.Spec.Egress = some []

instance (np : NetworkPolicy) : Decidable (specQualifiesIngress np) := by
  unfold specQualifiesIngress; infer_instance

instance (np : NetworkPolicy) : Decidable (specQualifiesEgress np) := by
  unfold specQualifiesEgress; infer_instance

/-- The type set of a policy includes the type `x`, the entries of `policyTypes` read
without their surrounding white space: an entry is `x` with white space around it, or every
entry is blank (the list may be absent) and `x` is the type of a section that is present. -/
def specTypesInclude (np : NetworkPolicy) (x : String) : Prop :=
  (∃ t ∈ np.Spec.PolicyTypes, specPadded t x)
    ∨ ((∀ t ∈ np.Spec.PolicyTypes, specBlank t)
      ∧ ((x = "Ingress" ∧ np.Spec.Ingress ≠ none) ∨ (x = "Egress" ∧ np.Spec.Egress ≠ none)))

/-- A policy establishes default-deny ingress: empty pod selector, a type set that includes
`Ingress` (entries read without surrounding white space), an `ingress` field present but
empty. -/
def specEstablishesDenyIngress (np : NetworkPolicy) : Prop :=
  (np.Spec.PodSelector.MatchLabels = none ∨ np.Spec.PodSelector.MatchLabels = some [])
    ∧ specTypesInclude np "Ingress" ∧ np.Spec.Ingress = some []

/-- A policy establishes default-deny egress: empty pod selector, a type set that includes
`Egress` (entries read without surrounding white space), an `egress` field present but
empty. -/
def specEstablishesDenyEgress (np : NetworkPolicy) : Prop :=
  (np.Spec.PodSelector.MatchLabels = none ∨ np.Spec.PodSelector.MatchLabels = some [])
    ∧ specTypesInclude np "Egress" ∧ np.Spec.Egress = some []

/-! ## Sample inputs -/

/-- A namespace that carries the enforce label with the empty string as its value. -/
def nsEmptyEnforce : Namespace :=
  { Metadata := { Name := "ns1", Labels := some [("pod-security.kubernetes.io/enforce", "")] } }

/-- A namespace whose enforce label is `restricted`. -/
def nsRestricted : Namespace :=
  { Metadata := { Name := "ns2",
                  Labels := some [("team", "a"), ("pod-security.kubernetes.io/enforce", "restricted")] } }

/-- A namespace without labels. -/
def nsBare : Namespace := { Metadata := { Name := "ns3" } }

/-- A namespace whose enforce label is `Privileged`. -/
def nsPrivileged : Namespace :=
  { Metadata := { Name := "ns4", Labels := some [("pod-security.kubernetes.io/enforce", "Privileged")] } }

/-- The rendering by `%q` of a string made of printable runes other than the double quote
and the backslash: the string between double quotes. Used for the sample inputs. -/
def quotePlain (s : String) : String :=
  "\"" ++ s ++ "\""

/-- A privileged container running as UID 0, with an empty capabilities block. -/
def ctnRootPrivileged : Container :=
  { Name := "c1",
    SecurityContext := some { Privileged := some true, RunAsUser := some 0,
                              Capabilities := some {} } }

/-- A container without a securityContext. -/
def ctnBare : Container := { Name := "c2" }

/-- A container that overrides the pod-level settings: a non-root UID, `RuntimeDefault`
seccomp and a writable root filesystem. -/
def ctnOverride : Container :=
  { Name := "c3",
    SecurityContext := some { RunAsUser := some 1000, RunAsNonRoot := some false,
                              ReadOnlyRootFilesystem := some false,
                              SeccompProfile := some { Type_ := "RuntimeDefault" } } }

/-- The pod of the scenario with the automount of the token switched off. -/
def podP1 : Pod :=
  { Metadata := { Name := "p1", Namespace := "ns1" },
    Spec := { AutomountServiceAccountToken := some false, Containers := [ctnRootPrivileged] } }

/-- The pod of the scenario with the automount of the token left to its default. -/
def podP1Default : Pod :=
  { Metadata := { Name := "p1", Namespace := "ns1" },
    Spec := { Containers := [ctnRootPrivileged] } }

/-- A privileged container running as UID 0 whose securityContext has no capabilities
block. -/
def ctnRootPrivilegedNoCaps : Container :=
  { Name := "c1",
    SecurityContext := some { Privileged := some true, RunAsUser := some 0 } }

/-- The pod of the scenario, automount left to its default, with the container that has no
capabilities block. -/
def podP1NoCaps : Pod :=
  { Metadata := { Name := "p1", Namespace := "ns1" },
    Spec := { Containers := [ctnRootPrivilegedNoCaps] } }

/-- The pod of the scenario whose only container has no securityContext. -/
def podBare : Pod :=
  { Metadata := { Name := "p1", Namespace := "ns1" },
    Spec := { AutomountServiceAccountToken := some false, Containers := [ctnBare] } }

/-- A pod that shares the network and IPC namespaces of the host, runs as root with an
unconfined seccomp profile at pod level, and uses the service account `builder`. -/
def podHost : Pod :=
  { Metadata := { Name := "p2", Namespace := "ns1" },
    Spec := { ServiceAccountName := "builder", HostNetwork := true, HostIPC := true,
              SecurityContext := some { RunAsUser := some 0,
                                        SeccompProfile := some { Type_ := "unconfined" } },
              InitContainers := [ctnBare],
              Containers := [ctnOverride, ctnRootPrivileged] } }

/-- A service-account index in which `ns1/builder` switches the automount off. -/
def saIndexSample : List (String × ServiceAccount) :=
  [("ns1/default", { Metadata := { Name := "default", Namespace := "ns1" } }),
   ("ns1/builder", { Metadata := { Name := "builder", Namespace := "ns1" },
                     AutomountServiceAccountToken := some false })]

/-- The function `strings.ToUpper` on a string of ASCII characters. Used for the sample
inputs. -/
def upperASCII (s : String) : String :=
  String.mk (s.toList.map fun c =>
    if 0x61 ≤ c.toNat ∧ c.toNat ≤ 0x7A then Char.ofNat (c.toNat - 0x20) else c)

/-- A policy of `ns1` that selects all pods and denies all ingress and egress traffic. -/
def npDenyAll : NetworkPolicy :=
  { Metadata := { Name := "deny-all", Namespace := "ns1" },
    Spec := { PolicyTypes := ["Ingress", "Egress"], Ingress := some [], Egress := some [] } }

/-- A policy of `ns2` for the pods labelled `app=web`, with one ingress rule. -/
def npAllowWeb : NetworkPolicy :=
  { Metadata := { Name := "allow-web", Namespace := "ns2" },
    Spec := { PodSelector := { MatchLabels := some [("app", "web")] },
              PolicyTypes := ["Ingress"], Ingress := some [()] } }

/-- A policy of `ns2` that selects all pods and denies all egress traffic; it has no
`policyTypes`. -/
def npDenyEgress : NetworkPolicy :=
  { Metadata := { Name := "deny-egress", Namespace := "ns2" },
    Spec := { Egress := some [] } }

/-- A policy of `ns3` that selects all pods, whose `policyTypes` list holds one empty string
and whose `ingress` field is present and empty. -/
def npBlankTypes : NetworkPolicy :=
  { Metadata := { Name := "blank-types", Namespace := "ns3" },
    Spec := { PolicyTypes := [""], Ingress := some [] } }

/-- A policy of `ns3` that selects all pods, whose `policyTypes` list holds `Ingress` after a
blank and whose `ingress` field is present and empty. -/
def npPaddedTypes : NetworkPolicy :=
  { Metadata := { Name := "padded-types", Namespace := "ns3" },
    Spec := { PolicyTypes := [" Ingress"], Ingress := some [] } }

/-- A policy of `ns3` that selects all pods, whose `policyTypes` list is `Egress` and whose
`ingress` field is present and empty. -/
def npEgressOnly : NetworkPolicy :=
  { Metadata := { Name := "egress-only", Namespace := "ns3" },
    Spec := { PolicyTypes := ["Egress"], Ingress := some [] } }

/-- A NodePort service with two ports. -/
def svcNodePort : Service :=
  { Metadata := { Name := "web", Namespace := "ns1" },
    Spec := { Type_ := "NodePort",
              Ports := [{ Port := 80, NodePort := 30080, Protocol := "tcp" },
                        { Port := 53, NodePort := 30053, Protocol := "UDP" }] } }

/-- A service whose type is spelled `nodeport`. -/
def svcLowerNodePort : Service :=
  { Metadata := { Name := "web2", Namespace := "ns1" },
    Spec := { Type_ := "nodeport", Ports := [{ Port := 80, NodePort := 30081, Protocol := "TCP" }] } }

/-- A LoadBalancer service. -/
def svcLoadBalancer : Service :=
  { Metadata := { Name := "lb", Namespace := "ns2" }, Spec := { Type_ := "LoadBalancer" } }

/-- A ClusterIP service. -/
def svcClusterIP : Service :=
  { Metadata := { Name := "db", Namespace := "ns2" }, Spec := { Type_ := "ClusterIP" } }

/-- The function `strings.ToLower` on a string of ASCII characters. Used for the sample
inputs. -/
def lowerASCII (s : String) : String :=
  String.mk (s.toList.map fun c =>
    if 0x41 ≤ c.toNat ∧ c.toNat ≤ 0x5A then Char.ofNat (c.toNat + 0x20) else c)

/-- The service account `ns1/sa1`. -/
def saOne : ServiceAccount := { Metadata := { Name := "sa1", Namespace := "ns1" } }

/-- The service account `ns2/idle`, which no binding names. -/
def saIdle : ServiceAccount := { Metadata := { Name := "idle", Namespace := "ns2" } }

/-- A role of `ns1` that reads secrets. -/
def roleSecrets : Role :=
  { Metadata := { Name := "reader", Namespace := "ns1" },
    Rules := [{ Resources := ["secrets"], Verbs := ["get", "list"] }] }

/-- A role of `ns1` without rules. -/
def roleEmpty : Role := { Metadata := { Name := "empty", Namespace := "ns1" } }

/-- A role named `reader` that lives in `ns2` only. -/
def roleSecretsOther : Role :=
  { Metadata := { Name := "reader", Namespace := "ns2" },
    Rules := [{ Resources := ["secrets"], Verbs := ["get", "list"] }] }

/-- The cluster role `cluster-admin`. -/
def clusterAdmin : ClusterRole :=
  { Metadata := { Name := "cluster-admin" },
    Rules := [{ APIGroups := ["*"], Resources := ["*"], Verbs := ["*"] }] }

/-- A RoleBinding of `ns1` to the role `reader`, for the service account `sa1` (namespace
left out), a user, and the service account `ns2/sa2`. -/
def rbReader : RoleBinding :=
  { Metadata := { Name := "read-secrets", Namespace := "ns1" },
    Subjects := [{ Kind := "ServiceAccount", Name := "sa1" },
                 { Kind := "User", Name := "alice" },
                 { Kind := "ServiceAccount", Name := "sa2", Namespace := "ns2" }],
    RoleRef := { Kind := "Role", Name := "reader" } }

/-- A RoleBinding of `ns1` to the role `empty`, for the service account `sa1`. -/
def rbEmpty : RoleBinding :=
  { Metadata := { Name := "bind-empty", Namespace := "ns1" },
    Subjects := [{ Kind := "ServiceAccount", Name := "sa1" }],
    RoleRef := { Kind := "Role", Name := "empty" } }

/-- A ClusterRoleBinding to `cluster-admin`, for the service account `ns1/sa1` and for a
service account subject without namespace. -/
def crbAdmin : ClusterRoleBinding :=
  { Metadata := { Name := "admins" },
    Subjects := [{ Kind := "ServiceAccount", Name := "sa1", Namespace := "ns1" },
                 { Kind := "ServiceAccount", Name := "ghost" }],
    RoleRef := { Kind := "ClusterRole", Name := "cluster-admin" } }

/-- A rule whose resources are spelled with surrounding white space. -/
def rolePadded : Role :=
  { Metadata := { Name := "padded", Namespace := "ns1" },
    Rules := [{ Resources := [" secrets"], Verbs := ["get "] }] }

/-- A RoleBinding of `ns1` to the role `padded`, for the service account `sa1`. -/
def rbPadded : RoleBinding :=
  { Metadata := { Name := "bind-padded", Namespace := "ns1" },
    Subjects := [{ Kind := "ServiceAccount", Name := "sa1" }],
    RoleRef := { Kind := "Role", Name := "padded" } }

/-- A RoleBinding of `ns1` to the role `reader`, for the service account `sa1` only. -/
def rbReaderOne : RoleBinding :=
  { Metadata := { Name := "read-secrets", Namespace := "ns1" },
    Subjects := [{ Kind := "ServiceAccount", Name := "sa1" }],
    RoleRef := { Kind := "Role", Name := "reader" } }

/-- A ClusterRoleBinding to `cluster-admin` whose only subject is a service account without
namespace. -/
def crbGhost : ClusterRoleBinding :=
  { Metadata := { Name := "ghosts" },
    Subjects := [{ Kind := "ServiceAccount", Name := "ghost" }],
    RoleRef := { Kind := "ClusterRole", Name := "cluster-admin" } }

/-- A cluster role with a wildcard rule, a rule that reads nodes and writes role bindings,
and a second wildcard rule. -/
def clusterRoleWide : ClusterRole :=
  { Metadata := { Name := "wide" },
    Rules := [{ APIGroups := [""], Resources := ["pods"], Verbs := ["*"] },
              { APIGroups := ["rbac.authorization.k8s.io"],
                Resources := ["nodes", "rolebindings"], Verbs := ["update"] },
              { APIGroups := ["*"], Resources := ["secrets"], Verbs := ["get"] }] }

/-- The namespace `kube-system`. -/
def nsKube : Namespace :=
  { Metadata := { Name := "kube-system",
                  Labels := some [("pod-security.kubernetes.io/enforce", "baseline")] } }

/-- A pod of `kube-system` with a privileged container. -/
def podKube : Pod :=
  { Metadata := { Name := "proxy", Namespace := "kube-system" },
    Spec := { AutomountServiceAccountToken := some false, Containers := [ctnRootPrivileged] } }

/-! ## Properties of `strings.EqualFold` -/

theorem SimpleFold_ascii_lt (b : Nat) (hb : b < 0x80) (h1 : b ≠ 0x6B) (h2 : b ≠ 0x73) :
    SimpleFold b < 0x80 := by
  unfold SimpleFold
  split_ifs <;> omega

theorem SimpleFold_upper (b : Nat) (h : 0x41 ≤ b ∧ b ≤ 0x5A) : SimpleFold b = b + 32 := by
  unfold SimpleFold
  split_ifs <;> omega

theorem SimpleFold_lower (b : Nat) (h : 0x61 ≤ b ∧ b ≤ 0x7A) (h2 : b ≠ 0x6B) (h4 : b ≠ 0x73) :
    SimpleFold b = b - 32 := by
  unfold SimpleFold
  split_ifs <;> omega

theorem SimpleFold_other (b : Nat) (hb : b < 0x80) (hu : ¬ (0x41 ≤ b ∧ b ≤ 0x5A))
    (hl : ¬ (0x61 ≤ b ∧ b ≤ 0x7A)) : SimpleFold b = b := by
  unfold SimpleFold
  split_ifs <;> omega

theorem SimpleFold_SimpleFold_ascii (b : Nat) (hb : b < 0x80)
    (h1 : b ≠ 0x4B) (h2 : b ≠ 0x6B) (h3 : b ≠ 0x53) (h4 : b ≠ 0x73) :
    SimpleFold (SimpleFold b) = b := by
  by_cases hu : 0x41 ≤ b ∧ b ≤ 0x5A
  · rw [SimpleFold_upper b hu, SimpleFold_lower (b + 32) (by omega) (by omega) (by omega)]
    omega
  · by_cases hl : 0x61 ≤ b ∧ b ≤ 0x7A
    · rw [SimpleFold_lower b hl h2 h4,
        SimpleFold_upper (b - 32) (by omega)]
      omega
    · rw [SimpleFold_other b hb hu hl, SimpleFold_other b hb hu hl]

/-- The bound of four iterations is never reached: the search is back at `sr` after at most
three steps, so more fuel gives the same result. -/
theorem foldSearch_fuel (sr tr n : Nat) :
    foldSearch sr tr (n + 4) (SimpleFold sr) = foldSearch sr tr 4 (SimpleFold sr) := by
  by_cases h1 : sr = 0x4B
  · subst h1; simp [foldSearch, SimpleFold]
  by_cases h2 : sr = 0x6B
  · subst h2; simp [foldSearch, SimpleFold]
  by_cases h3 : sr = 0x212A
  · subst h3; simp [foldSearch, SimpleFold]
  by_cases h4 : sr = 0x53
  · subst h4; simp [foldSearch, SimpleFold]
  by_cases h5 : sr = 0x73
  · subst h5; simp [foldSearch, SimpleFold]
  by_cases h6 : sr = 0x17F
  · subst h6; simp [foldSearch, SimpleFold]
  by_cases hu : 0x41 ≤ sr ∧ sr ≤ 0x5A
  · have hb : SimpleFold (sr + 32) = sr := by
      rw [SimpleFold_lower (sr + 32) (by omega) (by omega) (by omega)]; omega
    simp [foldSearch, SimpleFold_upper sr hu, hb]
  by_cases hl : 0x61 ≤ sr ∧ sr ≤ 0x7A
  · have hb : SimpleFold (sr - 32) = sr := by
      rw [SimpleFold_upper (sr - 32) (by omega)]; omega
    simp [foldSearch, SimpleFold_lower sr hl h2 h5, hb]
  · have hb : SimpleFold sr = sr := by
      unfold SimpleFold
      split_ifs
      omega
    simp [foldSearch, hb]

theorem foldSearch_ascii (a b : Nat) (ha : 0x80 ≤ a) (hb : b < 0x80)
    (h1 : b ≠ 0x4B) (h2 : b ≠ 0x6B) (h3 : b ≠ 0x53) (h4 : b ≠ 0x73) :
    foldSearch b a 4 (SimpleFold b) < 0x80 := by
  have hf := SimpleFold_ascii_lt b hb h2 h4
  have hff := SimpleFold_SimpleFold_ascii b hb h1 h2 h3 h4
  by_cases h : SimpleFold b = b
  · simp [foldSearch, h, hb]
  · have hlt : SimpleFold b < a := by omega
    simp [foldSearch, h, hlt, hff, hb]

/-- Against an ASCII rune other than `k`, `K`, `s`, `S`, the rune comparison of
`strings.EqualFold` is equality up to the case of ASCII letters. -/
theorem runeEqualFold_ascii (a b : Nat) (hb : b < 0x80)
    (h1 : b ≠ 0x4B) (h2 : b ≠ 0x6B) (h3 : b ≠ 0x53) (h4 : b ≠ 0x73) :
    runeEqualFold a b = true ↔ lowerRune a = lowerRune b := by
  by_cases ha : a < 0x80
  · unfold runeEqualFold lowerRune
    by_cases hab : b = a
    · simp [hab]
    · have hhi : (if b < a then a else b) < 0x80 := by split_ifs <;> omega
      simp only [hab, if_false, hhi, if_true, decide_eq_true_eq]
      split_ifs <;> omega
  · have hs := foldSearch_ascii a b (by omega) hb h1 h2 h3 h4
    have hab : ¬ b = a := by omega
    have hlt : b < a := by omega
    have hne : foldSearch b a 4 (SimpleFold b) ≠ a := by omega
    have hl : lowerRune a ≠ lowerRune b := by
      unfold lowerRune
      split_ifs <;> omega
    simp [runeEqualFold, hab, hlt, ha, hne, hl]

theorem equalFoldRunes_ascii (s t : List Nat) (ht : ∀ b ∈ t, plainASCII b) :
    equalFoldRunes s t = true ↔ s.map lowerRune = t.map lowerRune := by
  induction s generalizing t with
  | nil => cases t <;> simp [equalFoldRunes]
  | cons a s ih =>
    cases t with
    | nil => simp [equalFoldRunes]
    | cons b t =>
      obtain ⟨hb, h1, h2, h3, h4⟩ := ht b (by simp)
      have := ih t (fun c hc => ht c (by simp [hc]))
      simp [equalFoldRunes, runeEqualFold_ascii a b hb h1 h2 h3 h4, this]

/-- The test `strings.EqualFold(enforce, "privileged")` is equality up to letter case. -/
theorem EqualFold_privileged (v : String) :
    EqualFold v "privileged" = true ↔ eqIgnoreCase v "privileged" := by
  unfold EqualFold eqIgnoreCase
  exact equalFoldRunes_ascii _ _ (by decide)

/-! ## Properties of `DetectNamespacePSS` -/

theorem namespacePSSStep_append (out : List Finding) (ns : Namespace) :
    namespacePSSStep out ns = out ++ namespacePSSStep [] ns := by
  unfold namespacePSSStep
  dsimp only
  split_ifs <;> simp

theorem foldl_namespacePSSStep (nss : List Namespace) (out : List Finding) :
    nss.foldl namespacePSSStep out = out ++ DetectNamespacePSS nss := by
  unfold DetectNamespacePSS
  induction nss using List.reverseRecOn with
  | nil => simp
  | append_singleton nss ns ih =>
    rw [List.foldl_append, List.foldl_append, List.foldl_cons, List.foldl_nil, List.foldl_cons,
      List.foldl_nil, namespacePSSStep_append, ih,
      namespacePSSStep_append (List.foldl namespacePSSStep [] nss)]
    simp

/-- The findings of a namespace list are those of its namespaces, one after the other. -/
theorem DetectNamespacePSS_split (pre post : List Namespace) (ns : Namespace) :
    DetectNamespacePSS (pre ++ ns :: post)
      = DetectNamespacePSS pre ++ namespacePSSStep [] ns ++ DetectNamespacePSS post := by
  show List.foldl namespacePSSStep [] (pre ++ ns :: post) = _
  rw [List.foldl_append, List.foldl_cons, foldl_namespacePSSStep post, namespacePSSStep_append]
  rfl

theorem enforceLabel_eq (ns : Namespace) :
    enforceLabel ns
      = (lookupLabel ns.Metadata "pod-security.kubernetes.io/enforce").getD "" := by
  unfold enforceLabel lookupLabel
  cases ns.Metadata.Labels <;> rfl

theorem eqIgnoreCase_ne_empty (v : String) (h : eqIgnoreCase v "privileged") : v ≠ "" := by
  rintro rfl
  revert h
  decide

/-- C1: in the findings of a namespace list, the findings of one namespace form a segment
`fs` between those of the namespaces before it and those of the namespaces after it; `fs`
has at most one finding (never both), each attributed to `Namespace/<name>`; it is exactly
one MEDIUM `K8S-PSA-001` finding when the namespace has no enforce label, and exactly one
HIGH `K8S-PSA-002` finding when the enforce value is `privileged` in any letter case. -/
theorem DetectNamespacePSS_per_namespace (pre post : List Namespace) (ns : Namespace) :
    ∃ fs : List Finding,
      DetectNamespacePSS (pre ++ ns :: post)
        = DetectNamespacePSS pre ++ fs ++ DetectNamespacePSS post
      ∧ fs.length ≤ 1
      ∧ (∀ f ∈ fs, f.Resource = { Kind := "Namespace", Namespace := "", Name := ns.Metadata.Name })
      ∧ (lookupLabel ns.Metadata "pod-security.kubernetes.io/enforce" = none →
          ∃ f, fs = [f] ∧ f.CheckID = "K8S-PSA-001" ∧ f.Severity = SeverityMedium)
      ∧ (∀ v, lookupLabel ns.Metadata "pod-security.kubernetes.io/enforce" = some v →
          eqIgnoreCase v "privileged" →
          ∃ f, fs = [f] ∧ f.CheckID = "K8S-PSA-002" ∧ f.Severity = SeverityHigh) := by
  refine ⟨namespacePSSStep [] ns, DetectNamespacePSS_split pre post ns, ?_, ?_, ?_, ?_⟩
  · unfold namespacePSSStep
    dsimp only
    split_ifs <;> simp
  · intro f hf
    unfold namespacePSSStep at hf
    dsimp only at hf
    split_ifs at hf <;> simp at hf <;> subst hf <;> rfl
  · intro h
    have he : enforceLabel ns = "" := by rw [enforceLabel_eq, h]; rfl
    unfold namespacePSSStep
    simp only [he, if_true, List.nil_append]
    exact ⟨_, rfl, rfl, rfl⟩
  · intro v hv hp
    have he : enforceLabel ns = v := by rw [enforceLabel_eq, hv]; rfl
    have hne := eqIgnoreCase_ne_empty v hp
    have hf := (EqualFold_privileged v).mpr hp
    unfold namespacePSSStep
    simp only [he, hne, hf, if_true, if_false, List.nil_append]
    exact ⟨_, rfl, rfl, rfl⟩

/-- C2, as stated, fails: a namespace whose enforce label is present with the empty string
as its value (a value that is not `privileged` in any letter case) gets the finding
`K8S-PSA-001`. -/
theorem DetectNamespacePSS_empty_value_flagged :
    lookupLabel nsEmptyEnforce.Metadata "pod-security.kubernetes.io/enforce" = some ""
    ∧ ¬ eqIgnoreCase "" "privileged"
    ∧ (DetectNamespacePSS [nsEmptyEnforce]).map (fun f => (f.CheckID, f.Severity, f.Resource))
        = [("K8S-PSA-001", "MEDIUM", { Kind := "Namespace", Namespace := "", Name := "ns1" })] := by
  refine ⟨rfl, by decide, by decide⟩

/-- C2, amended: a namespace whose enforce label is present with a non-empty value that is
not `privileged` in any letter case contributes no finding. -/
theorem DetectNamespacePSS_other_value (pre post : List Namespace) (ns : Namespace) (v : String)
    (hv : lookupLabel ns.Metadata "pod-security.kubernetes.io/enforce" = some v)
    (hne : v ≠ "") (hp : ¬ eqIgnoreCase v "privileged") :
    DetectNamespacePSS (pre ++ ns :: post) = DetectNamespacePSS pre ++ DetectNamespacePSS post := by
  have he : enforceLabel ns = v := by rw [enforceLabel_eq, hv]; rfl
  have hf : EqualFold v "privileged" = false := by
    cases h : EqualFold v "privileged"
    · rfl
    · exact absurd ((EqualFold_privileged v).mp h) hp
  rw [DetectNamespacePSS_split]
  unfold namespacePSSStep
  simp [he, hne, hf]

theorem DetectNamespacePSS_other_value_witness :
    DetectNamespacePSS ([nsBare] ++ nsRestricted :: [nsPrivileged])
      = DetectNamespacePSS [nsBare] ++ DetectNamespacePSS [nsPrivileged] :=
  DetectNamespacePSS_other_value [nsBare] [nsPrivileged] nsRestricted "restricted"
    rfl (by decide) (by decide)

/-! ## The shape of the output of `DetectPodMisconfigs` -/

/-- A loop whose body only appends to `out` yields `out` followed by what each iteration
appends. -/
theorem foldl_appending {α : Type} (f : List Finding → α → List Finding)
    (hf : ∀ out x, f out x = out ++ f [] x) (xs : List α) (out : List Finding) :
    xs.foldl f out = out ++ xs.flatMap (f []) := by
  induction xs generalizing out with
  | nil => simp
  | cons x xs ih =>
    rw [List.foldl_cons, ih, hf out x]
    simp

theorem hostNamespaceStep_append (out : List Finding) (p : Pod) :
    hostNamespaceStep out p = out ++ hostNamespaceStep [] p := by
  unfold hostNamespaceStep
  dsimp only
  split_ifs <;> simp

theorem volumeStep_append (q : String → String) (ns name : String) (out : List Finding)
    (v : Volume) : volumeStep q ns name out v = out ++ volumeStep q ns name [] v := by
  unfold volumeStep
  cases v.HostPath <;> simp

theorem automountStep_append (out : List Finding) (p : Pod)
    (saIndex : List (String × ServiceAccount)) :
    automountStep out p saIndex = out ++ automountStep [] p saIndex := by
  unfold automountStep
  dsimp only
  split_ifs <;> simp

theorem privilegedStep_append (q : String → String) (ns name : String) (out : List Finding)
    (ctn : Container) :
    privilegedStep q ns name out ctn = out ++ privilegedStep q ns name [] ctn := by
  unfold privilegedStep
  split_ifs <;> simp

theorem runAsStep_append (q : String → String) (ns name : String) (d : PodDefaults)
    (out : List Finding) (ctn : Container) :
    runAsStep q ns name d out ctn = out ++ runAsStep q ns name d [] ctn := by
  unfold runAsStep
  split_ifs <;> simp

theorem seccompStep_append (q : String → String) (ns name : String) (d : PodDefaults)
    (out : List Finding) (ctn : Container) :
    seccompStep q ns name d out ctn = out ++ seccompStep q ns name d [] ctn := by
  unfold seccompStep
  dsimp only
  split_ifs <;> simp

theorem allowPrivilegeEscalationStep_append (q : String → String) (ns name : String)
    (out : List Finding) (ctn : Container) :
    allowPrivilegeEscalationStep q ns name out ctn
      = out ++ allowPrivilegeEscalationStep q ns name [] ctn := by
  unfold allowPrivilegeEscalationStep
  split_ifs <;> simp

theorem readOnlyRootFilesystemStep_append (q : String → String) (ns name : String)
    (out : List Finding) (ctn : Container) :
    readOnlyRootFilesystemStep q ns name out ctn
      = out ++ readOnlyRootFilesystemStep q ns name [] ctn := by
  unfold readOnlyRootFilesystemStep
  split_ifs <;> simp

theorem capabilitiesStep_append (q : String → String) (ns name : String) (out : List Finding)
    (ctn : Container) :
    capabilitiesStep q ns name out ctn = out ++ capabilitiesStep q ns name [] ctn := by
  unfold capabilitiesStep
  cases (ctn.SecurityContext.bind fun ctx => ctx.Capabilities) with
  | none => simp
  | some caps =>
    dsimp only
    split_ifs <;> simp

theorem envStep_append (q : String → String) (ns name : String) (ctn : Container)
    (out : List Finding) (ev : EnvVar) :
    envStep q ns name ctn out ev = out ++ envStep q ns name ctn [] ev := by
  unfold envStep
  cases (ev.ValueFrom.bind fun vf => vf.SecretKeyRef) <;> simp

theorem envFromStep_append (q : String → String) (ns name : String) (ctn : Container)
    (out : List Finding) (ef : EnvFromSource) :
    envFromStep q ns name ctn out ef = out ++ envFromStep q ns name ctn [] ef := by
  unfold envFromStep
  cases ef.SecretRef <;> simp

/-- What one iteration of the container loop appends, check by check. -/
theorem containerStep_nil (q : String → String) (ns name : String) (d : PodDefaults)
    (ctn : Container) :
    containerStep q ns name d [] ctn
      = privilegedStep q ns name [] ctn ++ runAsStep q ns name d [] ctn
        ++ seccompStep q ns name d [] ctn ++ allowPrivilegeEscalationStep q ns name [] ctn
        ++ readOnlyRootFilesystemStep q ns name [] ctn ++ capabilitiesStep q ns name [] ctn
        ++ ctn.Env.flatMap (envStep q ns name ctn [])
        ++ ctn.EnvFrom.flatMap (envFromStep q ns name ctn []) := by
  unfold containerStep
  dsimp only
  rw [foldl_appending _ (envFromStep_append q ns name ctn),
    foldl_appending _ (envStep_append q ns name ctn),
    capabilitiesStep_append, readOnlyRootFilesystemStep_append,
    allowPrivilegeEscalationStep_append, seccompStep_append, runAsStep_append]

theorem containerStep_append (q : String → String) (ns name : String) (d : PodDefaults)
    (out : List Finding) (ctn : Container) :
    containerStep q ns name d out ctn = out ++ containerStep q ns name d [] ctn := by
  rw [containerStep_nil]
  unfold containerStep
  dsimp only
  rw [foldl_appending _ (envFromStep_append q ns name ctn),
    foldl_appending _ (envStep_append q ns name ctn),
    capabilitiesStep_append, readOnlyRootFilesystemStep_append,
    allowPrivilegeEscalationStep_append, seccompStep_append, runAsStep_append,
    privilegedStep_append]
  simp only [List.append_assoc]

/-- What one iteration of the pod loop appends: the pod-level findings, then the findings
of the init containers and of the regular containers, in order. -/
theorem podStep_nil (q : String → String) (saIndex : List (String × ServiceAccount)) (p : Pod) :
    podStep q saIndex [] p
      = hostNamespaceStep [] p
        ++ p.Spec.Volumes.flatMap (volumeStep q p.Metadata.Namespace p.Metadata.Name [])
        ++ automountStep [] p saIndex
        ++ (p.Spec.InitContainers ++ p.Spec.Containers).flatMap (containerFindings q p) := by
  unfold podStep
  dsimp only
  rw [foldl_appending _ (containerStep_append q _ _ _), automountStep_append,
    foldl_appending _ (volumeStep_append q _ _)]
  simp only [List.nil_append]
  rfl

theorem podStep_append (q : String → String) (saIndex : List (String × ServiceAccount))
    (out : List Finding) (p : Pod) :
    podStep q saIndex out p = out ++ podStep q saIndex [] p := by
  rw [podStep_nil]
  unfold podStep
  dsimp only
  rw [foldl_appending _ (containerStep_append q _ _ _), automountStep_append,
    foldl_appending _ (volumeStep_append q _ _), hostNamespaceStep_append]
  simp only [List.nil_append, List.append_assoc]
  rfl

theorem DetectPodMisconfigs_eq_flatMap (q : String → String) (pods : List Pod)
    (saIndex : List (String × ServiceAccount)) :
    DetectPodMisconfigs q pods saIndex = pods.flatMap (podStep q saIndex []) := by
  unfold DetectPodMisconfigs
  rw [foldl_appending _ (podStep_append q saIndex)]
  simp

/-- The findings of a pod list are those of its pods, one pod after the other. -/
theorem DetectPodMisconfigs_split (q : String → String) (pre post : List Pod) (p : Pod)
    (saIndex : List (String × ServiceAccount)) :
    DetectPodMisconfigs q (pre ++ p :: post) saIndex
      = DetectPodMisconfigs q pre saIndex ++ DetectPodMisconfigs q [p] saIndex
        ++ DetectPodMisconfigs q post saIndex := by
  simp only [DetectPodMisconfigs_eq_flatMap]
  simp

/-- The findings of one container are a segment of the findings of its pod. -/
theorem DetectPodMisconfigs_container_segment (q : String → String) (pre post : List Pod)
    (p : Pod) (saIndex : List (String × ServiceAccount)) (cpre cpost : List Container)
    (ctn : Container) (h : p.Spec.InitContainers ++ p.Spec.Containers = cpre ++ ctn :: cpost) :
    DetectPodMisconfigs q (pre ++ p :: post) saIndex
      = (DetectPodMisconfigs q pre saIndex
          ++ hostNamespaceStep [] p
          ++ p.Spec.Volumes.flatMap (volumeStep q p.Metadata.Namespace p.Metadata.Name [])
          ++ automountStep [] p saIndex
          ++ cpre.flatMap (containerFindings q p))
        ++ containerFindings q p ctn
        ++ (cpost.flatMap (containerFindings q p) ++ DetectPodMisconfigs q post saIndex) := by
  rw [DetectPodMisconfigs_split, DetectPodMisconfigs_eq_flatMap q [p]]
  simp only [List.flatMap_cons, List.flatMap_nil, List.append_nil, podStep_nil, h,
    List.flatMap_append, List.append_assoc]

/-! ## Check IDs and resources of the pod findings -/

theorem withCheckID_append (id : String) (xs ys : List Finding) :
    withCheckID id (xs ++ ys) = withCheckID id xs ++ withCheckID id ys := by
  simp [withCheckID]

theorem withCheckID_eq_nil (id : String) (fs : List Finding)
    (h : ∀ f ∈ fs, f.CheckID ≠ id) : withCheckID id fs = [] := by
  unfold withCheckID
  rw [List.filter_eq_nil_iff]
  intro f hf
  simpa using h f hf

theorem withCheckID_eq_self (id : String) (fs : List Finding)
    (h : ∀ f ∈ fs, f.CheckID = id) : withCheckID id fs = fs := by
  unfold withCheckID
  rw [List.filter_eq_self]
  intro f hf
  simpa using h f hf

theorem mem_hostNamespaceStep (p : Pod) (f : Finding) (hf : f ∈ hostNamespaceStep [] p) :
    f.CheckID = "K8S-POD-003" ∧ f.Severity = SeverityHigh
      ∧ f.Resource = { Kind := "Pod", Namespace := p.Metadata.Namespace,
                       Name := p.Metadata.Name } := by
  unfold hostNamespaceStep at hf
  dsimp only at hf
  split_ifs at hf <;> simp at hf <;> subst hf <;> exact ⟨rfl, rfl, rfl⟩

theorem mem_volumeStep (q : String → String) (ns name : String) (v : Volume) (f : Finding)
    (hf : f ∈ volumeStep q ns name [] v) :
    f.CheckID = "K8S-POD-002" ∧ f.Severity = SeverityCritical
      ∧ f.Resource = { Kind := "Pod", Namespace := ns, Name := name } := by
  unfold volumeStep at hf
  cases h : v.HostPath <;> rw [h] at hf <;> simp at hf
  subst hf
  exact ⟨rfl, rfl, rfl⟩

theorem mem_automountStep (p : Pod) (saIndex : List (String × ServiceAccount)) (f : Finding)
    (hf : f ∈ automountStep [] p saIndex) :
    f.CheckID = "K8S-POD-008" ∧ f.Severity = SeverityMedium
      ∧ f.Resource = { Kind := "Pod", Namespace := p.Metadata.Namespace,
                       Name := p.Metadata.Name } := by
  unfold automountStep at hf
  dsimp only at hf
  split_ifs at hf <;> simp at hf
  subst hf
  exact ⟨rfl, rfl, rfl⟩

theorem mem_privilegedStep (q : String → String) (ns name : String) (ctn : Container)
    (f : Finding) (hf : f ∈ privilegedStep q ns name [] ctn) :
    f.CheckID = "K8S-POD-001" ∧ f.Severity = SeverityCritical
      ∧ f.Resource = { Kind := "Pod", Namespace := ns, Name := name } := by
  unfold privilegedStep at hf
  split_ifs at hf <;> simp at hf
  subst hf
  exact ⟨rfl, rfl, rfl⟩

theorem mem_runAsStep (q : String → String) (ns name : String) (d : PodDefaults)
    (ctn : Container) (f : Finding) (hf : f ∈ runAsStep q ns name d [] ctn) :
    f.CheckID = "K8S-POD-004" ∧ f.Severity = SeverityHigh
      ∧ f.Resource = { Kind := "Pod", Namespace := ns, Name := name } := by
  unfold runAsStep at hf
  split_ifs at hf <;> simp at hf <;> subst hf <;> exact ⟨rfl, rfl, rfl⟩

theorem mem_seccompStep (q : String → String) (ns name : String) (d : PodDefaults)
    (ctn : Container) (f : Finding) (hf : f ∈ seccompStep q ns name d [] ctn) :
    f.CheckID = "K8S-POD-005" ∧ f.Severity = SeverityMedium
      ∧ f.Resource = { Kind := "Pod", Namespace := ns, Name := name } := by
  unfold seccompStep at hf
  dsimp only at hf
  split_ifs at hf <;> simp at hf <;> subst hf <;> exact ⟨rfl, rfl, rfl⟩

theorem mem_allowPrivilegeEscalationStep (q : String → String) (ns name : String)
    (ctn : Container) (f : Finding)
    (hf : f ∈ allowPrivilegeEscalationStep q ns name [] ctn) :
    f.CheckID = "K8S-POD-006" ∧ f.Severity = SeverityHigh
      ∧ f.Resource = { Kind := "Pod", Namespace := ns, Name := name } := by
  unfold allowPrivilegeEscalationStep at hf
  split_ifs at hf <;> simp at hf
  subst hf
  exact ⟨rfl, rfl, rfl⟩

theorem mem_readOnlyRootFilesystemStep (q : String → String) (ns name : String)
    (ctn : Container) (f : Finding)
    (hf : f ∈ readOnlyRootFilesystemStep q ns name [] ctn) :
    f.CheckID = "K8S-POD-007" ∧ f.Severity = SeverityMedium
      ∧ f.Resource = { Kind := "Pod", Namespace := ns, Name := name } := by
  unfold readOnlyRootFilesystemStep at hf
  split_ifs at hf <;> simp at hf
  subst hf
  exact ⟨rfl, rfl, rfl⟩

theorem mem_capabilitiesStep (q : String → String) (ns name : String) (ctn : Container)
    (f : Finding) (hf : f ∈ capabilitiesStep q ns name [] ctn) :
    ((f.CheckID = "K8S-POD-010" ∧ f.Severity = SeverityMedium)
        ∨ (f.CheckID = "K8S-POD-011" ∧ f.Severity = SeverityLow))
      ∧ f.Resource = { Kind := "Pod", Namespace := ns, Name := name } := by
  unfold capabilitiesStep at hf
  cases h : (ctn.SecurityContext.bind fun ctx => ctx.Capabilities) with
  | none => rw [h] at hf; simp at hf
  | some caps =>
    rw [h] at hf
    dsimp only at hf
    split_ifs at hf <;> simp at hf
    · rcases hf with hf | hf <;> subst hf
      · exact ⟨Or.inl ⟨rfl, rfl⟩, rfl⟩
      · exact ⟨Or.inr ⟨rfl, rfl⟩, rfl⟩
    all_goals
      subst hf
      first
        | exact ⟨Or.inl ⟨rfl, rfl⟩, rfl⟩
        | exact ⟨Or.inr ⟨rfl, rfl⟩, rfl⟩

theorem mem_envStep (q : String → String) (ns name : String) (ctn : Container) (ev : EnvVar)
    (f : Finding) (hf : f ∈ envStep q ns name ctn [] ev) :
    f.CheckID = "K8S-POD-012" ∧ f.Severity = SeverityLow
      ∧ f.Resource = { Kind := "Pod", Namespace := ns, Name := name } := by
  unfold envStep at hf
  cases h : (ev.ValueFrom.bind fun vf => vf.SecretKeyRef) <;> rw [h] at hf <;> simp at hf
  subst hf
  exact ⟨rfl, rfl, rfl⟩

theorem mem_envFromStep (q : String → String) (ns name : String) (ctn : Container)
    (ef : EnvFromSource) (f : Finding) (hf : f ∈ envFromStep q ns name ctn [] ef) :
    f.CheckID = "K8S-POD-009" ∧ f.Severity = SeverityMedium
      ∧ f.Resource = { Kind := "Pod", Namespace := ns, Name := name } := by
  unfold envFromStep at hf
  cases h : ef.SecretRef <;> rw [h] at hf <;> simp at hf
  subst hf
  exact ⟨rfl, rfl, rfl⟩

theorem withCheckID_of_all (id x : String) (fs : List Finding)
    (h : ∀ f ∈ fs, f.CheckID = x) :
    withCheckID id fs = if id = x then fs else [] := by
  split_ifs with hid
  · subst hid
    exact withCheckID_eq_self _ fs h
  · exact withCheckID_eq_nil id fs (fun f hf => by rw [h f hf]; exact fun e => hid e.symm)

theorem withCheckID_flatMap_of_all {α : Type} (id x : String) (xs : List α)
    (g : α → List Finding) (h : ∀ a, ∀ f ∈ g a, f.CheckID = x) :
    withCheckID id (xs.flatMap g) = if id = x then xs.flatMap g else [] := by
  apply withCheckID_of_all
  intro f hf
  obtain ⟨a, _, hfa⟩ := List.mem_flatMap.mp hf
  exact h a f hfa

/-- The findings of one container with a check ID other than those of the capabilities
block, the `env` loop and the `envFrom` loop come from the step of that check. -/
theorem withCheckID_containerFindings (id : String) (q : String → String) (p : Pod)
    (ctn : Container) (h10 : id ≠ "K8S-POD-010") (h11 : id ≠ "K8S-POD-011")
    (h12 : id ≠ "K8S-POD-012") (h09 : id ≠ "K8S-POD-009") :
    withCheckID id (containerFindings q p ctn)
      = (if id = "K8S-POD-001"
          then privilegedStep q p.Metadata.Namespace p.Metadata.Name [] ctn else [])
        ++ (if id = "K8S-POD-004"
          then runAsStep q p.Metadata.Namespace p.Metadata.Name (podDefaults p) [] ctn else [])
        ++ (if id = "K8S-POD-005"
          then seccompStep q p.Metadata.Namespace p.Metadata.Name (podDefaults p) [] ctn
          else [])
        ++ (if id = "K8S-POD-006"
          then allowPrivilegeEscalationStep q p.Metadata.Namespace p.Metadata.Name [] ctn
          else [])
        ++ (if id = "K8S-POD-007"
          then readOnlyRootFilesystemStep q p.Metadata.Namespace p.Metadata.Name [] ctn
          else []) := by
  unfold containerFindings
  rw [containerStep_nil]
  simp only [withCheckID_append]
  rw [withCheckID_of_all id "K8S-POD-001" _ (fun f hf => (mem_privilegedStep _ _ _ _ f hf).1),
    withCheckID_of_all id "K8S-POD-004" _ (fun f hf => (mem_runAsStep _ _ _ _ _ f hf).1),
    withCheckID_of_all id "K8S-POD-005" _ (fun f hf => (mem_seccompStep _ _ _ _ _ f hf).1),
    withCheckID_of_all id "K8S-POD-006" _
      (fun f hf => (mem_allowPrivilegeEscalationStep _ _ _ _ f hf).1),
    withCheckID_of_all id "K8S-POD-007" _
      (fun f hf => (mem_readOnlyRootFilesystemStep _ _ _ _ f hf).1),
    withCheckID_flatMap_of_all id "K8S-POD-012" _ _
      (fun ev f hf => (mem_envStep _ _ _ _ ev f hf).1),
    withCheckID_flatMap_of_all id "K8S-POD-009" _ _
      (fun ef f hf => (mem_envFromStep _ _ _ _ ef f hf).1),
    withCheckID_eq_nil id (capabilitiesStep _ _ _ [] ctn) (fun f hf => by
      rcases (mem_capabilitiesStep _ _ _ _ f hf).1 with h | h
      · rw [h.1]; exact fun e => h10 e.symm
      · rw [h.1]; exact fun e => h11 e.symm)]
  simp [h12, h09]

/-- Every finding of a container carries one of the nine per-container check IDs and the
resource of its pod. -/
theorem mem_containerFindings (q : String → String) (p : Pod) (ctn : Container) (f : Finding)
    (hf : f ∈ containerFindings q p ctn) :
    f.CheckID ∈ ["K8S-POD-001", "K8S-POD-004", "K8S-POD-005", "K8S-POD-006", "K8S-POD-007",
        "K8S-POD-010", "K8S-POD-011", "K8S-POD-012", "K8S-POD-009"]
      ∧ f.Resource = { Kind := "Pod", Namespace := p.Metadata.Namespace,
                       Name := p.Metadata.Name } := by
  unfold containerFindings at hf
  rw [containerStep_nil] at hf
  simp only [List.mem_append, List.mem_flatMap] at hf
  rcases hf with ((((((h | h) | h) | h) | h) | h) | ⟨ev, _, h⟩) | ⟨ef, _, h⟩
  · have := mem_privilegedStep _ _ _ _ f h
    exact ⟨by rw [this.1]; decide, this.2.2⟩
  · have := mem_runAsStep _ _ _ _ _ f h
    exact ⟨by rw [this.1]; decide, this.2.2⟩
  · have := mem_seccompStep _ _ _ _ _ f h
    exact ⟨by rw [this.1]; decide, this.2.2⟩
  · have := mem_allowPrivilegeEscalationStep _ _ _ _ f h
    exact ⟨by rw [this.1]; decide, this.2.2⟩
  · have := mem_readOnlyRootFilesystemStep _ _ _ _ f h
    exact ⟨by rw [this.1]; decide, this.2.2⟩
  · have := mem_capabilitiesStep _ _ _ _ f h
    refine ⟨?_, this.2⟩
    rcases this.1 with h' | h' <;> rw [h'.1] <;> decide
  · have := mem_envStep _ _ _ _ ev f h
    exact ⟨by rw [this.1]; decide, this.2.2⟩
  · have := mem_envFromStep _ _ _ _ ef f h
    exact ⟨by rw [this.1]; decide, this.2.2⟩

/-- The findings of one pod with the check ID of a pod-level check come from the block of
that check. -/
theorem withCheckID_pod (id : String) (q : String → String) (p : Pod)
    (saIndex : List (String × ServiceAccount))
    (hid : id ∉ ["K8S-POD-001", "K8S-POD-004", "K8S-POD-005", "K8S-POD-006", "K8S-POD-007",
        "K8S-POD-010", "K8S-POD-011", "K8S-POD-012", "K8S-POD-009"]) :
    withCheckID id (DetectPodMisconfigs q [p] saIndex)
      = (if id = "K8S-POD-003" then hostNamespaceStep [] p else [])
        ++ (if id = "K8S-POD-002"
          then p.Spec.Volumes.flatMap (volumeStep q p.Metadata.Namespace p.Metadata.Name [])
          else [])
        ++ (if id = "K8S-POD-008" then automountStep [] p saIndex else []) := by
  rw [DetectPodMisconfigs_eq_flatMap]
  simp only [List.flatMap_cons, List.flatMap_nil, List.append_nil, podStep_nil,
    withCheckID_append]
  rw [withCheckID_of_all id "K8S-POD-003" _ (fun f hf => (mem_hostNamespaceStep _ f hf).1),
    withCheckID_flatMap_of_all id "K8S-POD-002" _ _
      (fun v f hf => (mem_volumeStep _ _ _ v f hf).1),
    withCheckID_of_all id "K8S-POD-008" _ (fun f hf => (mem_automountStep _ _ f hf).1),
    withCheckID_eq_nil id (List.flatMap _ _) (fun f hf => by
      obtain ⟨c, _, hfc⟩ := List.mem_flatMap.mp hf
      intro e
      exact hid (e ▸ (mem_containerFindings q p c f hfc).1))]
  simp

/-! ## Properties of `DetectPodMisconfigs` -/

theorem resolveAutomount_eq_spec (p : Pod) (saIndex : List (String × ServiceAccount)) :
    resolveAutomount p saIndex = specAutomount p saIndex := by
  unfold resolveAutomount specAutomount
  dsimp only
  cases p.Spec.AutomountServiceAccountToken with
  | some b => rfl
  | none =>
    dsimp only
    cases List.lookup (p.Metadata.Namespace ++ "/"
        ++ (if p.Spec.ServiceAccountName = "" then "default"
            else p.Spec.ServiceAccountName)) saIndex with
    | none => rfl
    | some sa => cases h : sa.AutomountServiceAccountToken <;> simp [h]

/-- C4: for every pod of the pod list and every container of it, init or regular, whose
`securityContext.privileged` is true, the findings contain a CRITICAL finding `K8S-POD-001`
attributed to the pod and naming the container, whatever the other fields of the container
and the pod, the other pods and the service-account index are. -/
theorem DetectPodMisconfigs_privileged (q : String → String) (pods : List Pod)
    (saIndex : List (String × ServiceAccount)) (p : Pod) (ctn : Container)
    (ctx : SecurityContext) (hp : p ∈ pods)
    (hc : ctn ∈ p.Spec.InitContainers ∨ ctn ∈ p.Spec.Containers)
    (hctx : ctn.SecurityContext = some ctx) (hpriv : ctx.Privileged = some true) :
    ∃ f ∈ DetectPodMisconfigs q pods saIndex,
      f.CheckID = "K8S-POD-001" ∧ f.Severity = SeverityCritical
      ∧ f.Resource = { Kind := "Pod", Namespace := p.Metadata.Namespace,
                       Name := p.Metadata.Name }
      ∧ f.Evidence = "container " ++ q ctn.Name ++ ": securityContext.privileged=true" := by
  obtain ⟨pre, post, rfl⟩ := List.append_of_mem hp
  obtain ⟨cpre, cpost, hsplit⟩ :=
    List.append_of_mem (List.mem_append.mpr hc)
  have hstep : privilegedStep q p.Metadata.Namespace p.Metadata.Name [] ctn
      = [{ CheckID := "K8S-POD-001",
           Severity := SeverityCritical,
           Resource := { Kind := "Pod", Namespace := p.Metadata.Namespace,
                         Name := p.Metadata.Name },
           Title := "Privileged контейнер",
           Evidence := "container " ++ q ctn.Name ++ ": securityContext.privileged=true",
           Risk := "Privileged контейнер имеет расширенный доступ к ядру и устройствам узла",
           Recommendation :=
             "Убрать privileged. Использовать минимальные capabilities и PSA/Policy" }] := by
    unfold privilegedStep
    simp [hctx, hpriv]
  have hmem : ∀ f, privilegedStep q p.Metadata.Namespace p.Metadata.Name [] ctn = [f] →
      f ∈ DetectPodMisconfigs q (pre ++ p :: post) saIndex := by
    intro f hf
    rw [DetectPodMisconfigs_container_segment q pre post p saIndex cpre cpost ctn hsplit]
    unfold containerFindings
    rw [containerStep_nil, hf]
    simp
  exact ⟨_, hmem _ hstep, rfl, rfl, rfl, rfl⟩

theorem DetectPodMisconfigs_privileged_witness :
    ∃ f ∈ DetectPodMisconfigs quotePlain [podP1, podHost] saIndexSample,
      f.CheckID = "K8S-POD-001" ∧ f.Severity = SeverityCritical
      ∧ f.Resource = { Kind := "Pod", Namespace := "ns1", Name := "p2" }
      ∧ f.Evidence = "container " ++ quotePlain "c1" ++ ": securityContext.privileged=true" :=
  DetectPodMisconfigs_privileged quotePlain [podP1, podHost] saIndexSample podHost
    ctnRootPrivileged { Privileged := some true, RunAsUser := some 0, Capabilities := some {} }
    (by decide) (Or.inr (by decide)) rfl rfl

/-- C6: the findings of one pod (the segment of the output between the findings of the
pods before it and of the pods after it) hold exactly one finding `K8S-POD-003` if one of
`hostNetwork`, `hostPID`, `hostIPC` is true and none otherwise; that finding is HIGH and its
evidence is `spec.` followed by the names of the flags that are set, in the order
hostNetwork, hostPID, hostIPC, joined by `, `, followed by `=true`. For hostNetwork and
hostIPC set and hostPID not set the evidence is `spec.hostNetwork, hostIPC=true`. -/
theorem DetectPodMisconfigs_hostNamespace (q : String → String) (pre post : List Pod) (p : Pod)
    (saIndex : List (String × ServiceAccount)) :
    DetectPodMisconfigs q (pre ++ p :: post) saIndex
        = DetectPodMisconfigs q pre saIndex ++ DetectPodMisconfigs q [p] saIndex
          ++ DetectPodMisconfigs q post saIndex
    ∧ ((p.Spec.HostNetwork = true ∨ p.Spec.HostPID = true ∨ p.Spec.HostIPC = true) →
        ∃ f, withCheckID "K8S-POD-003" (DetectPodMisconfigs q [p] saIndex) = [f]
          ∧ f.Severity = SeverityHigh
          ∧ f.Resource = { Kind := "Pod", Namespace := p.Metadata.Namespace,
                           Name := p.Metadata.Name }
          ∧ f.Evidence = "spec." ++ ", ".intercalate
              ((if p.Spec.HostNetwork then ["hostNetwork"] else [])
                ++ (if p.Spec.HostPID then ["hostPID"] else [])
                ++ (if p.Spec.HostIPC then ["hostIPC"] else [])) ++ "=true")
    ∧ (¬ (p.Spec.HostNetwork = true ∨ p.Spec.HostPID = true ∨ p.Spec.HostIPC = true) →
        withCheckID "K8S-POD-003" (DetectPodMisconfigs q [p] saIndex) = [])
    ∧ (p.Spec.HostNetwork = true → p.Spec.HostPID = false → p.Spec.HostIPC = true →
        (withCheckID "K8S-POD-003" (DetectPodMisconfigs q [p] saIndex)).map (fun f => f.Evidence)
          = ["spec.hostNetwork, hostIPC=true"]) := by
  have hw : withCheckID "K8S-POD-003" (DetectPodMisconfigs q [p] saIndex)
      = hostNamespaceStep [] p := by
    rw [withCheckID_pod _ _ _ _ (by decide)]
    simp
  rw [hw]
  refine ⟨DetectPodMisconfigs_split q pre post p saIndex, ?_, ?_, ?_⟩
  · intro h
    have hc : (p.Spec.HostNetwork || p.Spec.HostPID || p.Spec.HostIPC) = true := by
      simpa [or_assoc] using h
    unfold hostNamespaceStep
    simp only [hc, if_true, List.nil_append]
    refine ⟨_, rfl, rfl, rfl, ?_⟩
    cases p.Spec.HostNetwork <;> cases p.Spec.HostPID <;> cases p.Spec.HostIPC <;> rfl
  · intro h
    have hc : ¬ (p.Spec.HostNetwork || p.Spec.HostPID || p.Spec.HostIPC) = true := by
      simpa [or_assoc] using h
    unfold hostNamespaceStep
    dsimp only
    rw [if_neg hc]
  · intro h1 h2 h3
    unfold hostNamespaceStep
    rw [h1, h2, h3]
    rfl

/-- C7: the findings of one pod hold exactly one finding `K8S-POD-008`, of severity MEDIUM,
if the resolved automount value is true and none otherwise, however many containers the
pod has. The resolved value (`specAutomount`) is the `automountServiceAccountToken` of the
pod spec if set; else that of the service account indexed under
`<pod namespace>/<serviceAccountName>`, an empty name read as `default`, if the account
exists and sets it; else true. -/
theorem DetectPodMisconfigs_automount (q : String → String) (pre post : List Pod) (p : Pod)
    (saIndex : List (String × ServiceAccount)) :
    DetectPodMisconfigs q (pre ++ p :: post) saIndex
        = DetectPodMisconfigs q pre saIndex ++ DetectPodMisconfigs q [p] saIndex
          ++ DetectPodMisconfigs q post saIndex
    ∧ (withCheckID "K8S-POD-008" (DetectPodMisconfigs q [p] saIndex)).length
        = (if specAutomount p saIndex then 1 else 0)
    ∧ ∀ f ∈ withCheckID "K8S-POD-008" (DetectPodMisconfigs q [p] saIndex),
        f.Severity = SeverityMedium
        ∧ f.Resource = { Kind := "Pod", Namespace := p.Metadata.Namespace,
                         Name := p.Metadata.Name } := by
  have hw : withCheckID "K8S-POD-008" (DetectPodMisconfigs q [p] saIndex)
      = automountStep [] p saIndex := by
    rw [withCheckID_pod _ _ _ _ (by decide)]
    simp
  rw [hw]
  refine ⟨DetectPodMisconfigs_split q pre post p saIndex, ?_, ?_⟩
  · have hr := resolveAutomount_eq_spec p saIndex
    rw [← hr]
    unfold automountStep
    dsimp only
    split_ifs <;> rfl
  · intro f hf
    exact (mem_automountStep p saIndex f hf).2

theorem effRunAsUser_eq_spec (p : Pod) (ctn : Container) :
    effRunAsUser (podDefaults p) ctn = specEffRunAsUser p ctn := by
  unfold effRunAsUser specEffRunAsUser podDefaults
  cases ctn.SecurityContext with
  | none => cases p.Spec.SecurityContext <;> rfl
  | some ctx =>
    cases h : ctx.RunAsUser <;> cases p.Spec.SecurityContext <;> simp [h]

theorem effRunAsNonRoot_eq_spec (p : Pod) (ctn : Container) :
    effRunAsNonRoot (podDefaults p) ctn = specEffRunAsNonRoot p ctn := by
  unfold effRunAsNonRoot specEffRunAsNonRoot podDefaults
  cases ctn.SecurityContext with
  | none => cases p.Spec.SecurityContext <;> rfl
  | some ctx =>
    cases h : ctx.RunAsNonRoot <;> cases p.Spec.SecurityContext <;> simp [h]

theorem effSeccomp_eq_spec (p : Pod) (ctn : Container) :
    effSeccomp (podDefaults p) ctn = specEffSeccomp p ctn := by
  unfold effSeccomp specEffSeccomp podDefaults
  cases ctn.SecurityContext with
  | none => cases p.Spec.SecurityContext <;> rfl
  | some ctx =>
    cases h : ctx.SeccompProfile <;> cases p.Spec.SecurityContext <;> simp [h]

/-- The test `strings.EqualFold(effSeccomp.Type, "Unconfined")` is equality up to letter
case. -/
theorem EqualFold_unconfined (v : String) :
    EqualFold v "Unconfined" = true ↔ eqIgnoreCase v "Unconfined" := by
  unfold EqualFold eqIgnoreCase
  exact equalFoldRunes_ascii _ _ (by decide)

/-- C8: the findings of a container are a segment of the findings of the pod list. With
effective `runAsUser` and `runAsNonRoot` the container's value if set, else the pod-level
value: if effective `runAsUser` is 0 the container has exactly one finding `K8S-POD-004`,
HIGH, with evidence `runAsUser=0`; otherwise, if effective `runAsNonRoot` is set and false,
exactly one, HIGH, with evidence `runAsNonRoot=false`; otherwise none. So a container never
has two findings `K8S-POD-004`. -/
theorem DetectPodMisconfigs_runAs (q : String → String) (pre post : List Pod) (p : Pod)
    (saIndex : List (String × ServiceAccount)) (cpre cpost : List Container) (ctn : Container)
    (h : p.Spec.InitContainers ++ p.Spec.Containers = cpre ++ ctn :: cpost) :
    (∃ before after, DetectPodMisconfigs q (pre ++ p :: post) saIndex
        = before ++ containerFindings q p ctn ++ after)
    ∧ (specEffRunAsUser p ctn = some 0 →
        ∃ f, withCheckID "K8S-POD-004" (containerFindings q p ctn) = [f]
          ∧ f.Severity = SeverityHigh
          ∧ f.Evidence = "container " ++ q ctn.Name ++ ": runAsUser=0")
    ∧ (specEffRunAsUser p ctn ≠ some 0 → specEffRunAsNonRoot p ctn = some false →
        ∃ f, withCheckID "K8S-POD-004" (containerFindings q p ctn) = [f]
          ∧ f.Severity = SeverityHigh
          ∧ f.Evidence = "container " ++ q ctn.Name ++ ": runAsNonRoot=false")
    ∧ (specEffRunAsUser p ctn ≠ some 0 → specEffRunAsNonRoot p ctn ≠ some false →
        withCheckID "K8S-POD-004" (containerFindings q p ctn) = [])
    ∧ (withCheckID "K8S-POD-004" (containerFindings q p ctn)).length ≤ 1 := by
  have hw : withCheckID "K8S-POD-004" (containerFindings q p ctn)
      = runAsStep q p.Metadata.Namespace p.Metadata.Name (podDefaults p) [] ctn := by
    rw [withCheckID_containerFindings _ _ _ _ (by decide) (by decide) (by decide) (by decide)]
    simp
  rw [hw]
  unfold runAsStep
  rw [effRunAsUser_eq_spec, effRunAsNonRoot_eq_spec]
  refine ⟨⟨_, _, DetectPodMisconfigs_container_segment q pre post p saIndex cpre cpost ctn h⟩,
    ?_, ?_, ?_, ?_⟩
  · intro hu
    rw [if_pos hu]
    exact ⟨_, rfl, rfl, rfl⟩
  · intro hu hn
    rw [if_neg hu, if_pos hn]
    exact ⟨_, rfl, rfl, rfl⟩
  · intro hu hn
    rw [if_neg hu, if_neg hn]
  · split_ifs <;> simp

theorem DetectPodMisconfigs_runAs_witness :
    (∃ before after, DetectPodMisconfigs quotePlain ([podP1] ++ podHost :: []) saIndexSample
        = before ++ containerFindings quotePlain podHost ctnOverride ++ after)
    ∧ (specEffRunAsUser podHost ctnOverride = some 0 →
        ∃ f, withCheckID "K8S-POD-004" (containerFindings quotePlain podHost ctnOverride) = [f]
          ∧ f.Severity = SeverityHigh
          ∧ f.Evidence = "container " ++ quotePlain ctnOverride.Name ++ ": runAsUser=0")
    ∧ (specEffRunAsUser podHost ctnOverride ≠ some 0 →
        specEffRunAsNonRoot podHost ctnOverride = some false →
        ∃ f, withCheckID "K8S-POD-004" (containerFindings quotePlain podHost ctnOverride) = [f]
          ∧ f.Severity = SeverityHigh
          ∧ f.Evidence = "container " ++ quotePlain ctnOverride.Name ++ ": runAsNonRoot=false")
    ∧ (specEffRunAsUser podHost ctnOverride ≠ some 0 →
        specEffRunAsNonRoot podHost ctnOverride ≠ some false →
        withCheckID "K8S-POD-004" (containerFindings quotePlain podHost ctnOverride) = [])
    ∧ (withCheckID "K8S-POD-004" (containerFindings quotePlain podHost ctnOverride)).length ≤ 1 :=
  DetectPodMisconfigs_runAs quotePlain [podP1] [] podHost saIndexSample [ctnBare]
    [ctnRootPrivileged] ctnOverride (by decide)

/-- No string ends both in `seccompProfile not set` and in
`seccompProfile.type=Unconfined`. -/
theorem seccomp_evidence_distinct (a b : String) :
    a ++ "seccompProfile not set" ≠ b ++ "seccompProfile.type=Unconfined" := by
  intro h
  have hd := congrArg (fun s : String => s.data.getLast?) h
  simp only [String.data_append] at hd
  rw [List.getLast?_append_of_ne_nil _ (by decide),
    List.getLast?_append_of_ne_nil _ (by decide)] at hd
  revert hd
  decide

/-- C9: the findings of a container are a segment of the findings of the pod list. With the
effective seccomp profile the container's profile if set, else the pod-level profile: if
the effective profile is absent the container has exactly one finding `K8S-POD-005`,
MEDIUM, whose evidence ends in `seccompProfile not set`; if it is present with a type equal
to `Unconfined` in any letter case, exactly one, MEDIUM, whose evidence ends in
`seccompProfile.type=Unconfined`; if it is present with another type, none. The two
endings exclude each other. A container-level profile `RuntimeDefault` gives no finding,
whatever the pod-level profile is. -/
theorem DetectPodMisconfigs_seccomp (q : String → String) (pre post : List Pod) (p : Pod)
    (saIndex : List (String × ServiceAccount)) (cpre cpost : List Container) (ctn : Container)
    (h : p.Spec.InitContainers ++ p.Spec.Containers = cpre ++ ctn :: cpost) :
    (∃ before after, DetectPodMisconfigs q (pre ++ p :: post) saIndex
        = before ++ containerFindings q p ctn ++ after)
    ∧ (specEffSeccomp p ctn = none →
        ∃ f, withCheckID "K8S-POD-005" (containerFindings q p ctn) = [f]
          ∧ f.Severity = SeverityMedium
          ∧ f.Evidence = "container " ++ q ctn.Name ++ ": " ++ "seccompProfile not set")
    ∧ (∀ sp, specEffSeccomp p ctn = some sp → eqIgnoreCase sp.Type_ "Unconfined" →
        ∃ f, withCheckID "K8S-POD-005" (containerFindings q p ctn) = [f]
          ∧ f.Severity = SeverityMedium
          ∧ f.Evidence
              = "container " ++ q ctn.Name ++ ": " ++ "seccompProfile.type=Unconfined")
    ∧ (∀ sp, specEffSeccomp p ctn = some sp → ¬ eqIgnoreCase sp.Type_ "Unconfined" →
        withCheckID "K8S-POD-005" (containerFindings q p ctn) = [])
    ∧ (∀ a b : String, a ++ "seccompProfile not set" ≠ b ++ "seccompProfile.type=Unconfined")
    ∧ (∀ ctx, ctn.SecurityContext = some ctx →
        ctx.SeccompProfile = some { Type_ := "RuntimeDefault" } →
        withCheckID "K8S-POD-005" (containerFindings q p ctn) = []) := by
  have hw : withCheckID "K8S-POD-005" (containerFindings q p ctn)
      = seccompStep q p.Metadata.Namespace p.Metadata.Name (podDefaults p) [] ctn := by
    rw [withCheckID_containerFindings _ _ _ _ (by decide) (by decide) (by decide) (by decide)]
    simp
  rw [hw]
  unfold seccompStep
  rw [effSeccomp_eq_spec]
  have hother : ∀ sp, specEffSeccomp p ctn = some sp → ¬ eqIgnoreCase sp.Type_ "Unconfined" →
      (let eff := specEffSeccomp p ctn
       if (match eff with
          | none => true
          | some sp => EqualFold sp.Type_ "Unconfined") = true then
        let ev := "seccompProfile not set"
        let ev := if eff ≠ none then "seccompProfile.type=Unconfined" else ev
        ([] : List Finding) ++ [{
          CheckID := "K8S-POD-005",
          Severity := SeverityMedium,
          Resource := { Kind := "Pod", Namespace := p.Metadata.Namespace,
                        Name := p.Metadata.Name },
          Title := "Seccomp профиль не установлен",
          Evidence := "container " ++ q ctn.Name ++ ": " ++ ev,
          Risk := "Отсутствие seccomp расширяет набор доступных syscalls",
          Recommendation := "Использовать RuntimeDefault или Localhost профиль" }]
      else []) = [] := by
    intro sp hsp hne
    have hf : ¬ EqualFold sp.Type_ "Unconfined" = true :=
      fun e => hne ((EqualFold_unconfined _).mp e)
    simp [hsp, hf]
  refine ⟨⟨_, _, DetectPodMisconfigs_container_segment q pre post p saIndex cpre cpost ctn h⟩,
    ?_, ?_, hother, seccomp_evidence_distinct, ?_⟩
  · intro hn
    simp only [hn, if_true, List.nil_append, ne_eq, not_true_eq_false, if_false]
    exact ⟨_, rfl, rfl, rfl⟩
  · intro sp hsp hu
    have hf := (EqualFold_unconfined _).mpr hu
    simp only [hsp, hf, if_true, List.nil_append, ne_eq, reduceCtorEq, not_false_eq_true]
    exact ⟨_, rfl, rfl, rfl⟩
  · intro ctx hctx hrd
    apply hother { Type_ := "RuntimeDefault" }
    · unfold specEffSeccomp
      simp [hctx, hrd]
    · decide

theorem DetectPodMisconfigs_seccomp_witness :
    (∃ before after, DetectPodMisconfigs quotePlain ([podP1] ++ podHost :: []) saIndexSample
        = before ++ containerFindings quotePlain podHost ctnOverride ++ after)
    ∧ (specEffSeccomp podHost ctnOverride = none →
        ∃ f, withCheckID "K8S-POD-005" (containerFindings quotePlain podHost ctnOverride) = [f]
          ∧ f.Severity = SeverityMedium
          ∧ f.Evidence
              = "container " ++ quotePlain ctnOverride.Name ++ ": " ++ "seccompProfile not set")
    ∧ (∀ sp, specEffSeccomp podHost ctnOverride = some sp →
        eqIgnoreCase sp.Type_ "Unconfined" →
        ∃ f, withCheckID "K8S-POD-005" (containerFindings quotePlain podHost ctnOverride) = [f]
          ∧ f.Severity = SeverityMedium
          ∧ f.Evidence = "container " ++ quotePlain ctnOverride.Name ++ ": "
              ++ "seccompProfile.type=Unconfined")
    ∧ (∀ sp, specEffSeccomp podHost ctnOverride = some sp →
        ¬ eqIgnoreCase sp.Type_ "Unconfined" →
        withCheckID "K8S-POD-005" (containerFindings quotePlain podHost ctnOverride) = [])
    ∧ (∀ a b : String, a ++ "seccompProfile not set" ≠ b ++ "seccompProfile.type=Unconfined")
    ∧ (∀ ctx, ctnOverride.SecurityContext = some ctx →
        ctx.SeccompProfile = some { Type_ := "RuntimeDefault" } →
        withCheckID "K8S-POD-005" (containerFindings quotePlain podHost ctnOverride) = []) :=
  DetectPodMisconfigs_seccomp quotePlain [podP1] [] podHost saIndexSample [ctnBare]
    [ctnRootPrivileged] ctnOverride (by decide)

/-- C10: the findings of a container are a segment of the findings of the pod list. The
container has exactly one finding `K8S-POD-007`, MEDIUM, if its securityContext is present
and `readOnlyRootFilesystem` is set to false in it; it has none if the securityContext is
absent, if the field is absent, or if the field is true. -/
theorem DetectPodMisconfigs_readOnlyRootFilesystem (q : String → String) (pre post : List Pod)
    (p : Pod) (saIndex : List (String × ServiceAccount)) (cpre cpost : List Container)
    (ctn : Container) (h : p.Spec.InitContainers ++ p.Spec.Containers = cpre ++ ctn :: cpost) :
    (∃ before after, DetectPodMisconfigs q (pre ++ p :: post) saIndex
        = before ++ containerFindings q p ctn ++ after)
    ∧ (∀ ctx, ctn.SecurityContext = some ctx → ctx.ReadOnlyRootFilesystem = some false →
        ∃ f, withCheckID "K8S-POD-007" (containerFindings q p ctn) = [f]
          ∧ f.Severity = SeverityMedium
          ∧ f.Evidence = "container " ++ q ctn.Name ++ ": readOnlyRootFilesystem=false")
    ∧ (ctn.SecurityContext = none →
        withCheckID "K8S-POD-007" (containerFindings q p ctn) = [])
    ∧ (∀ ctx, ctn.SecurityContext = some ctx → ctx.ReadOnlyRootFilesystem = none →
        withCheckID "K8S-POD-007" (containerFindings q p ctn) = [])
    ∧ (∀ ctx, ctn.SecurityContext = some ctx → ctx.ReadOnlyRootFilesystem = some true →
        withCheckID "K8S-POD-007" (containerFindings q p ctn) = []) := by
  have hw : withCheckID "K8S-POD-007" (containerFindings q p ctn)
      = readOnlyRootFilesystemStep q p.Metadata.Namespace p.Metadata.Name [] ctn := by
    rw [withCheckID_containerFindings _ _ _ _ (by decide) (by decide) (by decide) (by decide)]
    simp
  rw [hw]
  unfold readOnlyRootFilesystemStep
  refine ⟨⟨_, _, DetectPodMisconfigs_container_segment q pre post p saIndex cpre cpost ctn h⟩,
    ?_, ?_, ?_, ?_⟩
  · intro ctx hctx hro
    simp only [hctx, hro, Option.some_bind, if_true, List.nil_append]
    exact ⟨_, rfl, rfl, rfl⟩
  · intro hctx
    simp [hctx]
  · intro ctx hctx hro
    simp [hctx, hro]
  · intro ctx hctx hro
    simp [hctx, hro]

theorem DetectPodMisconfigs_readOnlyRootFilesystem_witness :
    (∃ before after, DetectPodMisconfigs quotePlain ([podP1] ++ podHost :: []) saIndexSample
        = before ++ containerFindings quotePlain podHost ctnOverride ++ after)
    ∧ (∀ ctx, ctnOverride.SecurityContext = some ctx →
        ctx.ReadOnlyRootFilesystem = some false →
        ∃ f, withCheckID "K8S-POD-007" (containerFindings quotePlain podHost ctnOverride) = [f]
          ∧ f.Severity = SeverityMedium
          ∧ f.Evidence
              = "container " ++ quotePlain ctnOverride.Name ++ ": readOnlyRootFilesystem=false")
    ∧ (ctnOverride.SecurityContext = none →
        withCheckID "K8S-POD-007" (containerFindings quotePlain podHost ctnOverride) = [])
    ∧ (∀ ctx, ctnOverride.SecurityContext = some ctx → ctx.ReadOnlyRootFilesystem = none →
        withCheckID "K8S-POD-007" (containerFindings quotePlain podHost ctnOverride) = [])
    ∧ (∀ ctx, ctnOverride.SecurityContext = some ctx →
        ctx.ReadOnlyRootFilesystem = some true →
        withCheckID "K8S-POD-007" (containerFindings quotePlain podHost ctnOverride) = []) :=
  DetectPodMisconfigs_readOnlyRootFilesystem quotePlain [podP1] [] podHost saIndexSample
    [ctnBare] [ctnRootPrivileged] ctnOverride (by decide)

/-- C3, as stated, fails: the pod `p1` of namespace `ns1` with one container that has
`privileged=true`, `runAsUser=0`, no seccomp profile and no `capabilities.drop`, and with
nothing else set, gets five findings, not four: the automount of the service-account token
is on by default, so the pod also gets the MEDIUM finding `K8S-POD-008`. (When the
securityContext of the container has no capabilities block at all, the findings are four,
but `K8S-POD-008` is among them and `K8S-POD-011` is not.) -/
theorem scenario_default_automount_findings :
    (ctnRootPrivileged.SecurityContext.bind fun c => c.Privileged) = some true
    ∧ (ctnRootPrivileged.SecurityContext.bind fun c => c.RunAsUser) = some 0
    ∧ specEffSeccomp podP1Default ctnRootPrivileged = none
    ∧ ((ctnRootPrivileged.SecurityContext.bind fun c => c.Capabilities).map fun c => c.Drop)
        = some []
    ∧ podP1Default.Spec.InitContainers ++ podP1Default.Spec.Containers = [ctnRootPrivileged]
    ∧ (DetectPodMisconfigs quotePlain [podP1Default] []).map
          (fun f => (f.CheckID, f.Severity, f.Resource))
        = [("K8S-POD-008", "MEDIUM", { Kind := "Pod", Namespace := "ns1", Name := "p1" }),
           ("K8S-POD-001", "CRITICAL", { Kind := "Pod", Namespace := "ns1", Name := "p1" }),
           ("K8S-POD-004", "HIGH", { Kind := "Pod", Namespace := "ns1", Name := "p1" }),
           ("K8S-POD-005", "MEDIUM", { Kind := "Pod", Namespace := "ns1", Name := "p1" }),
           ("K8S-POD-011", "LOW", { Kind := "Pod", Namespace := "ns1", Name := "p1" })]
    ∧ (DetectPodMisconfigs quotePlain [podP1NoCaps] []).map (fun f => (f.CheckID, f.Severity))
        = [("K8S-POD-008", "MEDIUM"), ("K8S-POD-001", "CRITICAL"), ("K8S-POD-004", "HIGH"),
           ("K8S-POD-005", "MEDIUM")] := by
  decide

/-- C3, amended: take a pod with no host-namespace flag, no hostPath volume and no pod-level
seccomp profile, whose only container has a securityContext with `privileged=true`,
`runAsUser=0`, no seccomp profile, a capabilities block with neither `add` nor `drop`,
`allowPrivilegeEscalation` not true and `readOnlyRootFilesystem` not false, and no
environment taken from a secret. Its findings are the four findings CRITICAL `K8S-POD-001`,
HIGH `K8S-POD-004`, MEDIUM `K8S-POD-005`, LOW `K8S-POD-011`, in this order, and nothing else
if the automount of the token resolves to false; they are preceded by one MEDIUM finding
`K8S-POD-008` if it resolves to true. Every finding is attributed to the pod. -/
theorem DetectPodMisconfigs_scenario (q : String → String)
    (saIndex : List (String × ServiceAccount)) (p : Pod) (ctn : Container)
    (ctx : SecurityContext) (caps : Capabilities)
    (hnet : p.Spec.HostNetwork = false) (hpid : p.Spec.HostPID = false)
    (hipc : p.Spec.HostIPC = false) (hvol : ∀ v ∈ p.Spec.Volumes, v.HostPath = none)
    (hpod : (p.Spec.SecurityContext.bind fun c => c.SeccompProfile) = none)
    (hinit : p.Spec.InitContainers = []) (hctns : p.Spec.Containers = [ctn])
    (hctx : ctn.SecurityContext = some ctx) (hpriv : ctx.Privileged = some true)
    (huser : ctx.RunAsUser = some 0) (hsec : ctx.SeccompProfile = none)
    (hape : ctx.AllowPrivilegeEscalation ≠ some true)
    (hro : ctx.ReadOnlyRootFilesystem ≠ some false)
    (hcaps : ctx.Capabilities = some caps) (hadd : caps.Add = []) (hdrop : caps.Drop = [])
    (henv : ∀ ev ∈ ctn.Env, (ev.ValueFrom.bind fun vf => vf.SecretKeyRef) = none)
    (henvFrom : ∀ ef ∈ ctn.EnvFrom, ef.SecretRef = none) :
    ∃ f1 f2 f3 f4 : Finding,
      (f1.CheckID = "K8S-POD-001" ∧ f1.Severity = SeverityCritical)
      ∧ (f2.CheckID = "K8S-POD-004" ∧ f2.Severity = SeverityHigh)
      ∧ (f3.CheckID = "K8S-POD-005" ∧ f3.Severity = SeverityMedium)
      ∧ (f4.CheckID = "K8S-POD-011" ∧ f4.Severity = SeverityLow)
      ∧ (specAutomount p saIndex = false →
          DetectPodMisconfigs q [p] saIndex = [f1, f2, f3, f4])
      ∧ (specAutomount p saIndex = true →
          ∃ f0 : Finding, f0.CheckID = "K8S-POD-008" ∧ f0.Severity = SeverityMedium
            ∧ DetectPodMisconfigs q [p] saIndex = [f0, f1, f2, f3, f4])
      ∧ ∀ f ∈ DetectPodMisconfigs q [p] saIndex,
          f.Resource = { Kind := "Pod", Namespace := p.Metadata.Namespace,
                         Name := p.Metadata.Name } := by
  have hhost : hostNamespaceStep [] p = [] := by
    unfold hostNamespaceStep
    simp [hnet, hpid, hipc]
  have hvols : p.Spec.Volumes.flatMap
      (volumeStep q p.Metadata.Namespace p.Metadata.Name []) = [] := by
    rw [List.flatMap_eq_nil_iff]
    intro v hv
    unfold volumeStep
    rw [hvol v hv]
  have henvs : ctn.Env.flatMap
      (envStep q p.Metadata.Namespace p.Metadata.Name ctn []) = [] := by
    rw [List.flatMap_eq_nil_iff]
    intro ev hev
    unfold envStep
    rw [henv ev hev]
  have henvFroms : ctn.EnvFrom.flatMap
      (envFromStep q p.Metadata.Namespace p.Metadata.Name ctn []) = [] := by
    rw [List.flatMap_eq_nil_iff]
    intro ef hef
    unfold envFromStep
    rw [henvFrom ef hef]
  have hu : specEffRunAsUser p ctn = some 0 := by
    unfold specEffRunAsUser
    simp [hctx, huser]
  have hs : specEffSeccomp p ctn = none := by
    unfold specEffSeccomp
    simp [hctx, hsec, hpod]
  have h1 : privilegedStep q p.Metadata.Namespace p.Metadata.Name [] ctn
      = [{ CheckID := "K8S-POD-001",
           Severity := SeverityCritical,
           Resource := { Kind := "Pod", Namespace := p.Metadata.Namespace,
                         Name := p.Metadata.Name },
           Title := "Privileged контейнер",
           Evidence := "container " ++ q ctn.Name ++ ": securityContext.privileged=true",
           Risk := "Privileged контейнер имеет расширенный доступ к ядру и устройствам узла",
           Recommendation :=
             "Убрать privileged. Использовать минимальные capabilities и PSA/Policy" }] := by
    unfold privilegedStep
    simp [hctx, hpriv]
  have h2 : runAsStep q p.Metadata.Namespace p.Metadata.Name (podDefaults p) [] ctn
      = [{ CheckID := "K8S-POD-004",
           Severity := SeverityHigh,
           Resource := { Kind := "Pod", Namespace := p.Metadata.Namespace,
                         Name := p.Metadata.Name },
           Title := "Контейнер запускается от root",
           Evidence := "container " ++ q ctn.Name ++ ": runAsUser=0",
           Risk := "Root в контейнере увеличивает последствия RCE",
           Recommendation :=
             "Установить runAsNonRoot: true и runAsUser на непривилегированный UID" }] := by
    unfold runAsStep
    rw [effRunAsUser_eq_spec, if_pos hu]
    rfl
  have h3 : seccompStep q p.Metadata.Namespace p.Metadata.Name (podDefaults p) [] ctn
      = [{ CheckID := "K8S-POD-005",
           Severity := SeverityMedium,
           Resource := { Kind := "Pod", Namespace := p.Metadata.Namespace,
                         Name := p.Metadata.Name },
           Title := "Seccomp профиль не установлен",
           Evidence := "container " ++ q ctn.Name ++ ": " ++ "seccompProfile not set",
           Risk := "Отсутствие seccomp расширяет набор доступных syscalls",
           Recommendation := "Использовать RuntimeDefault или Localhost профиль" }] := by
    unfold seccompStep
    rw [effSeccomp_eq_spec]
    simp [hs]
  have h4 : allowPrivilegeEscalationStep q p.Metadata.Namespace p.Metadata.Name [] ctn
      = [] := by
    unfold allowPrivilegeEscalationStep
    simp [hctx, hape]
  have h5 : readOnlyRootFilesystemStep q p.Metadata.Namespace p.Metadata.Name [] ctn
      = [] := by
    unfold readOnlyRootFilesystemStep
    simp [hctx, hro]
  have h6 : capabilitiesStep q p.Metadata.Namespace p.Metadata.Name [] ctn
      = [{ CheckID := "K8S-POD-011",
           Severity := SeverityLow,
           Resource := { Kind := "Pod", Namespace := p.Metadata.Namespace,
                         Name := p.Metadata.Name },
           Title := "Не указан capabilities.drop",
           Evidence := "container " ++ q ctn.Name ++ ": capabilities.drop not set",
           Risk := "По умолчанию контейнер сохраняет набор стандартных capabilities",
           Recommendation :=
             "Явно сбросить все capabilities (drop: [\"ALL\"]) и добавить нужные" }] := by
    unfold capabilitiesStep
    simp [hctx, hcaps, hadd, hdrop]
  have hall : DetectPodMisconfigs q [p] saIndex
      = automountStep [] p saIndex ++ containerFindings q p ctn := by
    rw [DetectPodMisconfigs_eq_flatMap]
    simp [podStep_nil, hhost, hvols, hinit, hctns]
  obtain ⟨f1, e1, c1⟩ : ∃ f, privilegedStep q p.Metadata.Namespace p.Metadata.Name [] ctn = [f]
      ∧ f.CheckID = "K8S-POD-001" ∧ f.Severity = SeverityCritical := ⟨_, h1, rfl, rfl⟩
  obtain ⟨f2, e2, c2⟩ : ∃ f,
      runAsStep q p.Metadata.Namespace p.Metadata.Name (podDefaults p) [] ctn = [f]
      ∧ f.CheckID = "K8S-POD-004" ∧ f.Severity = SeverityHigh := ⟨_, h2, rfl, rfl⟩
  obtain ⟨f3, e3, c3⟩ : ∃ f,
      seccompStep q p.Metadata.Namespace p.Metadata.Name (podDefaults p) [] ctn = [f]
      ∧ f.CheckID = "K8S-POD-005" ∧ f.Severity = SeverityMedium := ⟨_, h3, rfl, rfl⟩
  obtain ⟨f4, e4, c4⟩ : ∃ f,
      capabilitiesStep q p.Metadata.Namespace p.Metadata.Name [] ctn = [f]
      ∧ f.CheckID = "K8S-POD-011" ∧ f.Severity = SeverityLow := ⟨_, h6, rfl, rfl⟩
  have hres : ∀ f ∈ containerFindings q p ctn,
      f.Resource = { Kind := "Pod", Namespace := p.Metadata.Namespace,
                     Name := p.Metadata.Name } :=
    fun f hf => (mem_containerFindings q p ctn f hf).2
  have hc : containerFindings q p ctn = [f1, f2, f3, f4] := by
    unfold containerFindings
    rw [containerStep_nil, e1, e2, e3, h4, h5, e4, henvs, henvFroms]
    rfl
  rw [hall]
  rw [hc] at hres ⊢
  refine ⟨f1, f2, f3, f4, c1, c2, c3, c4, ?_, ?_, ?_⟩
  · intro ha
    unfold automountStep
    rw [resolveAutomount_eq_spec, ha]
    rfl
  · intro ha
    unfold automountStep
    rw [resolveAutomount_eq_spec, ha]
    exact ⟨_, rfl, rfl, rfl⟩
  · intro f hf
    rcases List.mem_append.mp hf with hf | hf
    · exact (mem_automountStep p saIndex f hf).2.2
    · exact hres f hf

theorem DetectPodMisconfigs_scenario_witness :
    ∃ f1 f2 f3 f4 : Finding,
      (f1.CheckID = "K8S-POD-001" ∧ f1.Severity = SeverityCritical)
      ∧ (f2.CheckID = "K8S-POD-004" ∧ f2.Severity = SeverityHigh)
      ∧ (f3.CheckID = "K8S-POD-005" ∧ f3.Severity = SeverityMedium)
      ∧ (f4.CheckID = "K8S-POD-011" ∧ f4.Severity = SeverityLow)
      ∧ (specAutomount podP1 saIndexSample = false →
          DetectPodMisconfigs quotePlain [podP1] saIndexSample = [f1, f2, f3, f4])
      ∧ (specAutomount podP1 saIndexSample = true →
          ∃ f0 : Finding, f0.CheckID = "K8S-POD-008" ∧ f0.Severity = SeverityMedium
            ∧ DetectPodMisconfigs quotePlain [podP1] saIndexSample = [f0, f1, f2, f3, f4])
      ∧ ∀ f ∈ DetectPodMisconfigs quotePlain [podP1] saIndexSample,
          f.Resource = { Kind := "Pod", Namespace := podP1.Metadata.Namespace,
                         Name := podP1.Metadata.Name } :=
  DetectPodMisconfigs_scenario quotePlain saIndexSample podP1 ctnRootPrivileged
    { Privileged := some true, RunAsUser := some 0, Capabilities := some {} } {}
    rfl rfl rfl (by decide) rfl rfl rfl rfl rfl rfl rfl (by decide) (by decide) rfl rfl rfl
    (by decide) (by decide)

/-- C5, at the failing inputs: a container without a securityContext (`c2` in the pod
`p1`) and a container whose securityContext has no capabilities block (`c3` in the pod
`p2`) have no `capabilities.drop`, and neither gets a finding `K8S-POD-011`; the container
`c1`, whose capabilities block is present and empty, gets one. -/
theorem DetectPodMisconfigs_capabilitiesDrop_unflagged :
    ctnBare.SecurityContext = none
    ∧ withCheckID "K8S-POD-011" (DetectPodMisconfigs quotePlain [podBare] []) = []
    ∧ (ctnOverride.SecurityContext.bind fun c => c.Capabilities) = none
    ∧ withCheckID "K8S-POD-011" (containerFindings quotePlain podHost ctnOverride) = []
    ∧ (withCheckID "K8S-POD-011" (DetectPodMisconfigs quotePlain [podP1] [])).map
          (fun f => (f.Severity, f.Evidence))
        = [("LOW", "container \"c1\": capabilities.drop not set")] := by
  decide

/-- The findings `K8S-POD-011` of a container all come from the capabilities block: a
container without a securityContext, or whose securityContext has no capabilities block,
has none. -/
theorem withCheckID_011_of_no_capabilities (q : String → String) (p : Pod) (ctn : Container)
    (h : (ctn.SecurityContext.bind fun c => c.Capabilities) = none) :
    withCheckID "K8S-POD-011" (containerFindings q p ctn) = [] := by
  apply withCheckID_eq_nil
  intro f hf
  unfold containerFindings at hf
  rw [containerStep_nil] at hf
  have hcap : capabilitiesStep q p.Metadata.Namespace p.Metadata.Name [] ctn = [] := by
    unfold capabilitiesStep
    rw [h]
  rw [hcap] at hf
  simp only [List.mem_append, List.mem_flatMap, List.not_mem_nil, or_false] at hf
  rcases hf with (((((h' | h') | h') | h') | h') | ⟨ev, _, h'⟩) | ⟨ef, _, h'⟩
  · rw [(mem_privilegedStep _ _ _ _ f h').1]; decide
  · rw [(mem_runAsStep _ _ _ _ _ f h').1]; decide
  · rw [(mem_seccompStep _ _ _ _ _ f h').1]; decide
  · rw [(mem_allowPrivilegeEscalationStep _ _ _ _ f h').1]; decide
  · rw [(mem_readOnlyRootFilesystemStep _ _ _ _ f h').1]; decide
  · rw [(mem_envStep _ _ _ _ ev f h').1]; decide
  · rw [(mem_envFromStep _ _ _ _ ef f h').1]; decide

/-! ## Maps and the helpers of `helpers.go` -/

theorem lookup_cons_ite {α : Type} (k' k0 : String) (v0 : α) (rest : List (String × α)) :
    List.lookup k' ((k0, v0) :: rest) = if k' = k0 then some v0 else List.lookup k' rest := by
  by_cases h : k' = k0
  · subst h
    simp [List.lookup]
  · have hb : (k' == k0) = false := by simpa using h
    simp [List.lookup, hb, h]

theorem lookup_mapSet {α : Type} (m : List (String × α)) (k k' : String) (v : α) :
    (mapSet m k v).lookup k' = if k' = k then some v else m.lookup k' := by
  induction m with
  | nil =>
    unfold mapSet
    rw [lookup_cons_ite]
  | cons e rest ih =>
    obtain ⟨k0, v0⟩ := e
    unfold mapSet
    by_cases h0 : k0 = k
    · subst h0
      rw [if_pos rfl, lookup_cons_ite, lookup_cons_ite]
      split_ifs <;> rfl
    · rw [if_neg h0, lookup_cons_ite, lookup_cons_ite, ih]
      by_cases h : k' = k
      · subst h
        have hne : ¬ k' = k0 := fun e => h0 e.symm
        simp [hne]
      · simp [h]

theorem mem_setAdd (set : List String) (s x : String) :
    x ∈ setAdd set s ↔ x ∈ set ∨ x = s := by
  unfold setAdd
  split_ifs with h
  · constructor
    · exact Or.inl
    · rintro (h' | rfl)
      · exact h'
      · exact h
  · simp

theorem mem_foldl_setAdd (xs set : List String) (x : String) :
    x ∈ xs.foldl setAdd set ↔ x ∈ set ∨ x ∈ xs := by
  induction xs generalizing set with
  | nil => simp
  | cons a xs ih =>
    rw [List.foldl_cons, ih, mem_setAdd]
    simp only [List.mem_cons]
    tauto

/-- The function `containsAny` tests whether one of the needles is in the haystack. -/
theorem containsAny_iff (hay needles : List String) :
    containsAny hay needles = true ↔ ∃ n ∈ needles, n ∈ hay := by
  unfold containsAny
  simp [mem_foldl_setAdd]

theorem mem_insertSorted (s x : String) (l : List String) :
    x ∈ insertSorted s l ↔ x = s ∨ x ∈ l := by
  induction l with
  | nil => simp [insertSorted]
  | cons t ts ih =>
    unfold insertSorted
    split_ifs
    · simp only [List.mem_cons, ih]
      tauto
    · simp

theorem mem_sortStrings (x : String) (l : List String) : x ∈ sortStrings l ↔ x ∈ l := by
  induction l with
  | nil => simp [sortStrings]
  | cons s ss ih => simp [sortStrings, mem_insertSorted, ih]

theorem mem_uniqStrings_fold (xs m : List String) (x : String) :
    x ∈ xs.foldl (fun m s => if TrimSpace s = "" then m else setAdd m (TrimSpace s)) m
      ↔ x ∈ m ∨ (x ≠ "" ∧ ∃ t ∈ xs, TrimSpace t = x) := by
  induction xs generalizing m with
  | nil => simp
  | cons a xs ih =>
    rw [List.foldl_cons, ih]
    by_cases ha : TrimSpace a = ""
    · simp only [ha, if_true, List.mem_cons, exists_eq_or_imp]
      constructor
      · rintro (h | ⟨hx, h⟩)
        · exact Or.inl h
        · exact Or.inr ⟨hx, Or.inr h⟩
      · rintro (h | ⟨hx, h | h⟩)
        · exact Or.inl h
        · exact absurd h.symm hx
        · exact Or.inr ⟨hx, h⟩
    · simp only [ha, if_false, mem_setAdd, List.mem_cons, exists_eq_or_imp]
      constructor
      · rintro ((h | h) | ⟨hx, h⟩)
        · exact Or.inl h
        · exact Or.inr ⟨by rw [h]; exact ha, Or.inl h.symm⟩
        · exact Or.inr ⟨hx, Or.inr h⟩
      · rintro (h | ⟨hx, h | h⟩)
        · exact Or.inl (Or.inl h)
        · exact Or.inl (Or.inr h.symm)
        · exact Or.inr ⟨hx, h⟩

/-- The strings of `uniqStrings xs` are the non-empty trimmed entries of `xs`. -/
theorem mem_uniqStrings (xs : List String) (x : String) :
    x ∈ uniqStrings xs ↔ x ≠ "" ∧ ∃ t ∈ xs, TrimSpace t = x := by
  unfold uniqStrings
  dsimp only
  rw [mem_sortStrings, mem_uniqStrings_fold]
  simp

theorem uniqStrings_eq_nil_iff (xs : List String) :
    uniqStrings xs = [] ↔ ∀ t ∈ xs, TrimSpace t = "" := by
  rw [List.eq_nil_iff_forall_not_mem]
  constructor
  · intro h t ht
    by_contra hne
    exact h (TrimSpace t) ((mem_uniqStrings xs _).mpr ⟨hne, t, ht, rfl⟩)
  · intro h x hx
    obtain ⟨hne, t, ht, rfl⟩ := (mem_uniqStrings xs x).mp hx
    exact hne (h t ht)

/-! ## The shape of the output of `DetectNetwork` -/

theorem groupByNamespace_fold (nps : List NetworkPolicy) (m : List (String × List NetworkPolicy))
    (n : String) :
    ((nps.foldl (fun byNS np =>
        mapSet byNS np.Metadata.Namespace
          ((byNS.lookup np.Metadata.Namespace).getD [] ++ [np])) m).lookup n).getD []
      = (m.lookup n).getD [] ++ nps.filter (fun np => decide (np.Metadata.Namespace = n)) := by
  induction nps generalizing m with
  | nil => simp
  | cons np nps ih =>
    rw [List.foldl_cons, ih, lookup_mapSet]
    by_cases h : n = np.Metadata.Namespace
    · subst h
      simp
    · have h' : ¬ np.Metadata.Namespace = n := fun e => h e.symm
      simp [h, h']

/-- The policies that `byNS` holds for a namespace name are the policies of the list with
that `metadata.namespace`, in the order of the list. -/
theorem groupByNamespace_lookup (nps : List NetworkPolicy) (n : String) :
    ((groupByNamespace nps).lookup n).getD []
      = nps.filter (fun np => decide (np.Metadata.Namespace = n)) := by
  unfold groupByNamespace
  rw [groupByNamespace_fold]
  rfl

theorem namespaceNetworkStep_append (byNS : List (String × List NetworkPolicy))
    (out : List Finding) (ns : Namespace) :
    namespaceNetworkStep byNS out ns = out ++ namespaceNetworkStep byNS [] ns := by
  unfold namespaceNetworkStep
  dsimp only
  split_ifs <;> simp

theorem serviceStep_append (up : String → String) (out : List Finding) (s : Service) :
    serviceStep up out s = out ++ serviceStep up [] s := by
  unfold serviceStep
  dsimp only
  split_ifs <;> simp

theorem ingressStep_append (out : List Finding) (ig : Ingress) :
    ingressStep out ig = out ++ ingressStep [] ig := by
  unfold ingressStep
  simp

/-- The findings of `DetectNetwork`: those of the namespaces, then those of the services,
then those of the ingresses, each in the order of its list. -/
theorem DetectNetwork_eq_flatMap (up : String → String) (namespaces : List Namespace)
    (nps : List NetworkPolicy) (svcs : List Service) (ing : List Ingress) :
    DetectNetwork up namespaces nps svcs ing
      = namespaces.flatMap (namespaceNetworkStep (groupByNamespace nps) [])
        ++ svcs.flatMap (serviceStep up []) ++ ing.flatMap (ingressStep []) := by
  unfold DetectNetwork
  dsimp only
  rw [foldl_appending _ ingressStep_append, foldl_appending _ (serviceStep_append up),
    foldl_appending _ (namespaceNetworkStep_append _)]
  simp

/-- The findings of one namespace are a segment of the output: before it come the findings
of the namespaces before it, after it those of the later namespaces, of the services and of
the ingresses. -/
theorem DetectNetwork_namespace_segment (up : String → String) (pre post : List Namespace)
    (ns : Namespace) (nps : List NetworkPolicy) (svcs : List Service) (ing : List Ingress) :
    DetectNetwork up (pre ++ ns :: post) nps svcs ing
      = DetectNetwork up pre nps [] []
        ++ namespaceNetworkStep (groupByNamespace nps) [] ns
        ++ DetectNetwork up post nps svcs ing := by
  simp only [DetectNetwork_eq_flatMap]
  simp

/-- The findings of one service are a segment of the output. -/
theorem DetectNetwork_service_segment (up : String → String) (namespaces : List Namespace)
    (nps : List NetworkPolicy) (spre spost : List Service) (s : Service) (ing : List Ingress) :
    DetectNetwork up namespaces nps (spre ++ s :: spost) ing
      = DetectNetwork up namespaces nps spre []
        ++ serviceStep up [] s
        ++ DetectNetwork up [] [] spost ing := by
  simp only [DetectNetwork_eq_flatMap]
  simp

/-- A policy that establishes default-deny ingress in the loop over the policies. -/
theorem policyStep_fst (deny : Bool × Bool) (np : NetworkPolicy) :
    (policyStep deny np).1
      = (deny.1 || (selectsAll np && containsAny (effectivePolicyTypes np) ["Ingress"]
          && presentAndEmpty np.Spec.Ingress)) := by
  unfold policyStep
  dsimp only
  cases h1 : selectsAll np <;> cases h2 : containsAny (effectivePolicyTypes np) ["Ingress"]
    <;> cases h3 : presentAndEmpty np.Spec.Ingress <;> simp

theorem policyStep_snd (deny : Bool × Bool) (np : NetworkPolicy) :
    (policyStep deny np).2
      = (deny.2 || (selectsAll np && containsAny (effectivePolicyTypes np) ["Egress"]
          && presentAndEmpty np.Spec.Egress)) := by
  unfold policyStep
  dsimp only
  cases h1 : selectsAll np <;> cases h2 : containsAny (effectivePolicyTypes np) ["Egress"]
    <;> cases h3 : presentAndEmpty np.Spec.Egress <;> simp

theorem foldl_policyStep_fst (pols : List NetworkPolicy) (deny : Bool × Bool) :
    (pols.foldl policyStep deny).1
      = (deny.1 || pols.any fun np =>
          selectsAll np && containsAny (effectivePolicyTypes np) ["Ingress"]
            && presentAndEmpty np.Spec.Ingress) := by
  induction pols generalizing deny with
  | nil => simp
  | cons np pols ih =>
    rw [List.foldl_cons, ih, policyStep_fst, List.any_cons, Bool.or_assoc]

theorem foldl_policyStep_snd (pols : List NetworkPolicy) (deny : Bool × Bool) :
    (pols.foldl policyStep deny).2
      = (deny.2 || pols.any fun np =>
          selectsAll np && containsAny (effectivePolicyTypes np) ["Egress"]
            && presentAndEmpty np.Spec.Egress) := by
  induction pols generalizing deny with
  | nil => simp
  | cons np pols ih =>
    rw [List.foldl_cons, ih, policyStep_snd, List.any_cons, Bool.or_assoc]

/-! ## Properties of `DetectNetwork` -/

theorem selectsAll_iff (np : NetworkPolicy) :
    selectsAll np = true
      ↔ (np.Spec.PodSelector.MatchLabels = none ∨ np.Spec.PodSelector.MatchLabels = some []) := by
  unfold selectsAll
  cases np.Spec.PodSelector.MatchLabels with
  | none => simp
  | some l => cases l <;> simp

theorem presentAndEmpty_iff (rules : Option (List AnyRule)) :
    presentAndEmpty rules = true ↔ rules = some [] := by
  unfold presentAndEmpty
  cases rules with
  | none => simp
  | some l => cases l <;> simp

theorem denyIngress_iff (np : NetworkPolicy) :
    (selectsAll np && containsAny (effectivePolicyTypes np) ["Ingress"]
        && presentAndEmpty np.Spec.Ingress) = true ↔ specDefaultDenyIngress np := by
  unfold specDefaultDenyIngress
  simp [selectsAll_iff, presentAndEmpty_iff, containsAny_iff, and_assoc]

theorem denyEgress_iff (np : NetworkPolicy) :
    (selectsAll np && containsAny (effectivePolicyTypes np) ["Egress"]
        && presentAndEmpty np.Spec.Egress) = true ↔ specDefaultDenyEgress np := by
  unfold specDefaultDenyEgress
  simp [selectsAll_iff, presentAndEmpty_iff, containsAny_iff, and_assoc]

/-- The flag `denyIngress` after the loop over the policies of a namespace. -/
theorem denyIngress_flag (nps : List NetworkPolicy) (n : String) :
    ((nps.filter fun np => decide (np.Metadata.Namespace = n)).foldl policyStep
        (false, false)).1 = true
      ↔ ∃ np ∈ nps, np.Metadata.Namespace = n ∧ specDefaultDenyIngress np := by
  rw [foldl_policyStep_fst]
  simp only [Bool.false_or, List.any_eq_true, List.mem_filter, decide_eq_true_eq,
    denyIngress_iff]
  constructor
  · rintro ⟨np, ⟨h1, h2⟩, h3⟩
    exact ⟨np, h1, h2, h3⟩
  · rintro ⟨np, h1, h2, h3⟩
    exact ⟨np, ⟨h1, h2⟩, h3⟩

/-- The flag `denyEgress` after the loop over the policies of a namespace. -/
theorem denyEgress_flag (nps : List NetworkPolicy) (n : String) :
    ((nps.filter fun np => decide (np.Metadata.Namespace = n)).foldl policyStep
        (false, false)).2 = true
      ↔ ∃ np ∈ nps, np.Metadata.Namespace = n ∧ specDefaultDenyEgress np := by
  rw [foldl_policyStep_snd]
  simp only [Bool.false_or, List.any_eq_true, List.mem_filter, decide_eq_true_eq,
    denyEgress_iff]
  constructor
  · rintro ⟨np, ⟨h1, h2⟩, h3⟩
    exact ⟨np, h1, h2, h3⟩
  · rintro ⟨np, h1, h2, h3⟩
    exact ⟨np, ⟨h1, h2⟩, h3⟩

/-- C11: for a namespace of the namespace list that no network policy names in its
`metadata.namespace`, the findings of `DetectNetwork` for that namespace (the segment of
the output between the findings of the namespaces before it and everything after it) are
exactly one finding: `K8S-NET-001`, HIGH, attributed to the namespace. So neither
`K8S-NET-002` nor `K8S-NET-003` is emitted for it. -/
theorem DetectNetwork_no_policies (up : String → String) (pre post : List Namespace)
    (ns : Namespace) (nps : List NetworkPolicy) (svcs : List Service) (ing : List Ingress)
    (h : ∀ np ∈ nps, np.Metadata.Namespace ≠ ns.Metadata.Name) :
    ∃ f : Finding,
      DetectNetwork up (pre ++ ns :: post) nps svcs ing
        = DetectNetwork up pre nps [] [] ++ [f] ++ DetectNetwork up post nps svcs ing
      ∧ f.CheckID = "K8S-NET-001" ∧ f.Severity = SeverityHigh
      ∧ f.Resource = { Kind := "Namespace", Namespace := "", Name := ns.Metadata.Name } := by
  have hp : ((groupByNamespace nps).lookup ns.Metadata.Name).getD [] = [] := by
    rw [groupByNamespace_lookup, List.filter_eq_nil_iff]
    intro np hnp
    simpa using h np hnp
  have hs : namespaceNetworkStep (groupByNamespace nps) [] ns
      = [{ CheckID := "K8S-NET-001",
           Severity := SeverityHigh,
           Resource := { Kind := "Namespace", Name := ns.Metadata.Name },
           Title := "В namespace нет NetworkPolicy (по умолчанию allow-all)",
           Evidence := "networkpolicies=0",
           Risk := "Отсутствие сегментации упрощает боковое перемещение",
           Recommendation :=
             "Добавить default-deny ingress/egress и разрешать только нужный трафик" }] := by
    unfold namespaceNetworkStep
    simp [hp]
  rw [DetectNetwork_namespace_segment, hs]
  exact ⟨_, rfl, rfl, rfl, rfl⟩

theorem DetectNetwork_no_policies_witness :
    ∃ f : Finding,
      DetectNetwork upperASCII ([nsEmptyEnforce] ++ nsPrivileged :: [nsRestricted])
          [npDenyAll, npAllowWeb] [svcNodePort] []
        = DetectNetwork upperASCII [nsEmptyEnforce] [npDenyAll, npAllowWeb] [] [] ++ [f]
          ++ DetectNetwork upperASCII [nsRestricted] [npDenyAll, npAllowWeb] [svcNodePort] []
      ∧ f.CheckID = "K8S-NET-001" ∧ f.Severity = SeverityHigh
      ∧ f.Resource
          = { Kind := "Namespace", Namespace := "", Name := nsPrivileged.Metadata.Name } :=
  DetectNetwork_no_policies upperASCII [nsEmptyEnforce] [nsRestricted] nsPrivileged
    [npDenyAll, npAllowWeb] [svcNodePort] [] (by decide)

/-- The findings of a namespace that has policies: `K8S-NET-002` unless `denyIngress` is
set, then `K8S-NET-003` unless `denyEgress` is set. -/
theorem namespaceNetworkStep_of_policies (byNS : List (String × List NetworkPolicy))
    (ns : Namespace) (hp : (byNS.lookup ns.Metadata.Name).getD [] ≠ []) :
    ∃ f2 f3 : Finding,
      namespaceNetworkStep byNS [] ns
        = (if (((byNS.lookup ns.Metadata.Name).getD []).foldl policyStep (false, false)).1
            then [] else [f2])
          ++ (if (((byNS.lookup ns.Metadata.Name).getD []).foldl policyStep (false, false)).2
            then [] else [f3])
      ∧ (f2.CheckID = "K8S-NET-002" ∧ f2.Severity = SeverityMedium
          ∧ f2.Resource = { Kind := "Namespace", Namespace := "", Name := ns.Metadata.Name })
      ∧ (f3.CheckID = "K8S-NET-003" ∧ f3.Severity = SeverityMedium
          ∧ f3.Resource = { Kind := "Namespace", Namespace := "", Name := ns.Metadata.Name }) := by
  have hl : ¬ ((byNS.lookup ns.Metadata.Name).getD []).length = 0 := by
    simpa using hp
  unfold namespaceNetworkStep
  dsimp only
  rw [if_neg hl]
  refine ⟨{ CheckID := "K8S-NET-002",
            Severity := SeverityMedium,
            Resource := { Kind := "Namespace", Name := ns.Metadata.Name },
            Title := "Нет default-deny Ingress для всех Pod'ов",
            Evidence := "не найден NetworkPolicy с podSelector:\x7b\x7d и ingress:[]",
            Risk := "Входящий трафик к Pod'ам может быть открыт шире, чем требуется",
            Recommendation := "Добавить default-deny ingress policy (podSelector: \x7b\x7d)" },
          { CheckID := "K8S-NET-003",
            Severity := SeverityMedium,
            Resource := { Kind := "Namespace", Name := ns.Metadata.Name },
            Title := "Нет default-deny Egress для всех Pod'ов",
            Evidence := "не найден NetworkPolicy с podSelector:\x7b\x7d и egress:[]",
            Risk := "Исходящий трафик может позволить утечки и доступ к внешним сервисам",
            Recommendation :=
              "Добавить default-deny egress и разрешить только нужные направления" },
          ?_, ⟨rfl, rfl, rfl⟩, ⟨rfl, rfl, rfl⟩⟩
  cases h1 : (((byNS.lookup ns.Metadata.Name).getD []).foldl policyStep (false, false)).1 <;>
    cases h2 : (((byNS.lookup ns.Metadata.Name).getD []).foldl policyStep (false, false)).2 <;>
    simp

theorem effectivePolicyTypes_of_explicit (np : NetworkPolicy)
    (h : ∃ t ∈ np.Spec.PolicyTypes, TrimSpace t ≠ "") :
    effectivePolicyTypes np = uniqStrings np.Spec.PolicyTypes := by
  have hne : uniqStrings np.Spec.PolicyTypes ≠ [] := by
    rw [Ne, uniqStrings_eq_nil_iff]
    obtain ⟨t, ht, hn⟩ := h
    exact fun hall => hn (hall t ht)
  have hl : ¬ (uniqStrings np.Spec.PolicyTypes).length = 0 := by
    simpa using hne
  unfold effectivePolicyTypes
  dsimp only
  rw [if_neg hl]

theorem mem_effectivePolicyTypes_of_blank (np : NetworkPolicy)
    (h : ∀ t ∈ np.Spec.PolicyTypes, TrimSpace t = "") (x : String) :
    x ∈ effectivePolicyTypes np
      ↔ (x = "Ingress" ∧ np.Spec.Ingress ≠ none) ∨ (x = "Egress" ∧ np.Spec.Egress ≠ none) := by
  have he : uniqStrings np.Spec.PolicyTypes = [] := (uniqStrings_eq_nil_iff _).mpr h
  have hi : TrimSpace "Ingress" = "Ingress" := by decide
  have hg : TrimSpace "Egress" = "Egress" := by decide
  have hi' : ("Ingress" : String) ≠ "" := by decide
  have hg' : ("Egress" : String) ≠ "" := by decide
  unfold effectivePolicyTypes
  dsimp only
  rw [he]
  simp only [List.length_nil, if_true, List.nil_append]
  rw [mem_uniqStrings]
  by_cases h1 : np.Spec.Ingress = none <;> by_cases h2 : np.Spec.Egress = none
  · simp [h1, h2]
  · simp only [h1, h2, ne_eq, not_true_eq_false, if_false, not_false_eq_true, if_true,
      List.nil_append, List.mem_singleton, exists_eq_left, hg, and_false, false_or, and_true]
    constructor
    · rintro ⟨_, rfl⟩; rfl
    · rintro rfl; exact ⟨hg', rfl⟩
  · simp only [h1, h2, ne_eq, not_true_eq_false, if_false, not_false_eq_true, if_true,
      List.append_nil, List.mem_singleton, exists_eq_left, hi, and_false, or_false, and_true]
    constructor
    · rintro ⟨_, rfl⟩; rfl
    · rintro rfl; exact ⟨hi', rfl⟩
  · simp only [h1, h2, ne_eq, not_false_eq_true, if_true, List.singleton_append,
      List.mem_cons, List.mem_singleton, exists_eq_or_imp, exists_eq_left, hi, hg, and_true,
      List.not_mem_nil, or_false]
    constructor
    · rintro ⟨_, rfl | rfl⟩
      · exact Or.inl rfl
      · exact Or.inr rfl
    · rintro (rfl | rfl)
      · exact ⟨hi', Or.inl rfl⟩
      · exact ⟨hg', Or.inr rfl⟩

/-- C13, as stated, fails: a select-all policy whose `policyTypes` list is present and does
not contain `Ingress` establishes default-deny ingress when the entries of the list are
blank (`[""]`: the types are then inferred from the sections) or when an entry is `Ingress`
with surrounding white space (`[" Ingress"]`): with an `ingress` field present and empty, no
`K8S-NET-002` is emitted for the namespace. With `policyTypes` equal to `["Egress"]` the
finding is emitted. -/
theorem policyTypes_blank_or_padded :
    (npBlankTypes.Spec.PodSelector.MatchLabels = none
      ∧ npBlankTypes.Spec.PolicyTypes = [""] ∧ "Ingress" ∉ npBlankTypes.Spec.PolicyTypes
      ∧ npBlankTypes.Spec.Ingress = some []
      ∧ effectivePolicyTypes npBlankTypes = ["Ingress"]
      ∧ (DetectNetwork upperASCII [nsBare] [npBlankTypes] [] []).map (fun f => f.CheckID)
          = ["K8S-NET-003"])
    ∧ (npPaddedTypes.Spec.PodSelector.MatchLabels = none
      ∧ npPaddedTypes.Spec.PolicyTypes = [" Ingress"]
      ∧ "Ingress" ∉ npPaddedTypes.Spec.PolicyTypes
      ∧ npPaddedTypes.Spec.Ingress = some []
      ∧ effectivePolicyTypes npPaddedTypes = ["Ingress"]
      ∧ (DetectNetwork upperASCII [nsBare] [npPaddedTypes] [] []).map (fun f => f.CheckID)
          = ["K8S-NET-003"])
    ∧ (DetectNetwork upperASCII [nsBare] [npEgressOnly] [] []).map (fun f => f.CheckID)
        = ["K8S-NET-002", "K8S-NET-003"] := by
  decide

/-- C13, amended: call an entry of `policyTypes` blank when it is empty once its surrounding
white space is trimmed. If the list has an entry that is not blank, the effective policy
types are exactly its trimmed non-blank entries, whatever the `ingress` and `egress`
sections are; if it has none (the list is absent, empty, or all blank), the effective types
are inferred: `Ingress` if the `ingress` section is present, `Egress` if the `egress` section
is present. Hence a policy whose list has a non-blank entry and no entry that trims to
`Ingress` never establishes default-deny ingress, also with an `ingress` field that is
present and empty: it leaves the flag `denyIngress` as it is, and a namespace all of whose
policies are such gets the finding `K8S-NET-002`. The same holds for egress. -/
theorem effectivePolicyTypes_explicit_or_inferred (np : NetworkPolicy) :
    ((∃ t ∈ np.Spec.PolicyTypes, TrimSpace t ≠ "") →
      ∀ x, x ∈ effectivePolicyTypes np
        ↔ x ≠ "" ∧ ∃ t ∈ np.Spec.PolicyTypes, TrimSpace t = x)
    ∧ ((∀ t ∈ np.Spec.PolicyTypes, TrimSpace t = "") →
      ∀ x, x ∈ effectivePolicyTypes np
        ↔ (x = "Ingress" ∧ np.Spec.Ingress ≠ none) ∨ (x = "Egress" ∧ np.Spec.Egress ≠ none))
    ∧ ((∃ t ∈ np.Spec.PolicyTypes, TrimSpace t ≠ "") →
        (∀ t ∈ np.Spec.PolicyTypes, TrimSpace t ≠ "Ingress") →
        ¬ specDefaultDenyIngress np ∧ ∀ deny, (policyStep deny np).1 = deny.1)
    ∧ ((∃ t ∈ np.Spec.PolicyTypes, TrimSpace t ≠ "") →
        (∀ t ∈ np.Spec.PolicyTypes, TrimSpace t ≠ "Egress") →
        ¬ specDefaultDenyEgress np ∧ ∀ deny, (policyStep deny np).2 = deny.2)
    ∧ (∀ (up : String → String) (pre post : List Namespace) (ns : Namespace)
        (nps : List NetworkPolicy) (svcs : List Service) (ing : List Ingress),
        np ∈ nps → np.Metadata.Namespace = ns.Metadata.Name →
        (∀ p ∈ nps, p.Metadata.Namespace = ns.Metadata.Name →
          (∃ t ∈ p.Spec.PolicyTypes, TrimSpace t ≠ "")
            ∧ ∀ t ∈ p.Spec.PolicyTypes, TrimSpace t ≠ "Ingress") →
        ∃ f ∈ DetectNetwork up (pre ++ ns :: post) nps svcs ing,
          f.CheckID = "K8S-NET-002"
          ∧ f.Resource = { Kind := "Namespace", Namespace := "", Name := ns.Metadata.Name }) := by
  have key : ∀ (p : NetworkPolicy) (x : String), (∃ t ∈ p.Spec.PolicyTypes, TrimSpace t ≠ "") →
      (∀ t ∈ p.Spec.PolicyTypes, TrimSpace t ≠ x) → x ∉ effectivePolicyTypes p := by
    intro p x h1 h2 hx
    rw [effectivePolicyTypes_of_explicit p h1, mem_uniqStrings] at hx
    obtain ⟨_, t, ht, he⟩ := hx
    exact h2 t ht he
  refine ⟨?_, mem_effectivePolicyTypes_of_blank np, ?_, ?_, ?_⟩
  · intro h x
    rw [effectivePolicyTypes_of_explicit np h, mem_uniqStrings]
  · intro h1 h2
    have hx := key np "Ingress" h1 h2
    have hc : containsAny (effectivePolicyTypes np) ["Ingress"] = false := by
      cases hb : containsAny (effectivePolicyTypes np) ["Ingress"]
      · rfl
      · exact absurd (by simpa using (containsAny_iff _ _).mp hb) hx
    refine ⟨fun hs => hx hs.2.1, fun deny => ?_⟩
    rw [policyStep_fst, hc]
    simp
  · intro h1 h2
    have hx := key np "Egress" h1 h2
    have hc : containsAny (effectivePolicyTypes np) ["Egress"] = false := by
      cases hb : containsAny (effectivePolicyTypes np) ["Egress"]
      · rfl
      · exact absurd (by simpa using (containsAny_iff _ _).mp hb) hx
    refine ⟨fun hs => hx hs.2.1, fun deny => ?_⟩
    rw [policyStep_snd, hc]
    simp
  · intro up pre post ns nps svcs ing hnp hns hall
    have hp : ((groupByNamespace nps).lookup ns.Metadata.Name).getD [] ≠ [] := by
      rw [groupByNamespace_lookup]
      intro he
      have hm : np ∈ nps.filter
          (fun np => decide (np.Metadata.Namespace = ns.Metadata.Name)) :=
        List.mem_filter.mpr ⟨hnp, by simpa using hns⟩
      rw [he] at hm
      exact List.not_mem_nil _ hm
    obtain ⟨f2, f3, hs, ⟨c2, _, r2⟩, _⟩ :=
      namespaceNetworkStep_of_policies (groupByNamespace nps) ns hp
    rw [groupByNamespace_lookup] at hs
    have hflag : ((nps.filter fun np => decide (np.Metadata.Namespace = ns.Metadata.Name)).foldl
        policyStep (false, false)).1 = false := by
      cases hb : ((nps.filter fun np =>
          decide (np.Metadata.Namespace = ns.Metadata.Name)).foldl policyStep (false, false)).1
      · rfl
      · obtain ⟨p, hp1, hp2, hp3⟩ := (denyIngress_flag nps ns.Metadata.Name).mp hb
        obtain ⟨g1, g2⟩ := hall p hp1 hp2
        exact absurd hp3.2.1 (key p "Ingress" g1 g2)
    rw [hflag] at hs
    refine ⟨f2, ?_, c2, r2⟩
    rw [DetectNetwork_namespace_segment, hs]
    simp

theorem EqualFold_NodePort (v : String) :
    EqualFold v "NodePort" = true ↔ eqIgnoreCase v "NodePort" := by
  unfold EqualFold eqIgnoreCase
  exact equalFoldRunes_ascii _ _ (by decide)

theorem EqualFold_LoadBalancer (v : String) :
    EqualFold v "LoadBalancer" = true ↔ eqIgnoreCase v "LoadBalancer" := by
  unfold EqualFold eqIgnoreCase
  exact equalFoldRunes_ascii _ _ (by decide)

theorem not_NodePort_and_LoadBalancer (v : String) (h1 : eqIgnoreCase v "NodePort")
    (h2 : eqIgnoreCase v "LoadBalancer") : False := by
  unfold eqIgnoreCase at h1 h2
  have l1 := congrArg List.length h1
  have l2 := congrArg List.length h2
  simp only [List.length_map] at l1 l2
  rw [l1] at l2
  revert l2
  decide

theorem foldl_append_singleton {α β : Type} (g : α → β) (l : List α) (acc : List β) :
    l.foldl (fun ports p => ports ++ [g p]) acc = acc ++ l.map g := by
  induction l generalizing acc with
  | nil => simp
  | cons a l ih => rw [List.foldl_cons, ih]; simp

/-- The slice `ports` holds one string per port of the service, in the order of the ports. -/
theorem servicePorts_eq_map (up : String → String) (s : Service) :
    servicePorts up s
      = s.Spec.Ports.map fun p =>
          toString p.Port ++ "->" ++ toString p.NodePort ++ "/" ++ up p.Protocol := by
  unfold servicePorts
  rw [foldl_append_singleton]
  rfl

/-- C14, as stated, fails: a service whose type is spelled `nodeport`, a type other than
`NodePort` and `LoadBalancer`, gets the finding `K8S-NET-004`. -/
theorem DetectNetwork_lowercase_nodeport :
    svcLowerNodePort.Spec.Type_ ≠ "NodePort" ∧ svcLowerNodePort.Spec.Type_ ≠ "LoadBalancer"
    ∧ (DetectNetwork upperASCII [] [] [svcLowerNodePort] []).map
          (fun f => (f.CheckID, f.Severity, f.Resource, f.Evidence))
        = [("K8S-NET-004", "HIGH", { Kind := "Service", Namespace := "ns1", Name := "web2" },
            "type=NodePort ports=[80->30081/TCP]")] := by
  decide

/-- C14, amended: the findings of one service are a segment of the output with at most one
finding, attributed to `Service/<namespace>/<name>`. It is one HIGH finding `K8S-NET-004`
when the type of the service equals `NodePort` in any letter case; its evidence is
`type=NodePort ports=` followed by the list, in square brackets and separated by blanks, of
`<port>-><nodePort>/<PROTOCOL>` for every port of the service in order, the protocol in upper
case. It is one MEDIUM finding `K8S-NET-006` when the type equals `LoadBalancer` in any
letter case. It is empty for a type that equals neither in any letter case. -/
theorem DetectNetwork_services (up : String → String) (namespaces : List Namespace)
    (nps : List NetworkPolicy) (spre spost : List Service) (s : Service) (ing : List Ingress) :
    ∃ fs : List Finding,
      DetectNetwork up namespaces nps (spre ++ s :: spost) ing
        = DetectNetwork up namespaces nps spre [] ++ fs ++ DetectNetwork up [] [] spost ing
      ∧ fs.length ≤ 1
      ∧ (∀ f ∈ fs, f.Resource = { Kind := "Service", Namespace := s.Metadata.Namespace,
                                  Name := s.Metadata.Name })
      ∧ (eqIgnoreCase s.Spec.Type_ "NodePort" →
          ∃ f, fs = [f] ∧ f.CheckID = "K8S-NET-004" ∧ f.Severity = SeverityHigh
            ∧ f.Evidence = "type=NodePort ports=" ++ fmtStrings (s.Spec.Ports.map fun p =>
                toString p.Port ++ "->" ++ toString p.NodePort ++ "/" ++ up p.Protocol))
      ∧ (eqIgnoreCase s.Spec.Type_ "LoadBalancer" →
          ∃ f, fs = [f] ∧ f.CheckID = "K8S-NET-006" ∧ f.Severity = SeverityMedium)
      ∧ (¬ eqIgnoreCase s.Spec.Type_ "NodePort" → ¬ eqIgnoreCase s.Spec.Type_ "LoadBalancer" →
          fs = []) := by
  refine ⟨serviceStep up [] s, DetectNetwork_service_segment up namespaces nps spre spost s ing,
    ?_⟩
  unfold serviceStep
  dsimp only
  rw [servicePorts_eq_map]
  by_cases hn : eqIgnoreCase s.Spec.Type_ "NodePort"
  · have hl : ¬ eqIgnoreCase s.Spec.Type_ "LoadBalancer" :=
      fun h => not_NodePort_and_LoadBalancer _ hn h
    have en := (EqualFold_NodePort _).mpr hn
    have el : EqualFold s.Spec.Type_ "LoadBalancer" = false :=
      Bool.eq_false_iff.mpr fun h => hl ((EqualFold_LoadBalancer _).mp h)
    simp only [en, el, if_true, Bool.false_eq_true, if_false, List.nil_append]
    refine ⟨by simp, ?_, fun _ => ⟨_, rfl, rfl, rfl, rfl⟩, fun h => absurd h hl,
      fun h => absurd hn h⟩
    intro f hf
    rw [List.mem_singleton] at hf
    subst hf
    rfl
  · have en : EqualFold s.Spec.Type_ "NodePort" = false :=
      Bool.eq_false_iff.mpr fun h => hn ((EqualFold_NodePort _).mp h)
    by_cases hl : eqIgnoreCase s.Spec.Type_ "LoadBalancer"
    · have el := (EqualFold_LoadBalancer _).mpr hl
      simp only [en, el, if_true, Bool.false_eq_true, if_false, List.nil_append]
      refine ⟨by simp, ?_, fun h => absurd h hn, fun _ => ⟨_, rfl, rfl, rfl⟩,
        fun _ h => absurd hl h⟩
      intro f hf
      rw [List.mem_singleton] at hf
      subst hf
      rfl
    · have el : EqualFold s.Spec.Type_ "LoadBalancer" = false :=
        Bool.eq_false_iff.mpr fun h => hl ((EqualFold_LoadBalancer _).mp h)
      simp only [en, el, Bool.false_eq_true, if_false]
      exact ⟨by simp, by simp, fun h => absurd h hn, fun h => absurd h hl, fun _ _ => trivial⟩

/-! ## The map built by `BuildEffectiveRBAC` -/

theorem recordAll_append (m : List (String × List BoundRole))
    (a b : List (String × BoundRole)) :
    recordAll m (a ++ b) = recordAll (recordAll m a) b := by
  unfold recordAll
  rw [List.foldl_append]

theorem roleBindingSubjects_fold (roleIndex : List (String × Role))
    (cRoleIndex : List (String × ClusterRole)) (rb : RoleBinding) (subs : List Subject)
    (m : List (String × List BoundRole)) :
    subs.foldl (roleBindingSubjectStep roleIndex cRoleIndex rb) m
      = recordAll m (roleBindingFacts roleIndex cRoleIndex { rb with Subjects := subs }) := by
  induction subs generalizing m with
  | nil => rfl
  | cons sub subs ih =>
    rw [List.foldl_cons, ih]
    unfold roleBindingSubjectStep roleBindingFacts recordAll add
    by_cases hk : sub.Kind = "ServiceAccount"
    · simp only [hk, ne_eq, not_true_eq_false, if_false, List.filter_cons, decide_True,
        if_true, List.map_cons, List.foldl_cons]
      rfl
    · simp only [hk, ne_eq, not_false_eq_true, if_true, List.filter_cons, decide_False,
        Bool.false_eq_true, if_false]
      rfl

theorem roleBindings_fold (roleIndex : List (String × Role))
    (cRoleIndex : List (String × ClusterRole)) (rbs : List RoleBinding)
    (m : List (String × List BoundRole)) :
    rbs.foldl (fun bySA rb =>
        rb.Subjects.foldl (roleBindingSubjectStep roleIndex cRoleIndex rb) bySA) m
      = recordAll m (rbs.flatMap (roleBindingFacts roleIndex cRoleIndex)) := by
  induction rbs generalizing m with
  | nil => rfl
  | cons rb rbs ih =>
    rw [List.foldl_cons, ih, roleBindingSubjects_fold, List.flatMap_cons, recordAll_append]

theorem clusterRoleBindingSubjects_fold (cRoleIndex : List (String × ClusterRole))
    (crb : ClusterRoleBinding) (subs : List Subject) (m : List (String × List BoundRole)) :
    subs.foldl (clusterRoleBindingSubjectStep cRoleIndex crb) m
      = recordAll m (clusterRoleBindingFacts cRoleIndex { crb with Subjects := subs }) := by
  induction subs generalizing m with
  | nil => rfl
  | cons sub subs ih =>
    rw [List.foldl_cons, ih]
    unfold clusterRoleBindingSubjectStep clusterRoleBindingFacts recordAll add
    by_cases hk : sub.Kind = "ServiceAccount"
    · by_cases hn : sub.Namespace = ""
      · simp only [hk, hn, ne_eq, not_true_eq_false, if_false, if_true, List.filter_cons,
          decide_True, decide_False, Bool.and_false, Bool.false_eq_true]
        rfl
      · simp only [hk, hn, ne_eq, not_true_eq_false, not_false_eq_true, if_false,
          List.filter_cons, decide_True, Bool.and_self, if_true, List.map_cons,
          List.foldl_cons]
        rfl
    · simp only [hk, ne_eq, not_false_eq_true, if_true, List.filter_cons, decide_False,
        Bool.false_and, Bool.false_eq_true, if_false]
      rfl

theorem clusterRoleBindings_fold (cRoleIndex : List (String × ClusterRole))
    (crbs : List ClusterRoleBinding) (m : List (String × List BoundRole)) :
    crbs.foldl (fun bySA crb =>
        crb.Subjects.foldl (clusterRoleBindingSubjectStep cRoleIndex crb) bySA) m
      = recordAll m (crbs.flatMap (clusterRoleBindingFacts cRoleIndex)) := by
  induction crbs generalizing m with
  | nil => rfl
  | cons crb crbs ih =>
    rw [List.foldl_cons, ih, clusterRoleBindingSubjects_fold, List.flatMap_cons,
      recordAll_append]

/-- The entry of a key after facts are recorded: the bound roles it had, followed by the
bound roles of the facts with that key, in order. -/
theorem lookup_recordAll (facts : List (String × BoundRole))
    (m : List (String × List BoundRole)) (k : String) :
    (recordAll m facts).lookup k
      = if factsFor k facts = [] then m.lookup k
        else some ((m.lookup k).getD [] ++ factsFor k facts) := by
  induction facts generalizing m with
  | nil => simp [recordAll, factsFor]
  | cons f facts ih =>
    have hstep : recordAll m (f :: facts)
        = recordAll (mapSet m f.1 ((m.lookup f.1).getD [] ++ [f.2])) facts := rfl
    rw [hstep, ih, lookup_mapSet]
    by_cases hk : f.1 = k
    · subst hk
      have hf : factsFor f.1 (f :: facts) = f.2 :: factsFor f.1 facts := by
        simp [factsFor]
      rw [hf]
      by_cases he : factsFor f.1 facts = []
      · simp [he]
      · simp [he]
    · have hk' : ¬ k = f.1 := fun e => hk e.symm
      have hf : factsFor k (f :: facts) = factsFor k facts := by
        simp [factsFor, hk]
      rw [hf]
      simp [hk']

/-- The entry of a key after the loop over the service accounts. -/
theorem lookup_ensure (sas : List ServiceAccount) (m : List (String × List BoundRole))
    (k : String) :
    (sas.foldl ensureServiceAccount m).lookup k
      = if (m.lookup k).isSome then m.lookup k
        else if k ∈ sas.map (fun sa => sa.Metadata.Namespace ++ "/" ++ sa.Metadata.Name)
          then some [] else none := by
  induction sas generalizing m with
  | nil => cases h : m.lookup k <;> simp [h]
  | cons sa sas ih =>
    rw [List.foldl_cons, ih]
    unfold ensureServiceAccount
    dsimp only
    by_cases hs : (m.lookup (sa.Metadata.Namespace ++ "/" ++ sa.Metadata.Name)).isSome
    · rw [if_pos hs]
      by_cases hm : (m.lookup k).isSome
      · simp [hm]
      · have hne : ¬ k = sa.Metadata.Namespace ++ "/" ++ sa.Metadata.Name := by
          intro e
          rw [← e] at hs
          exact hm hs
        simp [hm, hne]
    · rw [if_neg hs, lookup_mapSet]
      by_cases hk : k = sa.Metadata.Namespace ++ "/" ++ sa.Metadata.Name
      · subst hk
        simp [hs]
      · rw [if_neg hk]
        simp [hk]

/-- The map built by `BuildEffectiveRBAC`: a key has an entry when a fact is recorded under
it or a service account has it; the entry holds the bound roles of the facts recorded under
the key, in order. -/
theorem BuildEffectiveRBAC_lookup (sas : List ServiceAccount) (roles : List Role)
    (cRoles : List ClusterRole) (rbs : List RoleBinding) (crbs : List ClusterRoleBinding)
    (k : String) :
    (BuildEffectiveRBAC sas roles cRoles rbs crbs).BySA.lookup k
      = if factsFor k (boundFacts roles cRoles rbs crbs) = [] then
          (if k ∈ sas.map (fun sa => sa.Metadata.Namespace ++ "/" ++ sa.Metadata.Name)
            then some [] else none)
        else some (factsFor k (boundFacts roles cRoles rbs crbs)) := by
  unfold BuildEffectiveRBAC
  dsimp only
  rw [roleBindings_fold, clusterRoleBindings_fold, ← recordAll_append, lookup_ensure,
    lookup_recordAll]
  unfold boundFacts
  by_cases he : factsFor k
      (rbs.flatMap (roleBindingFacts (buildRoleIndex roles) (buildClusterRoleIndex cRoles))
        ++ crbs.flatMap (clusterRoleBindingFacts (buildClusterRoleIndex cRoles))) = []
  · simp [he]
  · simp [he]

theorem getLast?_cons_or {α : Type} (x : α) (l : List α) :
    (x :: l).getLast? = l.getLast?.or (some x) := by
  cases l with
  | nil => rfl
  | cons y l =>
    rw [List.getLast?_cons_cons]
    cases h : (y :: l).getLast? with
    | none => simp at h
    | some z => rfl

/-- An index filled by `index[key(x)] = x` over a list holds, under a key, the last element
of the list with that key. -/
theorem lookup_foldl_mapSet {α : Type} (key : α → String) (l : List α)
    (m0 : List (String × α)) (k : String) :
    (l.foldl (fun m x => mapSet m (key x) x) m0).lookup k
      = ((l.filter fun x => decide (key x = k)).getLast?).or (m0.lookup k) := by
  induction l generalizing m0 with
  | nil => simp
  | cons x l ih =>
    rw [List.foldl_cons, ih, lookup_mapSet]
    by_cases hk : key x = k
    · have hk' : k = key x := hk.symm
      rw [if_pos hk', List.filter_cons, if_pos (by simpa using hk), getLast?_cons_or]
      cases (l.filter fun x => decide (key x = k)).getLast? <;> rfl
    · have hk' : ¬ k = key x := fun e => hk e.symm
      rw [if_neg hk', List.filter_cons, if_neg (by simpa using hk)]

theorem buildRoleIndex_lookup (roles : List Role) (k : String) :
    (buildRoleIndex roles).lookup k = specRoleAt roles k := by
  unfold buildRoleIndex specRoleAt
  rw [lookup_foldl_mapSet (fun r : Role => r.Metadata.Namespace ++ "/" ++ r.Metadata.Name)]
  simp

theorem buildClusterRoleIndex_lookup (cRoles : List ClusterRole) (k : String) :
    (buildClusterRoleIndex cRoles).lookup k = specClusterRoleAt cRoles k := by
  unfold buildClusterRoleIndex specClusterRoleAt
  rw [lookup_foldl_mapSet (fun r : ClusterRole => r.Metadata.Name)]
  simp

/-- The bound role of a RoleBinding: the fields copied from the binding, and the rules of
the referenced role if the reference resolves, no rules otherwise. -/
theorem roleBindingBoundRole_fields (roles : List Role) (cRoles : List ClusterRole)
    (rb : RoleBinding) :
    (roleBindingBoundRole (buildRoleIndex roles) (buildClusterRoleIndex cRoles) rb).RoleKind
        = rb.RoleRef.Kind
    ∧ (roleBindingBoundRole (buildRoleIndex roles) (buildClusterRoleIndex cRoles) rb).RoleName
        = rb.RoleRef.Name
    ∧ (roleBindingBoundRole (buildRoleIndex roles) (buildClusterRoleIndex cRoles) rb).Binding
        = rb.Metadata.Name
    ∧ (roleBindingBoundRole (buildRoleIndex roles) (buildClusterRoleIndex cRoles) rb).BindingNS
        = rb.Metadata.Namespace
    ∧ (roleBindingBoundRole (buildRoleIndex roles) (buildClusterRoleIndex cRoles) rb).Rules
        = (specResolveRoleBinding roles cRoles rb).getD [] := by
  unfold roleBindingBoundRole specResolveRoleBinding
  dsimp only
  rw [buildRoleIndex_lookup, buildClusterRoleIndex_lookup]
  by_cases h1 : rb.RoleRef.Kind = "Role"
  · rw [if_pos h1, if_pos h1]
    cases specRoleAt roles (rb.Metadata.Namespace ++ "/" ++ rb.RoleRef.Name) <;>
      exact ⟨rfl, rfl, rfl, rfl, rfl⟩
  · rw [if_neg h1, if_neg h1]
    by_cases h2 : rb.RoleRef.Kind = "ClusterRole"
    · rw [if_pos h2, if_pos h2]
      cases specClusterRoleAt cRoles rb.RoleRef.Name <;> exact ⟨rfl, rfl, rfl, rfl, rfl⟩
    · rw [if_neg h2, if_neg h2]
      exact ⟨rfl, rfl, rfl, rfl, rfl⟩

/-- The bound role of a ClusterRoleBinding: the fields copied from the binding, the
sentinel `(cluster)` as binding namespace, and the rules of the referenced cluster role if
the reference resolves, no rules otherwise. -/
theorem clusterRoleBindingBoundRole_fields (cRoles : List ClusterRole)
    (crb : ClusterRoleBinding) :
    (clusterRoleBindingBoundRole (buildClusterRoleIndex cRoles) crb).RoleKind = crb.RoleRef.Kind
    ∧ (clusterRoleBindingBoundRole (buildClusterRoleIndex cRoles) crb).RoleName
        = crb.RoleRef.Name
    ∧ (clusterRoleBindingBoundRole (buildClusterRoleIndex cRoles) crb).Binding
        = crb.Metadata.Name
    ∧ (clusterRoleBindingBoundRole (buildClusterRoleIndex cRoles) crb).BindingNS = "(cluster)"
    ∧ (clusterRoleBindingBoundRole (buildClusterRoleIndex cRoles) crb).Rules
        = (specResolveClusterRoleBinding cRoles crb).getD [] := by
  unfold clusterRoleBindingBoundRole specResolveClusterRoleBinding
  dsimp only
  rw [buildClusterRoleIndex_lookup]
  by_cases h2 : crb.RoleRef.Kind = "ClusterRole"
  · rw [if_pos h2, if_pos h2]
    cases specClusterRoleAt cRoles crb.RoleRef.Name <;> exact ⟨rfl, rfl, rfl, rfl, rfl⟩
  · rw [if_neg h2, if_neg h2]
    exact ⟨rfl, rfl, rfl, rfl, rfl⟩

/-- Where a fact of a run comes from: a ServiceAccount subject of a RoleBinding, or a
ServiceAccount subject with a namespace of a ClusterRoleBinding. -/
theorem mem_boundFacts (roles : List Role) (cRoles : List ClusterRole)
    (rbs : List RoleBinding) (crbs : List ClusterRoleBinding) (k : String) (br : BoundRole) :
    (k, br) ∈ boundFacts roles cRoles rbs crbs
      ↔ (∃ rb ∈ rbs, ∃ sub ∈ rb.Subjects, sub.Kind = "ServiceAccount"
            ∧ k = (if sub.Namespace = "" then rb.Metadata.Namespace else sub.Namespace)
                ++ "/" ++ sub.Name
            ∧ br = roleBindingBoundRole (buildRoleIndex roles) (buildClusterRoleIndex cRoles) rb)
        ∨ (∃ crb ∈ crbs, ∃ sub ∈ crb.Subjects, sub.Kind = "ServiceAccount"
            ∧ sub.Namespace ≠ "" ∧ k = sub.Namespace ++ "/" ++ sub.Name
            ∧ br = clusterRoleBindingBoundRole (buildClusterRoleIndex cRoles) crb) := by
  unfold boundFacts roleBindingFacts clusterRoleBindingFacts
  simp only [List.mem_append, List.mem_flatMap, List.mem_map, List.mem_filter,
    decide_eq_true_eq, Bool.and_eq_true, Prod.mk.injEq]
  constructor
  · rintro (⟨rb, hrb, sub, ⟨hs, hk⟩, rfl, rfl⟩ | ⟨crb, hcrb, sub, ⟨hs, hk, hn⟩, rfl, rfl⟩)
    · exact Or.inl ⟨rb, hrb, sub, hs, hk, rfl, rfl⟩
    · exact Or.inr ⟨crb, hcrb, sub, hs, hk, hn, rfl, rfl⟩
  · rintro (⟨rb, hrb, sub, hs, hk, rfl, rfl⟩ | ⟨crb, hcrb, sub, hs, hk, hn, rfl, rfl⟩)
    · exact Or.inl ⟨rb, hrb, sub, ⟨hs, hk⟩, rfl, rfl⟩
    · exact Or.inr ⟨crb, hcrb, sub, ⟨hs, hk, hn⟩, rfl, rfl⟩

theorem mem_factsFor (k : String) (facts : List (String × BoundRole)) (br : BoundRole) :
    br ∈ factsFor k facts ↔ (k, br) ∈ facts := by
  unfold factsFor
  simp only [List.mem_map, List.mem_filter, decide_eq_true_eq]
  constructor
  · rintro ⟨⟨k', b⟩, ⟨hm, rfl⟩, rfl⟩
    exact hm
  · intro h
    exact ⟨(k, br), ⟨h, rfl⟩, rfl⟩

/-- The bound roles of an entry of the map are the facts recorded under its key. -/
theorem BuildEffectiveRBAC_entry (sas : List ServiceAccount) (roles : List Role)
    (cRoles : List ClusterRole) (rbs : List RoleBinding) (crbs : List ClusterRoleBinding)
    (k : String) (brs : List BoundRole)
    (h : (BuildEffectiveRBAC sas roles cRoles rbs crbs).BySA.lookup k = some brs) :
    brs = factsFor k (boundFacts roles cRoles rbs crbs) := by
  rw [BuildEffectiveRBAC_lookup] at h
  by_cases he : factsFor k (boundFacts roles cRoles rbs crbs) = []
  · rw [if_pos he] at h
    rw [he]
    split_ifs at h
    · exact (Option.some.inj h).symm
  · rw [if_neg he] at h
    exact (Option.some.inj h).symm

/-- A recorded fact is in the entry of its key. -/
theorem BuildEffectiveRBAC_mem_of_fact (sas : List ServiceAccount) (roles : List Role)
    (cRoles : List ClusterRole) (rbs : List RoleBinding) (crbs : List ClusterRoleBinding)
    (k : String) (br : BoundRole) (h : (k, br) ∈ boundFacts roles cRoles rbs crbs) :
    ∃ brs, (BuildEffectiveRBAC sas roles cRoles rbs crbs).BySA.lookup k = some brs
      ∧ br ∈ brs := by
  have hm := (mem_factsFor k _ br).mpr h
  have hne : factsFor k (boundFacts roles cRoles rbs crbs) ≠ [] :=
    List.ne_nil_of_mem hm
  exact ⟨_, by rw [BuildEffectiveRBAC_lookup, if_neg hne], hm⟩

/-! ## Properties of `BuildEffectiveRBAC` -/

theorem append_cons_injective {α : Type} (x : α) (l1 l2 r1 r2 : List α) (h1 : x ∉ l1)
    (h2 : x ∉ l2) (h : l1 ++ x :: r1 = l2 ++ x :: r2) : l1 = l2 ∧ r1 = r2 := by
  induction l1 generalizing l2 with
  | nil =>
    cases l2 with
    | nil => exact ⟨rfl, by simpa using h⟩
    | cons b l2 =>
      simp only [List.nil_append, List.cons_append, List.cons.injEq] at h
      exact absurd (h.1 ▸ List.mem_cons_self _ _) h2
  | cons a l1 ih =>
    cases l2 with
    | nil =>
      simp only [List.nil_append, List.cons_append, List.cons.injEq] at h
      exact absurd (h.1 ▸ List.mem_cons_self _ _) h1
    | cons b l2 =>
      simp only [List.cons_append, List.cons.injEq] at h
      obtain ⟨e1, e2⟩ := ih l2 (fun hm => h1 (List.mem_cons_of_mem _ hm))
        (fun hm => h2 (List.mem_cons_of_mem _ hm)) h.2
      exact ⟨by rw [h.1, e1], e2⟩

/-- Two keys `<namespace>/<name>` whose namespaces contain no `/` are equal only if the
namespaces are equal and the names are equal. -/
theorem slash_key_injective (a b c d : String) (ha : '/' ∉ a.toList) (hc : '/' ∉ c.toList)
    (h : a ++ "/" ++ b = c ++ "/" ++ d) : a = c ∧ b = d := by
  have hd := congrArg String.data h
  simp only [String.data_append] at hd
  rw [List.append_assoc, List.append_assoc] at hd
  obtain ⟨e1, e2⟩ := append_cons_injective '/' a.data c.data b.data d.data ha hc hd
  exact ⟨String.ext e1, String.ext e2⟩

/-- The map is determined by the facts of the run and the service accounts. -/
theorem BuildEffectiveRBAC_eq (sas : List ServiceAccount) (roles : List Role)
    (cRoles : List ClusterRole) (rbs : List RoleBinding) (crbs : List ClusterRoleBinding) :
    BuildEffectiveRBAC sas roles cRoles rbs crbs
      = { BySA := sas.foldl ensureServiceAccount
            (recordAll [] (boundFacts roles cRoles rbs crbs)) } := by
  unfold BuildEffectiveRBAC boundFacts
  dsimp only
  rw [roleBindings_fold, clusterRoleBindings_fold, ← recordAll_append]

/-- C15: for every service account of the `serviceAccounts` collection the map returned by
`BuildEffectiveRBAC` has an entry under the key `<namespace>/<name>`. The entry is empty
when the service account is the subject of no binding, that is when no ServiceAccount
subject of a RoleBinding (its namespace defaulting to that of the binding) and no
ServiceAccount subject with a namespace of a ClusterRoleBinding is recorded under that key;
for namespaces without `/`, that is when no such subject has the namespace and the name of
the service account. -/
theorem BuildEffectiveRBAC_every_service_account (sas : List ServiceAccount)
    (roles : List Role) (cRoles : List ClusterRole) (rbs : List RoleBinding)
    (crbs : List ClusterRoleBinding) (sa : ServiceAccount) (hsa : sa ∈ sas) :
    (∃ brs, (BuildEffectiveRBAC sas roles cRoles rbs crbs).BySA.lookup
        (sa.Metadata.Namespace ++ "/" ++ sa.Metadata.Name) = some brs)
    ∧ ((∀ rb ∈ rbs, ∀ sub ∈ rb.Subjects, sub.Kind = "ServiceAccount" →
          (if sub.Namespace = "" then rb.Metadata.Namespace else sub.Namespace)
              ++ "/" ++ sub.Name
            ≠ sa.Metadata.Namespace ++ "/" ++ sa.Metadata.Name) →
        (∀ crb ∈ crbs, ∀ sub ∈ crb.Subjects, sub.Kind = "ServiceAccount" →
          sub.Namespace ≠ "" →
          sub.Namespace ++ "/" ++ sub.Name
            ≠ sa.Metadata.Namespace ++ "/" ++ sa.Metadata.Name) →
        (BuildEffectiveRBAC sas roles cRoles rbs crbs).BySA.lookup
          (sa.Metadata.Namespace ++ "/" ++ sa.Metadata.Name) = some [])
    ∧ ('/' ∉ sa.Metadata.Namespace.toList →
        (∀ rb ∈ rbs, ∀ sub ∈ rb.Subjects, sub.Kind = "ServiceAccount" →
          '/' ∉ (if sub.Namespace = "" then rb.Metadata.Namespace else sub.Namespace).toList
          ∧ ¬ ((if sub.Namespace = "" then rb.Metadata.Namespace else sub.Namespace)
                = sa.Metadata.Namespace ∧ sub.Name = sa.Metadata.Name)) →
        (∀ crb ∈ crbs, ∀ sub ∈ crb.Subjects, sub.Kind = "ServiceAccount" →
          sub.Namespace ≠ "" →
          '/' ∉ sub.Namespace.toList
          ∧ ¬ (sub.Namespace = sa.Metadata.Namespace ∧ sub.Name = sa.Metadata.Name)) →
        (BuildEffectiveRBAC sas roles cRoles rbs crbs).BySA.lookup
          (sa.Metadata.Namespace ++ "/" ++ sa.Metadata.Name) = some []) := by
  have hin : sa.Metadata.Namespace ++ "/" ++ sa.Metadata.Name
      ∈ sas.map (fun sa => sa.Metadata.Namespace ++ "/" ++ sa.Metadata.Name) :=
    List.mem_map.mpr ⟨sa, hsa, rfl⟩
  have hempty : (∀ rb ∈ rbs, ∀ sub ∈ rb.Subjects, sub.Kind = "ServiceAccount" →
        (if sub.Namespace = "" then rb.Metadata.Namespace else sub.Namespace)
            ++ "/" ++ sub.Name
          ≠ sa.Metadata.Namespace ++ "/" ++ sa.Metadata.Name) →
      (∀ crb ∈ crbs, ∀ sub ∈ crb.Subjects, sub.Kind = "ServiceAccount" →
        sub.Namespace ≠ "" →
        sub.Namespace ++ "/" ++ sub.Name
          ≠ sa.Metadata.Namespace ++ "/" ++ sa.Metadata.Name) →
      (BuildEffectiveRBAC sas roles cRoles rbs crbs).BySA.lookup
        (sa.Metadata.Namespace ++ "/" ++ sa.Metadata.Name) = some [] := by
    intro h1 h2
    have he : factsFor (sa.Metadata.Namespace ++ "/" ++ sa.Metadata.Name)
        (boundFacts roles cRoles rbs crbs) = [] := by
      rw [List.eq_nil_iff_forall_not_mem]
      intro br hbr
      rcases (mem_boundFacts roles cRoles rbs crbs _ br).mp ((mem_factsFor _ _ br).mp hbr) with
        ⟨rb, hrb, sub, hs, hk, e, _⟩ | ⟨crb, hcrb, sub, hs, hk, hn, e, _⟩
      · exact h1 rb hrb sub hs hk e.symm
      · exact h2 crb hcrb sub hs hk hn e.symm
    rw [BuildEffectiveRBAC_lookup, if_pos he, if_pos hin]
  refine ⟨?_, hempty, ?_⟩
  · rw [BuildEffectiveRBAC_lookup]
    split_ifs
    · exact ⟨_, rfl⟩
    · exact ⟨_, rfl⟩
  · intro hslash h1 h2
    apply hempty
    · intro rb hrb sub hs hk e
      obtain ⟨g1, g2⟩ := h1 rb hrb sub hs hk
      exact g2 (slash_key_injective _ _ _ _ g1 hslash e)
    · intro crb hcrb sub hs hk hn e
      obtain ⟨g1, g2⟩ := h2 crb hcrb sub hs hk hn
      exact g2 (slash_key_injective _ _ _ _ g1 hslash e)

theorem BuildEffectiveRBAC_every_service_account_witness :
    (BuildEffectiveRBAC [saOne, saIdle] [roleSecrets] [clusterAdmin] [rbReader]
        [crbAdmin]).BySA.lookup
        (saIdle.Metadata.Namespace ++ "/" ++ saIdle.Metadata.Name) = some [] :=
  (BuildEffectiveRBAC_every_service_account [saOne, saIdle] [roleSecrets] [clusterAdmin]
    [rbReader] [crbAdmin] saIdle (by decide)).2.1 (by decide) (by decide)

/-- C16, as stated, fails: the RoleBinding `bind-empty` references the role `ns1/empty`,
which is in the roles collection, so the reference resolves; the role has no rules, and the
`Rules` of the bound role are empty. -/
theorem BuildEffectiveRBAC_resolved_role_without_rules :
    specRoleAt [roleSecrets, roleEmpty] "ns1/empty" = some roleEmpty
    ∧ specResolveRoleBinding [roleSecrets, roleEmpty] [] rbEmpty = some []
    ∧ (BuildEffectiveRBAC [saOne] [roleSecrets, roleEmpty] [] [rbEmpty] []).BySA
        = [("ns1/sa1", [{ RoleKind := "Role", RoleNS := "ns1", RoleName := "empty",
                          Binding := "bind-empty", BindingNS := "ns1", Rules := [] }])] := by
  decide

/-- C16, amended: every bound role of the output comes from a RoleBinding or from a
ClusterRoleBinding of the input; its `Rules` are empty if the role referenced by that
binding does not resolve, and are the rules of the referenced role if it resolves (so they
are empty also when the referenced role has no rules). -/
theorem BuildEffectiveRBAC_rules (sas : List ServiceAccount) (roles : List Role)
    (cRoles : List ClusterRole) (rbs : List RoleBinding) (crbs : List ClusterRoleBinding)
    (k : String) (brs : List BoundRole) (br : BoundRole)
    (h : (BuildEffectiveRBAC sas roles cRoles rbs crbs).BySA.lookup k = some brs)
    (hbr : br ∈ brs) :
    (∃ rb ∈ rbs, br.Binding = rb.Metadata.Name ∧ br.BindingNS = rb.Metadata.Namespace
        ∧ br.RoleKind = rb.RoleRef.Kind ∧ br.RoleName = rb.RoleRef.Name
        ∧ (specResolveRoleBinding roles cRoles rb = none → br.Rules = [])
        ∧ (∀ rules, specResolveRoleBinding roles cRoles rb = some rules → br.Rules = rules))
    ∨ (∃ crb ∈ crbs, br.Binding = crb.Metadata.Name ∧ br.BindingNS = "(cluster)"
        ∧ br.RoleKind = crb.RoleRef.Kind ∧ br.RoleName = crb.RoleRef.Name
        ∧ (specResolveClusterRoleBinding cRoles crb = none → br.Rules = [])
        ∧ (∀ rules, specResolveClusterRoleBinding cRoles crb = some rules →
            br.Rules = rules)) := by
  rw [BuildEffectiveRBAC_entry sas roles cRoles rbs crbs k brs h] at hbr
  rcases (mem_boundFacts roles cRoles rbs crbs k br).mp ((mem_factsFor _ _ br).mp hbr) with
    ⟨rb, hrb, sub, _, _, _, rfl⟩ | ⟨crb, hcrb, sub, _, _, _, _, rfl⟩
  · obtain ⟨f1, f2, f3, f4, f5⟩ := roleBindingBoundRole_fields roles cRoles rb
    refine Or.inl ⟨rb, hrb, f3, f4, f1, f2, ?_, ?_⟩
    · intro hn
      rw [f5, hn]
      rfl
    · intro rules hr
      rw [f5, hr]
      rfl
  · obtain ⟨f1, f2, f3, f4, f5⟩ := clusterRoleBindingBoundRole_fields cRoles crb
    refine Or.inr ⟨crb, hcrb, f3, f4, f1, f2, ?_, ?_⟩
    · intro hn
      rw [f5, hn]
      rfl
    · intro rules hr
      rw [f5, hr]
      rfl

theorem BuildEffectiveRBAC_rules_witness :
    (∃ rb ∈ [rbReader, rbEmpty],
        (roleBindingBoundRole (buildRoleIndex [roleSecrets, roleEmpty])
            (buildClusterRoleIndex [clusterAdmin]) rbEmpty).Binding = rb.Metadata.Name
        ∧ (roleBindingBoundRole (buildRoleIndex [roleSecrets, roleEmpty])
            (buildClusterRoleIndex [clusterAdmin]) rbEmpty).BindingNS = rb.Metadata.Namespace
        ∧ (roleBindingBoundRole (buildRoleIndex [roleSecrets, roleEmpty])
            (buildClusterRoleIndex [clusterAdmin]) rbEmpty).RoleKind = rb.RoleRef.Kind
        ∧ (roleBindingBoundRole (buildRoleIndex [roleSecrets, roleEmpty])
            (buildClusterRoleIndex [clusterAdmin]) rbEmpty).RoleName = rb.RoleRef.Name
        ∧ (specResolveRoleBinding [roleSecrets, roleEmpty] [clusterAdmin] rb = none →
            (roleBindingBoundRole (buildRoleIndex [roleSecrets, roleEmpty])
              (buildClusterRoleIndex [clusterAdmin]) rbEmpty).Rules = [])
        ∧ (∀ rules, specResolveRoleBinding [roleSecrets, roleEmpty] [clusterAdmin] rb
              = some rules →
            (roleBindingBoundRole (buildRoleIndex [roleSecrets, roleEmpty])
              (buildClusterRoleIndex [clusterAdmin]) rbEmpty).Rules = rules))
    ∨ (∃ crb ∈ [crbAdmin],
        (roleBindingBoundRole (buildRoleIndex [roleSecrets, roleEmpty])
            (buildClusterRoleIndex [clusterAdmin]) rbEmpty).Binding = crb.Metadata.Name
        ∧ (roleBindingBoundRole (buildRoleIndex [roleSecrets, roleEmpty])
            (buildClusterRoleIndex [clusterAdmin]) rbEmpty).BindingNS = "(cluster)"
        ∧ (roleBindingBoundRole (buildRoleIndex [roleSecrets, roleEmpty])
            (buildClusterRoleIndex [clusterAdmin]) rbEmpty).RoleKind = crb.RoleRef.Kind
        ∧ (roleBindingBoundRole (buildRoleIndex [roleSecrets, roleEmpty])
            (buildClusterRoleIndex [clusterAdmin]) rbEmpty).RoleName = crb.RoleRef.Name
        ∧ (specResolveClusterRoleBinding [clusterAdmin] crb = none →
            (roleBindingBoundRole (buildRoleIndex [roleSecrets, roleEmpty])
              (buildClusterRoleIndex [clusterAdmin]) rbEmpty).Rules = [])
        ∧ (∀ rules, specResolveClusterRoleBinding [clusterAdmin] crb = some rules →
            (roleBindingBoundRole (buildRoleIndex [roleSecrets, roleEmpty])
              (buildClusterRoleIndex [clusterAdmin]) rbEmpty).Rules = rules)) :=
  BuildEffectiveRBAC_rules [saOne, saIdle] [roleSecrets, roleEmpty] [clusterAdmin]
    [rbReader, rbEmpty] [crbAdmin] "ns1/sa1"
    [roleBindingBoundRole (buildRoleIndex [roleSecrets, roleEmpty])
        (buildClusterRoleIndex [clusterAdmin]) rbReader,
      roleBindingBoundRole (buildRoleIndex [roleSecrets, roleEmpty])
        (buildClusterRoleIndex [clusterAdmin]) rbEmpty,
      clusterRoleBindingBoundRole (buildClusterRoleIndex [clusterAdmin]) crbAdmin]
    (roleBindingBoundRole (buildRoleIndex [roleSecrets, roleEmpty])
      (buildClusterRoleIndex [clusterAdmin]) rbEmpty)
    (by decide) (by decide)

theorem roleBindingFacts_filter (roleIndex : List (String × Role))
    (cRoleIndex : List (String × ClusterRole)) (rb : RoleBinding) :
    roleBindingFacts roleIndex cRoleIndex
        { rb with Subjects := rb.Subjects.filter fun s => decide (s.Kind = "ServiceAccount") }
      = roleBindingFacts roleIndex cRoleIndex rb := by
  unfold roleBindingFacts
  simp only [List.filter_filter, Bool.and_self]
  rfl

theorem clusterRoleBindingFacts_filter (cRoleIndex : List (String × ClusterRole))
    (crb : ClusterRoleBinding) :
    clusterRoleBindingFacts cRoleIndex
        { crb with Subjects := crb.Subjects.filter fun s => decide (s.Namespace ≠ "") }
      = clusterRoleBindingFacts cRoleIndex crb := by
  unfold clusterRoleBindingFacts
  simp only [List.filter_filter]
  have hp : (fun a : Subject =>
        (decide (a.Kind = "ServiceAccount") && decide (a.Namespace ≠ ""))
          && decide (a.Namespace ≠ ""))
      = fun a : Subject => decide (a.Kind = "ServiceAccount") && decide (a.Namespace ≠ "") := by
    funext a
    cases decide (a.Kind = "ServiceAccount") <;> cases decide (a.Namespace ≠ "") <;> rfl
  rw [hp]
  rfl

/-- C17: for every RoleBinding `rb` of the input and every subject of `rb` of kind
`ServiceAccount`, the map has under the key `<N>/<name of the subject>`, with `N` the
namespace of the subject if it is not empty and the namespace of `rb` otherwise, a bound
role with `Binding` the name of `rb`, `BindingNS` the namespace of `rb`, and `RoleKind` and
`RoleName` those of `rb.roleRef`. The subjects of any other kind contribute nothing: the
result is the same once they are removed from every RoleBinding. -/
theorem BuildEffectiveRBAC_roleBinding_subject (sas : List ServiceAccount) (roles : List Role)
    (cRoles : List ClusterRole) (rbs : List RoleBinding) (crbs : List ClusterRoleBinding)
    (rb : RoleBinding) (sub : Subject) (hrb : rb ∈ rbs) (hsub : sub ∈ rb.Subjects)
    (hk : sub.Kind = "ServiceAccount") :
    (∃ brs br,
      (BuildEffectiveRBAC sas roles cRoles rbs crbs).BySA.lookup
          ((if sub.Namespace = "" then rb.Metadata.Namespace else sub.Namespace)
            ++ "/" ++ sub.Name) = some brs
      ∧ br ∈ brs ∧ br.Binding = rb.Metadata.Name ∧ br.BindingNS = rb.Metadata.Namespace
      ∧ br.RoleKind = rb.RoleRef.Kind ∧ br.RoleName = rb.RoleRef.Name)
    ∧ BuildEffectiveRBAC sas roles cRoles rbs crbs
        = BuildEffectiveRBAC sas roles cRoles
            (rbs.map fun rb =>
              { rb with Subjects :=
                  rb.Subjects.filter fun s => decide (s.Kind = "ServiceAccount") })
            crbs := by
  constructor
  · have hf : ((if sub.Namespace = "" then rb.Metadata.Namespace else sub.Namespace)
          ++ "/" ++ sub.Name,
        roleBindingBoundRole (buildRoleIndex roles) (buildClusterRoleIndex cRoles) rb)
        ∈ boundFacts roles cRoles rbs crbs :=
      (mem_boundFacts roles cRoles rbs crbs _ _).mpr
        (Or.inl ⟨rb, hrb, sub, hsub, hk, rfl, rfl⟩)
    obtain ⟨brs, hl, hm⟩ := BuildEffectiveRBAC_mem_of_fact sas roles cRoles rbs crbs _ _ hf
    obtain ⟨f1, f2, f3, f4, _⟩ := roleBindingBoundRole_fields roles cRoles rb
    exact ⟨brs, _, hl, hm, f3, f4, f1, f2⟩
  · rw [BuildEffectiveRBAC_eq, BuildEffectiveRBAC_eq]
    unfold boundFacts
    rw [List.flatMap_map]
    simp only [roleBindingFacts_filter]

theorem BuildEffectiveRBAC_roleBinding_subject_witness :
    (∃ brs br,
      (BuildEffectiveRBAC [saOne] [roleSecrets] [clusterAdmin] [rbEmpty, rbReader]
          [crbAdmin]).BySA.lookup
          ((if ({ Kind := "ServiceAccount", Name := "sa1" } : Subject).Namespace = ""
              then rbReader.Metadata.Namespace
              else ({ Kind := "ServiceAccount", Name := "sa1" } : Subject).Namespace)
            ++ "/" ++ ({ Kind := "ServiceAccount", Name := "sa1" } : Subject).Name) = some brs
      ∧ br ∈ brs ∧ br.Binding = rbReader.Metadata.Name
      ∧ br.BindingNS = rbReader.Metadata.Namespace
      ∧ br.RoleKind = rbReader.RoleRef.Kind ∧ br.RoleName = rbReader.RoleRef.Name)
    ∧ BuildEffectiveRBAC [saOne] [roleSecrets] [clusterAdmin] [rbEmpty, rbReader] [crbAdmin]
        = BuildEffectiveRBAC [saOne] [roleSecrets] [clusterAdmin]
            ([rbEmpty, rbReader].map fun rb =>
              { rb with Subjects :=
                  rb.Subjects.filter fun s => decide (s.Kind = "ServiceAccount") })
            [crbAdmin] :=
  BuildEffectiveRBAC_roleBinding_subject [saOne] [roleSecrets] [clusterAdmin]
    [rbEmpty, rbReader] [crbAdmin] rbReader { Kind := "ServiceAccount", Name := "sa1" }
    (by decide) (by decide) rfl

theorem append_slash_right_cancel (a c n : String) (h : a ++ "/" ++ n = c ++ "/" ++ n) :
    a = c := by
  have hd := congrArg String.data h
  simp only [String.data_append] at hd
  rw [List.append_assoc, List.append_assoc] at hd
  exact String.ext (List.append_cancel_right hd)

/-- C18: for every RoleBinding `rb` of the input, in namespace `B`, and every subject of
`rb` of kind `ServiceAccount`, the map has under the key of the subject a bound role of
`rb` whose rules are: if `roleRef.kind` is `Role`, those of the Role indexed under
`B/<roleRef.name>`, or none if there is no such Role; if it is `ClusterRole`, those of the
ClusterRole named `roleRef.name`, or none if there is none; for any other kind, none. A
Role with the name `roleRef.name` in another namespace, such as that of the subject, has
another key: when no Role of the collection has the key `B/<roleRef.name>`, the rules are
empty. -/
theorem BuildEffectiveRBAC_roleBinding_rules (sas : List ServiceAccount) (roles : List Role)
    (cRoles : List ClusterRole) (rbs : List RoleBinding) (crbs : List ClusterRoleBinding)
    (rb : RoleBinding) (sub : Subject) (hrb : rb ∈ rbs) (hsub : sub ∈ rb.Subjects)
    (hk : sub.Kind = "ServiceAccount") :
    (∃ brs br,
      (BuildEffectiveRBAC sas roles cRoles rbs crbs).BySA.lookup
          ((if sub.Namespace = "" then rb.Metadata.Namespace else sub.Namespace)
            ++ "/" ++ sub.Name) = some brs
      ∧ br ∈ brs ∧ br.Binding = rb.Metadata.Name ∧ br.BindingNS = rb.Metadata.Namespace
      ∧ (rb.RoleRef.Kind = "Role" →
          br.Rules = ((specRoleAt roles (rb.Metadata.Namespace ++ "/" ++ rb.RoleRef.Name)).map
            fun r => r.Rules).getD [])
      ∧ (rb.RoleRef.Kind = "ClusterRole" →
          br.Rules = ((specClusterRoleAt cRoles rb.RoleRef.Name).map fun r => r.Rules).getD [])
      ∧ (rb.RoleRef.Kind ≠ "Role" → rb.RoleRef.Kind ≠ "ClusterRole" → br.Rules = [])
      ∧ (rb.RoleRef.Kind = "Role" →
          (∀ r ∈ roles, r.Metadata.Namespace ++ "/" ++ r.Metadata.Name
            ≠ rb.Metadata.Namespace ++ "/" ++ rb.RoleRef.Name) → br.Rules = []))
    ∧ (∀ r : Role, r.Metadata.Name = rb.RoleRef.Name →
        r.Metadata.Namespace ≠ rb.Metadata.Namespace →
        r.Metadata.Namespace ++ "/" ++ r.Metadata.Name
          ≠ rb.Metadata.Namespace ++ "/" ++ rb.RoleRef.Name) := by
  constructor
  · have hf : ((if sub.Namespace = "" then rb.Metadata.Namespace else sub.Namespace)
          ++ "/" ++ sub.Name,
        roleBindingBoundRole (buildRoleIndex roles) (buildClusterRoleIndex cRoles) rb)
        ∈ boundFacts roles cRoles rbs crbs :=
      (mem_boundFacts roles cRoles rbs crbs _ _).mpr
        (Or.inl ⟨rb, hrb, sub, hsub, hk, rfl, rfl⟩)
    obtain ⟨brs, hl, hm⟩ := BuildEffectiveRBAC_mem_of_fact sas roles cRoles rbs crbs _ _ hf
    obtain ⟨_, _, f3, f4, f5⟩ := roleBindingBoundRole_fields roles cRoles rb
    refine ⟨brs, _, hl, hm, f3, f4, ?_, ?_, ?_, ?_⟩
    · intro h1
      rw [f5]
      unfold specResolveRoleBinding
      rw [if_pos h1]
    · intro h2
      have h1 : ¬ rb.RoleRef.Kind = "Role" := by
        rw [h2]
        decide
      rw [f5]
      unfold specResolveRoleBinding
      rw [if_neg h1, if_pos h2]
    · intro h1 h2
      rw [f5]
      unfold specResolveRoleBinding
      rw [if_neg h1, if_neg h2]
      rfl
    · intro h1 hall
      rw [f5]
      unfold specResolveRoleBinding
      rw [if_pos h1]
      have hn : specRoleAt roles (rb.Metadata.Namespace ++ "/" ++ rb.RoleRef.Name) = none := by
        unfold specRoleAt
        have he : (roles.filter fun r =>
            decide (r.Metadata.Namespace ++ "/" ++ r.Metadata.Name
              = rb.Metadata.Namespace ++ "/" ++ rb.RoleRef.Name)) = [] := by
          rw [List.filter_eq_nil_iff]
          intro r hr
          simpa using hall r hr
        rw [he]
        rfl
      rw [hn]
      rfl
  · intro r hname hns e
    rw [hname] at e
    exact hns (append_slash_right_cancel _ _ _ e)

theorem BuildEffectiveRBAC_roleBinding_rules_witness :
    (∃ brs br,
      (BuildEffectiveRBAC [saOne] [roleSecretsOther] [clusterAdmin] [rbEmpty, rbReader]
          [crbAdmin]).BySA.lookup
          ((if ({ Kind := "ServiceAccount", Name := "sa2", Namespace := "ns2" } : Subject).Namespace
                = ""
              then rbReader.Metadata.Namespace
              else ({ Kind := "ServiceAccount", Name := "sa2",
                      Namespace := "ns2" } : Subject).Namespace)
            ++ "/" ++ ({ Kind := "ServiceAccount", Name := "sa2",
                         Namespace := "ns2" } : Subject).Name) = some brs
      ∧ br ∈ brs ∧ br.Binding = rbReader.Metadata.Name
      ∧ br.BindingNS = rbReader.Metadata.Namespace
      ∧ (rbReader.RoleRef.Kind = "Role" →
          br.Rules = ((specRoleAt [roleSecretsOther]
            (rbReader.Metadata.Namespace ++ "/" ++ rbReader.RoleRef.Name)).map
              fun r => r.Rules).getD [])
      ∧ (rbReader.RoleRef.Kind = "ClusterRole" →
          br.Rules = ((specClusterRoleAt [clusterAdmin] rbReader.RoleRef.Name).map
            fun r => r.Rules).getD [])
      ∧ (rbReader.RoleRef.Kind ≠ "Role" → rbReader.RoleRef.Kind ≠ "ClusterRole" →
          br.Rules = [])
      ∧ (rbReader.RoleRef.Kind = "Role" →
          (∀ r ∈ [roleSecretsOther], r.Metadata.Namespace ++ "/" ++ r.Metadata.Name
            ≠ rbReader.Metadata.Namespace ++ "/" ++ rbReader.RoleRef.Name) → br.Rules = []))
    ∧ (∀ r : Role, r.Metadata.Name = rbReader.RoleRef.Name →
        r.Metadata.Namespace ≠ rbReader.Metadata.Namespace →
        r.Metadata.Namespace ++ "/" ++ r.Metadata.Name
          ≠ rbReader.Metadata.Namespace ++ "/" ++ rbReader.RoleRef.Name) :=
  BuildEffectiveRBAC_roleBinding_rules [saOne] [roleSecretsOther] [clusterAdmin]
    [rbEmpty, rbReader] [crbAdmin] rbReader
    { Kind := "ServiceAccount", Name := "sa2", Namespace := "ns2" }
    (by decide) (by decide) rfl

/-- C19: in the loop over the ClusterRoleBindings a subject with an empty namespace adds
nothing: the result is the same once these subjects are removed from every
ClusterRoleBinding. Every ServiceAccount subject with a namespace gets, under the key
`<subject namespace>/<subject name>`, a bound role of the binding with `BindingNS` equal to
`(cluster)`. And every bound role that comes from a ClusterRoleBinding (every bound role of
a run without RoleBindings) has `BindingNS` equal to `(cluster)` and is keyed by the
namespace and name of a ServiceAccount subject, with a namespace, of its binding. -/
theorem BuildEffectiveRBAC_clusterRoleBindings (sas : List ServiceAccount) (roles : List Role)
    (cRoles : List ClusterRole) (rbs : List RoleBinding) (crbs : List ClusterRoleBinding) :
    BuildEffectiveRBAC sas roles cRoles rbs crbs
        = BuildEffectiveRBAC sas roles cRoles rbs
            (crbs.map fun crb =>
              { crb with Subjects := crb.Subjects.filter fun s => decide (s.Namespace ≠ "") })
    ∧ (∀ crb ∈ crbs, ∀ sub ∈ crb.Subjects, sub.Kind = "ServiceAccount" →
        sub.Namespace ≠ "" →
        ∃ brs br,
          (BuildEffectiveRBAC sas roles cRoles rbs crbs).BySA.lookup
              (sub.Namespace ++ "/" ++ sub.Name) = some brs
          ∧ br ∈ brs ∧ br.BindingNS = "(cluster)" ∧ br.Binding = crb.Metadata.Name
          ∧ br.RoleKind = crb.RoleRef.Kind ∧ br.RoleName = crb.RoleRef.Name)
    ∧ (∀ k brs, (BuildEffectiveRBAC sas roles cRoles [] crbs).BySA.lookup k = some brs →
        ∀ br ∈ brs, br.BindingNS = "(cluster)"
          ∧ ∃ crb ∈ crbs, ∃ sub ∈ crb.Subjects, sub.Kind = "ServiceAccount"
              ∧ sub.Namespace ≠ "" ∧ k = sub.Namespace ++ "/" ++ sub.Name
              ∧ br.Binding = crb.Metadata.Name) := by
  refine ⟨?_, ?_, ?_⟩
  · rw [BuildEffectiveRBAC_eq, BuildEffectiveRBAC_eq]
    unfold boundFacts
    rw [List.flatMap_map]
    simp only [clusterRoleBindingFacts_filter]
  · intro crb hcrb sub hsub hk hn
    have hf : (sub.Namespace ++ "/" ++ sub.Name,
        clusterRoleBindingBoundRole (buildClusterRoleIndex cRoles) crb)
        ∈ boundFacts roles cRoles rbs crbs :=
      (mem_boundFacts roles cRoles rbs crbs _ _).mpr
        (Or.inr ⟨crb, hcrb, sub, hsub, hk, hn, rfl, rfl⟩)
    obtain ⟨brs, hl, hm⟩ := BuildEffectiveRBAC_mem_of_fact sas roles cRoles rbs crbs _ _ hf
    obtain ⟨f1, f2, f3, f4, _⟩ := clusterRoleBindingBoundRole_fields cRoles crb
    exact ⟨brs, _, hl, hm, f4, f3, f1, f2⟩
  · intro k brs h br hbr
    rw [BuildEffectiveRBAC_entry sas roles cRoles [] crbs k brs h] at hbr
    rcases (mem_boundFacts roles cRoles [] crbs k br).mp ((mem_factsFor _ _ br).mp hbr) with
      ⟨rb, hrb, _⟩ | ⟨crb, hcrb, sub, hsub, hk, hn, e, rfl⟩
    · exact absurd hrb (List.not_mem_nil _)
    · obtain ⟨_, _, f3, f4, _⟩ := clusterRoleBindingBoundRole_fields cRoles crb
      exact ⟨f4, crb, hcrb, sub, hsub, hk, hn, e, f3⟩

/-! ## Properties of `DetectRBAC` -/

theorem mem_mapSet {α : Type} (m : List (String × α)) (k : String) (v : α) (e : String × α)
    (h : e ∈ mapSet m k v) : e ∈ m ∨ e = (k, v) := by
  induction m with
  | nil =>
    unfold mapSet at h
    exact Or.inr (List.mem_singleton.mp h)
  | cons e0 rest ih =>
    obtain ⟨k0, v0⟩ := e0
    unfold mapSet at h
    split_ifs at h
    · rcases List.mem_cons.mp h with h | h
      · exact Or.inr h
      · exact Or.inl (List.mem_cons_of_mem _ h)
    · rcases List.mem_cons.mp h with h | h
      · exact Or.inl (h ▸ List.mem_cons_self _ _)
      · rcases ih h with h | h
        · exact Or.inl (List.mem_cons_of_mem _ h)
        · exact Or.inr h

theorem mem_of_lookup {α : Type} (m : List (String × α)) (k : String) (v : α)
    (h : m.lookup k = some v) : (k, v) ∈ m := by
  induction m with
  | nil => simp at h
  | cons e0 rest ih =>
    obtain ⟨k0, v0⟩ := e0
    rw [lookup_cons_ite] at h
    split_ifs at h with hk
    · subst hk
      rw [Option.some.inj h]
      exact List.mem_cons_self _ _
    · exact List.mem_cons_of_mem _ (ih h)

/-- A property of the keys and a property of the bound roles that hold for a map and for
the facts recorded into it hold for the resulting map. -/
theorem recordAll_invariant (P : String → Prop) (Q : BoundRole → Prop)
    (facts : List (String × BoundRole)) (m : List (String × List BoundRole))
    (hm : ∀ e ∈ m, P e.1 ∧ ∀ br ∈ e.2, Q br) (hf : ∀ f ∈ facts, P f.1 ∧ Q f.2) :
    ∀ e ∈ recordAll m facts, P e.1 ∧ ∀ br ∈ e.2, Q br := by
  induction facts generalizing m with
  | nil => exact hm
  | cons f facts ih =>
    have hstep : recordAll m (f :: facts)
        = recordAll (mapSet m f.1 ((m.lookup f.1).getD [] ++ [f.2])) facts := rfl
    rw [hstep]
    apply ih
    · intro e he
      rcases mem_mapSet _ _ _ _ he with he | he
      · exact hm e he
      · subst he
        refine ⟨(hf f (List.mem_cons_self _ _)).1, ?_⟩
        intro br hbr
        rcases List.mem_append.mp hbr with hbr | hbr
        · cases hl : m.lookup f.1 with
          | none => rw [hl] at hbr; simp at hbr
          | some v =>
            rw [hl] at hbr
            exact (hm _ (mem_of_lookup m f.1 v hl)).2 br hbr
        · rw [List.mem_singleton.mp hbr]
          exact (hf f (List.mem_cons_self _ _)).2
    · intro f' hf'
      exact hf f' (List.mem_cons_of_mem _ hf')

theorem ensure_invariant (P : String → Prop) (Q : BoundRole → Prop)
    (sas : List ServiceAccount) (m : List (String × List BoundRole))
    (hm : ∀ e ∈ m, P e.1 ∧ ∀ br ∈ e.2, Q br)
    (hs : ∀ sa ∈ sas, P (sa.Metadata.Namespace ++ "/" ++ sa.Metadata.Name)) :
    ∀ e ∈ sas.foldl ensureServiceAccount m, P e.1 ∧ ∀ br ∈ e.2, Q br := by
  induction sas generalizing m with
  | nil => exact hm
  | cons sa sas ih =>
    rw [List.foldl_cons]
    apply ih
    · intro e he
      unfold ensureServiceAccount at he
      dsimp only at he
      split_ifs at he
      · exact hm e he
      · rcases mem_mapSet _ _ _ _ he with he | he
        · exact hm e he
        · subst he
          exact ⟨hs sa (List.mem_cons_self _ _), fun br hbr => absurd hbr (List.not_mem_nil _)⟩
    · intro sa' hsa'
      exact hs sa' (List.mem_cons_of_mem _ hsa')

/-- Every key of the map built by `BuildEffectiveRBAC` is of the form `<a>/<b>`, and a
property of all the facts of the run holds for all the bound roles of the map. -/
theorem BuildEffectiveRBAC_invariant (Q : BoundRole → Prop) (sas : List ServiceAccount)
    (roles : List Role) (cRoles : List ClusterRole) (rbs : List RoleBinding)
    (crbs : List ClusterRoleBinding)
    (hq : ∀ f ∈ boundFacts roles cRoles rbs crbs, Q f.2) :
    ∀ e ∈ (BuildEffectiveRBAC sas roles cRoles rbs crbs).BySA,
      (∃ a b : String, e.1 = a ++ "/" ++ b) ∧ ∀ br ∈ e.2, Q br := by
  rw [BuildEffectiveRBAC_eq]
  show ∀ e ∈ sas.foldl ensureServiceAccount (recordAll [] (boundFacts roles cRoles rbs crbs)),
    (∃ a b : String, e.1 = a ++ "/" ++ b) ∧ ∀ br ∈ e.2, Q br
  apply ensure_invariant (fun k => ∃ a b : String, k = a ++ "/" ++ b) Q
  · apply recordAll_invariant (fun k => ∃ a b : String, k = a ++ "/" ++ b) Q
    · intro e he
      exact absurd he (List.not_mem_nil _)
    · intro f hf
      refine ⟨?_, hq f hf⟩
      rcases (mem_boundFacts roles cRoles rbs crbs f.1 f.2).mp hf with
        ⟨rb, _, sub, _, _, e, _⟩ | ⟨crb, _, sub, _, _, _, e, _⟩
      · exact ⟨_, _, e⟩
      · exact ⟨_, _, e⟩
  · intro sa _
    exact ⟨_, _, rfl⟩

theorem splitFirstSlash_append (a b : List Char) :
    ∃ p, splitFirstSlash (a ++ '/' :: b) = some p := by
  induction a with
  | nil => exact ⟨([], b), by simp [splitFirstSlash]⟩
  | cons c a ih =>
    obtain ⟨p, hp⟩ := ih
    by_cases hc : c = '/'
    · exact ⟨([], a ++ '/' :: b), by simp [splitFirstSlash, hc]⟩
    · exact ⟨(c :: p.1, p.2), by simp [splitFirstSlash, hc, hp]⟩

/-- The split of a key of the form `<a>/<b>` has two parts. -/
theorem splitKey_append (a b : String) : ∃ p, splitKey (a ++ "/" ++ b) = some p := by
  unfold splitKey
  have hd : (a ++ "/" ++ b).toList = a.toList ++ '/' :: b.toList := by
    simp [String.toList, String.data_append]
  rw [hd]
  obtain ⟨p, hp⟩ := splitFirstSlash_append a.toList b.toList
  rw [hp]
  exact ⟨_, rfl⟩

/-- A bound role without rules leaves the findings as they are. -/
theorem boundRoleStep_of_no_rules (q lo : String → String) (saNS saName : String)
    (out : List Finding) (br : BoundRole) (h : br.Rules = []) :
    boundRoleStep q lo saNS saName out br = out := by
  unfold boundRoleStep
  simp [h]

theorem foldl_boundRoleStep_filter (q lo : String → String) (saNS saName : String)
    (bound : List BoundRole) (out : List Finding) :
    bound.foldl (boundRoleStep q lo saNS saName) out
      = (bound.filter fun br => decide (br.Rules ≠ [])).foldl
          (boundRoleStep q lo saNS saName) out := by
  induction bound generalizing out with
  | nil => rfl
  | cons br bound ih =>
    rw [List.foldl_cons, List.filter_cons]
    by_cases h : br.Rules = []
    · rw [boundRoleStep_of_no_rules q lo saNS saName out br h, ih]
      simp [h]
    · rw [if_pos (by simpa using h), List.foldl_cons, ih]

theorem detectEntries_filter (q lo : String → String) (entries : List (String × List BoundRole))
    (out : List Finding) :
    detectEntries q lo entries out
      = detectEntries q lo
          (entries.map fun entry => (entry.1, entry.2.filter fun br => decide (br.Rules ≠ [])))
          out := by
  induction entries generalizing out with
  | nil => rfl
  | cons e entries ih =>
    obtain ⟨k, bound⟩ := e
    rw [List.map_cons]
    unfold detectEntries
    cases splitKey k with
    | none => rfl
    | some p =>
      obtain ⟨saNS, saName⟩ := p
      dsimp only
      rw [← foldl_boundRoleStep_filter, ih]

theorem detectEntries_of_no_rules (q lo : String → String)
    (entries : List (String × List BoundRole)) (out : List Finding)
    (h : ∀ e ∈ entries, (∃ a b : String, e.1 = a ++ "/" ++ b) ∧ ∀ br ∈ e.2, br.Rules = []) :
    detectEntries q lo entries out = some out := by
  induction entries generalizing out with
  | nil => rfl
  | cons e entries ih =>
    obtain ⟨k, bound⟩ := e
    obtain ⟨⟨a, b, hk⟩, hb⟩ := h (k, bound) (List.mem_cons_self _ _)
    dsimp only at hk hb
    obtain ⟨p, hp⟩ := splitKey_append a b
    obtain ⟨saNS, saName⟩ := p
    unfold detectEntries
    rw [hk, hp]
    dsimp only
    have hfold : bound.foldl (boundRoleStep q lo saNS saName) out = out := by
      rw [foldl_boundRoleStep_filter]
      have he : (bound.filter fun br => decide (br.Rules ≠ [])) = [] := by
        rw [List.filter_eq_nil_iff]
        intro br hbr
        simpa using hb br hbr
      rw [he]
      rfl
    rw [hfold]
    exact ih out (fun e he => h e (List.mem_cons_of_mem _ he))

/-- C20: a bound role with an empty `Rules` list adds no finding, whatever its kind and
name are (so no `K8S-RBAC-000` for an unresolved `cluster-admin`): the loop body leaves the
findings as they are, and `DetectRBAC` gives the same result once all such bound roles are
removed from the map. When the roles and clusterRoles collections are empty,
`DetectRBAC(BuildEffectiveRBAC(sas, nil, nil, rbs, crbs))` returns the empty list of
findings, in whatever order the entries of the map are visited. -/
theorem DetectRBAC_unresolved (q lo : String → String) :
    (∀ (saNS saName : String) (out : List Finding) (br : BoundRole), br.Rules = [] →
      boundRoleStep q lo saNS saName out br = out)
    ∧ (∀ e : EffectiveRBAC,
        DetectRBAC q lo e
          = DetectRBAC q lo
              { BySA := e.BySA.map fun entry =>
                  (entry.1, entry.2.filter fun br => decide (br.Rules ≠ [])) })
    ∧ (∀ (sas : List ServiceAccount) (rbs : List RoleBinding) (crbs : List ClusterRoleBinding)
        (entries : List (String × List BoundRole)),
        entries.Perm (BuildEffectiveRBAC sas [] [] rbs crbs).BySA →
        DetectRBAC q lo { BySA := entries } = some []) := by
  refine ⟨boundRoleStep_of_no_rules q lo, fun e => detectEntries_filter q lo e.BySA [], ?_⟩
  intro sas rbs crbs entries hperm
  apply detectEntries_of_no_rules
  intro e he
  apply BuildEffectiveRBAC_invariant (fun br => br.Rules = []) sas [] [] rbs crbs ?_ e
    (hperm.mem_iff.mp he)
  intro f hf
  rcases (mem_boundFacts [] [] rbs crbs f.1 f.2).mp hf with
    ⟨rb, _, _, _, _, _, e2⟩ | ⟨crb, _, _, _, _, _, _, e2⟩
  · rw [e2, (roleBindingBoundRole_fields [] [] rb).2.2.2.2]
    unfold specResolveRoleBinding specRoleAt specClusterRoleAt
    split_ifs <;> rfl
  · rw [e2, (clusterRoleBindingBoundRole_fields [] crb).2.2.2.2]
    unfold specResolveClusterRoleBinding specClusterRoleAt
    split_ifs <;> rfl

/-! ## The shape of the output of `DetectRBAC` -/

/-- The findings of a rule: one optional finding per check, in the order of the checks. -/
theorem ruleFindings_shape (q lo : String → String) (saNS saName : String) (br : BoundRole)
    (rule : PolicyRule) :
    ∃ f1 f2 f3 f4 f5 : Finding,
      (f1.CheckID = "K8S-RBAC-001" ∧ f1.Severity = SeverityHigh
        ∧ f1.Resource = { Kind := "ServiceAccount", Namespace := saNS, Name := saName })
      ∧ (f2.CheckID = "K8S-RBAC-002" ∧ f2.Severity = SeverityHigh
        ∧ f2.Resource = { Kind := "ServiceAccount", Namespace := saNS, Name := saName })
      ∧ (f3.CheckID = "K8S-RBAC-003" ∧ f3.Severity = SeverityHigh
        ∧ f3.Resource = { Kind := "ServiceAccount", Namespace := saNS, Name := saName })
      ∧ (f4.CheckID = "K8S-RBAC-004" ∧ f4.Severity = SeverityHigh
        ∧ f4.Resource = { Kind := "ServiceAccount", Namespace := saNS, Name := saName })
      ∧ (f5.CheckID = "K8S-RBAC-005" ∧ f5.Severity = SeverityCritical
        ∧ f5.Resource = { Kind := "ServiceAccount", Namespace := saNS, Name := saName })
      ∧ ∀ out, ruleStep q lo saNS saName br out rule
          = out
            ++ (if hasStar rule.Verbs || hasStar rule.Resources || hasStar rule.APIGroups
                then [f1] else [])
            ++ (if containsAny (uniqStrings rule.Resources) ["secrets"]
                  && containsAny (uniqStrings rule.Verbs) ["get", "list", "watch"]
                then [f2] else [])
            ++ (if containsAny (uniqStrings rule.Resources) ["pods/exec"]
                  && containsAny (uniqStrings rule.Verbs) ["create", "get"]
                then [f3] else [])
            ++ (if containsAny (uniqStrings rule.Resources) ["nodes"] then [f4] else [])
            ++ (if containsAny (uniqStrings rule.Resources)
                    ["rolebindings", "clusterrolebindings"]
                  && containsAny (uniqStrings rule.Verbs) ["create", "patch", "update"]
                then [f5] else []) := by
  refine ⟨{
        CheckID := "K8S-RBAC-001",
        Severity := SeverityHigh,
        Resource := { Kind := "ServiceAccount", Namespace := saNS, Name := saName },
        Title := "Избыточные RBAC-права (wildcard)",
        Evidence := "binding " ++ q br.Binding ++ " -> " ++ lo br.RoleKind ++ " "
          ++ q br.RoleName ++ ": apiGroups=" ++ fmtStrings rule.APIGroups ++ " resources="
          ++ fmtStrings rule.Resources ++ " verbs=" ++ fmtStrings rule.Verbs,
        Risk := "Wildcard правила часто позволяют выполнять опасные операции в kube-API",
        Recommendation :=
          "Заменить '*' на конкретные ресурсы/verbs и ограничить по namespace" },
      {
        CheckID := "K8S-RBAC-002",
        Severity := SeverityHigh,
        Resource := { Kind := "ServiceAccount", Namespace := saNS, Name := saName },
        Title := "RBAC: доступ к secrets",
        Evidence := "binding " ++ q br.Binding ++ " -> " ++ lo br.RoleKind ++ " "
          ++ q br.RoleName ++ ": resources include secrets, verbs="
          ++ fmtStrings (uniqStrings rule.Verbs),
        Risk := "Позволяет читать секреты и расширять компрометацию",
        Recommendation := "Убрать доступ к secrets для прикладных SA" },
      {
        CheckID := "K8S-RBAC-003",
        Severity := SeverityHigh,
        Resource := { Kind := "ServiceAccount", Namespace := saNS, Name := saName },
        Title := "RBAC: доступ к pods/exec",
        Evidence := "binding " ++ q br.Binding ++ " -> " ++ lo br.RoleKind ++ " "
          ++ q br.RoleName ++ ": resources include pods/exec, verbs="
          ++ fmtStrings (uniqStrings rule.Verbs),
        Risk := "Позволяет выполнять команды в контейнерах",
        Recommendation := "Ограничить pods/exec только операторам/SRE при необходимости" },
      {
        CheckID := "K8S-RBAC-004",
        Severity := SeverityHigh,
        Resource := { Kind := "ServiceAccount", Namespace := saNS, Name := saName },
        Title := "RBAC: доступ к nodes",
        Evidence := "binding " ++ q br.Binding ++ " -> " ++ lo br.RoleKind ++ " "
          ++ q br.RoleName ++ ": resources include nodes, verbs="
          ++ fmtStrings (uniqStrings rule.Verbs),
        Risk := "Доступ к узлам помогает собирать чувствительную информацию",
        Recommendation := "Убрать доступ к nodes для прикладных сервисов" },
      {
        CheckID := "K8S-RBAC-005",
        Severity := SeverityCritical,
        Resource := { Kind := "ServiceAccount", Namespace := saNS, Name := saName },
        Title := "RBAC: возможность изменять привязки ролей",
        Evidence := "binding " ++ q br.Binding ++ " -> " ++ lo br.RoleKind ++ " "
          ++ q br.RoleName ++ ": resources include rolebindings/clusterrolebindings, verbs="
          ++ fmtStrings (uniqStrings rule.Verbs),
        Risk := "Позволяет расширить собственные права (эскалация в kube-API)",
        Recommendation := "Запретить сервисам изменять rolebindings/clusterrolebindings" },
      ⟨rfl, rfl, rfl⟩, ⟨rfl, rfl, rfl⟩, ⟨rfl, rfl, rfl⟩, ⟨rfl, rfl, rfl⟩, ⟨rfl, rfl, rfl⟩, ?_⟩
  intro out
  unfold ruleStep
  dsimp only
  split_ifs <;> simp only [List.append_assoc, List.append_nil, List.nil_append]

theorem ruleStep_append (q lo : String → String) (saNS saName : String) (br : BoundRole)
    (out : List Finding) (rule : PolicyRule) :
    ruleStep q lo saNS saName br out rule = out ++ ruleFindings q lo saNS saName br rule := by
  obtain ⟨f1, f2, f3, f4, f5, _, _, _, _, _, h⟩ := ruleFindings_shape q lo saNS saName br rule
  unfold ruleFindings
  rw [h out, h []]
  simp only [List.append_assoc, List.nil_append]

/-- The findings of a bound role: none when it has no rules; else the optional
`cluster-admin` finding, then the findings of its rules in order. -/
theorem boundRoleFindings_shape (q lo : String → String) (saNS saName : String)
    (br : BoundRole) :
    ∃ f0 : Finding,
      (f0.CheckID = "K8S-RBAC-000" ∧ f0.Severity = SeverityCritical
        ∧ f0.Resource = { Kind := "ServiceAccount", Namespace := saNS, Name := saName })
      ∧ ∀ out, boundRoleStep q lo saNS saName out br
          = out
            ++ (if br.Rules = [] then []
                else (if br.RoleKind = "ClusterRole" ∧ br.RoleName = "cluster-admin"
                      then [f0] else [])
                  ++ br.Rules.flatMap (ruleFindings q lo saNS saName br)) := by
  refine ⟨{
          CheckID := "K8S-RBAC-000",
          Severity := SeverityCritical,
          Resource := { Kind := "ServiceAccount", Namespace := saNS, Name := saName },
          Title := "ServiceAccount привязан к cluster-admin",
          Evidence := "binding " ++ q br.Binding ++ " (" ++ br.BindingNS
            ++ ") -> clusterrole " ++ q br.RoleName,
          Risk := "Компрометация токена SA даёт полный контроль над кластером",
          Recommendation := "Убрать cluster-admin, выдать минимально необходимые права" },
      ⟨rfl, rfl, rfl⟩, ?_⟩
  intro out
  unfold boundRoleStep
  by_cases hr : br.Rules = []
  · simp [hr]
  · have hl : ¬ br.Rules.length = 0 := by
      intro h
      exact hr (List.length_eq_zero.mp h)
    rw [if_neg hl, if_neg hr]
    dsimp only
    rw [foldl_appending (ruleStep q lo saNS saName br)
      (fun o r => ruleStep_append q lo saNS saName br o r)]
    split_ifs <;> simp <;> rfl

theorem boundRoleStep_append (q lo : String → String) (saNS saName : String)
    (out : List Finding) (br : BoundRole) :
    boundRoleStep q lo saNS saName out br
      = out ++ boundRoleFindings q lo saNS saName br := by
  obtain ⟨f0, _, h⟩ := boundRoleFindings_shape q lo saNS saName br
  unfold boundRoleFindings
  rw [h out, h []]
  simp only [List.nil_append]

/-- When every key has a `/`, the loop over the entries returns the findings of the entries
in order. -/
theorem detectEntries_eq_flatMap (q lo : String → String)
    (entries : List (String × List BoundRole)) (out : List Finding)
    (h : ∀ e ∈ entries, splitKey e.1 ≠ none) :
    detectEntries q lo entries out = some (out ++ entries.flatMap (entryFindings q lo)) := by
  induction entries generalizing out with
  | nil => simp [detectEntries]
  | cons e entries ih =>
    obtain ⟨k, bound⟩ := e
    have hk := h (k, bound) (List.mem_cons_self _ _)
    dsimp only at hk
    unfold detectEntries
    cases hs : splitKey k with
    | none => exact absurd hs hk
    | some p =>
      obtain ⟨saNS, saName⟩ := p
      dsimp only
      rw [ih _ (fun e he => h e (List.mem_cons_of_mem _ he)),
        foldl_appending (boundRoleStep q lo saNS saName)
          (fun o b => boundRoleStep_append q lo saNS saName o b)]
      simp [entryFindings, hs]
      rfl

/-- A key without `/` makes the loop over the entries fail. -/
theorem detectEntries_none (q lo : String → String)
    (entries : List (String × List BoundRole)) (out : List Finding)
    (h : ∃ e ∈ entries, splitKey e.1 = none) :
    detectEntries q lo entries out = none := by
  induction entries generalizing out with
  | nil =>
    obtain ⟨e, he, _⟩ := h
    exact absurd he (List.not_mem_nil _)
  | cons e entries ih =>
    obtain ⟨k, bound⟩ := e
    unfold detectEntries
    cases hs : splitKey k with
    | none => rfl
    | some p =>
      obtain ⟨saNS, saName⟩ := p
      dsimp only
      apply ih
      obtain ⟨e, he, hn⟩ := h
      rcases List.mem_cons.mp he with rfl | he
      · rw [hs] at hn
        exact absurd hn (by simp)
      · exact ⟨e, he, hn⟩

/-- A result of `DetectRBAC` is the list of the findings of the entries, in the order in
which they are visited, and no key lacks a `/`. -/
theorem DetectRBAC_eq_some (q lo : String → String) (e : EffectiveRBAC) (out : List Finding)
    (h : DetectRBAC q lo e = some out) :
    (∀ entry ∈ e.BySA, splitKey entry.1 ≠ none)
      ∧ out = e.BySA.flatMap (entryFindings q lo) := by
  unfold DetectRBAC at h
  have hk : ∀ entry ∈ e.BySA, splitKey entry.1 ≠ none := by
    intro entry he hn
    rw [detectEntries_none q lo e.BySA [] ⟨entry, he, hn⟩] at h
    exact absurd h (by simp)
  rw [detectEntries_eq_flatMap q lo e.BySA [] hk] at h
  refine ⟨hk, ?_⟩
  simpa using h.symm

/-- On a map built by `BuildEffectiveRBAC`, `DetectRBAC` returns the findings of the entries,
in whatever order the entries are visited. -/
theorem DetectRBAC_BuildEffectiveRBAC (q lo : String → String) (sas : List ServiceAccount)
    (roles : List Role) (cRoles : List ClusterRole) (rbs : List RoleBinding)
    (crbs : List ClusterRoleBinding) (entries : List (String × List BoundRole))
    (hperm : entries.Perm (BuildEffectiveRBAC sas roles cRoles rbs crbs).BySA) :
    DetectRBAC q lo { BySA := entries } = some (entries.flatMap (entryFindings q lo)) := by
  unfold DetectRBAC
  rw [detectEntries_eq_flatMap q lo entries []]
  · simp
  · intro e he hn
    obtain ⟨⟨a, b, hk⟩, _⟩ := BuildEffectiveRBAC_invariant (fun _ => True) sas roles cRoles rbs
      crbs (fun _ _ => trivial) e (hperm.mem_iff.mp he)
    obtain ⟨p, hp⟩ := splitKey_append a b
    rw [hk, hp] at hn
    exact absurd hn (by simp)

theorem splitFirstSlash_of_not_mem (a b : List Char) (h : '/' ∉ a) :
    splitFirstSlash (a ++ '/' :: b) = some (a, b) := by
  induction a with
  | nil => simp [splitFirstSlash]
  | cons c a ih =>
    have hc : c ≠ '/' := fun e => h (by simp [e])
    have ha : '/' ∉ a := fun e => h (List.mem_cons_of_mem _ e)
    simp [splitFirstSlash, hc, ih ha]

/-- The split of the key `<a>/<b>` is `(a, b)` when `a` has no `/`. -/
theorem splitKey_of_not_mem (a b : String) (h : '/' ∉ a.toList) :
    splitKey (a ++ "/" ++ b) = some (a, b) := by
  unfold splitKey
  have hd : (a ++ "/" ++ b).toList = a.toList ++ '/' :: b.toList := by
    simp [String.toList, String.data_append]
  rw [hd, splitFirstSlash_of_not_mem a.toList b.toList h]
  rfl

/-! ## The findings of a rule -/

theorem hasStar_iff (list : List String) : hasStar list = true ↔ "*" ∈ list := by
  unfold hasStar
  simp only [List.any_eq_true, decide_eq_true_eq]
  constructor
  · rintro ⟨s, hs, rfl⟩
    exact hs
  · intro h
    exact ⟨"*", h, rfl⟩

theorem wildcard_iff (rule : PolicyRule) :
    (hasStar rule.Verbs || hasStar rule.Resources || hasStar rule.APIGroups) = true
      ↔ specWildcard rule := by
  unfold specWildcard
  simp only [Bool.or_eq_true, hasStar_iff, or_assoc]

/-- The findings of a rule, when the loop starts from the empty list. -/
theorem ruleFindings_eq (q lo : String → String) (saNS saName : String) (br : BoundRole)
    (rule : PolicyRule) :
    ∃ f1 f2 f3 f4 f5 : Finding,
      (f1.CheckID = "K8S-RBAC-001" ∧ f1.Severity = SeverityHigh
        ∧ f1.Resource = { Kind := "ServiceAccount", Namespace := saNS, Name := saName })
      ∧ (f2.CheckID = "K8S-RBAC-002" ∧ f2.Severity = SeverityHigh
        ∧ f2.Resource = { Kind := "ServiceAccount", Namespace := saNS, Name := saName })
      ∧ (f3.CheckID = "K8S-RBAC-003" ∧ f3.Severity = SeverityHigh
        ∧ f3.Resource = { Kind := "ServiceAccount", Namespace := saNS, Name := saName })
      ∧ (f4.CheckID = "K8S-RBAC-004" ∧ f4.Severity = SeverityHigh
        ∧ f4.Resource = { Kind := "ServiceAccount", Namespace := saNS, Name := saName })
      ∧ (f5.CheckID = "K8S-RBAC-005" ∧ f5.Severity = SeverityCritical
        ∧ f5.Resource = { Kind := "ServiceAccount", Namespace := saNS, Name := saName })
      ∧ ruleFindings q lo saNS saName br rule
          = (if hasStar rule.Verbs || hasStar rule.Resources || hasStar rule.APIGroups
                then [f1] else [])
            ++ (if containsAny (uniqStrings rule.Resources) ["secrets"]
                  && containsAny (uniqStrings rule.Verbs) ["get", "list", "watch"]
                then [f2] else [])
            ++ (if containsAny (uniqStrings rule.Resources) ["pods/exec"]
                  && containsAny (uniqStrings rule.Verbs) ["create", "get"]
                then [f3] else [])
            ++ (if containsAny (uniqStrings rule.Resources) ["nodes"] then [f4] else [])
            ++ (if containsAny (uniqStrings rule.Resources)
                    ["rolebindings", "clusterrolebindings"]
                  && containsAny (uniqStrings rule.Verbs) ["create", "patch", "update"]
                then [f5] else []) := by
  obtain ⟨f1, f2, f3, f4, f5, h1, h2, h3, h4, h5, h⟩ :=
    ruleFindings_shape q lo saNS saName br rule
  refine ⟨f1, f2, f3, f4, f5, h1, h2, h3, h4, h5, ?_⟩
  unfold ruleFindings
  rw [h []]
  simp only [List.nil_append]

/-- Every finding of a rule is attributed to the service account and has one of the five
check IDs of the rule checks, with its severity. -/
theorem mem_ruleFindings (q lo : String → String) (saNS saName : String) (br : BoundRole)
    (rule : PolicyRule) (f : Finding) (hf : f ∈ ruleFindings q lo saNS saName br rule) :
    f.Resource = { Kind := "ServiceAccount", Namespace := saNS, Name := saName }
      ∧ ((f.CheckID = "K8S-RBAC-001" ∧ f.Severity = SeverityHigh)
        ∨ (f.CheckID = "K8S-RBAC-002" ∧ f.Severity = SeverityHigh)
        ∨ (f.CheckID = "K8S-RBAC-003" ∧ f.Severity = SeverityHigh)
        ∨ (f.CheckID = "K8S-RBAC-004" ∧ f.Severity = SeverityHigh)
        ∨ (f.CheckID = "K8S-RBAC-005" ∧ f.Severity = SeverityCritical)) := by
  obtain ⟨f1, f2, f3, f4, f5, h1, h2, h3, h4, h5, h⟩ :=
    ruleFindings_eq q lo saNS saName br rule
  rw [h] at hf
  simp only [List.mem_append] at hf
  rcases hf with (((hf | hf) | hf) | hf) | hf
  all_goals
    split_ifs at hf
    · rw [List.mem_singleton] at hf
      subst hf
      first
        | exact ⟨h1.2.2, Or.inl ⟨h1.1, h1.2.1⟩⟩
        | exact ⟨h2.2.2, Or.inr (Or.inl ⟨h2.1, h2.2.1⟩)⟩
        | exact ⟨h3.2.2, Or.inr (Or.inr (Or.inl ⟨h3.1, h3.2.1⟩))⟩
        | exact ⟨h4.2.2, Or.inr (Or.inr (Or.inr (Or.inl ⟨h4.1, h4.2.1⟩)))⟩
        | exact ⟨h5.2.2, Or.inr (Or.inr (Or.inr (Or.inr ⟨h5.1, h5.2.1⟩)))⟩
    · exact absurd hf (List.not_mem_nil _)

/-- The wildcard findings of a rule: one `HIGH` finding for the service account when the
rule is a wildcard rule, none otherwise. -/
theorem withCheckID_001_ruleFindings (q lo : String → String) (saNS saName : String)
    (br : BoundRole) (rule : PolicyRule) :
    (specWildcard rule →
        ∃ f, withCheckID "K8S-RBAC-001" (ruleFindings q lo saNS saName br rule) = [f]
          ∧ f.Severity = SeverityHigh
          ∧ f.Resource = { Kind := "ServiceAccount", Namespace := saNS, Name := saName })
      ∧ (¬ specWildcard rule →
          withCheckID "K8S-RBAC-001" (ruleFindings q lo saNS saName br rule) = []) := by
  obtain ⟨f1, f2, f3, f4, f5, h1, h2, h3, h4, h5, h⟩ :=
    ruleFindings_eq q lo saNS saName br rule
  rw [h]
  constructor
  · intro hw
    refine ⟨f1, ?_, h1.2.1, h1.2.2⟩
    rw [if_pos ((wildcard_iff rule).mpr hw)]
    unfold withCheckID
    split_ifs <;> simp [h1.1, h2.1, h3.1, h4.1, h5.1]
  · intro hw
    rw [if_neg (fun e => hw ((wildcard_iff rule).mp e))]
    unfold withCheckID
    split_ifs <;> simp [h2.1, h3.1, h4.1, h5.1]

/-- The number of wildcard findings of a list of rules is the number of its wildcard
rules. -/
theorem length_withCheckID_001_flatMap (q lo : String → String) (saNS saName : String)
    (br : BoundRole) (rules : List PolicyRule) :
    (withCheckID "K8S-RBAC-001" (rules.flatMap (ruleFindings q lo saNS saName br))).length
      = (rules.filter fun rule => decide (specWildcard rule)).length := by
  induction rules with
  | nil => rfl
  | cons rule rules ih =>
    rw [List.flatMap_cons, withCheckID_append, List.length_append, ih, List.filter_cons]
    by_cases hw : specWildcard rule
    · obtain ⟨f, hf, _⟩ := (withCheckID_001_ruleFindings q lo saNS saName br rule).1 hw
      rw [hf, if_pos (by simpa using hw)]
      simp [Nat.add_comm]
    · rw [(withCheckID_001_ruleFindings q lo saNS saName br rule).2 hw,
        if_neg (by simpa using hw)]
      simp

/-! ## Properties of `DetectRBAC` on the bindings -/

/-- C21, as stated, fails: a ClusterRoleBinding to `cluster-admin` whose service account
subject has no namespace gives no finding, although the cluster role is there with its
wildcard rule; and a ClusterRoleBinding to `cluster-admin` for `ns1/sa1` gives no finding
when the collection of cluster roles lacks `cluster-admin`. -/
theorem cluster_admin_binding_without_finding :
    DetectRBAC quotePlain lowerASCII (BuildEffectiveRBAC [] [] [clusterAdmin] [] [crbGhost])
        = some []
      ∧ DetectRBAC quotePlain lowerASCII (BuildEffectiveRBAC [saOne] [] [] [] [crbAdmin])
        = some [] := by
  decide

/-- C21, amended: take a ClusterRoleBinding that references the ClusterRole `cluster-admin`
and has a subject of kind `ServiceAccount` with a non-empty namespace, and let the collection
of cluster roles hold `cluster-admin` with at least one rule. Then, in whatever order the map
is visited, `DetectRBAC(BuildEffectiveRBAC(...))` returns a list that contains, as one block,
a `CRITICAL` finding `K8S-RBAC-000` followed by the findings of the rules of the role, all for
the service account that the key `<namespace>/<name>` of the subject splits into (the
namespace and name of the subject when the namespace has no `/`). The `K8S-RBAC-000` finding
is there whether or not a rule has a wildcard; each rule with `*` in its verbs, resources or
apiGroups gives exactly one `HIGH` finding `K8S-RBAC-001`, each other rule none, so the
block has as many `K8S-RBAC-001` findings as the role has wildcard rules. -/
theorem DetectRBAC_cluster_admin (q lo : String → String) (sas : List ServiceAccount)
    (roles : List Role) (cRoles : List ClusterRole) (rbs : List RoleBinding)
    (crbs : List ClusterRoleBinding) (crb : ClusterRoleBinding) (sub : Subject)
    (cr : ClusterRole) (entries : List (String × List BoundRole))
    (hcrb : crb ∈ crbs) (hkind : crb.RoleRef.Kind = "ClusterRole")
    (hname : crb.RoleRef.Name = "cluster-admin") (hsub : sub ∈ crb.Subjects)
    (hsa : sub.Kind = "ServiceAccount") (hns : sub.Namespace ≠ "")
    (hcr : specClusterRoleAt cRoles "cluster-admin" = some cr) (hrules : cr.Rules ≠ [])
    (hperm : entries.Perm (BuildEffectiveRBAC sas roles cRoles rbs crbs).BySA) :
    ∃ (out : List Finding) (saNS saName : String) (before after : List Finding)
        (f0 : Finding),
      DetectRBAC q lo { BySA := entries } = some out
      ∧ splitKey (sub.Namespace ++ "/" ++ sub.Name) = some (saNS, saName)
      ∧ ('/' ∉ sub.Namespace.toList → saNS = sub.Namespace ∧ saName = sub.Name)
      ∧ out = before
          ++ f0 :: cr.Rules.flatMap (ruleFindings q lo saNS saName
              (clusterRoleBindingBoundRole (buildClusterRoleIndex cRoles) crb))
          ++ after
      ∧ f0.CheckID = "K8S-RBAC-000" ∧ f0.Severity = SeverityCritical
      ∧ f0.Resource = { Kind := "ServiceAccount", Namespace := saNS, Name := saName }
      ∧ (∀ rule ∈ cr.Rules, specWildcard rule →
          ∃ f, withCheckID "K8S-RBAC-001" (ruleFindings q lo saNS saName
                (clusterRoleBindingBoundRole (buildClusterRoleIndex cRoles) crb) rule) = [f]
            ∧ f.Severity = SeverityHigh
            ∧ f.Resource = { Kind := "ServiceAccount", Namespace := saNS, Name := saName })
      ∧ (∀ rule ∈ cr.Rules, ¬ specWildcard rule →
          withCheckID "K8S-RBAC-001" (ruleFindings q lo saNS saName
            (clusterRoleBindingBoundRole (buildClusterRoleIndex cRoles) crb) rule) = [])
      ∧ (withCheckID "K8S-RBAC-001" (cr.Rules.flatMap (ruleFindings q lo saNS saName
            (clusterRoleBindingBoundRole (buildClusterRoleIndex cRoles) crb)))).length
          = (cr.Rules.filter fun rule => decide (specWildcard rule)).length := by
  obtain ⟨p, hp⟩ := splitKey_append sub.Namespace sub.Name
  obtain ⟨saNS, saName⟩ := p
  have hfields := clusterRoleBindingBoundRole_fields cRoles crb
  have hbrules : (clusterRoleBindingBoundRole (buildClusterRoleIndex cRoles) crb).Rules
      = cr.Rules := by
    rw [hfields.2.2.2.2]
    unfold specResolveClusterRoleBinding
    rw [if_pos hkind, hname, hcr]
    rfl
  have hfact : (sub.Namespace ++ "/" ++ sub.Name,
      clusterRoleBindingBoundRole (buildClusterRoleIndex cRoles) crb)
        ∈ boundFacts roles cRoles rbs crbs :=
    (mem_boundFacts roles cRoles rbs crbs _ _).mpr
      (Or.inr ⟨crb, hcrb, sub, hsub, hsa, hns, rfl, rfl⟩)
  obtain ⟨brs, hlook, hbr⟩ := BuildEffectiveRBAC_mem_of_fact sas roles cRoles rbs crbs _ _ hfact
  have hentry := hperm.mem_iff.mpr (mem_of_lookup _ _ _ hlook)
  obtain ⟨e1, e2, he⟩ := List.append_of_mem hentry
  obtain ⟨b1, b2, hb⟩ := List.append_of_mem hbr
  obtain ⟨f0, hf0, hshape⟩ := boundRoleFindings_shape q lo saNS saName
    (clusterRoleBindingBoundRole (buildClusterRoleIndex cRoles) crb)
  have hone : boundRoleFindings q lo saNS saName
      (clusterRoleBindingBoundRole (buildClusterRoleIndex cRoles) crb)
        = f0 :: cr.Rules.flatMap (ruleFindings q lo saNS saName
            (clusterRoleBindingBoundRole (buildClusterRoleIndex cRoles) crb)) := by
    unfold boundRoleFindings
    rw [hshape [], hbrules, if_neg hrules,
      if_pos ⟨hfields.1.trans hkind, hfields.2.1.trans hname⟩]
    rfl
  refine ⟨_, saNS, saName,
    e1.flatMap (entryFindings q lo) ++ b1.flatMap (boundRoleFindings q lo saNS saName),
    b2.flatMap (boundRoleFindings q lo saNS saName) ++ e2.flatMap (entryFindings q lo), f0,
    DetectRBAC_BuildEffectiveRBAC q lo sas roles cRoles rbs crbs entries hperm, hp, ?_, ?_,
    hf0.1, hf0.2.1, hf0.2.2, ?_, ?_, ?_⟩
  · intro hslash
    have h2 := splitKey_of_not_mem sub.Namespace sub.Name hslash
    rw [hp] at h2
    simpa using h2
  · rw [he, List.flatMap_append, List.flatMap_cons]
    have hent : entryFindings q lo (sub.Namespace ++ "/" ++ sub.Name, brs)
        = brs.flatMap (boundRoleFindings q lo saNS saName) := by
      unfold entryFindings
      dsimp only
      rw [hp]
    rw [hent, hb, List.flatMap_append, List.flatMap_cons, hone]
    simp only [List.append_assoc, List.cons_append]
  · intro rule _ hw
    exact (withCheckID_001_ruleFindings q lo saNS saName _ rule).1 hw
  · intro rule _ hw
    exact (withCheckID_001_ruleFindings q lo saNS saName _ rule).2 hw
  · exact length_withCheckID_001_flatMap q lo saNS saName _ cr.Rules

theorem DetectRBAC_cluster_admin_witness :
    ∃ (out : List Finding) (saNS saName : String) (before after : List Finding)
        (f0 : Finding),
      DetectRBAC quotePlain lowerASCII
          { BySA := (BuildEffectiveRBAC [saOne] [] [clusterAdmin] [] [crbAdmin]).BySA }
        = some out
      ∧ splitKey ("ns1" ++ "/" ++ "sa1") = some (saNS, saName)
      ∧ ('/' ∉ "ns1".toList → saNS = "ns1" ∧ saName = "sa1")
      ∧ out = before
          ++ f0 :: clusterAdmin.Rules.flatMap (ruleFindings quotePlain lowerASCII saNS saName
              (clusterRoleBindingBoundRole (buildClusterRoleIndex [clusterAdmin]) crbAdmin))
          ++ after
      ∧ f0.CheckID = "K8S-RBAC-000" ∧ f0.Severity = SeverityCritical
      ∧ f0.Resource = { Kind := "ServiceAccount", Namespace := saNS, Name := saName }
      ∧ (∀ rule ∈ clusterAdmin.Rules, specWildcard rule →
          ∃ f, withCheckID "K8S-RBAC-001" (ruleFindings quotePlain lowerASCII saNS saName
                (clusterRoleBindingBoundRole (buildClusterRoleIndex [clusterAdmin]) crbAdmin)
                rule) = [f]
            ∧ f.Severity = SeverityHigh
            ∧ f.Resource = { Kind := "ServiceAccount", Namespace := saNS, Name := saName })
      ∧ (∀ rule ∈ clusterAdmin.Rules, ¬ specWildcard rule →
          withCheckID "K8S-RBAC-001" (ruleFindings quotePlain lowerASCII saNS saName
            (clusterRoleBindingBoundRole (buildClusterRoleIndex [clusterAdmin]) crbAdmin)
            rule) = [])
      ∧ (withCheckID "K8S-RBAC-001" (clusterAdmin.Rules.flatMap (ruleFindings quotePlain
            lowerASCII saNS saName
            (clusterRoleBindingBoundRole (buildClusterRoleIndex [clusterAdmin])
              crbAdmin)))).length
          = (clusterAdmin.Rules.filter fun rule => decide (specWildcard rule)).length :=
  DetectRBAC_cluster_admin quotePlain lowerASCII [saOne] [] [clusterAdmin] [] [crbAdmin]
    crbAdmin { Kind := "ServiceAccount", Name := "sa1", Namespace := "ns1" } clusterAdmin
    (BuildEffectiveRBAC [saOne] [] [clusterAdmin] [] [crbAdmin]).BySA
    (by decide) (by decide) (by decide) (by decide) (by decide) (by decide) (by decide)
    (by decide) (List.Perm.refl _)

theorem mapSet_of_lookup_none {α : Type} (m : List (String × α)) (k : String) (v : α)
    (h : m.lookup k = none) : mapSet m k v = m ++ [(k, v)] := by
  induction m with
  | nil => rfl
  | cons e m ih =>
    obtain ⟨k', v'⟩ := e
    rw [lookup_cons_ite] at h
    unfold mapSet
    by_cases hk : k = k'
    · rw [if_pos hk] at h
      exact absurd h (by simp)
    · rw [if_neg hk] at h
      rw [if_neg (fun e => hk e.symm), ih h]
      rfl

theorem ensureServiceAccount_eq (m : List (String × List BoundRole)) (sa : ServiceAccount) :
    ensureServiceAccount m sa = m
      ∨ ensureServiceAccount m sa
          = m ++ [(sa.Metadata.Namespace ++ "/" ++ sa.Metadata.Name, [])] := by
  unfold ensureServiceAccount
  dsimp only
  cases hl : m.lookup (sa.Metadata.Namespace ++ "/" ++ sa.Metadata.Name) with
  | some v =>
    left
    simp
  | none =>
    right
    simp only [Option.isSome_none, Bool.false_eq_true, if_false]
    exact mapSet_of_lookup_none m _ _ hl

/-- The loop over the service accounts only adds entries without bound roles, at the end of
the map. -/
theorem foldl_ensureServiceAccount (sas : List ServiceAccount)
    (m : List (String × List BoundRole)) :
    ∃ extras : List (String × List BoundRole),
      (∀ x ∈ extras, x.2 = []) ∧ sas.foldl ensureServiceAccount m = m ++ extras := by
  induction sas generalizing m with
  | nil => exact ⟨[], fun _ h => absurd h (List.not_mem_nil _), by simp⟩
  | cons sa sas ih =>
    rw [List.foldl_cons]
    rcases ensureServiceAccount_eq m sa with h | h
    · rw [h]
      exact ih m
    · rw [h]
      obtain ⟨extras, hx, he⟩ :=
        ih (m ++ [(sa.Metadata.Namespace ++ "/" ++ sa.Metadata.Name, [])])
      refine ⟨(sa.Metadata.Namespace ++ "/" ++ sa.Metadata.Name, []) :: extras, ?_, ?_⟩
      · intro x hxm
        rcases List.mem_cons.mp hxm with rfl | hxm
        · rfl
        · exact hx x hxm
      · rw [he]
        simp

theorem entryFindings_of_nil (q lo : String → String) (entry : String × List BoundRole)
    (h : entry.2 = []) : entryFindings q lo entry = [] := by
  unfold entryFindings
  rw [h]
  cases splitKey entry.1 with
  | none => rfl
  | some p => rfl

/-- The findings of two orders of visiting the same entries are the same up to their
order. -/
theorem entryFindings_perm (q lo : String → String)
    (entries1 entries2 : List (String × List BoundRole)) (h : entries1.Perm entries2) :
    (entries1.flatMap (entryFindings q lo)).Perm (entries2.flatMap (entryFindings q lo)) :=
  List.Perm.flatMap_right _ h

/-- A finding of a bound role is its `cluster-admin` finding or a finding of one of its
rules. -/
theorem mem_boundRoleFindings (q lo : String → String) (saNS saName : String) (br : BoundRole)
    (f : Finding) (hf : f ∈ boundRoleFindings q lo saNS saName br) :
    br.Rules ≠ []
      ∧ ((f.CheckID = "K8S-RBAC-000" ∧ f.Severity = SeverityCritical
          ∧ f.Resource = { Kind := "ServiceAccount", Namespace := saNS, Name := saName }
          ∧ br.RoleKind = "ClusterRole" ∧ br.RoleName = "cluster-admin")
        ∨ ∃ rule ∈ br.Rules, f ∈ ruleFindings q lo saNS saName br rule) := by
  obtain ⟨f0, hf0, h⟩ := boundRoleFindings_shape q lo saNS saName br
  unfold boundRoleFindings at hf
  rw [h [], List.nil_append] at hf
  by_cases hr : br.Rules = []
  · rw [if_pos hr] at hf
    exact absurd hf (List.not_mem_nil _)
  · rw [if_neg hr] at hf
    refine ⟨hr, ?_⟩
    rcases List.mem_append.mp hf with hf | hf
    · split_ifs at hf with hc
      · rw [List.mem_singleton] at hf
        subst hf
        exact Or.inl ⟨hf0.1, hf0.2.1, hf0.2.2, hc.1, hc.2⟩
      · exact absurd hf (List.not_mem_nil _)
    · obtain ⟨rule, hrule, hfr⟩ := List.mem_flatMap.mp hf
      exact Or.inr ⟨rule, hrule, hfr⟩

/-- A finding of an entry is a finding of one of its bound roles, for the service account
that the key splits into. -/
theorem mem_entryFindings (q lo : String → String) (entry : String × List BoundRole)
    (f : Finding) (hf : f ∈ entryFindings q lo entry) :
    ∃ saNS saName, splitKey entry.1 = some (saNS, saName)
      ∧ ∃ br ∈ entry.2, f ∈ boundRoleFindings q lo saNS saName br := by
  unfold entryFindings at hf
  cases hs : splitKey entry.1 with
  | none =>
    rw [hs] at hf
    exact absurd hf (List.not_mem_nil _)
  | some p =>
    obtain ⟨saNS, saName⟩ := p
    rw [hs] at hf
    obtain ⟨br, hbr, hfb⟩ := List.mem_flatMap.mp hf
    exact ⟨saNS, saName, rfl, br, hbr, hfb⟩

/-- Without a wildcard rule there is no wildcard finding. -/
theorem withCheckID_001_of_no_wildcard (q lo : String → String) (e : EffectiveRBAC)
    (out : List Finding) (h : DetectRBAC q lo e = some out)
    (hw : ∀ entry ∈ e.BySA, ∀ br ∈ entry.2, ∀ rule ∈ br.Rules, ¬ specWildcard rule) :
    withCheckID "K8S-RBAC-001" out = [] := by
  apply withCheckID_eq_nil
  intro f hf hid
  rw [(DetectRBAC_eq_some q lo e out h).2] at hf
  obtain ⟨entry, hentry, hfe⟩ := List.mem_flatMap.mp hf
  obtain ⟨saNS, saName, _, br, hbr, hfb⟩ := mem_entryFindings q lo entry f hfe
  rcases (mem_boundRoleFindings q lo saNS saName br f hfb).2 with h0 | ⟨rule, hrule, hfr⟩
  · rw [h0.1] at hid
    exact absurd hid (by decide)
  · have hnil := (withCheckID_001_ruleFindings q lo saNS saName br rule).2
      (hw entry hentry br hbr rule hrule)
    have hmem : f ∈ withCheckID "K8S-RBAC-001" (ruleFindings q lo saNS saName br rule) := by
      unfold withCheckID
      rw [List.mem_filter]
      exact ⟨hfr, by simpa using hid⟩
    rw [hnil] at hmem
    exact absurd hmem (List.not_mem_nil _)

/-- The findings of a rule over `secrets` with the verbs `get` and `list`: one finding
`K8S-RBAC-002`. -/
theorem ruleFindings_secrets_get_list (q lo : String → String) (saNS saName : String)
    (br : BoundRole) (groups : List String) (hgroups : "*" ∉ groups) :
    ∃ f, ruleFindings q lo saNS saName br
          { APIGroups := groups, Resources := ["secrets"], Verbs := ["get", "list"] } = [f]
      ∧ f.CheckID = "K8S-RBAC-002" ∧ f.Severity = SeverityHigh
      ∧ f.Resource = { Kind := "ServiceAccount", Namespace := saNS, Name := saName } := by
  obtain ⟨f1, f2, f3, f4, f5, _, h2, _, _, _, h⟩ := ruleFindings_eq q lo saNS saName br
    { APIGroups := groups, Resources := ["secrets"], Verbs := ["get", "list"] }
  refine ⟨f2, ?_, h2⟩
  rw [h]
  dsimp only
  have c1 : (hasStar ["get", "list"] || hasStar ["secrets"] || hasStar groups) = false := by
    have hg : hasStar groups = false := by
      rw [Bool.eq_false_iff, Ne, hasStar_iff]
      exact hgroups
    rw [hg]
    decide
  have c2 : (containsAny (uniqStrings ["secrets"]) ["secrets"]
      && containsAny (uniqStrings ["get", "list"]) ["get", "list", "watch"]) = true := by
    decide
  have c3 : (containsAny (uniqStrings ["secrets"]) ["pods/exec"]
      && containsAny (uniqStrings ["get", "list"]) ["create", "get"]) = false := by
    decide
  have c4 : containsAny (uniqStrings ["secrets"]) ["nodes"] = false := by decide
  have c5 : (containsAny (uniqStrings ["secrets"]) ["rolebindings", "clusterrolebindings"]
      && containsAny (uniqStrings ["get", "list"]) ["create", "patch", "update"]) = false := by
    decide
  rw [c1, c2, c3, c4, c5]
  rfl

/-- C22: let a RoleBinding be the only binding, with one subject, a service account, and
let it reference a Role that the collection of roles holds in the namespace of the binding
and whose only rule has the resources `secrets`, the verbs `get` and `list`, and API groups
without `*`. Then `DetectRBAC(BuildEffectiveRBAC(...))` returns, in whatever order the map is
visited, exactly one finding: a `HIGH` finding `K8S-RBAC-002` for the service account that
the key of the subject splits into (its namespace, by default that of the binding, and its
name, when the namespace has no `/`); so it has no `K8S-RBAC-001` finding. More generally a
rule without `*` in its verbs, resources and apiGroups gives no `K8S-RBAC-001` finding, and
a result of `DetectRBAC` on a map without such a rule has none. -/
theorem DetectRBAC_scenario_secrets (q lo : String → String) (sas : List ServiceAccount)
    (roles : List Role) (cRoles : List ClusterRole) (rb : RoleBinding) (sub : Subject)
    (r : Role) (groups : List String) (entries : List (String × List BoundRole))
    (hkind : rb.RoleRef.Kind = "Role") (hsubs : rb.Subjects = [sub])
    (hsa : sub.Kind = "ServiceAccount")
    (hrole : specRoleAt roles (rb.Metadata.Namespace ++ "/" ++ rb.RoleRef.Name) = some r)
    (hrules : r.Rules
      = [{ APIGroups := groups, Resources := ["secrets"], Verbs := ["get", "list"] }])
    (hgroups : "*" ∉ groups)
    (hperm : entries.Perm (BuildEffectiveRBAC sas roles cRoles [rb] []).BySA) :
    (∃ (f : Finding) (saNS saName : String),
        DetectRBAC q lo { BySA := entries } = some [f]
        ∧ f.CheckID = "K8S-RBAC-002" ∧ f.Severity = SeverityHigh
        ∧ splitKey ((if sub.Namespace = "" then rb.Metadata.Namespace else sub.Namespace)
            ++ "/" ++ sub.Name) = some (saNS, saName)
        ∧ f.Resource = { Kind := "ServiceAccount", Namespace := saNS, Name := saName }
        ∧ ('/' ∉ (if sub.Namespace = "" then rb.Metadata.Namespace
                  else sub.Namespace).toList →
            saNS = (if sub.Namespace = "" then rb.Metadata.Namespace else sub.Namespace)
              ∧ saName = sub.Name)
        ∧ withCheckID "K8S-RBAC-001" [f] = [])
      ∧ (∀ (saNS saName : String) (br : BoundRole) (rule : PolicyRule),
          "*" ∉ rule.Verbs → "*" ∉ rule.Resources → "*" ∉ rule.APIGroups →
          withCheckID "K8S-RBAC-001" (ruleFindings q lo saNS saName br rule) = [])
      ∧ (∀ (e : EffectiveRBAC) (out : List Finding), DetectRBAC q lo e = some out →
          (∀ entry ∈ e.BySA, ∀ br ∈ entry.2, ∀ rule ∈ br.Rules,
            "*" ∉ rule.Verbs ∧ "*" ∉ rule.Resources ∧ "*" ∉ rule.APIGroups) →
          withCheckID "K8S-RBAC-001" out = []) := by
  refine ⟨?_, ?_, ?_⟩
  · obtain ⟨p, hp⟩ := splitKey_append
      (if sub.Namespace = "" then rb.Metadata.Namespace else sub.Namespace) sub.Name
    obtain ⟨saNS, saName⟩ := p
    have hfields := roleBindingBoundRole_fields roles cRoles rb
    have hbrules :
        (roleBindingBoundRole (buildRoleIndex roles) (buildClusterRoleIndex cRoles) rb).Rules
          = [{ APIGroups := groups, Resources := ["secrets"], Verbs := ["get", "list"] }] := by
      rw [hfields.2.2.2.2]
      unfold specResolveRoleBinding
      rw [if_pos hkind, hrole]
      exact hrules
    obtain ⟨f, hf, hid, hsev, hres⟩ := ruleFindings_secrets_get_list q lo saNS saName
      (roleBindingBoundRole (buildRoleIndex roles) (buildClusterRoleIndex cRoles) rb) groups
      hgroups
    have hone : boundRoleFindings q lo saNS saName
        (roleBindingBoundRole (buildRoleIndex roles) (buildClusterRoleIndex cRoles) rb)
          = [f] := by
      obtain ⟨f0, _, hshape⟩ := boundRoleFindings_shape q lo saNS saName
        (roleBindingBoundRole (buildRoleIndex roles) (buildClusterRoleIndex cRoles) rb)
      unfold boundRoleFindings
      have hnot : ¬ ((roleBindingBoundRole (buildRoleIndex roles)
          (buildClusterRoleIndex cRoles) rb).RoleKind = "ClusterRole"
          ∧ (roleBindingBoundRole (buildRoleIndex roles)
            (buildClusterRoleIndex cRoles) rb).RoleName = "cluster-admin") := by
        rw [hfields.1, hkind]
        intro hc
        exact absurd hc.1 (by decide)
      rw [hshape [], if_neg hnot, hbrules, if_neg (by simp)]
      simp [hf]
    have hfacts : boundFacts roles cRoles [rb] []
        = [((if sub.Namespace = "" then rb.Metadata.Namespace else sub.Namespace)
              ++ "/" ++ sub.Name,
            roleBindingBoundRole (buildRoleIndex roles) (buildClusterRoleIndex cRoles) rb)] := by
      simp [boundFacts, roleBindingFacts, hsubs, hsa]
    obtain ⟨extras, hx, hby⟩ := foldl_ensureServiceAccount sas
      (recordAll [] (boundFacts roles cRoles [rb] []))
    have hall : (BuildEffectiveRBAC sas roles cRoles [rb] []).BySA.flatMap (entryFindings q lo)
        = [f] := by
      rw [BuildEffectiveRBAC_eq]
      dsimp only
      rw [hby, hfacts, List.flatMap_append]
      have hex : extras.flatMap (entryFindings q lo) = [] := by
        rw [List.flatMap_eq_nil_iff]
        intro x hxm
        exact entryFindings_of_nil q lo x (hx x hxm)
      rw [hex]
      simp [recordAll, mapSet, entryFindings, hp, hone]
    have hout := entryFindings_perm q lo _ _ hperm
    rw [hall, List.perm_singleton] at hout
    refine ⟨f, saNS, saName, ?_, hid, hsev, hp, hres, ?_, ?_⟩
    · rw [DetectRBAC_BuildEffectiveRBAC q lo sas roles cRoles [rb] [] entries hperm, hout]
    · intro hslash
      have h2 := splitKey_of_not_mem _ sub.Name hslash
      rw [hp] at h2
      simpa using h2
    · apply withCheckID_eq_nil
      intro g hg
      rw [List.mem_singleton] at hg
      rw [hg, hid]
      decide
  · intro saNS saName br rule hv hr hg
    apply (withCheckID_001_ruleFindings q lo saNS saName br rule).2
    unfold specWildcard
    tauto
  · intro e out h hw
    apply withCheckID_001_of_no_wildcard q lo e out h
    intro entry hentry br hbr rule hrule
    have := hw entry hentry br hbr rule hrule
    unfold specWildcard
    tauto

theorem DetectRBAC_scenario_secrets_witness :
    (∃ (f : Finding) (saNS saName : String),
        DetectRBAC quotePlain lowerASCII
            { BySA :=
                (BuildEffectiveRBAC [saOne, saIdle] [roleSecrets] [] [rbReaderOne] []).BySA }
          = some [f]
        ∧ f.CheckID = "K8S-RBAC-002" ∧ f.Severity = SeverityHigh
        ∧ splitKey ("ns1" ++ "/" ++ "sa1") = some (saNS, saName)
        ∧ f.Resource = { Kind := "ServiceAccount", Namespace := saNS, Name := saName }
        ∧ ('/' ∉ "ns1".toList → saNS = "ns1" ∧ saName = "sa1")
        ∧ withCheckID "K8S-RBAC-001" [f] = [])
      ∧ (∀ (saNS saName : String) (br : BoundRole) (rule : PolicyRule),
          "*" ∉ rule.Verbs → "*" ∉ rule.Resources → "*" ∉ rule.APIGroups →
          withCheckID "K8S-RBAC-001"
            (ruleFindings quotePlain lowerASCII saNS saName br rule) = [])
      ∧ (∀ (e : EffectiveRBAC) (out : List Finding),
          DetectRBAC quotePlain lowerASCII e = some out →
          (∀ entry ∈ e.BySA, ∀ br ∈ entry.2, ∀ rule ∈ br.Rules,
            "*" ∉ rule.Verbs ∧ "*" ∉ rule.Resources ∧ "*" ∉ rule.APIGroups) →
          withCheckID "K8S-RBAC-001" out = []) :=
  DetectRBAC_scenario_secrets quotePlain lowerASCII [saOne, saIdle] [roleSecrets] []
    rbReaderOne { Kind := "ServiceAccount", Name := "sa1" } roleSecrets []
    (BuildEffectiveRBAC [saOne, saIdle] [roleSecrets] [] [rbReaderOne] []).BySA
    (by decide) (by decide) (by decide) (by decide) (by decide) (by decide) (List.Perm.refl _)

/-! ## The conditions of the rule checks -/

theorem containsAny_uniqStrings (xs needles : List String) (h : ∀ n ∈ needles, n ≠ "") :
    containsAny (uniqStrings xs) needles = true ↔ ∃ n ∈ needles, specIncludes xs n := by
  rw [containsAny_iff]
  constructor
  · rintro ⟨n, hn, hm⟩
    exact ⟨n, hn, ((mem_uniqStrings xs n).mp hm).2⟩
  · rintro ⟨n, hn, hm⟩
    exact ⟨n, hn, (mem_uniqStrings xs n).mpr ⟨h n hn, hm⟩⟩

theorem secretsAccess_iff (rule : PolicyRule) :
    (containsAny (uniqStrings rule.Resources) ["secrets"]
        && containsAny (uniqStrings rule.Verbs) ["get", "list", "watch"]) = true
      ↔ specSecretsAccess rule := by
  unfold specSecretsAccess
  rw [Bool.and_eq_true, containsAny_uniqStrings _ _ (by decide),
    containsAny_uniqStrings _ _ (by decide)]
  simp

theorem podsExec_iff (rule : PolicyRule) :
    (containsAny (uniqStrings rule.Resources) ["pods/exec"]
        && containsAny (uniqStrings rule.Verbs) ["create", "get"]) = true
      ↔ specPodsExec rule := by
  unfold specPodsExec
  rw [Bool.and_eq_true, containsAny_uniqStrings _ _ (by decide),
    containsAny_uniqStrings _ _ (by decide)]
  simp

theorem nodes_iff (rule : PolicyRule) :
    containsAny (uniqStrings rule.Resources) ["nodes"] = true ↔ specNodes rule := by
  unfold specNodes
  rw [containsAny_uniqStrings _ _ (by decide)]
  simp

theorem bindingsWrite_iff (rule : PolicyRule) :
    (containsAny (uniqStrings rule.Resources) ["rolebindings", "clusterrolebindings"]
        && containsAny (uniqStrings rule.Verbs) ["create", "patch", "update"]) = true
      ↔ specBindingsWrite rule := by
  unfold specBindingsWrite
  rw [Bool.and_eq_true, containsAny_uniqStrings _ _ (by decide),
    containsAny_uniqStrings _ _ (by decide)]
  simp

/-- The findings of a rule, in terms of the conditions of the five checks. -/
theorem ruleFindings_spec (q lo : String → String) (saNS saName : String) (br : BoundRole)
    (rule : PolicyRule) :
    ∃ f1 f2 f3 f4 f5 : Finding,
      (f1.CheckID = "K8S-RBAC-001" ∧ f1.Severity = SeverityHigh
        ∧ f1.Resource = { Kind := "ServiceAccount", Namespace := saNS, Name := saName })
      ∧ (f2.CheckID = "K8S-RBAC-002" ∧ f2.Severity = SeverityHigh
        ∧ f2.Resource = { Kind := "ServiceAccount", Namespace := saNS, Name := saName })
      ∧ (f3.CheckID = "K8S-RBAC-003" ∧ f3.Severity = SeverityHigh
        ∧ f3.Resource = { Kind := "ServiceAccount", Namespace := saNS, Name := saName })
      ∧ (f4.CheckID = "K8S-RBAC-004" ∧ f4.Severity = SeverityHigh
        ∧ f4.Resource = { Kind := "ServiceAccount", Namespace := saNS, Name := saName })
      ∧ (f5.CheckID = "K8S-RBAC-005" ∧ f5.Severity = SeverityCritical
        ∧ f5.Resource = { Kind := "ServiceAccount", Namespace := saNS, Name := saName })
      ∧ ruleFindings q lo saNS saName br rule
          = (if specWildcard rule then [f1] else [])
            ++ (if specSecretsAccess rule then [f2] else [])
            ++ (if specPodsExec rule then [f3] else [])
            ++ (if specNodes rule then [f4] else [])
            ++ (if specBindingsWrite rule then [f5] else []) := by
  obtain ⟨f1, f2, f3, f4, f5, h1, h2, h3, h4, h5, h⟩ :=
    ruleFindings_eq q lo saNS saName br rule
  refine ⟨f1, f2, f3, f4, f5, h1, h2, h3, h4, h5, ?_⟩
  rw [h]
  simp only [wildcard_iff, secretsAccess_iff, podsExec_iff, nodes_iff, bindingsWrite_iff]

/-- The findings of an element of a list are a block of the findings of the list. -/
theorem flatMap_segment {α : Type} (g : α → List Finding) (xs : List α) (x : α)
    (h : x ∈ xs) : ∃ before after, xs.flatMap g = before ++ g x ++ after := by
  obtain ⟨l1, l2, hl⟩ := List.append_of_mem h
  exact ⟨l1.flatMap g, l2.flatMap g, by rw [hl, List.flatMap_append, List.flatMap_cons,
    List.append_assoc]⟩

/-- C23, as stated, fails: the only rule of the role `padded` has the resources `[" secrets"]`
and the verbs `["get "]`, so its resources do not include `secrets` and its verbs include
none of `get`, `list`, `watch`; yet `DetectRBAC` emits a `K8S-RBAC-002` finding for the
service account bound to it, because entries are compared after their surrounding white
space is removed. -/
theorem DetectRBAC_padded_secrets :
    (∀ rule ∈ rolePadded.Rules, "secrets" ∉ rule.Resources
        ∧ "get" ∉ rule.Verbs ∧ "list" ∉ rule.Verbs ∧ "watch" ∉ rule.Verbs)
      ∧ (DetectRBAC quotePlain lowerASCII
            (BuildEffectiveRBAC [saOne] [rolePadded] [] [rbPadded] [])).map
          (fun out => out.map fun f => (f.CheckID, f.Severity, f.Resource))
        = some [("K8S-RBAC-002", "HIGH",
            { Kind := "ServiceAccount", Namespace := "ns1", Name := "sa1" })] := by
  decide

/-- C23, amended: the entries of resources and verbs count without their surrounding white
space (`specIncludes`), the wildcard `*` counts as it is written. For every rule of a bound
role, the findings of the rule have exactly one finding per condition that holds and none for
a condition that does not: `K8S-RBAC-001` `HIGH` iff verbs, resources or apiGroups contain
`*`; `K8S-RBAC-002` `HIGH` iff resources include `secrets` and verbs include `get`, `list` or
`watch`; `K8S-RBAC-003` `HIGH` iff resources include `pods/exec` and verbs include `create`
or `get`; `K8S-RBAC-004` `HIGH` iff resources include `nodes`, whatever the verbs;
`K8S-RBAC-005` `CRITICAL` iff resources include `rolebindings` or `clusterrolebindings` and
verbs include `create`, `patch` or `update`. All are attributed to the service account, the
rule has no other finding, and the number of its findings is the number of conditions that
hold. In a result of `DetectRBAC`, the findings of every rule of every bound role with a
non-empty rule set are a block of the output. -/
theorem DetectRBAC_rule_conditions (q lo : String → String) :
    (∀ (saNS saName : String) (br : BoundRole) (rule : PolicyRule),
      specOneFindingIff (ruleFindings q lo saNS saName br rule) "K8S-RBAC-001" SeverityHigh
          { Kind := "ServiceAccount", Namespace := saNS, Name := saName } (specWildcard rule)
        ∧ specOneFindingIff (ruleFindings q lo saNS saName br rule) "K8S-RBAC-002"
          SeverityHigh { Kind := "ServiceAccount", Namespace := saNS, Name := saName }
          (specSecretsAccess rule)
        ∧ specOneFindingIff (ruleFindings q lo saNS saName br rule) "K8S-RBAC-003"
          SeverityHigh { Kind := "ServiceAccount", Namespace := saNS, Name := saName }
          (specPodsExec rule)
        ∧ specOneFindingIff (ruleFindings q lo saNS saName br rule) "K8S-RBAC-004"
          SeverityHigh { Kind := "ServiceAccount", Namespace := saNS, Name := saName }
          (specNodes rule)
        ∧ specOneFindingIff (ruleFindings q lo saNS saName br rule) "K8S-RBAC-005"
          SeverityCritical { Kind := "ServiceAccount", Namespace := saNS, Name := saName }
          (specBindingsWrite rule)
        ∧ (∀ f ∈ ruleFindings q lo saNS saName br rule,
            f.CheckID ∈ ["K8S-RBAC-001", "K8S-RBAC-002", "K8S-RBAC-003", "K8S-RBAC-004",
              "K8S-RBAC-005"])
        ∧ (ruleFindings q lo saNS saName br rule).length
            = (if specWildcard rule then 1 else 0) + (if specSecretsAccess rule then 1 else 0)
              + (if specPodsExec rule then 1 else 0) + (if specNodes rule then 1 else 0)
              + (if specBindingsWrite rule then 1 else 0))
      ∧ (∀ (e : EffectiveRBAC) (out : List Finding), DetectRBAC q lo e = some out →
          ∀ entry ∈ e.BySA, ∀ br ∈ entry.2, br.Rules ≠ [] → ∀ rule ∈ br.Rules,
            ∃ (saNS saName : String) (before after : List Finding),
              splitKey entry.1 = some (saNS, saName)
              ∧ out = before ++ ruleFindings q lo saNS saName br rule ++ after) := by
  constructor
  · intro saNS saName br rule
    obtain ⟨f1, f2, f3, f4, f5, h1, h2, h3, h4, h5, h⟩ :=
      ruleFindings_spec q lo saNS saName br rule
    have hm : ∀ f ∈ ruleFindings q lo saNS saName br rule,
        f.CheckID ∈ ["K8S-RBAC-001", "K8S-RBAC-002", "K8S-RBAC-003", "K8S-RBAC-004",
          "K8S-RBAC-005"] := by
      intro f hf
      rcases (mem_ruleFindings q lo saNS saName br rule f hf).2 with c | c | c | c | c <;>
        simp [c.1]
    refine ⟨?_, ?_, ?_, ?_, ?_, hm, ?_⟩
    all_goals rw [h]
    · unfold specOneFindingIff withCheckID
      refine ⟨fun c => ⟨f1, ?_, h1.2.1, h1.2.2⟩, fun c => ?_⟩
      · rw [if_pos c]; split_ifs <;> simp [h1.1, h2.1, h3.1, h4.1, h5.1]
      · rw [if_neg c]; split_ifs <;> simp [h1.1, h2.1, h3.1, h4.1, h5.1]
    · unfold specOneFindingIff withCheckID
      refine ⟨fun c => ⟨f2, ?_, h2.2.1, h2.2.2⟩, fun c => ?_⟩
      · rw [if_pos c]; split_ifs <;> simp [h1.1, h2.1, h3.1, h4.1, h5.1]
      · rw [if_neg c]; split_ifs <;> simp [h1.1, h2.1, h3.1, h4.1, h5.1]
    · unfold specOneFindingIff withCheckID
      refine ⟨fun c => ⟨f3, ?_, h3.2.1, h3.2.2⟩, fun c => ?_⟩
      · rw [if_pos c]; split_ifs <;> simp [h1.1, h2.1, h3.1, h4.1, h5.1]
      · rw [if_neg c]; split_ifs <;> simp [h1.1, h2.1, h3.1, h4.1, h5.1]
    · unfold specOneFindingIff withCheckID
      refine ⟨fun c => ⟨f4, ?_, h4.2.1, h4.2.2⟩, fun c => ?_⟩
      · rw [if_pos c]; split_ifs <;> simp [h1.1, h2.1, h3.1, h4.1, h5.1]
      · rw [if_neg c]; split_ifs <;> simp [h1.1, h2.1, h3.1, h4.1, h5.1]
    · unfold specOneFindingIff withCheckID
      refine ⟨fun c => ⟨f5, ?_, h5.2.1, h5.2.2⟩, fun c => ?_⟩
      · rw [if_pos c]; split_ifs <;> simp [h1.1, h2.1, h3.1, h4.1, h5.1]
      · rw [if_neg c]; split_ifs <;> simp [h1.1, h2.1, h3.1, h4.1, h5.1]
    · split_ifs <;> simp
  · intro e out hout entry hentry br hbr hrules rule hrule
    obtain ⟨hkeys, hflat⟩ := DetectRBAC_eq_some q lo e out hout
    cases hs : splitKey entry.1 with
    | none => exact absurd hs (hkeys entry hentry)
    | some p =>
      obtain ⟨saNS, saName⟩ := p
      obtain ⟨a1, a2, ha⟩ := flatMap_segment (entryFindings q lo) e.BySA entry hentry
      obtain ⟨b1, b2, hb⟩ := flatMap_segment (boundRoleFindings q lo saNS saName) entry.2 br hbr
      obtain ⟨c1, c2, hc⟩ := flatMap_segment (ruleFindings q lo saNS saName br) br.Rules rule
        hrule
      obtain ⟨f0, _, hshape⟩ := boundRoleFindings_shape q lo saNS saName br
      have hbrf : boundRoleFindings q lo saNS saName br
          = (if br.RoleKind = "ClusterRole" ∧ br.RoleName = "cluster-admin" then [f0] else [])
            ++ br.Rules.flatMap (ruleFindings q lo saNS saName br) := by
        unfold boundRoleFindings
        rw [hshape [], if_neg hrules, List.nil_append]
      have hent : entryFindings q lo entry
          = entry.2.flatMap (boundRoleFindings q lo saNS saName) := by
        unfold entryFindings
        rw [hs]
      refine ⟨saNS, saName,
        a1 ++ (b1 ++ ((if br.RoleKind = "ClusterRole" ∧ br.RoleName = "cluster-admin"
          then [f0] else []) ++ c1)), c2 ++ b2 ++ a2, rfl, ?_⟩
      rw [hflat, ha, hent, hb, hbrf, hc]
      simp only [List.append_assoc]

/-! ## Properties of `DetectClusterRolesDirect` -/

theorem clusterRoleRuleStep_append (cr : ClusterRole) (out : List Finding)
    (rule : PolicyRule) :
    clusterRoleRuleStep cr out rule = out ++ clusterRoleRuleStep cr [] rule := by
  unfold clusterRoleRuleStep
  split_ifs <;> simp

theorem DetectClusterRolesDirect_eq_flatMap (clusterRoles : List ClusterRole) :
    DetectClusterRolesDirect clusterRoles
      = clusterRoles.flatMap fun cr => cr.Rules.flatMap (clusterRoleRuleStep cr []) := by
  unfold DetectClusterRolesDirect
  rw [foldl_appending (fun out (cr : ClusterRole) => cr.Rules.foldl (clusterRoleRuleStep cr) out)]
  · simp only [List.nil_append]
    congr 1
    funext cr
    rw [foldl_appending (clusterRoleRuleStep cr) (clusterRoleRuleStep_append cr)]
    simp
  · intro out cr
    rw [foldl_appending (clusterRoleRuleStep cr) (clusterRoleRuleStep_append cr),
      foldl_appending (clusterRoleRuleStep cr) (clusterRoleRuleStep_append cr) cr.Rules []]
    simp

/-- Every finding of `DetectClusterRolesDirect` is a `MEDIUM` finding `K8S-RBAC-101`. -/
theorem mem_DetectClusterRolesDirect (clusterRoles : List ClusterRole) (f : Finding)
    (hf : f ∈ DetectClusterRolesDirect clusterRoles) :
    f.CheckID = "K8S-RBAC-101" ∧ f.Severity = SeverityMedium := by
  rw [DetectClusterRolesDirect_eq_flatMap] at hf
  obtain ⟨cr, _, hf⟩ := List.mem_flatMap.mp hf
  obtain ⟨rule, _, hf⟩ := List.mem_flatMap.mp hf
  unfold clusterRoleRuleStep at hf
  split_ifs at hf
  · simp only [List.nil_append, List.mem_singleton] at hf
    subst hf
    exact ⟨rfl, rfl⟩
  · exact absurd hf (List.not_mem_nil _)

/-- C24: the findings of `DetectClusterRolesDirect`, read by check ID, severity, resource and
evidence, are, in order, one per pair of a cluster role of the collection and a rule of it
with `*` in its verbs, resources or apiGroups: `K8S-RBAC-101`, `MEDIUM`, the resource
`ClusterRole/<name>` without namespace, and the three lists of the rule as evidence. So there
is exactly one finding per such pair and no other finding; the function has the collection
of cluster roles as its only argument. -/
theorem DetectClusterRolesDirect_wildcard_rules (clusterRoles : List ClusterRole) :
    (DetectClusterRolesDirect clusterRoles).map
        (fun f => (f.CheckID, f.Severity, f.Resource, f.Evidence))
      = (specWildcardPairs clusterRoles).map fun p =>
          ("K8S-RBAC-101", SeverityMedium,
            ({ Kind := "ClusterRole", Namespace := "", Name := p.1.Metadata.Name } : ResourceRef),
            "apiGroups=" ++ fmtStrings p.2.APIGroups ++ " resources="
              ++ fmtStrings p.2.Resources ++ " verbs=" ++ fmtStrings p.2.Verbs) := by
  rw [DetectClusterRolesDirect_eq_flatMap]
  unfold specWildcardPairs
  induction clusterRoles with
  | nil => rfl
  | cons cr crs ih =>
    rw [List.flatMap_cons, List.flatMap_cons, List.map_append, List.map_append, ih]
    congr 1
    generalize cr.Rules = rules
    induction rules with
    | nil => rfl
    | cons rule rules ihr =>
      rw [List.flatMap_cons, List.map_append, ihr, List.filter_cons]
      unfold clusterRoleRuleStep
      by_cases hw : specWildcard rule
      · rw [if_pos ((wildcard_iff rule).mpr hw), if_pos (by simpa using hw)]
        rfl
      · rw [if_neg (fun e => hw ((wildcard_iff rule).mp e)), if_neg (by simpa using hw)]
        rfl

/-! ## Check IDs and severities of the findings -/

theorem severity_DetectNamespacePSS (namespaces : List Namespace) (f : Finding)
    (hf : f ∈ DetectNamespacePSS namespaces) :
    (f.CheckID, f.Severity)
      ∈ [("K8S-PSA-001", SeverityMedium), ("K8S-PSA-002", SeverityHigh)] := by
  unfold DetectNamespacePSS at hf
  rw [foldl_appending namespacePSSStep namespacePSSStep_append, List.nil_append] at hf
  obtain ⟨ns, _, hf⟩ := List.mem_flatMap.mp hf
  unfold namespacePSSStep at hf
  dsimp only at hf
  split_ifs at hf <;> simp at hf <;> subst hf <;> simp

theorem severity_containerFindings (q : String → String) (p : Pod) (ctn : Container)
    (f : Finding) (hf : f ∈ containerFindings q p ctn) :
    (f.CheckID, f.Severity)
      ∈ [("K8S-POD-001", SeverityCritical), ("K8S-POD-004", SeverityHigh),
         ("K8S-POD-005", SeverityMedium), ("K8S-POD-006", SeverityHigh),
         ("K8S-POD-007", SeverityMedium), ("K8S-POD-009", SeverityMedium),
         ("K8S-POD-010", SeverityMedium), ("K8S-POD-011", SeverityLow),
         ("K8S-POD-012", SeverityLow)] := by
  unfold containerFindings at hf
  rw [containerStep_nil] at hf
  simp only [List.mem_append, List.mem_flatMap] at hf
  rcases hf with ((((((h | h) | h) | h) | h) | h) | ⟨ev, _, h⟩) | ⟨ef, _, h⟩
  · have := mem_privilegedStep _ _ _ _ f h
    simp [this.1, this.2.1]
  · have := mem_runAsStep _ _ _ _ _ f h
    simp [this.1, this.2.1]
  · have := mem_seccompStep _ _ _ _ _ f h
    simp [this.1, this.2.1]
  · have := mem_allowPrivilegeEscalationStep _ _ _ _ f h
    simp [this.1, this.2.1]
  · have := mem_readOnlyRootFilesystemStep _ _ _ _ f h
    simp [this.1, this.2.1]
  · have := mem_capabilitiesStep _ _ _ _ f h
    rcases this.1 with h' | h' <;> simp [h'.1, h'.2]
  · have := mem_envStep _ _ _ _ ev f h
    simp [this.1, this.2.1]
  · have := mem_envFromStep _ _ _ _ ef f h
    simp [this.1, this.2.1]

theorem severity_DetectPodMisconfigs (q : String → String) (pods : List Pod)
    (saIndex : List (String × ServiceAccount)) (f : Finding)
    (hf : f ∈ DetectPodMisconfigs q pods saIndex) :
    (f.CheckID, f.Severity)
      ∈ [("K8S-POD-001", SeverityCritical), ("K8S-POD-002", SeverityCritical),
         ("K8S-POD-003", SeverityHigh), ("K8S-POD-004", SeverityHigh),
         ("K8S-POD-005", SeverityMedium), ("K8S-POD-006", SeverityHigh),
         ("K8S-POD-007", SeverityMedium), ("K8S-POD-008", SeverityMedium),
         ("K8S-POD-009", SeverityMedium), ("K8S-POD-010", SeverityMedium),
         ("K8S-POD-011", SeverityLow), ("K8S-POD-012", SeverityLow)] := by
  rw [DetectPodMisconfigs_eq_flatMap] at hf
  obtain ⟨p, _, hf⟩ := List.mem_flatMap.mp hf
  rw [podStep_nil] at hf
  simp only [List.mem_append, List.mem_flatMap] at hf
  rcases hf with ((h | ⟨v, _, h⟩) | h) | ⟨ctn, _, h⟩
  · have := mem_hostNamespaceStep p f h
    simp [this.1, this.2.1]
  · have := mem_volumeStep _ _ _ v f h
    simp [this.1, this.2.1]
  · have := mem_automountStep p saIndex f h
    simp [this.1, this.2.1]
  · have := severity_containerFindings q p ctn f h
    simp only [List.mem_cons, List.mem_singleton, List.not_mem_nil, or_false] at this ⊢
    tauto

theorem severity_DetectNetwork (up : String → String) (namespaces : List Namespace)
    (nps : List NetworkPolicy) (svcs : List Service) (ing : List Ingress) (f : Finding)
    (hf : f ∈ DetectNetwork up namespaces nps svcs ing) :
    (f.CheckID, f.Severity)
      ∈ [("K8S-NET-001", SeverityHigh), ("K8S-NET-002", SeverityMedium),
         ("K8S-NET-003", SeverityMedium), ("K8S-NET-004", SeverityHigh),
         ("K8S-NET-005", SeverityMedium), ("K8S-NET-006", SeverityMedium)] := by
  rw [DetectNetwork_eq_flatMap] at hf
  simp only [List.mem_append, List.mem_flatMap] at hf
  rcases hf with (⟨ns, _, h⟩ | ⟨s, _, h⟩) | ⟨ig, _, h⟩
  · unfold namespaceNetworkStep at h
    dsimp only at h
    split_ifs at h <;> simp at h
    all_goals first
      | (subst h; simp)
      | (rcases h with h | h <;> subst h <;> simp)
  · unfold serviceStep at h
    dsimp only at h
    split_ifs at h <;> simp at h
    all_goals first
      | (subst h; simp)
      | (rcases h with h | h <;> subst h <;> simp)
  · unfold ingressStep at h
    simp at h
    subst h
    simp

theorem severity_DetectRBAC (q lo : String → String) (e : EffectiveRBAC) (out : List Finding)
    (h : DetectRBAC q lo e = some out) (f : Finding) (hf : f ∈ out) :
    (f.CheckID, f.Severity)
      ∈ [("K8S-RBAC-000", SeverityCritical), ("K8S-RBAC-001", SeverityHigh),
         ("K8S-RBAC-002", SeverityHigh), ("K8S-RBAC-003", SeverityHigh),
         ("K8S-RBAC-004", SeverityHigh), ("K8S-RBAC-005", SeverityCritical)] := by
  rw [(DetectRBAC_eq_some q lo e out h).2] at hf
  obtain ⟨entry, _, hfe⟩ := List.mem_flatMap.mp hf
  obtain ⟨saNS, saName, _, br, _, hfb⟩ := mem_entryFindings q lo entry f hfe
  rcases (mem_boundRoleFindings q lo saNS saName br f hfb).2 with h0 | ⟨rule, _, hfr⟩
  · simp [h0.1, h0.2.1]
  · rcases (mem_ruleFindings q lo saNS saName br rule f hfr).2 with c | c | c | c | c <;>
      simp [c.1, c.2]

/-! ## Properties of the list assembled by `main` -/

/-- The list assembled by `main` when one of the collections of service accounts,
RoleBindings and ClusterRoleBindings is not empty. -/
theorem mainFindings_of_rbac (q up lo : String → String)
    (visit : List (String × List BoundRole) → List (String × List BoundRole))
    (namespaces : List Namespace) (pods : List Pod) (saIndex : List (String × ServiceAccount))
    (sas : List ServiceAccount) (roles : List Role) (clusterRoles : List ClusterRole)
    (rbs : List RoleBinding) (crbs : List ClusterRoleBinding) (nps : List NetworkPolicy)
    (svcs : List Service) (ing : List Ingress) (imds : List Finding)
    (hvisit : ∀ m, (visit m).Perm m) (h : sas ≠ [] ∨ rbs ≠ [] ∨ crbs ≠ []) :
    mainFindings q up lo visit namespaces pods saIndex sas roles clusterRoles rbs crbs nps
        svcs ing imds
      = some (DetectNamespacePSS namespaces ++ DetectPodMisconfigs q pods saIndex
          ++ (visit (BuildEffectiveRBAC sas roles clusterRoles rbs crbs).BySA).flatMap
              (entryFindings q lo)
          ++ DetectClusterRolesDirect clusterRoles
          ++ DetectNetwork up namespaces nps svcs ing ++ imds) := by
  have hc : sas.length > 0 ∨ rbs.length > 0 ∨ crbs.length > 0 := by
    simpa only [gt_iff_lt, List.length_pos] using h
  unfold mainFindings
  dsimp only
  rw [if_pos hc, DetectRBAC_BuildEffectiveRBAC q lo sas roles clusterRoles rbs crbs _
    (hvisit _)]
  simp only [List.nil_append]

/-- The list assembled by `main` when the collections of service accounts, RoleBindings and
ClusterRoleBindings are all empty. -/
theorem mainFindings_of_no_rbac (q up lo : String → String)
    (visit : List (String × List BoundRole) → List (String × List BoundRole))
    (namespaces : List Namespace) (pods : List Pod) (saIndex : List (String × ServiceAccount))
    (roles : List Role) (clusterRoles : List ClusterRole) (nps : List NetworkPolicy)
    (svcs : List Service) (ing : List Ingress) (imds : List Finding) :
    mainFindings q up lo visit namespaces pods saIndex [] roles clusterRoles [] [] nps
        svcs ing imds
      = some (DetectNamespacePSS namespaces ++ DetectPodMisconfigs q pods saIndex
          ++ DetectNetwork up namespaces nps svcs ing ++ imds) := by
  unfold mainFindings
  simp

/-- C25, as stated, fails: with the cluster role `cluster-admin`, which has a wildcard rule, and
the collections of service accounts, RoleBindings and ClusterRoleBindings all empty,
`DetectClusterRolesDirect` has a finding, but the list assembled by `main` is empty. -/
theorem mainFindings_skips_cluster_roles :
    (DetectClusterRolesDirect [clusterAdmin]).map (fun f => f.CheckID) = ["K8S-RBAC-101"]
      ∧ mainFindings quotePlain upperASCII lowerASCII id [] [] [] [] [] [clusterAdmin] [] []
          [] [] [] [] = some [] := by
  decide

/-- C25, amended: `main` calls `DetectClusterRolesDirect` inside the branch that it enters
only when the collection of service accounts, of RoleBindings or of ClusterRoleBindings is
not empty. In that case the list that `main` assembles contains
`DetectClusterRolesDirect(clusterRoles)` as a block, after the findings of `DetectRBAC` and
before those of `DetectNetwork`, whether or not a cluster role is bound. When the three
collections are all empty, the list is made of the findings of `DetectNamespacePSS`,
`DetectPodMisconfigs`, `DetectNetwork` and the probe only: no `K8S-RBAC-101` finding, whatever
the cluster roles are. -/
theorem mainFindings_cluster_roles (q up lo : String → String)
    (visit : List (String × List BoundRole) → List (String × List BoundRole))
    (namespaces : List Namespace) (pods : List Pod) (saIndex : List (String × ServiceAccount))
    (sas : List ServiceAccount) (roles : List Role) (clusterRoles : List ClusterRole)
    (rbs : List RoleBinding) (crbs : List ClusterRoleBinding) (nps : List NetworkPolicy)
    (svcs : List Service) (ing : List Ingress) (imds : List Finding)
    (hvisit : ∀ m, (visit m).Perm m) :
    (sas ≠ [] ∨ rbs ≠ [] ∨ crbs ≠ [] →
        ∃ rbac : List Finding,
          DetectRBAC q lo
              { BySA := visit (BuildEffectiveRBAC sas roles clusterRoles rbs crbs).BySA }
            = some rbac
          ∧ mainFindings q up lo visit namespaces pods saIndex sas roles clusterRoles rbs crbs
                nps svcs ing imds
              = some (DetectNamespacePSS namespaces ++ DetectPodMisconfigs q pods saIndex
                  ++ rbac ++ DetectClusterRolesDirect clusterRoles
                  ++ DetectNetwork up namespaces nps svcs ing ++ imds))
      ∧ (sas = [] → rbs = [] → crbs = [] →
          mainFindings q up lo visit namespaces pods saIndex sas roles clusterRoles rbs crbs
              nps svcs ing imds
            = some (DetectNamespacePSS namespaces ++ DetectPodMisconfigs q pods saIndex
                ++ DetectNetwork up namespaces nps svcs ing ++ imds)
          ∧ withCheckID "K8S-RBAC-101"
              (DetectNamespacePSS namespaces ++ DetectPodMisconfigs q pods saIndex
                ++ DetectNetwork up namespaces nps svcs ing) = []) := by
  constructor
  · intro h
    exact ⟨_, DetectRBAC_BuildEffectiveRBAC q lo sas roles clusterRoles rbs crbs _ (hvisit _),
      mainFindings_of_rbac q up lo visit namespaces pods saIndex sas roles clusterRoles rbs
        crbs nps svcs ing imds hvisit h⟩
  · intro h1 h2 h3
    subst h1 h2 h3
    refine ⟨mainFindings_of_no_rbac q up lo visit namespaces pods saIndex roles clusterRoles
      nps svcs ing imds, ?_⟩
    apply withCheckID_eq_nil
    intro f hf hid
    simp only [List.mem_append] at hf
    rcases hf with (hf | hf) | hf
    · have := severity_DetectNamespacePSS namespaces f hf
      rw [hid] at this
      simp at this
    · have := severity_DetectPodMisconfigs q pods saIndex f hf
      rw [hid] at this
      simp at this
    · have := severity_DetectNetwork up namespaces nps svcs ing f hf
      rw [hid] at this
      simp at this

theorem mainFindings_cluster_roles_witness :
    (([saOne] : List ServiceAccount) ≠ [] ∨ ([] : List RoleBinding) ≠ []
          ∨ ([] : List ClusterRoleBinding) ≠ [] →
        ∃ rbac : List Finding,
          DetectRBAC quotePlain lowerASCII
              { BySA := id (BuildEffectiveRBAC [saOne] [] [clusterAdmin] [] []).BySA }
            = some rbac
          ∧ mainFindings quotePlain upperASCII lowerASCII id [nsBare] [podBare] [] [saOne] []
                [clusterAdmin] [] [] [] [] [] []
              = some (DetectNamespacePSS [nsBare] ++ DetectPodMisconfigs quotePlain [podBare] []
                  ++ rbac ++ DetectClusterRolesDirect [clusterAdmin]
                  ++ DetectNetwork upperASCII [nsBare] [] [] [] ++ []))
      ∧ (([saOne] : List ServiceAccount) = [] → ([] : List RoleBinding) = [] →
          ([] : List ClusterRoleBinding) = [] →
          mainFindings quotePlain upperASCII lowerASCII id [nsBare] [podBare] [] [saOne] []
              [clusterAdmin] [] [] [] [] [] []
            = some (DetectNamespacePSS [nsBare] ++ DetectPodMisconfigs quotePlain [podBare] []
                ++ DetectNetwork upperASCII [nsBare] [] [] [] ++ [])
          ∧ withCheckID "K8S-RBAC-101"
              (DetectNamespacePSS [nsBare] ++ DetectPodMisconfigs quotePlain [podBare] []
                ++ DetectNetwork upperASCII [nsBare] [] [] []) = []) :=
  mainFindings_cluster_roles quotePlain upperASCII lowerASCII id [nsBare] [podBare] [] [saOne]
    [] [clusterAdmin] [] [] [] [] [] [] (fun m => List.Perm.refl m)

/-! ## Properties of `SeverityRank` -/

/-- The rank of a severity is positive only for the four levels. -/
theorem SeverityRank_pos_iff (s : Severity) :
    0 < SeverityRank s
      ↔ s = SeverityLow ∨ s = SeverityMedium ∨ s = SeverityHigh ∨ s = SeverityCritical := by
  unfold SeverityRank
  split_ifs <;> simp_all

/-- C26: `SeverityRank` maps `LOW`, `MEDIUM`, `HIGH`, `CRITICAL` to 1, 2, 3, 4, so it is
strictly increasing along `LOW < MEDIUM < HIGH < CRITICAL` and injective on the four levels;
it maps every other severity string to 0, which is strictly below the rank of each of the four
levels. -/
theorem SeverityRank_total_order :
    SeverityRank SeverityLow = 1 ∧ SeverityRank SeverityMedium = 2
      ∧ SeverityRank SeverityHigh = 3 ∧ SeverityRank SeverityCritical = 4
      ∧ SeverityRank SeverityLow < SeverityRank SeverityMedium
      ∧ SeverityRank SeverityMedium < SeverityRank SeverityHigh
      ∧ SeverityRank SeverityHigh < SeverityRank SeverityCritical
      ∧ (∀ s ∈ [SeverityLow, SeverityMedium, SeverityHigh, SeverityCritical],
          ∀ t ∈ [SeverityLow, SeverityMedium, SeverityHigh, SeverityCritical],
            SeverityRank s = SeverityRank t → s = t)
      ∧ (∀ s : Severity,
          s ∉ [SeverityLow, SeverityMedium, SeverityHigh, SeverityCritical] →
            SeverityRank s = 0
              ∧ ∀ t ∈ [SeverityLow, SeverityMedium, SeverityHigh, SeverityCritical],
                  SeverityRank s < SeverityRank t) := by
  refine ⟨by decide, by decide, by decide, by decide, by decide, by decide, by decide,
    by decide, ?_⟩
  intro s hs
  simp only [List.mem_cons, List.mem_singleton, List.not_mem_nil, or_false, not_or] at hs
  have h0 : SeverityRank s = 0 := by
    unfold SeverityRank
    rw [if_neg hs.1, if_neg hs.2.1, if_neg hs.2.2.1, if_neg hs.2.2.2]
  refine ⟨h0, ?_⟩
  intro t ht
  rw [h0]
  exact (SeverityRank_pos_iff t).mpr (by simpa using ht)

/-! ## The order of strings and `sort.Strings` -/

theorem runesLess_irrefl (a : List Nat) : runesLess a a = false := by
  induction a with
  | nil => rfl
  | cons x a ih => simp [runesLess, ih]

theorem runesLess_eq_of_not_lt (a b : List Nat) (h1 : runesLess a b = false)
    (h2 : runesLess b a = false) : a = b := by
  induction a generalizing b with
  | nil =>
    cases b with
    | nil => rfl
    | cons y b => simp [runesLess] at h1
  | cons x a ih =>
    cases b with
    | nil => simp [runesLess] at h2
    | cons y b =>
      unfold runesLess at h1 h2
      by_cases hxy : x < y
      · simp [hxy] at h1
      · by_cases hyx : y < x
        · simp [hyx] at h2
        · simp only [hxy, hyx, if_false] at h1 h2
          have hx : x = y := by omega
          rw [hx, ih b h1 h2]

theorem runesLess_trans (a b c : List Nat) (h1 : runesLess a b = true)
    (h2 : runesLess b c = true) : runesLess a c = true := by
  induction a generalizing b c with
  | nil =>
    cases b with
    | nil => simp [runesLess] at h1
    | cons y b =>
      cases c with
      | nil => simp [runesLess] at h2
      | cons z c => rfl
  | cons x a ih =>
    cases b with
    | nil => simp [runesLess] at h1
    | cons y b =>
      cases c with
      | nil => simp [runesLess] at h2
      | cons z c =>
        unfold runesLess at h1 h2 ⊢
        by_cases hxy : x < y
        · by_cases hyz : y < z
          · have : x < z := by omega
            simp [this]
          · by_cases hzy : z < y
            · simp [hyz, hzy] at h2
            · have : x < z := by omega
              simp [this]
        · by_cases hyx : y < x
          · simp [hxy, hyx] at h1
          · simp only [hxy, hyx, if_false] at h1
            by_cases hyz : y < z
            · have : x < z := by omega
              simp [this]
            · by_cases hzy : z < y
              · simp [hyz, hzy] at h2
              · simp only [hyz, hzy, if_false] at h2
                have h3 : ¬ x < z := by omega
                have h4 : ¬ z < x := by omega
                simp only [h3, h4, if_false]
                exact ih b c h1 h2

theorem runesLess_asymm (a b : List Nat) (h : runesLess a b = true) :
    runesLess b a = false := by
  cases hba : runesLess b a with
  | false => rfl
  | true =>
    have := runesLess_trans a b a h hba
    rw [runesLess_irrefl] at this
    exact absurd this (by simp)

theorem codes_injective (s t : String)
    (h : s.toList.map Char.toNat = t.toList.map Char.toNat) : s = t := by
  have hinj : Function.Injective Char.toNat := by
    intro a b hab
    exact Char.ext (UInt32.ext hab)
  have := List.map_injective_iff.mpr hinj h
  exact String.ext this

/-- Two strings of which none is below the other are equal. -/
theorem stringLess_antisymm (s t : String) (h1 : stringLess t s = false)
    (h2 : stringLess s t = false) : s = t :=
  codes_injective s t (runesLess_eq_of_not_lt _ _ h2 h1)

theorem stringLess_total (s t : String) : stringLess t s = false ∨ stringLess s t = false := by
  cases h : stringLess t s with
  | false => exact Or.inl rfl
  | true => exact Or.inr (runesLess_asymm _ _ h)

theorem stringLess_le_trans (s t u : String) (h1 : stringLess t s = false)
    (h2 : stringLess u t = false) : stringLess u s = false := by
  cases h : stringLess u s with
  | false => rfl
  | true =>
    cases hst : stringLess s t with
    | true =>
      have := runesLess_trans _ _ _ h hst
      unfold stringLess at h2
      rw [this] at h2
      exact absurd h2 (by simp)
    | false =>
      have hs := stringLess_antisymm s t h1 hst
      rw [hs] at h
      rw [h] at h2
      exact absurd h2 (by simp)

theorem insertSorted_eq_orderedInsert (s : String) (l : List String) :
    insertSorted s l = List.orderedInsert (fun a b => stringLess b a = false) s l := by
  induction l with
  | nil => rfl
  | cons t l ih =>
    unfold insertSorted
    rw [List.orderedInsert]
    cases h : stringLess t s with
    | true => simp [ih]
    | false => simp

theorem sortStrings_eq_insertionSort (l : List String) :
    sortStrings l = List.insertionSort (fun a b => stringLess b a = false) l := by
  induction l with
  | nil => rfl
  | cons s l ih =>
    unfold sortStrings
    rw [List.insertionSort, ih, insertSorted_eq_orderedInsert]

/-- The result of `sort.Strings` does not depend on the order of its input. -/
theorem sortStrings_perm (l1 l2 : List String) (h : l1.Perm l2) :
    sortStrings l1 = sortStrings l2 := by
  haveI : IsTotal String (fun a b => stringLess b a = false) :=
    ⟨fun a b => stringLess_total a b⟩
  haveI : IsTrans String (fun a b => stringLess b a = false) :=
    ⟨fun a b c hab hbc => stringLess_le_trans a b c hab hbc⟩
  haveI : IsAntisymm String (fun a b => stringLess b a = false) :=
    ⟨fun a b hab hba => stringLess_antisymm a b hab hba⟩
  rw [sortStrings_eq_insertionSort, sortStrings_eq_insertionSort]
  have hp : (List.insertionSort (fun a b => stringLess b a = false) l1).Perm
      (List.insertionSort (fun a b => stringLess b a = false) l2) :=
    ((List.perm_insertionSort _ l1).trans h).trans (List.perm_insertionSort _ l2).symm
  have hs1 : List.Sorted (fun a b => stringLess b a = false)
      (List.insertionSort (fun a b => stringLess b a = false) l1) :=
    List.sorted_insertionSort _ l1
  have hs2 : List.Sorted (fun a b => stringLess b a = false)
      (List.insertionSort (fun a b => stringLess b a = false) l2) :=
    List.sorted_insertionSort _ l2
  exact List.eq_of_perm_of_sorted hp hs1 hs2

/-! ## Independence of the order of iteration over maps -/

/-- C27: the two loops of the engine that iterate over a Go map give results that do not
depend on the order of iteration. For two orders of visiting the same entries of
`EffectiveRBAC.BySA`, `DetectRBAC` fails in both or returns in both, and the two lists of
findings are equal up to permutation. The keys that `uniqStrings` collects are sorted, so
its result is the same for every order in which the keys are read from its map. Hence two
runs of the statements of `main` that assemble the findings, on the same collections and
with any two orders of visiting the map, both return, and their lists are equal up to
permutation. The evaluators `DetectNamespacePSS`, `DetectPodMisconfigs`, `DetectNetwork`,
`DetectClusterRolesDirect` and `BuildEffectiveRBAC` iterate over slices only: they are
functions of their arguments. -/
theorem DetectRBAC_order_independent (q up lo : String → String) :
    (∀ entries1 entries2 : List (String × List BoundRole), entries1.Perm entries2 →
        (DetectRBAC q lo { BySA := entries1 } = none
            ∧ DetectRBAC q lo { BySA := entries2 } = none)
          ∨ ∃ out1 out2, DetectRBAC q lo { BySA := entries1 } = some out1
              ∧ DetectRBAC q lo { BySA := entries2 } = some out2 ∧ out1.Perm out2)
      ∧ (∀ (input keys : List String),
          keys.Perm (input.foldl (fun m s =>
            let s := TrimSpace s
            if s = "" then m else setAdd m s) []) →
          sortStrings keys = uniqStrings input)
      ∧ (∀ (visit1 visit2 : List (String × List BoundRole) → List (String × List BoundRole))
          (namespaces : List Namespace) (pods : List Pod)
          (saIndex : List (String × ServiceAccount)) (sas : List ServiceAccount)
          (roles : List Role) (clusterRoles : List ClusterRole) (rbs : List RoleBinding)
          (crbs : List ClusterRoleBinding) (nps : List NetworkPolicy) (svcs : List Service)
          (ing : List Ingress) (imds : List Finding),
          (∀ m, (visit1 m).Perm m) → (∀ m, (visit2 m).Perm m) →
          ∃ out1 out2,
            mainFindings q up lo visit1 namespaces pods saIndex sas roles clusterRoles rbs
                crbs nps svcs ing imds = some out1
              ∧ mainFindings q up lo visit2 namespaces pods saIndex sas roles clusterRoles
                  rbs crbs nps svcs ing imds = some out2
              ∧ out1.Perm out2) := by
  refine ⟨?_, ?_, ?_⟩
  · intro entries1 entries2 hperm
    by_cases hk : ∃ e ∈ entries1, splitKey e.1 = none
    · left
      obtain ⟨e, he, hn⟩ := hk
      exact ⟨detectEntries_none q lo entries1 [] ⟨e, he, hn⟩,
        detectEntries_none q lo entries2 [] ⟨e, hperm.mem_iff.mp he, hn⟩⟩
    · right
      have h1 : ∀ e ∈ entries1, splitKey e.1 ≠ none := fun e he hn => hk ⟨e, he, hn⟩
      have h2 : ∀ e ∈ entries2, splitKey e.1 ≠ none :=
        fun e he hn => hk ⟨e, hperm.mem_iff.mpr he, hn⟩
      refine ⟨_, _, detectEntries_eq_flatMap q lo entries1 [] h1,
        detectEntries_eq_flatMap q lo entries2 [] h2, ?_⟩
      simpa using entryFindings_perm q lo entries1 entries2 hperm
  · intro input keys hperm
    unfold uniqStrings
    exact sortStrings_perm _ _ hperm
  · intro visit1 visit2 namespaces pods saIndex sas roles clusterRoles rbs crbs nps svcs ing
      imds hv1 hv2
    by_cases h : sas ≠ [] ∨ rbs ≠ [] ∨ crbs ≠ []
    · refine ⟨_, _, mainFindings_of_rbac q up lo visit1 namespaces pods saIndex sas roles
        clusterRoles rbs crbs nps svcs ing imds hv1 h,
        mainFindings_of_rbac q up lo visit2 namespaces pods saIndex sas roles clusterRoles rbs
          crbs nps svcs ing imds hv2 h, ?_⟩
      have hp := entryFindings_perm q lo _ _ ((hv1 (BuildEffectiveRBAC sas roles clusterRoles
        rbs crbs).BySA).trans (hv2 (BuildEffectiveRBAC sas roles clusterRoles rbs
        crbs).BySA).symm)
      exact ((((List.Perm.refl _).append hp).append (List.Perm.refl _)).append
        (List.Perm.refl _)).append (List.Perm.refl _)
    · simp only [not_or, not_not] at h
      obtain ⟨h1, h2, h3⟩ := h
      subst h1 h2 h3
      exact ⟨_, _, mainFindings_of_no_rbac q up lo visit1 namespaces pods saIndex roles
        clusterRoles nps svcs ing imds,
        mainFindings_of_no_rbac q up lo visit2 namespaces pods saIndex roles clusterRoles nps
          svcs ing imds, List.Perm.refl _⟩

/-! ## Totality of the evaluators -/

/-- C28: for all input collections, every key of `BuildEffectiveRBAC(...).BySA` contains a
`/` and its split into namespace and name has two parts; so
`DetectRBAC(BuildEffectiveRBAC(...))` returns a list of findings, in whatever order the map is
visited, and never fails with an index out of range. On empty collections
`DetectRBAC(BuildEffectiveRBAC(...))`, `DetectNamespacePSS`, `DetectPodMisconfigs`,
`DetectNetwork` and `DetectClusterRolesDirect` return the empty list. -/
theorem DetectRBAC_never_fails (q up lo : String → String) :
    (∀ (sas : List ServiceAccount) (roles : List Role) (cRoles : List ClusterRole)
        (rbs : List RoleBinding) (crbs : List ClusterRoleBinding),
        ∀ e ∈ (BuildEffectiveRBAC sas roles cRoles rbs crbs).BySA,
          '/' ∈ e.1.toList ∧ ∃ saNS saName, splitKey e.1 = some (saNS, saName))
      ∧ (∀ (sas : List ServiceAccount) (roles : List Role) (cRoles : List ClusterRole)
          (rbs : List RoleBinding) (crbs : List ClusterRoleBinding)
          (entries : List (String × List BoundRole)),
          entries.Perm (BuildEffectiveRBAC sas roles cRoles rbs crbs).BySA →
          ∃ out, DetectRBAC q lo { BySA := entries } = some out)
      ∧ DetectRBAC q lo (BuildEffectiveRBAC [] [] [] [] []) = some []
      ∧ DetectNamespacePSS [] = []
      ∧ (∀ saIndex, DetectPodMisconfigs q [] saIndex = [])
      ∧ (∀ nps, DetectNetwork up [] nps [] [] = [])
      ∧ DetectClusterRolesDirect [] = [] := by
  refine ⟨?_, ?_, rfl, rfl, fun _ => rfl, ?_, rfl⟩
  · intro sas roles cRoles rbs crbs e he
    obtain ⟨⟨a, b, hk⟩, _⟩ := BuildEffectiveRBAC_invariant (fun _ => True) sas roles cRoles rbs
      crbs (fun _ _ => trivial) e he
    obtain ⟨p, hp⟩ := splitKey_append a b
    refine ⟨?_, p.1, p.2, by rw [hk, hp]⟩
    rw [hk]
    simp [String.toList, String.data_append]
  · intro sas roles cRoles rbs crbs entries hperm
    exact ⟨_, DetectRBAC_BuildEffectiveRBAC q lo sas roles cRoles rbs crbs entries hperm⟩
  · intro nps
    rw [DetectNetwork_eq_flatMap]
    rfl

theorem specSeverities_functional :
    ∀ a ∈ specSeverities, ∀ b ∈ specSeverities, a.1 = b.1 → a.2 = b.2 := by
  decide

theorem specSeverities_levels :
    ∀ a ∈ specSeverities,
      a.2 ∈ [SeverityLow, SeverityMedium, SeverityHigh, SeverityCritical] := by
  decide

/-- Every finding that one of the five evaluators emits has its check ID and severity in the
table `specSeverities`. -/
theorem specEmitted_severity (f : Finding) (h : specEmitted f) :
    (f.CheckID, f.Severity) ∈ specSeverities := by
  rcases h with ⟨nss, hf⟩ | ⟨q, pods, idx, hf⟩ | ⟨up, nss, nps, svcs, ing, hf⟩
    | ⟨q, lo, e, out, ho, hf⟩ | ⟨crs, hf⟩
  · have hsub : ∀ a ∈ [("K8S-PSA-001", SeverityMedium), ("K8S-PSA-002", SeverityHigh)],
        a ∈ specSeverities := by decide
    exact hsub _ (severity_DetectNamespacePSS nss f hf)
  · have hsub : ∀ a ∈ [("K8S-POD-001", SeverityCritical), ("K8S-POD-002", SeverityCritical),
         ("K8S-POD-003", SeverityHigh), ("K8S-POD-004", SeverityHigh),
         ("K8S-POD-005", SeverityMedium), ("K8S-POD-006", SeverityHigh),
         ("K8S-POD-007", SeverityMedium), ("K8S-POD-008", SeverityMedium),
         ("K8S-POD-009", SeverityMedium), ("K8S-POD-010", SeverityMedium),
         ("K8S-POD-011", SeverityLow), ("K8S-POD-012", SeverityLow)],
        a ∈ specSeverities := by decide
    exact hsub _ (severity_DetectPodMisconfigs q pods idx f hf)
  · have hsub : ∀ a ∈ [("K8S-NET-001", SeverityHigh), ("K8S-NET-002", SeverityMedium),
         ("K8S-NET-003", SeverityMedium), ("K8S-NET-004", SeverityHigh),
         ("K8S-NET-005", SeverityMedium), ("K8S-NET-006", SeverityMedium)],
        a ∈ specSeverities := by decide
    exact hsub _ (severity_DetectNetwork up nss nps svcs ing f hf)
  · have hsub : ∀ a ∈ [("K8S-RBAC-000", SeverityCritical), ("K8S-RBAC-001", SeverityHigh),
         ("K8S-RBAC-002", SeverityHigh), ("K8S-RBAC-003", SeverityHigh),
         ("K8S-RBAC-004", SeverityHigh), ("K8S-RBAC-005", SeverityCritical)],
        a ∈ specSeverities := by decide
    exact hsub _ (severity_DetectRBAC q lo e out ho f hf)
  · have := mem_DetectClusterRolesDirect crs f hf
    have hm : ("K8S-RBAC-101", SeverityMedium) ∈ specSeverities := by decide
    have he : (f.CheckID, f.Severity) = ("K8S-RBAC-101", SeverityMedium) := by
      rw [this.1, this.2]
    rw [he]
    exact hm

/-- C29: across all findings that `DetectNamespacePSS`, `DetectPodMisconfigs`,
`DetectNetwork`, `DetectRBAC` and `DetectClusterRolesDirect` emit on any inputs, the check ID
and the severity of a finding are a pair of one fixed table, in which no check ID has two
severities; so two findings with the same check ID have the same severity, whichever
evaluators and inputs they come from, and every severity is one of `LOW`, `MEDIUM`, `HIGH`,
`CRITICAL`. -/
theorem severity_determined_by_checkID :
    (∀ f, specEmitted f → (f.CheckID, f.Severity) ∈ specSeverities)
      ∧ (∀ f g, specEmitted f → specEmitted g → f.CheckID = g.CheckID →
          f.Severity = g.Severity)
      ∧ (∀ f, specEmitted f →
          f.Severity ∈ [SeverityLow, SeverityMedium, SeverityHigh, SeverityCritical]) := by
  refine ⟨specEmitted_severity, ?_, ?_⟩
  · intro f g hf hg hid
    exact specSeverities_functional _ (specEmitted_severity f hf) _ (specEmitted_severity g hg)
      hid
  · intro f hf
    exact specSeverities_levels _ (specEmitted_severity f hf)

/-! ## The order and the number of the container findings -/

theorem length_privilegedStep (q : String → String) (ns name : String) (ctn : Container) :
    (privilegedStep q ns name [] ctn).length ≤ 1 := by
  unfold privilegedStep
  split_ifs <;> simp

theorem length_runAsStep (q : String → String) (ns name : String) (d : PodDefaults)
    (ctn : Container) : (runAsStep q ns name d [] ctn).length ≤ 1 := by
  unfold runAsStep
  split_ifs <;> simp

theorem length_seccompStep (q : String → String) (ns name : String) (d : PodDefaults)
    (ctn : Container) : (seccompStep q ns name d [] ctn).length ≤ 1 := by
  unfold seccompStep
  dsimp only
  split_ifs <;> simp

theorem length_allowPrivilegeEscalationStep (q : String → String) (ns name : String)
    (ctn : Container) : (allowPrivilegeEscalationStep q ns name [] ctn).length ≤ 1 := by
  unfold allowPrivilegeEscalationStep
  split_ifs <;> simp

theorem length_readOnlyRootFilesystemStep (q : String → String) (ns name : String)
    (ctn : Container) : (readOnlyRootFilesystemStep q ns name [] ctn).length ≤ 1 := by
  unfold readOnlyRootFilesystemStep
  split_ifs <;> simp

theorem length_withCheckID_capabilitiesStep (id : String) (q : String → String)
    (ns name : String) (ctn : Container)
    (hid : id = "K8S-POD-010" ∨ id = "K8S-POD-011") :
    (withCheckID id (capabilitiesStep q ns name [] ctn)).length ≤ 1 := by
  unfold capabilitiesStep withCheckID
  cases ctn.SecurityContext.bind fun ctx => ctx.Capabilities with
  | none => simp
  | some caps =>
    dsimp only
    rcases hid with rfl | rfl <;> split_ifs <;> simp

theorem withCheckID_capabilities_containerFindings (id : String) (q : String → String)
    (p : Pod) (ctn : Container) (hid : id = "K8S-POD-010" ∨ id = "K8S-POD-011") :
    withCheckID id (containerFindings q p ctn)
      = withCheckID id
          (capabilitiesStep q p.Metadata.Namespace p.Metadata.Name [] ctn) := by
  unfold containerFindings
  rw [containerStep_nil]
  simp only [withCheckID_append]
  rw [withCheckID_of_all id "K8S-POD-001" _ (fun f hf => (mem_privilegedStep _ _ _ _ f hf).1),
    withCheckID_of_all id "K8S-POD-004" _ (fun f hf => (mem_runAsStep _ _ _ _ _ f hf).1),
    withCheckID_of_all id "K8S-POD-005" _ (fun f hf => (mem_seccompStep _ _ _ _ _ f hf).1),
    withCheckID_of_all id "K8S-POD-006" _
      (fun f hf => (mem_allowPrivilegeEscalationStep _ _ _ _ f hf).1),
    withCheckID_of_all id "K8S-POD-007" _
      (fun f hf => (mem_readOnlyRootFilesystemStep _ _ _ _ f hf).1),
    withCheckID_flatMap_of_all id "K8S-POD-012" _ _
      (fun ev f hf => (mem_envStep _ _ _ _ ev f hf).1),
    withCheckID_flatMap_of_all id "K8S-POD-009" _ _
      (fun ef f hf => (mem_envFromStep _ _ _ _ ef f hf).1)]
  rcases hid with rfl | rfl <;> simp

/-- C30: in the findings of a pod, at any place of the list of pods, the findings of the
pod itself (`K8S-POD-003`, `K8S-POD-002`, `K8S-POD-008`) come first and are followed by the
findings of the init containers, in order, and then by those of the regular containers, in
order; so all findings of an earlier container of that concatenation precede those of a
later one. For each container each of `K8S-POD-001`, `K8S-POD-004`, `K8S-POD-005`,
`K8S-POD-006`, `K8S-POD-007`, `K8S-POD-010` and `K8S-POD-011` occurs at most once in its
findings. -/
theorem DetectPodMisconfigs_container_order (q : String → String) (p : Pod)
    (saIndex : List (String × ServiceAccount)) :
    (∃ podLevel : List Finding,
        (∀ f ∈ podLevel, f.CheckID ∈ ["K8S-POD-003", "K8S-POD-002", "K8S-POD-008"])
        ∧ ∀ pre post : List Pod,
            DetectPodMisconfigs q (pre ++ p :: post) saIndex
              = DetectPodMisconfigs q pre saIndex
                ++ (podLevel
                  ++ p.Spec.InitContainers.flatMap (containerFindings q p)
                  ++ p.Spec.Containers.flatMap (containerFindings q p))
                ++ DetectPodMisconfigs q post saIndex)
      ∧ ∀ ctn : Container,
          ∀ id ∈ ["K8S-POD-001", "K8S-POD-004", "K8S-POD-005", "K8S-POD-006", "K8S-POD-007",
              "K8S-POD-010", "K8S-POD-011"],
            (withCheckID id (containerFindings q p ctn)).length ≤ 1 := by
  constructor
  · refine ⟨hostNamespaceStep [] p
        ++ p.Spec.Volumes.flatMap (volumeStep q p.Metadata.Namespace p.Metadata.Name [])
        ++ automountStep [] p saIndex, ?_, ?_⟩
    · intro f hf
      simp only [List.mem_append, List.mem_flatMap] at hf
      rcases hf with (h | ⟨v, _, h⟩) | h
      · rw [(mem_hostNamespaceStep p f h).1]; decide
      · rw [(mem_volumeStep _ _ _ v f h).1]; decide
      · rw [(mem_automountStep p saIndex f h).1]; decide
    · intro pre post
      rw [DetectPodMisconfigs_split]
      congr 2
      rw [DetectPodMisconfigs_eq_flatMap]
      simp only [List.flatMap_cons, List.flatMap_nil, List.append_nil]
      rw [podStep_nil, List.flatMap_append]
      simp only [List.append_assoc]
  · intro ctn id hid
    simp only [List.mem_cons, List.mem_singleton, List.not_mem_nil, or_false] at hid
    rcases hid with rfl | rfl | rfl | rfl | rfl | rfl | rfl
    · rw [withCheckID_containerFindings _ q p ctn (by decide) (by decide) (by decide)
        (by decide)]
      simpa using length_privilegedStep q _ _ ctn
    · rw [withCheckID_containerFindings _ q p ctn (by decide) (by decide) (by decide)
        (by decide)]
      simpa using length_runAsStep q _ _ _ ctn
    · rw [withCheckID_containerFindings _ q p ctn (by decide) (by decide) (by decide)
        (by decide)]
      simpa using length_seccompStep q _ _ _ ctn
    · rw [withCheckID_containerFindings _ q p ctn (by decide) (by decide) (by decide)
        (by decide)]
      simpa using length_allowPrivilegeEscalationStep q _ _ ctn
    · rw [withCheckID_containerFindings _ q p ctn (by decide) (by decide) (by decide)
        (by decide)]
      simpa using length_readOnlyRootFilesystemStep q _ _ ctn
    · rw [withCheckID_capabilities_containerFindings _ q p ctn (Or.inl rfl)]
      exact length_withCheckID_capabilitiesStep _ q _ _ ctn (Or.inl rfl)
    · rw [withCheckID_capabilities_containerFindings _ q p ctn (Or.inr rfl)]
      exact length_withCheckID_capabilitiesStep _ q _ _ ctn (Or.inr rfl)

/-! ## Independence of the pods -/

/-- Every finding of a pod is attributed to the pod. -/
theorem mem_podStep (q : String → String) (saIndex : List (String × ServiceAccount)) (p : Pod)
    (f : Finding) (hf : f ∈ podStep q saIndex [] p) :
    f.Resource = { Kind := "Pod", Namespace := p.Metadata.Namespace,
                   Name := p.Metadata.Name } := by
  rw [podStep_nil] at hf
  simp only [List.mem_append, List.mem_flatMap] at hf
  rcases hf with ((h | ⟨v, _, h⟩) | h) | ⟨ctn, _, h⟩
  · exact (mem_hostNamespaceStep p f h).2.2
  · exact (mem_volumeStep _ _ _ v f h).2.2
  · exact (mem_automountStep p saIndex f h).2.2
  · exact (mem_containerFindings q p ctn f h).2

/-- C31: for all pod lists `ps` and `qs` and every service-account index,
`DetectPodMisconfigs(ps ++ qs, idx) = DetectPodMisconfigs(ps, idx) ++
DetectPodMisconfigs(qs, idx)`; the findings of a pod list are the findings of its pods, each
evaluated alone, in order; and every finding of a pod carries the resource of kind `Pod` with
the namespace and the name of that pod. -/
theorem DetectPodMisconfigs_pods_independent (q : String → String)
    (saIndex : List (String × ServiceAccount)) :
    (∀ ps qs : List Pod,
        DetectPodMisconfigs q (ps ++ qs) saIndex
          = DetectPodMisconfigs q ps saIndex ++ DetectPodMisconfigs q qs saIndex)
      ∧ (∀ pods : List Pod,
          DetectPodMisconfigs q pods saIndex
            = pods.flatMap fun p => DetectPodMisconfigs q [p] saIndex)
      ∧ (∀ (p : Pod) (f : Finding), f ∈ DetectPodMisconfigs q [p] saIndex →
          f.Resource = { Kind := "Pod", Namespace := p.Metadata.Namespace,
                         Name := p.Metadata.Name })
      ∧ (∀ (pods : List Pod) (f : Finding), f ∈ DetectPodMisconfigs q pods saIndex →
          ∃ p ∈ pods, f ∈ DetectPodMisconfigs q [p] saIndex
            ∧ f.Resource = { Kind := "Pod", Namespace := p.Metadata.Namespace,
                             Name := p.Metadata.Name }) := by
  have hone : ∀ p : Pod, DetectPodMisconfigs q [p] saIndex = podStep q saIndex [] p := by
    intro p
    rw [DetectPodMisconfigs_eq_flatMap]
    simp
  refine ⟨?_, ?_, ?_, ?_⟩
  · intro ps qs
    simp only [DetectPodMisconfigs_eq_flatMap, List.flatMap_append]
  · intro pods
    simp only [hone]
    exact DetectPodMisconfigs_eq_flatMap q pods saIndex
  · intro p f hf
    rw [hone] at hf
    exact mem_podStep q saIndex p f hf
  · intro pods f hf
    rw [DetectPodMisconfigs_eq_flatMap] at hf
    obtain ⟨p, hp, hfp⟩ := List.mem_flatMap.mp hf
    exact ⟨p, hp, by rw [hone]; exact hfp, mem_podStep q saIndex p f hfp⟩

/-! ## Properties of `ParseSeverity` -/

/-- The result of `ParseSeverity` in terms of the string it compares. -/
theorem ParseSeverity_eq (q up : String → String) (s : String) :
    (TrimSpace (up s) ∈ [SeverityLow, SeverityMedium, SeverityHigh, SeverityCritical]
        ∧ ParseSeverity q up s = (TrimSpace (up s), none))
      ∨ (TrimSpace (up s) ∉ [SeverityLow, SeverityMedium, SeverityHigh, SeverityCritical]
        ∧ ParseSeverity q up s
            = ("", some ("unknown severity " ++ q (TrimSpace (up s))))) := by
  unfold ParseSeverity
  dsimp only
  by_cases h1 : TrimSpace (up s) = "LOW"
  · left
    rw [if_pos h1, h1]
    exact ⟨by decide, rfl⟩
  · by_cases h2 : TrimSpace (up s) = "MEDIUM"
    · left
      rw [if_neg h1, if_pos h2, h2]
      exact ⟨by decide, rfl⟩
    · by_cases h3 : TrimSpace (up s) = "HIGH"
      · left
        rw [if_neg h1, if_neg h2, if_pos h3, h3]
        exact ⟨by decide, rfl⟩
      · by_cases h4 : TrimSpace (up s) = "CRITICAL"
        · left
          rw [if_neg h1, if_neg h2, if_neg h3, if_pos h4, h4]
          exact ⟨by decide, rfl⟩
        · right
          rw [if_neg h1, if_neg h2, if_neg h3, if_neg h4]
          refine ⟨?_, rfl⟩
          simp only [List.mem_cons, List.mem_singleton, List.not_mem_nil, or_false, not_or]
          exact ⟨h1, h2, h3, h4⟩

/-! ## Attribution of the findings of `DetectRBAC` -/

/-- Every finding of an entry is attributed to the service account that its key splits
into. -/
theorem entryFindings_resource (q lo : String → String) (key : String)
    (brs : List BoundRole) (saNS saName : String) (hs : splitKey key = some (saNS, saName))
    (f : Finding) (hf : f ∈ entryFindings q lo (key, brs)) :
    f.Resource = { Kind := "ServiceAccount", Namespace := saNS, Name := saName } := by
  obtain ⟨ns2, n2, hs2, br, _, hfb⟩ := mem_entryFindings q lo (key, brs) f hf
  dsimp only at hs2
  rw [hs] at hs2
  obtain ⟨h1, h2⟩ : saNS = ns2 ∧ saName = n2 := by simpa using hs2
  subst h1 h2
  rcases (mem_boundRoleFindings q lo saNS saName br f hfb).2 with h0 | ⟨rule, _, hfr⟩
  · exact h0.2.2.1
  · exact (mem_ruleFindings q lo saNS saName br rule f hfr).1

/-- C33: let `ns` be a namespace without `/` and `n` a name, which may have a `/`. Splitting
the key `ns + "/" + n` at its first `/` gives back the pair `(ns, n)`, and no other pair with
a namespace without `/` builds the same key. Every finding that `DetectRBAC` emits for the
bound roles stored under that key has the resource of kind `ServiceAccount`, namespace `ns`
and name `n`; in a result of `DetectRBAC` these findings are a block of the output. -/
theorem DetectRBAC_attribution (q lo : String → String) (ns n : String)
    (hns : '/' ∉ ns.toList) :
    splitKey (ns ++ "/" ++ n) = some (ns, n)
      ∧ (∀ ns2 n2 : String, '/' ∉ ns2.toList → ns2 ++ "/" ++ n2 = ns ++ "/" ++ n →
          ns2 = ns ∧ n2 = n)
      ∧ (∀ (brs : List BoundRole) (f : Finding),
          f ∈ entryFindings q lo (ns ++ "/" ++ n, brs) →
          f.Resource = { Kind := "ServiceAccount", Namespace := ns, Name := n })
      ∧ (∀ (brs : List BoundRole) (br : BoundRole), br ∈ brs →
          ∀ f ∈ boundRoleFindings q lo ns n br, f ∈ entryFindings q lo (ns ++ "/" ++ n, brs))
      ∧ (∀ (e : EffectiveRBAC) (out : List Finding) (brs : List BoundRole),
          DetectRBAC q lo e = some out → (ns ++ "/" ++ n, brs) ∈ e.BySA →
          ∃ before after : List Finding,
            out = before ++ entryFindings q lo (ns ++ "/" ++ n, brs) ++ after) := by
  have hs := splitKey_of_not_mem ns n hns
  refine ⟨hs, ?_, ?_, ?_, ?_⟩
  · intro ns2 n2 hns2 hk
    exact slash_key_injective ns2 n2 ns n hns2 hns hk
  · intro brs f hf
    exact entryFindings_resource q lo _ brs ns n hs f hf
  · intro brs br hbr f hf
    unfold entryFindings
    dsimp only
    rw [hs]
    exact List.mem_flatMap.mpr ⟨br, hbr, hf⟩
  · intro e out brs hout hmem
    rw [(DetectRBAC_eq_some q lo e out hout).2]
    exact flatMap_segment (entryFindings q lo) e.BySA _ hmem

theorem DetectRBAC_attribution_witness :
    splitKey ("ns1" ++ "/" ++ "team/sa1") = some ("ns1", "team/sa1")
      ∧ (∀ ns2 n2 : String, '/' ∉ ns2.toList → ns2 ++ "/" ++ n2 = "ns1" ++ "/" ++ "team/sa1" →
          ns2 = "ns1" ∧ n2 = "team/sa1")
      ∧ (∀ (brs : List BoundRole) (f : Finding),
          f ∈ entryFindings quotePlain lowerASCII ("ns1" ++ "/" ++ "team/sa1", brs) →
          f.Resource = { Kind := "ServiceAccount", Namespace := "ns1", Name := "team/sa1" })
      ∧ (∀ (brs : List BoundRole) (br : BoundRole), br ∈ brs →
          ∀ f ∈ boundRoleFindings quotePlain lowerASCII "ns1" "team/sa1" br,
            f ∈ entryFindings quotePlain lowerASCII ("ns1" ++ "/" ++ "team/sa1", brs))
      ∧ (∀ (e : EffectiveRBAC) (out : List Finding) (brs : List BoundRole),
          DetectRBAC quotePlain lowerASCII e = some out →
          ("ns1" ++ "/" ++ "team/sa1", brs) ∈ e.BySA →
          ∃ before after : List Finding,
            out = before
              ++ entryFindings quotePlain lowerASCII ("ns1" ++ "/" ++ "team/sa1", brs)
              ++ after) :=
  DetectRBAC_attribution quotePlain lowerASCII "ns1" "team/sa1" (by decide)

/-! ## The number of bound roles -/

theorem boundRoleCount_mapSet_add (m : List (String × List BoundRole)) (k : String)
    (br : BoundRole) :
    boundRoleCount (mapSet m k ((m.lookup k).getD [] ++ [br])) = boundRoleCount m + 1 := by
  induction m with
  | nil => simp [mapSet, boundRoleCount]
  | cons e m ih =>
    obtain ⟨k', v'⟩ := e
    rw [lookup_cons_ite]
    unfold mapSet
    by_cases hk : k = k'
    · rw [if_pos hk, if_pos hk.symm]
      simp [boundRoleCount]
      omega
    · rw [if_neg hk, if_neg (fun e => hk e.symm)]
      unfold boundRoleCount at ih ⊢
      simp only [List.map_cons, List.sum_cons]
      rw [ih]
      omega

theorem boundRoleCount_recordAll (m : List (String × List BoundRole))
    (facts : List (String × BoundRole)) :
    boundRoleCount (recordAll m facts) = boundRoleCount m + facts.length := by
  induction facts generalizing m with
  | nil => simp [recordAll]
  | cons f facts ih =>
    have hstep : recordAll m (f :: facts)
        = recordAll (mapSet m f.1 ((m.lookup f.1).getD [] ++ [f.2])) facts := by
      simp [recordAll]
    rw [hstep, ih, boundRoleCount_mapSet_add, List.length_cons]
    omega

theorem length_boundFacts (roles : List Role) (cRoles : List ClusterRole)
    (rbs : List RoleBinding) (crbs : List ClusterRoleBinding) :
    (boundFacts roles cRoles rbs crbs).length = specSubjectCount rbs crbs := by
  unfold boundFacts specSubjectCount
  rw [List.length_append]
  congr 1
  · induction rbs with
    | nil => rfl
    | cons rb rbs ih =>
      rw [List.flatMap_cons, List.length_append, ih]
      simp [roleBindingFacts]
  · induction crbs with
    | nil => rfl
    | cons crb crbs ih =>
      rw [List.flatMap_cons, List.length_append, ih]
      simp [clusterRoleBindingFacts]

/-- C34: for all inputs, the total number of bound roles over all keys of the map that
`BuildEffectiveRBAC` returns is the number of subjects of kind `ServiceAccount` across all
RoleBindings plus the number of subjects of kind `ServiceAccount` with a non-empty namespace
across all ClusterRoleBindings, whatever the collections of service accounts, roles and
cluster roles are; and the bound roles under a key are, in order, those recorded for the
subjects with that key, none lost and none twice. -/
theorem BuildEffectiveRBAC_count (sas : List ServiceAccount) (roles : List Role)
    (cRoles : List ClusterRole) (rbs : List RoleBinding) (crbs : List ClusterRoleBinding) :
    boundRoleCount (BuildEffectiveRBAC sas roles cRoles rbs crbs).BySA
        = specSubjectCount rbs crbs
      ∧ boundRoleCount (BuildEffectiveRBAC sas roles cRoles rbs crbs).BySA
        = boundRoleCount (BuildEffectiveRBAC [] [] [] rbs crbs).BySA
      ∧ (∀ (k : String) (brs : List BoundRole),
          (BuildEffectiveRBAC sas roles cRoles rbs crbs).BySA.lookup k = some brs →
          brs = factsFor k (boundFacts roles cRoles rbs crbs)) := by
  have hcount : ∀ (sas2 : List ServiceAccount) (roles2 : List Role)
      (cRoles2 : List ClusterRole),
      boundRoleCount (BuildEffectiveRBAC sas2 roles2 cRoles2 rbs crbs).BySA
        = specSubjectCount rbs crbs := by
    intro sas2 roles2 cRoles2
    rw [BuildEffectiveRBAC_eq]
    dsimp only
    obtain ⟨extras, hx, he⟩ := foldl_ensureServiceAccount sas2
      (recordAll [] (boundFacts roles2 cRoles2 rbs crbs))
    rw [he]
    have hext : boundRoleCount extras = 0 := by
      unfold boundRoleCount
      rw [List.sum_eq_zero]
      intro x hxm
      obtain ⟨e, hem, rfl⟩ := List.mem_map.mp hxm
      rw [hx e hem]
      rfl
    have happ : boundRoleCount (recordAll [] (boundFacts roles2 cRoles2 rbs crbs) ++ extras)
        = boundRoleCount (recordAll [] (boundFacts roles2 cRoles2 rbs crbs))
          + boundRoleCount extras := by
      unfold boundRoleCount
      rw [List.map_append, List.sum_append]
    rw [happ, hext, boundRoleCount_recordAll, length_boundFacts]
    simp [boundRoleCount]
  refine ⟨hcount sas roles cRoles, ?_, ?_⟩
  · rw [hcount sas roles cRoles, hcount [] [] []]
  · intro k brs h
    exact BuildEffectiveRBAC_entry sas roles cRoles rbs crbs k brs h

/-! ## The filters of `main` -/

theorem foldl_keep {α : Type} (P : α → Prop) [DecidablePred P] (xs init : List α) :
    xs.foldl (fun filtered x => if P x then filtered ++ [x] else filtered) init
      = init ++ xs.filter fun x => decide (P x) := by
  induction xs generalizing init with
  | nil => simp
  | cons x xs ih =>
    rw [List.foldl_cons, ih, List.filter_cons]
    by_cases h : P x
    · simp [h]
    · simp [h]

theorem foldl_drop {α : Type} (P : α → Prop) [DecidablePred P] (xs init : List α) :
    xs.foldl (fun filtered x => if P x then filtered else filtered ++ [x]) init
      = init ++ xs.filter fun x => decide (¬ P x) := by
  induction xs generalizing init with
  | nil => simp
  | cons x xs ih =>
    rw [List.foldl_cons, ih, List.filter_cons]
    by_cases h : P x
    · simp [h]
    · simp [h]

/-- The namespaces that `main` keeps: those of the name given by `-namespace`, when it is
given, and not `kube-system`, unless `-include-kube-system` is set. -/
theorem filterNamespaces_eq (nsFilter : String) (includeKube : Bool)
    (namespaces : List Namespace) :
    filterNamespaces nsFilter includeKube namespaces
      = namespaces.filter fun ns =>
          decide (nsFilter = "" ∨ ns.Metadata.Name = nsFilter)
            && (includeKube || decide (ns.Metadata.Name ≠ "kube-system")) := by
  unfold filterNamespaces
  dsimp only
  rw [foldl_keep (fun ns : Namespace => ns.Metadata.Name = nsFilter),
    foldl_drop (fun ns : Namespace => ns.Metadata.Name = "kube-system")]
  by_cases hf : nsFilter = ""
  · cases includeKube <;> simp [hf]
  · cases includeKube <;> simp [hf, List.filter_filter, Bool.and_comm]

theorem mem_allowed (namespaces : List Namespace) (x : String) :
    x ∈ namespaces.foldl (fun allowed ns => setAdd allowed ns.Metadata.Name) []
      ↔ ∃ ns ∈ namespaces, ns.Metadata.Name = x := by
  have h : namespaces.foldl (fun allowed ns => setAdd allowed ns.Metadata.Name) []
      = (namespaces.map fun ns => ns.Metadata.Name).foldl setAdd [] := by
    rw [List.foldl_map]
  rw [h, mem_foldl_setAdd]
  simp

/-- The pods that `main` keeps when at least one namespace is left: those whose namespace is
one of them. -/
theorem filterPods_of_ne_nil (namespaces : List Namespace) (pods : List Pod)
    (h : namespaces ≠ []) :
    filterPods namespaces pods
      = pods.filter fun p =>
          decide (∃ ns ∈ namespaces, ns.Metadata.Name = p.Metadata.Namespace) := by
  unfold filterPods
  rw [if_pos (List.length_pos.mpr h)]
  dsimp only
  rw [foldl_keep (fun p : Pod => p.Metadata.Namespace
    ∈ namespaces.foldl (fun allowed ns => setAdd allowed ns.Metadata.Name) [])]
  simp only [List.nil_append]
  congr 1
  funext p
  simp only [mem_allowed]

/-- The pods that `main` keeps when no namespace is left: all of them. -/
theorem filterPods_nil (pods : List Pod) : filterPods [] pods = pods := by
  unfold filterPods
  simp

/-- C35, at the failing inputs: with the namespaces `ns2` and `kube-system` and the flag
`-namespace missing` (or `-namespace kube-system` without `-include-kube-system`) no
namespace is left, and `main` then hands every pod to `DetectPodMisconfigs`: the pod `p1` of
`ns1` and the pod `proxy` of `kube-system` both get findings. In general, when no namespace
is left the pods are not filtered at all; when at least one namespace is left, every pod
handed to `DetectPodMisconfigs` lies in one of the namespaces left. -/
theorem mainAudit_pods_of_dropped_namespaces :
    filterNamespaces "missing" false [nsRestricted, nsKube] = []
      ∧ filterNamespaces "kube-system" false [nsRestricted, nsKube] = []
      ∧ filterPods (filterNamespaces "missing" false [nsRestricted, nsKube]) [podBare, podKube]
          = [podBare, podKube]
      ∧ (mainAudit quotePlain upperASCII lowerASCII id "missing" false [nsRestricted, nsKube]
            [] [podBare, podKube] [] [] [] [] [] [] [] []).map
          (fun out => out.map fun f => (f.CheckID, f.Resource.Namespace, f.Resource.Name))
        = some [("K8S-POD-005", "ns1", "p1"), ("K8S-POD-001", "kube-system", "proxy"),
            ("K8S-POD-004", "kube-system", "proxy"), ("K8S-POD-005", "kube-system", "proxy"),
            ("K8S-POD-011", "kube-system", "proxy")]
      ∧ (∀ pods : List Pod, filterPods [] pods = pods)
      ∧ (∀ (namespaces : List Namespace) (pods : List Pod), namespaces ≠ [] →
          ∀ p ∈ filterPods namespaces pods,
            p ∈ pods ∧ ∃ ns ∈ namespaces, ns.Metadata.Name = p.Metadata.Namespace) := by
  refine ⟨by decide, by decide, by decide, by decide, filterPods_nil, ?_⟩
  intro namespaces pods hne p hp
  rw [filterPods_of_ne_nil namespaces pods hne, List.mem_filter] at hp
  exact ⟨hp.1, by simpa using hp.2⟩

/-! ## `unicode.IsSpace` and `strings.TrimSpace` -/

theorem isSpace_iff (c : Char) : isSpace c = true ↔ specWhiteSpace c := by
  unfold isSpace specWhiteSpace
  simp only [Bool.or_eq_true, Bool.and_eq_true, decide_eq_true_eq, beq_iff_eq, List.mem_cons,
    List.mem_singleton, List.not_mem_nil, or_false]
  omega

theorem dropWhile_append_of_all (p : Char → Bool) (pre rest : List Char)
    (h : ∀ c ∈ pre, p c = true) : (pre ++ rest).dropWhile p = rest.dropWhile p := by
  induction pre with
  | nil => rfl
  | cons c pre ih =>
    rw [List.cons_append, List.dropWhile_cons_of_pos (h c (List.mem_cons_self _ _))]
    exact ih (fun d hd => h d (List.mem_cons_of_mem _ hd))

/-- A string is its stripped form with white space before and after it. -/
theorem TrimSpace_decompose (t : String) :
    ∃ pre post : List Char, t.toList = pre ++ (TrimSpace t).toList ++ post
      ∧ (∀ c ∈ pre, isSpace c = true) ∧ (∀ c ∈ post, isSpace c = true) := by
  refine ⟨t.toList.takeWhile isSpace,
    (((t.toList.dropWhile isSpace).reverse).takeWhile isSpace).reverse, ?_, ?_, ?_⟩
  · have h1 : t.toList = t.toList.takeWhile isSpace ++ t.toList.dropWhile isSpace :=
      (List.takeWhile_append_dropWhile isSpace t.toList).symm
    have h2 : t.toList.dropWhile isSpace
        = (((t.toList.dropWhile isSpace).reverse).dropWhile isSpace).reverse
          ++ (((t.toList.dropWhile isSpace).reverse).takeWhile isSpace).reverse := by
      rw [← List.reverse_append, List.takeWhile_append_dropWhile, List.reverse_reverse]
    have h3 : (TrimSpace t).toList
        = (((t.toList.dropWhile isSpace).reverse).dropWhile isSpace).reverse := rfl
    rw [h3, List.append_assoc, ← h2]
    exact h1
  · intro c hc
    exact (List.mem_takeWhile_imp hc)
  · intro c hc
    rw [List.mem_reverse] at hc
    exact (List.mem_takeWhile_imp hc)

/-- Stripping a string that is `x` between white space gives `x`, when `x` is not empty and
neither starts nor ends with white space. -/
theorem TrimSpace_of_padded (t x : String) (pre post : List Char)
    (ht : t.toList = pre ++ x.toList ++ post) (hpre : ∀ c ∈ pre, isSpace c = true)
    (hpost : ∀ c ∈ post, isSpace c = true) (hne : x.toList ≠ [])
    (hhead : ∀ c, x.toList.head? = some c → isSpace c = false)
    (hlast : ∀ c, x.toList.getLast? = some c → isSpace c = false) :
    TrimSpace t = x := by
  have hd : ∀ l rest : List Char, l ≠ [] → (∀ c, l.head? = some c → isSpace c = false) →
      (l ++ rest).dropWhile isSpace = l ++ rest := by
    intro l rest hl hh
    cases l with
    | nil => exact absurd rfl hl
    | cons a l =>
      have := hh a rfl
      rw [List.cons_append, List.dropWhile_cons_of_neg (by simp [this])]
  have h1 : t.toList.dropWhile isSpace = x.toList ++ post := by
    rw [ht, List.append_assoc, dropWhile_append_of_all isSpace pre _ hpre]
    exact hd x.toList post hne hhead
  have h2 : ((x.toList ++ post).reverse).dropWhile isSpace = x.toList.reverse := by
    rw [List.reverse_append, dropWhile_append_of_all isSpace post.reverse _
      (fun c hc => hpost c (List.mem_reverse.mp hc))]
    have := hd x.toList.reverse [] (by simpa using hne) (by
      intro c hc
      rw [List.head?_reverse] at hc
      exact hlast c hc)
    simpa using this
  unfold TrimSpace
  rw [h1, h2, List.reverse_reverse]
  rfl

theorem levels_tight :
    ∀ x ∈ ["LOW", "MEDIUM", "HIGH", "CRITICAL", "Ingress", "Egress"],
      x.toList ≠ [] ∧ (∀ c, x.toList.head? = some c → isSpace c = false)
        ∧ (∀ c, x.toList.getLast? = some c → isSpace c = false) := by
  intro x hx
  simp only [List.mem_cons, List.mem_singleton, List.not_mem_nil, or_false] at hx
  rcases hx with rfl | rfl | rfl | rfl | rfl | rfl <;>
    refine ⟨by decide, ?_, ?_⟩ <;> intro c hc <;> simp [String.toList] at hc <;>
    subst hc <;> decide

/-- For a word `x` that is not empty and neither starts nor ends with white space, a string
strips to `x` exactly when it is `x` with white space around it. -/
theorem TrimSpace_eq_iff_padded (t x : String) (hne : x.toList ≠ [])
    (hhead : ∀ c, x.toList.head? = some c → isSpace c = false)
    (hlast : ∀ c, x.toList.getLast? = some c → isSpace c = false) :
    TrimSpace t = x ↔ specPadded t x := by
  unfold specPadded
  constructor
  · intro h
    obtain ⟨pre, post, hd, hpre, hpost⟩ := TrimSpace_decompose t
    rw [h] at hd
    exact ⟨pre, post, hd, fun c hc => (isSpace_iff c).mp (hpre c hc),
      fun c hc => (isSpace_iff c).mp (hpost c hc)⟩
  · rintro ⟨pre, post, hd, hpre, hpost⟩
    exact TrimSpace_of_padded t x pre post hd (fun c hc => (isSpace_iff c).mpr (hpre c hc))
      (fun c hc => (isSpace_iff c).mpr (hpost c hc)) hne hhead hlast

/-- A string strips to the empty string exactly when it is blank. -/
theorem TrimSpace_eq_empty_iff (t : String) : TrimSpace t = "" ↔ specBlank t := by
  unfold specBlank
  constructor
  · intro h
    obtain ⟨pre, post, hd, hpre, hpost⟩ := TrimSpace_decompose t
    rw [h] at hd
    intro c hc
    rw [hd] at hc
    simp only [String.toList, List.append_nil, List.mem_append] at hc
    rcases hc with hc | hc
    · exact (isSpace_iff c).mp (hpre c hc)
    · exact (isSpace_iff c).mp (hpost c hc)
  · intro h
    have h1 : t.toList.dropWhile isSpace = [] := by
      rw [List.dropWhile_eq_nil_iff]
      intro c hc
      exact (isSpace_iff c).mpr (h c hc)
    unfold TrimSpace
    rw [h1]
    rfl

/-! ## Default-deny policies -/

/-- The effective policy types of a policy include `Ingress` (or `Egress`) exactly when the
type set of the policy includes it in the words of the specification, entries read without
their surrounding white space. -/
theorem mem_effectivePolicyTypes_iff (np : NetworkPolicy) (x : String)
    (hx : x = "Ingress" ∨ x = "Egress") :
    x ∈ effectivePolicyTypes np ↔ specTypesInclude np x := by
  have htight : x.toList ≠ [] ∧ (∀ c, x.toList.head? = some c → isSpace c = false)
      ∧ (∀ c, x.toList.getLast? = some c → isSpace c = false) := by
    apply levels_tight
    rcases hx with rfl | rfl <;> decide
  have hne : x ≠ "" := by
    rcases hx with rfl | rfl <;> decide
  have hpad : ∀ t, TrimSpace t = x ↔ specPadded t x :=
    fun t => TrimSpace_eq_iff_padded t x htight.1 htight.2.1 htight.2.2
  unfold specTypesInclude
  by_cases hb : ∀ t ∈ np.Spec.PolicyTypes, TrimSpace t = ""
  · rw [mem_effectivePolicyTypes_of_blank np hb x]
    constructor
    · intro h
      exact Or.inr ⟨fun t ht => (TrimSpace_eq_empty_iff t).mp (hb t ht), h⟩
    · rintro (⟨t, ht, hp⟩ | ⟨_, h⟩)
      · have := (hpad t).mpr hp
        rw [hb t ht] at this
        exact absurd this.symm hne
      · exact h
  · have hex : ∃ t ∈ np.Spec.PolicyTypes, TrimSpace t ≠ "" := by
      by_contra hc
      apply hb
      intro t ht
      by_contra hn
      exact hc ⟨t, ht, hn⟩
    rw [effectivePolicyTypes_of_explicit np hex, mem_uniqStrings]
    constructor
    · rintro ⟨_, t, ht, he⟩
      exact Or.inl ⟨t, ht, (hpad t).mp he⟩
    · rintro (⟨t, ht, hp⟩ | ⟨hall, _⟩)
      · exact ⟨hne, t, ht, (hpad t).mpr hp⟩
      · exact absurd (fun t ht => (TrimSpace_eq_empty_iff t).mpr (hall t ht)) hb

theorem establishesDenyIngress_iff (np : NetworkPolicy) :
    specDefaultDenyIngress np ↔ specEstablishesDenyIngress np := by
  unfold specDefaultDenyIngress specEstablishesDenyIngress
  rw [mem_effectivePolicyTypes_iff np "Ingress" (Or.inl rfl)]

theorem establishesDenyEgress_iff (np : NetworkPolicy) :
    specDefaultDenyEgress np ↔ specEstablishesDenyEgress np := by
  unfold specDefaultDenyEgress specEstablishesDenyEgress
  rw [mem_effectivePolicyTypes_iff np "Egress" (Or.inr rfl)]

/-- A policy with a non-empty pod selector leaves both flags as they are. -/
theorem policyStep_of_selector (np : NetworkPolicy) (labels : List (String × String))
    (h : np.Spec.PodSelector.MatchLabels = some labels) (hl : labels ≠ [])
    (deny : Bool × Bool) : policyStep deny np = deny := by
  have hs : selectsAll np = false := by
    unfold selectsAll
    rw [h]
    simpa using hl
  unfold policyStep
  simp [hs]

/-- C12, as stated, fails: the namespace `ns3` has one policy, `padded-types`, with an empty
pod selector, the `policyTypes` list `[" Ingress"]` and an `ingress` field present and
empty. Its type set, the explicit list, does not include `Ingress`, so no policy of the
namespace qualifies as default-deny ingress; yet `DetectNetwork` emits no `K8S-NET-002` for
the namespace. The same happens with the policy `blank-types`, whose `policyTypes` list is
`[""]`. -/
theorem default_deny_by_padded_policy_types :
    (specTypeSet npPaddedTypes = [" Ingress"]
      ∧ (∃ np ∈ [npPaddedTypes], np.Metadata.Namespace = nsBare.Metadata.Name)
      ∧ (∀ np ∈ [npPaddedTypes], ¬ specQualifiesIngress np)
      ∧ withCheckID "K8S-NET-002" (DetectNetwork upperASCII [nsBare] [npPaddedTypes] [] [])
          = [])
    ∧ (specTypeSet npBlankTypes = [""]
      ∧ (∃ np ∈ [npBlankTypes], np.Metadata.Namespace = nsBare.Metadata.Name)
      ∧ (∀ np ∈ [npBlankTypes], ¬ specQualifiesIngress np)
      ∧ withCheckID "K8S-NET-002" (DetectNetwork upperASCII [nsBare] [npBlankTypes] [] [])
          = []) := by
  decide

/-- C12, amended: the type set of a policy is read from `policyTypes` without the white
space around its entries, and is inferred from the sections that are present when every
entry is blank or the list is absent (`specTypesInclude`). For a namespace of the namespace
list that has at least one network policy, the findings of `DetectNetwork` for that
namespace hold `K8S-NET-002` exactly once, MEDIUM, if no policy of the namespace has at the
same time an empty pod selector, a type set that includes `Ingress` and an `ingress` field
present but empty, and not at all if one has; `K8S-NET-003` is decided in the same way by
egress, independently. `K8S-NET-001` is not emitted for such a namespace, and a policy with
a non-empty pod selector leaves both decisions as they are. -/
theorem DetectNetwork_default_deny (up : String → String) (pre post : List Namespace)
    (ns : Namespace) (nps : List NetworkPolicy) (svcs : List Service) (ing : List Ingress)
    (h : ∃ np ∈ nps, np.Metadata.Namespace = ns.Metadata.Name) :
    ∃ fs : List Finding,
      DetectNetwork up (pre ++ ns :: post) nps svcs ing
        = DetectNetwork up pre nps [] [] ++ fs ++ DetectNetwork up post nps svcs ing
      ∧ ((¬ ∃ np ∈ nps, np.Metadata.Namespace = ns.Metadata.Name
              ∧ specEstablishesDenyIngress np) →
          ∃ f, withCheckID "K8S-NET-002" fs = [f] ∧ f.Severity = SeverityMedium
            ∧ f.Resource = { Kind := "Namespace", Namespace := "", Name := ns.Metadata.Name })
      ∧ ((∃ np ∈ nps, np.Metadata.Namespace = ns.Metadata.Name
              ∧ specEstablishesDenyIngress np) →
          withCheckID "K8S-NET-002" fs = [])
      ∧ ((¬ ∃ np ∈ nps, np.Metadata.Namespace = ns.Metadata.Name
              ∧ specEstablishesDenyEgress np) →
          ∃ f, withCheckID "K8S-NET-003" fs = [f] ∧ f.Severity = SeverityMedium
            ∧ f.Resource = { Kind := "Namespace", Namespace := "", Name := ns.Metadata.Name })
      ∧ ((∃ np ∈ nps, np.Metadata.Namespace = ns.Metadata.Name
              ∧ specEstablishesDenyEgress np) →
          withCheckID "K8S-NET-003" fs = [])
      ∧ withCheckID "K8S-NET-001" fs = []
      ∧ (∀ (np : NetworkPolicy) (labels : List (String × String)),
          np.Spec.PodSelector.MatchLabels = some labels → labels ≠ [] →
          ¬ specEstablishesDenyIngress np ∧ ¬ specEstablishesDenyEgress np
            ∧ ∀ deny, policyStep deny np = deny) := by
  have hp : ((groupByNamespace nps).lookup ns.Metadata.Name).getD [] ≠ [] := by
    rw [groupByNamespace_lookup]
    obtain ⟨np, hnp, hn⟩ := h
    intro he
    have hm : np ∈ nps.filter (fun np => decide (np.Metadata.Namespace = ns.Metadata.Name)) :=
      List.mem_filter.mpr ⟨hnp, by simpa using hn⟩
    rw [he] at hm
    exact List.not_mem_nil _ hm
  obtain ⟨f2, f3, hs, ⟨c2, s2, r2⟩, ⟨c3, s3, r3⟩⟩ :=
    namespaceNetworkStep_of_policies (groupByNamespace nps) ns hp
  rw [groupByNamespace_lookup] at hs
  have hi : ((nps.filter fun np => decide (np.Metadata.Namespace = ns.Metadata.Name)).foldl
      policyStep (false, false)).1 = true
      ↔ ∃ np ∈ nps, np.Metadata.Namespace = ns.Metadata.Name
          ∧ specEstablishesDenyIngress np := by
    rw [denyIngress_flag nps ns.Metadata.Name]
    simp only [establishesDenyIngress_iff]
  have he : ((nps.filter fun np => decide (np.Metadata.Namespace = ns.Metadata.Name)).foldl
      policyStep (false, false)).2 = true
      ↔ ∃ np ∈ nps, np.Metadata.Namespace = ns.Metadata.Name
          ∧ specEstablishesDenyEgress np := by
    rw [denyEgress_flag nps ns.Metadata.Name]
    simp only [establishesDenyEgress_iff]
  have hsel : ∀ (np : NetworkPolicy) (labels : List (String × String)),
      np.Spec.PodSelector.MatchLabels = some labels → labels ≠ [] →
      ¬ specEstablishesDenyIngress np ∧ ¬ specEstablishesDenyEgress np
        ∧ ∀ deny, policyStep deny np = deny := by
    intro np labels hm hl
    refine ⟨?_, ?_, policyStep_of_selector np labels hm hl⟩
    · rintro ⟨hsel | hsel, _⟩
      · rw [hm] at hsel
        exact absurd hsel (by simp)
      · rw [hm] at hsel
        exact hl (by simpa using hsel)
    · rintro ⟨hsel | hsel, _⟩
      · rw [hm] at hsel
        exact absurd hsel (by simp)
      · rw [hm] at hsel
        exact hl (by simpa using hsel)
  refine ⟨_, DetectNetwork_namespace_segment up pre post ns nps svcs ing, ?_⟩
  rw [hs]
  cases h1 : ((nps.filter fun np => decide (np.Metadata.Namespace = ns.Metadata.Name)).foldl
      policyStep (false, false)).1 <;>
    cases h2 : ((nps.filter fun np => decide (np.Metadata.Namespace = ns.Metadata.Name)).foldl
      policyStep (false, false)).2 <;>
    rw [h1] at hi <;> rw [h2] at he <;>
    simp only [Bool.false_eq_true, if_false, if_true, List.append_nil, List.nil_append,
      List.singleton_append]
  · have ni := fun x => Bool.false_ne_true (hi.mpr x)
    have ne := fun x => Bool.false_ne_true (he.mpr x)
    refine ⟨fun _ => ⟨f2, ?_, s2, r2⟩, fun x => absurd x ni, fun _ => ⟨f3, ?_, s3, r3⟩,
      fun x => absurd x ne, ?_, hsel⟩ <;> simp [withCheckID, c2, c3]
  · have ni := fun x => Bool.false_ne_true (hi.mpr x)
    have ye := he.mp rfl
    refine ⟨fun _ => ⟨f2, ?_, s2, r2⟩, fun x => absurd x ni, fun x => absurd ye x,
      fun _ => ?_, ?_, hsel⟩ <;> simp [withCheckID, c2]
  · have yi := hi.mp rfl
    have ne := fun x => Bool.false_ne_true (he.mpr x)
    refine ⟨fun x => absurd yi x, fun _ => ?_, fun _ => ⟨f3, ?_, s3, r3⟩,
      fun x => absurd x ne, ?_, hsel⟩ <;> simp [withCheckID, c3]
  · have yi := hi.mp rfl
    have ye := he.mp rfl
    refine ⟨fun x => absurd yi x, fun _ => ?_, fun x => absurd ye x, fun _ => ?_, ?_, hsel⟩ <;>
      simp [withCheckID]

theorem DetectNetwork_default_deny_witness :
    ∃ fs : List Finding,
      DetectNetwork upperASCII ([nsEmptyEnforce] ++ nsBare :: [nsRestricted])
          [npDenyAll, npPaddedTypes, npAllowWeb] [svcNodePort] []
        = DetectNetwork upperASCII [nsEmptyEnforce] [npDenyAll, npPaddedTypes, npAllowWeb] [] []
          ++ fs
          ++ DetectNetwork upperASCII [nsRestricted] [npDenyAll, npPaddedTypes, npAllowWeb]
              [svcNodePort] []
      ∧ ((¬ ∃ np ∈ [npDenyAll, npPaddedTypes, npAllowWeb],
            np.Metadata.Namespace = nsBare.Metadata.Name ∧ specEstablishesDenyIngress np) →
          ∃ f, withCheckID "K8S-NET-002" fs = [f] ∧ f.Severity = SeverityMedium
            ∧ f.Resource
                = { Kind := "Namespace", Namespace := "", Name := nsBare.Metadata.Name })
      ∧ ((∃ np ∈ [npDenyAll, npPaddedTypes, npAllowWeb],
            np.Metadata.Namespace = nsBare.Metadata.Name ∧ specEstablishesDenyIngress np) →
          withCheckID "K8S-NET-002" fs = [])
      ∧ ((¬ ∃ np ∈ [npDenyAll, npPaddedTypes, npAllowWeb],
            np.Metadata.Namespace = nsBare.Metadata.Name ∧ specEstablishesDenyEgress np) →
          ∃ f, withCheckID "K8S-NET-003" fs = [f] ∧ f.Severity = SeverityMedium
            ∧ f.Resource
                = { Kind := "Namespace", Namespace := "", Name := nsBare.Metadata.Name })
      ∧ ((∃ np ∈ [npDenyAll, npPaddedTypes, npAllowWeb],
            np.Metadata.Namespace = nsBare.Metadata.Name ∧ specEstablishesDenyEgress np) →
          withCheckID "K8S-NET-003" fs = [])
      ∧ withCheckID "K8S-NET-001" fs = []
      ∧ (∀ (np : NetworkPolicy) (labels : List (String × String)),
          np.Spec.PodSelector.MatchLabels = some labels → labels ≠ [] →
          ¬ specEstablishesDenyIngress np ∧ ¬ specEstablishesDenyEgress np
            ∧ ∀ deny, policyStep deny np = deny) :=
  DetectNetwork_default_deny upperASCII [nsEmptyEnforce] [nsRestricted] nsBare
    [npDenyAll, npPaddedTypes, npAllowWeb] [svcNodePort] [] ⟨npPaddedTypes, by decide, rfl⟩

/-! ## Upper-casing of ASCII strings -/

theorem toNat_ofNat_upper (n : Nat) (h1 : 0x61 ≤ n) (h2 : n ≤ 0x7A) :
    (Char.ofNat (n - 0x20)).toNat = n - 0x20 := by
  interval_cases n <;> rfl

/-- Upper-casing an ASCII letter gives the capital letter `X` exactly when the letter is `X`
up to its case. -/
theorem upperChar_eq_iff (c X : Char) (hX : 0x41 ≤ X.toNat ∧ X.toNat ≤ 0x5A) :
    (if 0x61 ≤ c.toNat ∧ c.toNat ≤ 0x7A then Char.ofNat (c.toNat - 0x20) else c) = X
      ↔ lowerRune c.toNat = lowerRune X.toNat := by
  have hinj : ∀ a b : Char, a.toNat = b.toNat → a = b :=
    fun a b hab => Char.ext (UInt32.ext hab)
  have hlx : lowerRune X.toNat = X.toNat + 0x20 := by
    unfold lowerRune
    rw [if_pos hX]
  rw [hlx]
  by_cases hc : 0x61 ≤ c.toNat ∧ c.toNat ≤ 0x7A
  · rw [if_pos hc]
    have hlc : lowerRune c.toNat = c.toNat := by
      unfold lowerRune
      rw [if_neg (by omega)]
    rw [hlc]
    constructor
    · intro h
      have := congrArg Char.toNat h
      rw [toNat_ofNat_upper c.toNat hc.1 hc.2] at this
      omega
    · intro h
      apply hinj
      rw [toNat_ofNat_upper c.toNat hc.1 hc.2]
      omega
  · rw [if_neg hc]
    constructor
    · intro h
      rw [h, hlx]
    · intro h
      unfold lowerRune at h
      split_ifs at h
      · exact hinj c X (by omega)
      · exact absurd (by omega) hc

/-- Upper-casing an ASCII letter neither makes nor unmakes white space. -/
theorem upperChar_whiteSpace (c : Char) :
    specWhiteSpace
        (if 0x61 ≤ c.toNat ∧ c.toNat ≤ 0x7A then Char.ofNat (c.toNat - 0x20) else c)
      ↔ specWhiteSpace c := by
  by_cases hc : 0x61 ≤ c.toNat ∧ c.toNat ≤ 0x7A
  · rw [if_pos hc]
    unfold specWhiteSpace
    rw [toNat_ofNat_upper c.toNat hc.1 hc.2]
    simp only [List.mem_cons, List.mem_singleton, List.not_mem_nil, or_false]
    omega
  · rw [if_neg hc]

theorem map_upperChar_eq_iff (w l : List Char)
    (hl : ∀ X ∈ l, 0x41 ≤ X.toNat ∧ X.toNat ≤ 0x5A) :
    w.map (fun c =>
        if 0x61 ≤ c.toNat ∧ c.toNat ≤ 0x7A then Char.ofNat (c.toNat - 0x20) else c) = l
      ↔ (w.map Char.toNat).map lowerRune = (l.map Char.toNat).map lowerRune := by
  induction w generalizing l with
  | nil =>
    cases l with
    | nil => simp
    | cons X l => simp
  | cons c w ih =>
    cases l with
    | nil => simp
    | cons X l =>
      simp only [List.map_cons, List.cons.injEq]
      rw [upperChar_eq_iff c X (hl X (List.mem_cons_self _ _)),
        ih l (fun Y hY => hl Y (List.mem_cons_of_mem _ hY))]

/-- The ASCII upper-casing of a string is a word of capital letters between white space
exactly when the string is, between white space, that word up to the case of its letters. -/
theorem upperASCII_padded_iff (s L : String)
    (hL : ∀ X ∈ L.toList, 0x41 ≤ X.toNat ∧ X.toNat ≤ 0x5A) :
    specPadded (upperASCII s) L ↔ specNamesLevel s L := by
  have hup : (upperASCII s).toList = s.toList.map (fun c =>
      if 0x61 ≤ c.toNat ∧ c.toNat ≤ 0x7A then Char.ofNat (c.toNat - 0x20) else c) := rfl
  unfold specPadded specNamesLevel eqIgnoreCase
  rw [hup]
  constructor
  · rintro ⟨pre, post, h, hpre, hpost⟩
    obtain ⟨a, l3, hs, ha, h3⟩ := List.map_eq_append_iff.mp h
    obtain ⟨l1, l2, ha2, h1, h2⟩ := List.map_eq_append_iff.mp ha
    refine ⟨l1, l2, l3, by rw [hs, ha2], ?_, ?_, ?_⟩
    · intro c hc
      apply (upperChar_whiteSpace c).mp
      apply hpre
      rw [← h1]
      exact List.mem_map.mpr ⟨c, hc, rfl⟩
    · intro c hc
      apply (upperChar_whiteSpace c).mp
      apply hpost
      rw [← h3]
      exact List.mem_map.mpr ⟨c, hc, rfl⟩
    · exact (map_upperChar_eq_iff l2 L.toList hL).mp h2
  · rintro ⟨l1, l2, l3, hs, h1, h3, h2⟩
    refine ⟨l1.map (fun c =>
        if 0x61 ≤ c.toNat ∧ c.toNat ≤ 0x7A then Char.ofNat (c.toNat - 0x20) else c),
      l3.map (fun c =>
        if 0x61 ≤ c.toNat ∧ c.toNat ≤ 0x7A then Char.ofNat (c.toNat - 0x20) else c),
      ?_, ?_, ?_⟩
    · rw [hs, List.map_append, List.map_append,
        (map_upperChar_eq_iff l2 L.toList hL).mpr h2]
    · intro c hc
      obtain ⟨d, hd, rfl⟩ := List.mem_map.mp hc
      exact (upperChar_whiteSpace d).mpr (h1 d hd)
    · intro c hc
      obtain ⟨d, hd, rfl⟩ := List.mem_map.mp hc
      exact (upperChar_whiteSpace d).mpr (h3 d hd)

/-! ## Properties of `ParseSeverity`, in the words of the specification -/

theorem ParseSeverity_eq_level_iff (q up : String → String) (s : String) (L : Severity)
    (hL : L ∈ [SeverityLow, SeverityMedium, SeverityHigh, SeverityCritical]) :
    ParseSeverity q up s = (L, none) ↔ TrimSpace (up s) = L := by
  rcases ParseSeverity_eq q up s with ⟨_, h⟩ | ⟨hn, h⟩
  · rw [h]
    simp
  · rw [h]
    constructor
    · intro hc
      simp at hc
    · intro hc
      rw [hc] at hn
      exact absurd hL hn

theorem levels_capital :
    ∀ L ∈ [SeverityLow, SeverityMedium, SeverityHigh, SeverityCritical],
      ∀ X ∈ L.toList, 0x41 ≤ X.toNat ∧ X.toNat ≤ 0x5A := by
  decide

theorem levels_padded_iff (t : String) (L : Severity)
    (hL : L ∈ [SeverityLow, SeverityMedium, SeverityHigh, SeverityCritical]) :
    TrimSpace t = L ↔ specPadded t L := by
  have htight := levels_tight L (by
    simp only [List.mem_cons, List.mem_singleton, List.not_mem_nil, or_false] at hL ⊢
    rcases hL with rfl | rfl | rfl | rfl <;> decide)
  exact TrimSpace_eq_iff_padded t L htight.1 htight.2.1 htight.2.2

/-- C32: write `up` for upper-casing. For every string `s` and each of the four levels `L`,
`ParseSeverity` returns `L` with no error exactly when `s`, upper-cased, is `L` with white
space before and after it; it returns no error exactly when that holds for one of the
levels, and the severity returned is then a level, of `SeverityRank` at least 1; otherwise it
returns the empty severity with an error. When `up` is the upper-casing of ASCII letters on
ASCII strings, as `strings.ToUpper` is, an ASCII string is accepted as `L` exactly when it
is, between white space, a word equal to `L` up to the case of its letters, and rejected
exactly when it is so for no level. `ParseSeverity(string(L)) = L` for each level `L` when
upper-casing leaves the level names as they are. So `" high\n"`, `"\tCritical \r\n"`, `"low"`
and `"MeDiUm"` are accepted, `"urgent"`, `"hi gh"`, `"HIGH!"` and `" \n"` rejected. -/
theorem ParseSeverity_accepts_levels (q up : String → String) :
    (∀ (s : String), ∀ L ∈ [SeverityLow, SeverityMedium, SeverityHigh, SeverityCritical],
        (ParseSeverity q up s = (L, none) ↔ specPadded (up s) L))
      ∧ (∀ s : String,
          (ParseSeverity q up s).2 = none
            ↔ ∃ L ∈ [SeverityLow, SeverityMedium, SeverityHigh, SeverityCritical],
                specPadded (up s) L)
      ∧ (∀ s : String, (ParseSeverity q up s).2 = none →
          (ParseSeverity q up s).1
              ∈ [SeverityLow, SeverityMedium, SeverityHigh, SeverityCritical]
            ∧ 1 ≤ SeverityRank (ParseSeverity q up s).1)
      ∧ (∀ s : String,
          (¬ ∃ L ∈ [SeverityLow, SeverityMedium, SeverityHigh, SeverityCritical],
              specPadded (up s) L) →
          (ParseSeverity q up s).1 = "" ∧ (ParseSeverity q up s).2 ≠ none)
      ∧ ((∀ s : String, (∀ c ∈ s.toList, c.toNat < 0x80) → up s = upperASCII s) →
          ∀ s : String, (∀ c ∈ s.toList, c.toNat < 0x80) →
            (∀ L ∈ [SeverityLow, SeverityMedium, SeverityHigh, SeverityCritical],
              (ParseSeverity q up s = (L, none) ↔ specNamesLevel s L))
            ∧ ((ParseSeverity q up s).2 ≠ none
              ↔ ∀ L ∈ [SeverityLow, SeverityMedium, SeverityHigh, SeverityCritical],
                  ¬ specNamesLevel s L))
      ∧ ((∀ L ∈ [SeverityLow, SeverityMedium, SeverityHigh, SeverityCritical], up L = L) →
          ∀ L ∈ [SeverityLow, SeverityMedium, SeverityHigh, SeverityCritical],
            ParseSeverity q up L = (L, none))
      ∧ ParseSeverity q upperASCII " high\n" = (SeverityHigh, none)
      ∧ ParseSeverity q upperASCII "\tCritical \r\n" = (SeverityCritical, none)
      ∧ ParseSeverity q upperASCII "low" = (SeverityLow, none)
      ∧ ParseSeverity q upperASCII "MeDiUm" = (SeverityMedium, none)
      ∧ ParseSeverity q upperASCII "urgent" = ("", some ("unknown severity " ++ q "URGENT"))
      ∧ ParseSeverity q upperASCII "hi gh" = ("", some ("unknown severity " ++ q "HI GH"))
      ∧ ParseSeverity q upperASCII "HIGH!" = ("", some ("unknown severity " ++ q "HIGH!"))
      ∧ ParseSeverity q upperASCII " \n" = ("", some ("unknown severity " ++ q "")) := by
  have ha : ∀ (up2 : String → String) (s : String),
      ∀ L ∈ [SeverityLow, SeverityMedium, SeverityHigh, SeverityCritical],
        (ParseSeverity q up2 s = (L, none) ↔ specPadded (up2 s) L) := by
    intro up2 s L hL
    rw [ParseSeverity_eq_level_iff q up2 s L hL, levels_padded_iff (up2 s) L hL]
  have hb : ∀ (up2 : String → String) (s : String),
      (ParseSeverity q up2 s).2 = none
        ↔ ∃ L ∈ [SeverityLow, SeverityMedium, SeverityHigh, SeverityCritical],
            ParseSeverity q up2 s = (L, none) := by
    intro up2 s
    rcases ParseSeverity_eq q up2 s with ⟨hm, h⟩ | ⟨_, h⟩
    · rw [h]
      exact ⟨fun _ => ⟨_, hm, rfl⟩, fun _ => rfl⟩
    · rw [h]
      constructor
      · intro hc
        simp at hc
      · rintro ⟨L, _, hc⟩
        simp at hc
  have hrej : ∀ (s t : String), TrimSpace (upperASCII s) = t →
      t ∉ [SeverityLow, SeverityMedium, SeverityHigh, SeverityCritical] →
      ParseSeverity q upperASCII s = ("", some ("unknown severity " ++ q t)) := by
    intro s t ht hn
    rcases ParseSeverity_eq q upperASCII s with ⟨hm, _⟩ | ⟨_, h⟩
    · rw [ht] at hm
      exact absurd hm hn
    · rw [h, ht]
  refine ⟨ha up, ?_, ?_, ?_, ?_, ?_,
    (ParseSeverity_eq_level_iff q upperASCII _ _ (by decide)).mpr (by decide),
    (ParseSeverity_eq_level_iff q upperASCII _ _ (by decide)).mpr (by decide),
    (ParseSeverity_eq_level_iff q upperASCII _ _ (by decide)).mpr (by decide),
    (ParseSeverity_eq_level_iff q upperASCII _ _ (by decide)).mpr (by decide),
    hrej _ _ (by decide) (by decide), hrej _ _ (by decide) (by decide),
    hrej _ _ (by decide) (by decide), hrej _ _ (by decide) (by decide)⟩
  · intro s
    rw [hb up s]
    constructor
    · rintro ⟨L, hL, h⟩
      exact ⟨L, hL, (ha up s L hL).mp h⟩
    · rintro ⟨L, hL, h⟩
      exact ⟨L, hL, (ha up s L hL).mpr h⟩
  · intro s hs
    obtain ⟨L, hL, h⟩ := (hb up s).mp hs
    rw [h]
    refine ⟨hL, ?_⟩
    have : 0 < SeverityRank L := (SeverityRank_pos_iff L).mpr (by simpa using hL)
    show 1 ≤ SeverityRank L
    omega
  · intro s hs
    rcases ParseSeverity_eq q up s with ⟨hm, h⟩ | ⟨_, h⟩
    · exact absurd ⟨_, hm, (ha up s _ hm).mp h⟩ hs
    · rw [h]
      exact ⟨rfl, by simp⟩
  · intro hup s hs
    have hL : ∀ L ∈ [SeverityLow, SeverityMedium, SeverityHigh, SeverityCritical],
        (ParseSeverity q up s = (L, none) ↔ specNamesLevel s L) := by
      intro L hL
      rw [ha up s L hL, hup s hs, upperASCII_padded_iff s L (levels_capital L hL)]
    refine ⟨hL, ?_⟩
    rw [Ne, hb up s]
    constructor
    · intro hn L hL2 hc
      exact hn ⟨L, hL2, (hL L hL2).mpr hc⟩
    · rintro hn ⟨L, hL2, hc⟩
      exact hn L hL2 ((hL L hL2).mp hc)
  · intro hfix L hL
    apply (ParseSeverity_eq_level_iff q up L L hL).mpr
    rw [hfix L hL]
    revert L
    decide

end K8sAudit
